import Mathlib

/-!
# PrediGrowee quiz service: session and question-sequencing engine

A shallow embedding of the Go quiz service (`PrediGroweeV2/quiz`):

* `models`   : `QuizSession`, `Question`, `Case`, `ParameterValue`, `Test`, ...
* `storage`  : the methods of `PostgresStorage` the session engine calls, run
  against an explicit database state (`World`).  Everything the database
  driver, the clock and `random()` decide is read from oracle tapes held in the
  `World`, so every handler is a total, executable function `World → _ × World`.
* `clients`  : the three `StatsClient` requests.
* `handlers` : `StartQuizHandler.Handle`, `GetNextQuestionHandler.Handle`,
  `SubmitAnswerHandler.Handle`, `SubmitAnswerHandler.SetNextQuestionID`,
  `FinishQuizHandler.Handle`.

Go `int` values are `Int` (no arithmetic that could overflow is performed on
them, apart from `i+1` on a slice index).  A `time.Time` is the number of
nanoseconds since the zero `time.Time`, so the zero value is `0`.
-/

set_option linter.dupNamespace false

namespace Quiz

/-! ## models -/

/-- An instant: nanoseconds since the zero value of `time.Time`. -/
abbrev Time := Int

/-- Type `models.QuizMode` (an alias of `string`). -/
abbrev QuizMode := String

/-- Type `models.QuizStatus` (an alias of `string`). -/
abbrev QuizStatus := String

def QuizModeEducational : QuizMode := "educational"
def QuizModeClassic : QuizMode := "classic"
def QuizModeLimitedTime : QuizMode := "limited_time"

def QuizStatusNotStarted : QuizStatus := "not_started"
def QuizStatusInProgress : QuizStatus := "in_progress"
def QuizStatusFinished : QuizStatus := "finished"

/-- Struct `models.QuizSession`; also the shape of a row of `quiz_sessions`. -/
structure QuizSession where
  ID : Int
  UserID : Int
  Mode : QuizMode
  Status : QuizStatus
  ScreenSize : String
  CurrentQuestionID : Int
  CurrentGroup : Int
  GroupOrder : List Int
  CreatedAt : Option Time
  UpdatedAt : Option Time
  FinishedAt : Option Time
  QuestionRequestedTime : Time
  TestID : Option Int
  TestCode : Option String
  deriving DecidableEq, Repr

/-- The zero value of `models.QuizSession` (`var s models.QuizSession`). -/
def QuizSession.zero : QuizSession :=
  { ID := 0, UserID := 0, Mode := "", Status := "", ScreenSize := "",
    CurrentQuestionID := 0, CurrentGroup := 0, GroupOrder := [],
    CreatedAt := none, UpdatedAt := none, FinishedAt := none,
    QuestionRequestedTime := 0, TestID := none, TestCode := none }

/-- Struct `models.StartQuizPayload`. -/
structure StartQuizPayload where
  Mode : QuizMode
  ScreenWidth : Int
  ScreenHeight : Int
  TestCode : String
  deriving DecidableEq, Repr

/-- Struct `models.Parameter`. -/
structure Parameter where
  ID : Int
  Name : String
  Description : String
  ReferenceValues : String
  Order : Int
  deriving DecidableEq, Repr

/-- Struct `models.ParameterValue`.  A `float64` is carried as an `Int` token:
the engine only copies these values, it never computes with them. -/
structure ParameterValue where
  ParameterID : Int
  Value1 : Int
  Value2 : Int
  Value3 : Option Int
  deriving DecidableEq, Repr

/-- Struct `models.Case`. -/
structure Case where
  ID : Int
  Code : String
  Gender : String
  Age1 : Int
  Age2 : Int
  Age3 : Int
  Parameters : List Parameter
  ParameterValues : List ParameterValue
  deriving DecidableEq, Repr

/-- Struct `models.Question`. -/
structure Question where
  ID : Int
  Question : String
  Options : List String
  PredictionAge : Int
  Case : Case
  Correct : Option String
  Group : Int
  deriving DecidableEq, Repr

/-- Struct `models.QuestionAnswer`. -/
structure QuestionAnswer where
  QuestionID : Int
  Answer : String
  IsCorrect : Bool
  ScreenSize : String
  TimeSpent : Int
  CaseCode : String
  deriving DecidableEq, Repr

/-- Struct `models.Test`. -/
structure Test where
  ID : Int
  Code : String
  Name : String
  CreatedBy : Int
  CreatedAt : Time
  deriving DecidableEq, Repr

/-! ## Go standard library pieces -/

/-- Predicate `unicode.IsSpace`. -/
def isSpace (c : Char) : Bool :=
  c = '\t' || c = '\n' || c.toNat = 0x0B || c.toNat = 0x0C || c = '\r' || c = ' ' ||
  c.toNat = 0x85 || c.toNat = 0xA0 || c.toNat = 0x1680 ||
  (0x2000 ≤ c.toNat && c.toNat ≤ 0x200A) ||
  c.toNat = 0x2028 || c.toNat = 0x2029 || c.toNat = 0x202F || c.toNat = 0x205F ||
  c.toNat = 0x3000

/-- Function `strings.TrimSpace`. -/
def TrimSpace (s : String) : String :=
  String.mk (((s.toList.dropWhile isSpace).reverse.dropWhile isSpace).reverse)

/-- The smallest rune of a list. -/
def smallest : List Char → Option Char
  | [] => none
  | c :: l =>
    match smallest l with
    | none => some c
    | some a => if c.toNat < a.toNat then some c else some a

/-- The orbit of a rune in a table of case orbits: the runes equivalent to it under
Unicode simple case folding, itself included; the rune alone when the table has no
orbit for it. -/
def orbitOf (orbits : List (List Char)) (r : Char) : List Char :=
  (orbits.find? (fun o => o.contains r)).getD [r]

/-- Function `unicode.SimpleFold`, over the table of case orbits of package `unicode`:
among the runes equivalent to `r` (including `r` itself) the smallest rune above `r`
if there is one, or else the smallest rune. -/
def SimpleFold (orbits : List (List Char)) (r : Char) : Char :=
  match smallest ((orbitOf orbits r).filter (fun c => r.toNat < c.toNat)) with
  | some c => c
  | none => (smallest (orbitOf orbits r)).getD r

/-- The general case of `strings.EqualFold` for two runes `sr < tr`: the loop
`for r != sr && r < tr { r = unicode.SimpleFold(r) }` and the test `r == tr` after it.
The loop runs through the orbit of `sr` at most once, which bounds its steps. -/
def foldLoop (orbits : List (List Char)) (sr tr : Char) : Nat → Char → Bool
  | 0, r => r == tr
  | fuel + 1, r =>
    if r ≠ sr ∧ r.toNat < tr.toNat then foldLoop orbits sr tr fuel (SimpleFold orbits r)
    else r == tr

/-- One step of `strings.EqualFold`, on the next rune of either string: the runes are
equal; or, the smaller one in `sr` and the larger one in `tr`, both are ASCII and `sr`
is a capital letter with `tr` its small letter; or `tr` is not ASCII and
`unicode.SimpleFold` leads from `sr` to `tr`. -/
def equalFoldRune (orbits : List (List Char)) (s t : Char) : Bool :=
  if t = s then true
  else
    let sr := if t.toNat < s.toNat then t else s
    let tr := if t.toNat < s.toNat then s else t
    if tr.toNat < 0x80 then
      decide ('A'.toNat ≤ sr.toNat ∧ sr.toNat ≤ 'Z'.toNat ∧
        tr.toNat = sr.toNat + 'a'.toNat - 'A'.toNat)
    else foldLoop orbits sr tr (orbitOf orbits sr).length (SimpleFold orbits sr)

/-- Function `strings.EqualFold` on the runes of its two arguments: every step succeeds
and the two strings are exhausted together. -/
def equalFoldRunes (orbits : List (List Char)) : List Char → List Char → Bool
  | [], [] => true
  | sr :: s, tr :: t => equalFoldRune orbits sr tr && equalFoldRunes orbits s t
  | _, _ => false

/-- Function `strings.EqualFold`, over the table of case orbits of package `unicode`. -/
def EqualFold (orbits : List (List Char)) (s t : String) : Bool :=
  equalFoldRunes orbits s.toList t.toList

/-- Function `strconv.Atoi`: an optional sign, then one or more decimal digits, the
value within the range of a 64-bit `int`. -/
def Atoi (s : String) : Option Int :=
  let cs := s.toList
  let neg := cs.head? = some '-'
  let ds := if cs.head? = some '-' ∨ cs.head? = some '+' then cs.tail else cs
  if ds = [] ∨ ¬ ds.all Char.isDigit then none
  else
    let n : Nat := ds.foldl (fun a c => 10 * a + (c.toNat - 48)) 0
    let v : Int := if neg then -(n : Int) else (n : Int)
    if v < -(2 ^ 63 : Int) ∨ (2 ^ 63 : Int) ≤ v then none else some v

/-- Function `strconv.Itoa`. -/
def Itoa (n : Int) : String := toString n

/-- Largest `time.Duration` (an `int64` count of nanoseconds). -/
def maxDuration : Int := 2 ^ 63 - 1

/-- Smallest `time.Duration`. -/
def minDuration : Int := -(2 ^ 63)

/-- Method `Time.Sub`, which saturates at the ends of `time.Duration`. -/
def timeSub (t u : Time) : Int :=
  if t - u > maxDuration then maxDuration
  else if t - u < minDuration then minDuration
  else t - u

/-- Rounding of the quotient `a / b` to the nearest integer, ties to even. -/
def roundHalfEven (a b : Nat) : Nat :=
  if 2 * (a % b) < b then a / b
  else if b < 2 * (a % b) then a / b + 1
  else if (a / b) % 2 = 0 then a / b else a / b + 1

/-- The number `k` of binary places of the `float64` nearest to `p / q`: the least `k`,
counting up from the one given, with `2 ^ 52 ≤ p / q * 2 ^ k`; the first argument bounds
the search. -/
def binaryPlaces : Nat → Nat → Nat → Nat → Nat
  | 0, _, _, k => k
  | fuel + 1, p, q, k =>
    if p * 2 ^ k < 2 ^ 52 * q then binaryPlaces fuel p q (k + 1) else k

/-- The `float64` nearest to `p / q` (IEEE 754 round to nearest, ties to even), as the
pair `(m, k)` that stands for `m / 2 ^ k`.  It is exact for `2 ^ (-76) ≤ p / q < 2 ^ 53`,
which covers the seconds of every `time.Duration`. -/
def float64 (p q : Nat) : Nat × Nat :=
  if p = 0 then (0, 0)
  else (roundHalfEven (p * 2 ^ binaryPlaces 128 p q 0) q, binaryPlaces 128 p q 0)

/-- Conversion `int(d.Seconds())` of a duration that is not negative.  `Seconds` is
`float64(sec) + float64(nsec)/1e9` with `sec = d / Second` and `nsec = d % Second`:
the quotient is rounded to a `float64`, then the sum is, and `int` truncates. -/
def secondsNat (n : Nat) : Nat :=
  let f := float64 (n % 1000000000) 1000000000
  let sum := float64 (n / 1000000000 * 2 ^ f.2 + f.1) (2 ^ f.2)
  sum.1 / 2 ^ sum.2

/-- Whole seconds of a duration as the code takes them, `int(d.Seconds())`.  Go's `/` and
`%` truncate toward zero and the rounding of floats is symmetric, so a negative
duration gives the negative of its absolute value's seconds. -/
def durationSeconds (d : Int) : Int :=
  if 0 ≤ d then (secondsNat d.toNat : Int) else -(secondsNat (-d).toNat : Int)

/-- One hour as a `time.Duration`. -/
def Hour : Int := 3600 * 1000000000

/-- The instant that `t.UTC().Format(time.RFC3339)` writes: the layout has no fraction
of a second, so it is `t` cut down to the whole second. -/
def formatRFC3339 (t : Time) : Time := t - t % 1000000000

/-! ## The world the service runs in -/

/-- A Go `error` value, as far as the service tells errors apart. -/
inductive GoError where
  | ErrNoRows
  | driver
  | atoi
  | transport
  | errorf (msg : String)
  deriving DecidableEq, Repr

/-- A row of `questions`, joined with what `GetQuestionByID`, `GetQuestionOptions`,
`getCaseParameters` and `GetQuestionCorrectOption` read for it: the case row (absent
when the join with `cases` is empty), the option texts in `o.id` order, and the
texts of the options flagged `is_correct`. -/
structure QuestionRow where
  id : Int
  question : String
  prediction_age : Int
  group_number : Int
  case_row : Option Case
  options : List String
  correct_options : List String
  deriving DecidableEq, Repr

/-- A row of `test_questions`. -/
structure TestQuestionRow where
  test_id : Int
  question_id : Int
  sort_order : Int
  deriving DecidableEq, Repr

/-- What one HTTP exchange with the stats service comes to. -/
inductive StatsReply where
  | transportError
  | status (code : Nat)
  deriving DecidableEq, Repr

/-- The body of a request sent to the stats service. -/
inductive StatsBody where
  | none
  | answer (a : QuestionAnswer)
  | session (s : QuizSession)
  deriving DecidableEq, Repr

/-- One call that leaves the handler: a `storage.Store` method or an HTTP request of
the `StatsClient`.  The `trace` of the world lists them in order. -/
inductive Call where
  | CreateQuizSession (s : QuizSession)
  | GetQuizSessionByID (id : Int)
  | UpdateQuizSession (s : QuizSession)
  | GetUserLastQuizSession (userID : Int)
  | GetTimeLimit
  | GetQuestionByID (id : Int)
  | GetQuestionCorrectOption (id : Int)
  | GetGroupQuestionsIDsRandomOrder (groupNumber : Int)
  | GetNextQuestionGroupID (currentGroup : Int)
  | GetSecuritySettings
  | IsUserApproved (userID : Int)
  | UpsertAndGetRegisteredAt (userID : Int)
  | GetTestByCode (code : String)
  | GetTestQuestionIDsOrdered (testID : Int)
  | HttpPost (url : String) (body : StatsBody)
  deriving DecidableEq, Repr

/-- The database tables the session engine touches, the clock, and the oracle tapes
that resolve what the code does not decide: `faults` says for each coming SQL
statement whether the driver fails it, `random` feeds `random()`, `ticks` is the time
that passes before each reading of the clock, `statsReplies` is what the stats
service answers.  An exhausted tape reads as: no fault, `0`, one nanosecond, `200 OK`.
Field `questionRequestedTimeDefault` is the column default of
`quiz_sessions.question_requested_time` (the schema is not part of the sources),
`statsAddr` the configured address of the stats service, and `caseOrbits` the case
orbits of package `unicode` in the Go release the service is built with: the sets of
two or more runes that are equivalent under Unicode simple case folding, such as
`K`, `k` and the Kelvin sign. -/
structure World where
  quiz_sessions : List QuizSession
  nextSessionID : Int
  questionRequestedTimeDefault : Time
  questions : List QuestionRow
  tests : List Test
  test_questions : List TestQuestionRow
  settings : List (String × String)
  quiz_user_access : List (Int × Bool)
  quiz_user_registry : List (Int × Time)
  clock : Time
  faults : List Bool
  random : List Nat
  ticks : List Nat
  statsReplies : List StatsReply
  statsAddr : String
  caseOrbits : List (List Char)
  trace : List Call
  deriving DecidableEq, Repr

namespace World

/-- Record a call in the trace. -/
def log (c : Call) (w : World) : World := { w with trace := w.trace ++ [c] }

/-- Send one SQL statement: whether the driver fails it, and the world after. -/
def stmt (w : World) : Bool × World :=
  (w.faults.headD false, { w with faults := w.faults.tail })

/-- Read the clock (`time.Now()` in Go, `NOW()` in SQL). -/
def now (w : World) : Time × World :=
  (w.clock + (w.ticks.headD 1 : Nat),
   { w with clock := w.clock + (w.ticks.headD 1 : Nat), ticks := w.ticks.tail })

/-- Draw from `random()`. -/
def rand (w : World) : Nat × World :=
  (w.random.headD 0, { w with random := w.random.tail })

/-- One exchange with the stats service. -/
def statsDo (w : World) : StatsReply × World :=
  (w.statsReplies.headD (StatsReply.status 200), { w with statsReplies := w.statsReplies.tail })

end World

/-- The permutation of a list that a draw of `random()` selects (`ORDER BY random()`):
the draw is read as the position at which each element is inserted among the ones
after it (draw `0` keeps the table order; every permutation is selected by some draw). -/
def shuffle (seed : Nat) : List Int → List Int
  | [] => []
  | x :: xs =>
    (shuffle (seed / (xs.length + 1)) xs).take (seed % (xs.length + 1)) ++
      x :: (shuffle (seed / (xs.length + 1)) xs).drop (seed % (xs.length + 1))

/-! ## storage: `PostgresStorage` -/

namespace PostgresStorage

/-- Method `CreateQuizSession`: one `INSERT ... RETURNING id, created_at, updated_at`.
The new row gets the next serial id, `NOW()` in both timestamps, no `finished_at`
and the column default in `question_requested_time`; the session handed back is
the argument with the three returned columns filled in. -/
def CreateQuizSession (session : QuizSession) (w : World) : Except GoError QuizSession × World :=
  let w1 := (w.log (Call.CreateQuizSession session)).stmt
  if w1.1 then (Except.error GoError.driver, w1.2)
  else
    let t := w1.2.now
    let row : QuizSession :=
      { ID := t.2.nextSessionID, UserID := session.UserID, Mode := session.Mode,
        Status := session.Status, ScreenSize := session.ScreenSize,
        CurrentQuestionID := session.CurrentQuestionID, CurrentGroup := session.CurrentGroup,
        GroupOrder := session.GroupOrder, CreatedAt := some t.1, UpdatedAt := some t.1,
        FinishedAt := none, QuestionRequestedTime := t.2.questionRequestedTimeDefault,
        TestID := session.TestID, TestCode := session.TestCode }
    (Except.ok { session with ID := t.2.nextSessionID, CreatedAt := some t.1, UpdatedAt := some t.1 },
     { t.2 with quiz_sessions := t.2.quiz_sessions ++ [row], nextSessionID := t.2.nextSessionID + 1 })

/-- Method `GetQuizSessionByID`: the first row with the id; `screen_size` is not among
the selected columns. -/
def GetQuizSessionByID (id : Int) (w : World) : Except GoError QuizSession × World :=
  let w1 := (w.log (Call.GetQuizSessionByID id)).stmt
  if w1.1 then (Except.error GoError.driver, w1.2)
  else
    match w1.2.quiz_sessions.find? (fun r => r.ID = id) with
    | none => (Except.error GoError.ErrNoRows, w1.2)
    | some r => (Except.ok { r with ScreenSize := "" }, w1.2)

/-- The `SET` list of `UpdateQuizSession` applied to one row. -/
def updateRow (session : QuizSession) (t : Time) (r : QuizSession) : QuizSession :=
  { r with Status := session.Status, Mode := session.Mode,
           CurrentQuestionID := session.CurrentQuestionID,
           CurrentGroup := session.CurrentGroup, GroupOrder := session.GroupOrder,
           FinishedAt := session.FinishedAt,
           QuestionRequestedTime := session.QuestionRequestedTime,
           UpdatedAt := some t }

/-- Method `UpdateQuizSession`: one `UPDATE ... WHERE id = $8`. -/
def UpdateQuizSession (session : QuizSession) (w : World) : Option GoError × World :=
  let w1 := (w.log (Call.UpdateQuizSession session)).stmt
  if w1.1 then (some GoError.driver, w1.2)
  else
    let t := w1.2.now
    (none, { t.2 with quiz_sessions :=
      t.2.quiz_sessions.map (fun r => if r.ID = session.ID then updateRow session t.1 r else r) })

/-- Whether row `a` sorts strictly before row `b` under `ORDER BY created_at DESC`
(PostgreSQL puts NULLs first in a descending order). -/
def createdBefore (a b : QuizSession) : Bool :=
  match a.CreatedAt, b.CreatedAt with
  | none, none => false
  | none, some _ => true
  | some _, none => false
  | some x, some y => decide (y < x)

/-- The row `ORDER BY created_at DESC LIMIT 1` keeps: among the rows that no other row
sorts before, the first in table order (PostgreSQL leaves the choice among ties open). -/
def lastCreated : List QuizSession → Option QuizSession
  | [] => none
  | r :: rs =>
    match lastCreated rs with
    | none => some r
    | some m => if createdBefore m r then some m else some r

/-- Method `GetUserLastQuizSession`: the user's most recently created row, whatever
its status; `screen_size` and `question_requested_time` are not selected. -/
def GetUserLastQuizSession (userID : Int) (w : World) : Except GoError (Option QuizSession) × World :=
  let w1 := (w.log (Call.GetUserLastQuizSession userID)).stmt
  if w1.1 then (Except.error GoError.driver, w1.2)
  else
    match lastCreated (w1.2.quiz_sessions.filter (fun r => r.UserID = userID)) with
    | none => (Except.ok none, w1.2)
    | some r => (Except.ok (some { r with ScreenSize := "", QuestionRequestedTime := 0 }), w1.2)

/-- Method `GetQuestionByID`: the question row joined with its case, then
`GetQuestionOptions`, then `getCaseParameters` (three statements). -/
def GetQuestionByID (id : Int) (w : World) : Except GoError Question × World :=
  let w1 := (w.log (Call.GetQuestionByID id)).stmt
  if w1.1 then (Except.error GoError.driver, w1.2)
  else
    match w1.2.questions.find? (fun q => q.id = id ∧ q.case_row.isSome) with
    | none => (Except.error GoError.ErrNoRows, w1.2)
    | some q =>
      match q.case_row with
      | none => (Except.error GoError.ErrNoRows, w1.2)
      | some c =>
        let w2 := w1.2.stmt
        if w2.1 then (Except.error GoError.driver, w2.2)
        else
          let w3 := w2.2.stmt
          if w3.1 then (Except.error GoError.driver, w3.2)
          else
            (Except.ok { ID := q.id, Question := q.question, Options := q.options,
                         PredictionAge := q.prediction_age, Case := c, Correct := none,
                         Group := q.group_number }, w3.2)

/-- Method `GetQuestionCorrectOption`: the first option of the question flagged correct. -/
def GetQuestionCorrectOption (id : Int) (w : World) : Except GoError String × World :=
  let w1 := (w.log (Call.GetQuestionCorrectOption id)).stmt
  if w1.1 then (Except.error GoError.driver, w1.2)
  else
    match (w1.2.questions.filter (fun q => q.id = id)).flatMap (fun q => q.correct_options) with
    | [] => (Except.error GoError.ErrNoRows, w1.2)
    | o :: _ => (Except.ok o, w1.2)

/-- Method `GetGroupQuestionsIDsRandomOrder`: the ids of the questions of the group,
`order by random()`. -/
def GetGroupQuestionsIDsRandomOrder (groupNumber : Int) (w : World) : Except GoError (List Int) × World :=
  let w1 := (w.log (Call.GetGroupQuestionsIDsRandomOrder groupNumber)).stmt
  if w1.1 then (Except.error GoError.driver, w1.2)
  else
    let r := w1.2.rand
    (Except.ok (shuffle r.1 ((r.2.questions.filter (fun q => q.group_number = groupNumber)).map (fun q => q.id))), r.2)

/-- Method `GetNextQuestionGroupID`: one of the group numbers in `questions`, drawn at
random; when `currentGroup` is not `0` that group is excluded (`group_number <> $1`). -/
def GetNextQuestionGroupID (currentGroup : Int) (w : World) : Except GoError Int × World :=
  let w1 := (w.log (Call.GetNextQuestionGroupID currentGroup)).stmt
  if w1.1 then (Except.error GoError.driver, w1.2)
  else
    let groups :=
      if currentGroup = 0 then (w1.2.questions.map (fun q => q.group_number)).dedup
      else ((w1.2.questions.map (fun q => q.group_number)).dedup).filter (fun g => g ≠ currentGroup)
    match groups with
    | [] => (Except.error GoError.ErrNoRows, w1.2)
    | g :: gs =>
      let r := w1.2.rand
      (Except.ok ((g :: gs).getD (r.1 % (g :: gs).length) g), r.2)

/-- The value of a setting: the first row of `settings` with the name. -/
def settingValue (name : String) (w : World) : Option String :=
  (w.settings.find? (fun p => p.1 = name)).map (fun p => p.2)

/-- Method `GetTimeLimit`. -/
def GetTimeLimit (w : World) : Except GoError Int × World :=
  let w1 := (w.log Call.GetTimeLimit).stmt
  if w1.1 then (Except.error GoError.driver, w1.2)
  else
    match settingValue "time_limit" w1.2 with
    | none => (Except.error GoError.ErrNoRows, w1.2)
    | some v =>
      match Atoi v with
      | none => (Except.error GoError.atoi, w1.2)
      | some n => (Except.ok n, w1.2)

/-- Method `GetSecuritySettings`: two reads of `settings`; a read that fails, for
whatever reason, falls back to `"cooldown"` and `"24"`, and so does an unparsable
number of hours.  It never returns an error. -/
def GetSecuritySettings (w : World) : (String × Int) × World :=
  let w1 := (w.log Call.GetSecuritySettings).stmt
  let mode : String :=
    if w1.1 then "cooldown" else (settingValue "quiz_security_mode" w1.2).getD "cooldown"
  let w2 := w1.2.stmt
  let hrsStr : String :=
    if w2.1 then "24" else (settingValue "quiz_cooldown_hours" w2.2).getD "24"
  ((mode, (Atoi hrsStr).getD 24), w2.2)

/-- Method `IsUserApproved`: a missing row is "not approved", without error. -/
def IsUserApproved (userID : Int) (w : World) : Except GoError Bool × World :=
  let w1 := (w.log (Call.IsUserApproved userID)).stmt
  if w1.1 then (Except.error GoError.driver, w1.2)
  else
    match w1.2.quiz_user_access.find? (fun p => p.1 = userID) with
    | none => (Except.ok false, w1.2)
    | some p => (Except.ok p.2, w1.2)

/-- Method `UpsertAndGetRegisteredAt`.  First a `SELECT`; if it yields no value (no
row, or a driver failure) an `INSERT ... ON CONFLICT DO NOTHING RETURNING
registered_at`; if that returns no row (the row exists) a third `SELECT` is sent
without its parameter, which always fails and whose error is dropped, so the zero
time is returned without error. -/
def UpsertAndGetRegisteredAt (userID : Int) (w : World) : Except GoError Time × World :=
  let w1 := (w.log (Call.UpsertAndGetRegisteredAt userID)).stmt
  match (if w1.1 then none else w1.2.quiz_user_registry.find? (fun p => p.1 = userID)) with
  | some p => (Except.ok p.2, w1.2)
  | none =>
    let w2 := w1.2.stmt
    if w2.1 then (Except.error GoError.driver, w2.2)
    else
      match w2.2.quiz_user_registry.find? (fun p => p.1 = userID) with
      | some _ => (Except.ok 0, w2.2.stmt.2)
      | none =>
        let t := w2.2.now
        (Except.ok t.1, { t.2 with quiz_user_registry := t.2.quiz_user_registry ++ [(userID, t.1)] })

/-- Method `GetTestByCode`: the first test with the code, or no test (without error). -/
def GetTestByCode (code : String) (w : World) : Except GoError (Option Test) × World :=
  let w1 := (w.log (Call.GetTestByCode code)).stmt
  if w1.1 then (Except.error GoError.driver, w1.2)
  else (Except.ok (w1.2.tests.find? (fun t => t.Code = code)), w1.2)

/-- The query of `GetTestQuestionIDsOrdered` on the rows of `test_questions`:
`SELECT question_id ... WHERE test_id=$1 ORDER BY sort_order`. -/
def orderedQuestionIDs (rows : List TestQuestionRow) (testID : Int) : List Int :=
  ((rows.filter (fun r => r.test_id = testID)).insertionSort
    (fun a b => a.sort_order ≤ b.sort_order)).map (fun r => r.question_id)

/-- Method `GetTestQuestionIDsOrdered`: the question ids of the test, `ORDER BY sort_order`. -/
def GetTestQuestionIDsOrdered (testID : Int) (w : World) : Except GoError (List Int) × World :=
  let w1 := (w.log (Call.GetTestQuestionIDsOrdered testID)).stmt
  if w1.1 then (Except.error GoError.driver, w1.2)
  else (Except.ok (orderedQuestionIDs w1.2.test_questions testID), w1.2)

end PostgresStorage

/-! ## clients: `StatsClient` -/

namespace StatsClient

/-- Method `SaveResponse`: `POST addr/sessions/<id>/respond`.  A transport failure is
returned; on a status other than 200 the code logs and executes `return err` with
`err` still nil, so nil is returned. -/
def SaveResponse (sessionID : Int) (answer : QuestionAnswer) (w : World) : Option GoError × World :=
  let r := (w.log (Call.HttpPost (w.statsAddr ++ "/sessions/" ++ Itoa sessionID ++ "/respond")
              (StatsBody.answer answer))).statsDo
  match r.1 with
  | StatsReply.transportError => (some GoError.transport, r.2)
  | StatsReply.status code => if code ≠ 200 then (none, r.2) else (none, r.2)

/-- Method `SaveSession`: `POST addr/sessions/save`. -/
def SaveSession (session : QuizSession) (w : World) : Option GoError × World :=
  let r := (w.log (Call.HttpPost (w.statsAddr ++ "/sessions/save") (StatsBody.session session))).statsDo
  match r.1 with
  | StatsReply.transportError => (some GoError.transport, r.2)
  | StatsReply.status code => if code ≠ 200 then (none, r.2) else (none, r.2)

/-- Method `FinishSession`: `POST addr + "/sessions" + <id> + "/finish"`. -/
def FinishSession (sessionID : Int) (w : World) : Option GoError × World :=
  let r := (w.log (Call.HttpPost (w.statsAddr ++ "/sessions" ++ Itoa sessionID ++ "/finish")
              StatsBody.none)).statsDo
  match r.1 with
  | StatsReply.transportError => (some GoError.transport, r.2)
  | StatsReply.status code => if code ≠ 200 then (none, r.2) else (none, r.2)

end StatsClient

/-! ## handlers -/

/-- A value in a JSON error object; `time` is an instant written as an RFC 3339 string. -/
inductive JVal where
  | str (s : String)
  | num (n : Int)
  | time (t : Time)
  deriving DecidableEq, Repr

/-- What a handler writes as the body of its response. -/
inductive Body where
  | empty
  | text (msg : String)
  | errorJSON (fields : List (String × JVal))
  | session (s : QuizSession) (time_limit : Int)
  | question (q : Question) (is_last : Bool)
  | correct (c : String)
  deriving DecidableEq, Repr

/-- An HTTP response: status, the headers the handler sets itself, body
(`Body.text msg` with a 4xx/5xx status is `http.Error(rw, msg, status)`). -/
structure Response where
  status : Nat
  headers : List (String × String)
  body : Body
  deriving DecidableEq, Repr

/-- Helper `http.Error`. -/
def httpError (msg : String) (status : Nat) : Response :=
  { status := status, headers := [], body := Body.text msg }

/-- Helper `writeJSONError`. -/
def writeJSONError (status : Nat) (payload : List (String × JVal)) : Response :=
  { status := status, headers := [("Content-Type", "application/json")], body := Body.errorJSON payload }

/-- How a call of `SetNextQuestionID` ends: it returns nil, returns an error, or
panics (index out of range). -/
inductive Outcome where
  | ok
  | error (e : GoError)
  | panic
  deriving DecidableEq, Repr

/-- The scan `for i, q := range order` with body `if q == cur ... return`: the index of
the first element equal to `cur`, counting from `i`. -/
def rangeFind (cur : Int) : List Int → Nat → Option Nat
  | [], _ => none
  | q :: rest, i => if q = cur then some i else rangeFind cur rest (i + 1)

namespace SubmitAnswerHandler

/-- Method `SubmitAnswerHandler.SetNextQuestionID`.  The session is passed by pointer in
Go; here the session as the call leaves it is returned with the outcome. -/
def SetNextQuestionID (qs : QuizSession) (w : World) : (Outcome × QuizSession) × World :=
  if qs.TestID.isSome then
    match rangeFind qs.CurrentQuestionID qs.GroupOrder 0 with
    | some i =>
      if i + 1 < qs.GroupOrder.length then
        ((Outcome.ok, { qs with CurrentQuestionID := qs.GroupOrder.getD (i + 1) 0 }), w)
      else
        ((Outcome.ok, { qs with CurrentQuestionID := -1 }), w)
    | none => ((Outcome.error (GoError.errorf "question not found in group order"), qs), w)
  else
    match rangeFind qs.CurrentQuestionID qs.GroupOrder 0 with
    | some i =>
      if i + 1 < qs.GroupOrder.length then
        ((Outcome.ok, { qs with CurrentQuestionID := qs.GroupOrder.getD (i + 1) 0 }), w)
      else
        let g := PostgresStorage.GetNextQuestionGroupID qs.CurrentGroup w
        match g.1 with
        | Except.error e => ((Outcome.error e, qs), g.2)
        | Except.ok nextGroup =>
          let o := PostgresStorage.GetGroupQuestionsIDsRandomOrder nextGroup g.2
          match o.1 with
          | Except.error e =>
            ((Outcome.error e, { qs with CurrentGroup := nextGroup, GroupOrder := [] }), o.2)
          | Except.ok [] =>
            ((Outcome.panic, { qs with CurrentGroup := nextGroup, GroupOrder := [] }), o.2)
          | Except.ok (q :: rest) =>
            ((Outcome.ok, { qs with CurrentGroup := nextGroup, GroupOrder := q :: rest,
                                    CurrentQuestionID := q }), o.2)
    | none => ((Outcome.error (GoError.errorf "question not found in group order"), qs), w)

/-- The two methods of the interface `storage.Store` that `SetNextQuestionID` calls, for
any implementation, with `σ` the state the implementation works on. -/
structure Store (σ : Type) where
  GetNextQuestionGroupID : Int → σ → Except GoError Int × σ
  GetGroupQuestionsIDsRandomOrder : Int → σ → Except GoError (List Int) × σ

/-- Method `SubmitAnswerHandler.SetNextQuestionID` over any implementation of the store
(the handler holds a `storage.Store`, not a `*PostgresStorage`). -/
def SetNextQuestionIDOn {σ : Type} (storage : Store σ) (qs : QuizSession) (w : σ) :
    (Outcome × QuizSession) × σ :=
  if qs.TestID.isSome then
    match rangeFind qs.CurrentQuestionID qs.GroupOrder 0 with
    | some i =>
      if i + 1 < qs.GroupOrder.length then
        ((Outcome.ok, { qs with CurrentQuestionID := qs.GroupOrder.getD (i + 1) 0 }), w)
      else
        ((Outcome.ok, { qs with CurrentQuestionID := -1 }), w)
    | none => ((Outcome.error (GoError.errorf "question not found in group order"), qs), w)
  else
    match rangeFind qs.CurrentQuestionID qs.GroupOrder 0 with
    | some i =>
      if i + 1 < qs.GroupOrder.length then
        ((Outcome.ok, { qs with CurrentQuestionID := qs.GroupOrder.getD (i + 1) 0 }), w)
      else
        let g := storage.GetNextQuestionGroupID qs.CurrentGroup w
        match g.1 with
        | Except.error e => ((Outcome.error e, qs), g.2)
        | Except.ok nextGroup =>
          let o := storage.GetGroupQuestionsIDsRandomOrder nextGroup g.2
          match o.1 with
          | Except.error e =>
            ((Outcome.error e, { qs with CurrentGroup := nextGroup, GroupOrder := [] }), o.2)
          | Except.ok [] =>
            ((Outcome.panic, { qs with CurrentGroup := nextGroup, GroupOrder := [] }), o.2)
          | Except.ok (q :: rest) =>
            ((Outcome.ok, { qs with CurrentGroup := nextGroup, GroupOrder := q :: rest,
                                    CurrentQuestionID := q }), o.2)
    | none => ((Outcome.error (GoError.errorf "question not found in group order"), qs), w)

/-- The store the service is wired with: `PostgresStorage`. -/
def postgresStore : Store World :=
  { GetNextQuestionGroupID := PostgresStorage.GetNextQuestionGroupID,
    GetGroupQuestionsIDsRandomOrder := PostgresStorage.GetGroupQuestionsIDsRandomOrder }

/-- Method `SubmitAnswerHandler.Handle`.  Inputs: the path value `quizSessionId`, the
`user_id` of the request context, and the request body as `json` decodes it into a
`models.QuestionAnswer` (`none` when decoding fails).  The result is the response,
or `none` when the handler panics. -/
def Handle (quizSessionIdString : String) (userID : Int) (body : Option QuestionAnswer)
    (w : World) : Option Response × World :=
  if quizSessionIdString = "" then (some (httpError "invalid quiz session id" 400), w)
  else
    match Atoi quizSessionIdString with
    | none => (some (httpError "invalid quiz session id" 400), w)
    | some quizSessionID =>
      let s := PostgresStorage.GetQuizSessionByID quizSessionID w
      match s.1 with
      | Except.error _ => (some (httpError "internal server error" 500), s.2)
      | Except.ok session =>
        let t := s.2.now
        let timeSpend := timeSub t.1 session.QuestionRequestedTime
        if userID ≠ session.UserID then (some (httpError "internal server error" 500), t.2)
        else
          let c := PostgresStorage.GetQuestionCorrectOption session.CurrentQuestionID t.2
          match c.1 with
          | Except.error _ => (some (httpError "internal server error" 500), c.2)
          | Except.ok correct =>
            let session := { session with Status := QuizStatusInProgress }
            match body with
            | none => (some (httpError "invalid answer" 400), c.2)
            | some answer =>
              let q := PostgresStorage.GetQuestionByID session.CurrentQuestionID c.2
              match q.1 with
              | Except.error _ => (some (httpError "internal server error" 500), q.2)
              | Except.ok question =>
                let educationalEmpty :=
                  session.Mode = QuizModeEducational ∧ TrimSpace answer.Answer = ""
                let r :=
                  if educationalEmpty then (none, q.2)
                  else StatsClient.SaveResponse session.ID
                    { QuestionID := session.CurrentQuestionID,
                      Answer := answer.Answer,
                      IsCorrect := EqualFold w.caseOrbits (TrimSpace answer.Answer) (TrimSpace correct),
                      ScreenSize := answer.ScreenSize,
                      TimeSpent := durationSeconds timeSpend,
                      CaseCode := question.Case.Code } q.2
                match r.1 with
                | some _ => (some (httpError "internal server error" 500), r.2)
                | none =>
                  let n := SetNextQuestionID session r.2
                  match n.1.1 with
                  | Outcome.panic => (none, n.2)
                  | Outcome.error _ => (some (httpError "internal server error" 500), n.2)
                  | Outcome.ok =>
                    let u := PostgresStorage.UpdateQuizSession n.1.2 n.2
                    match u.1 with
                    | some _ => (some (httpError "internal server error" 500), u.2)
                    | none =>
                      (some { status := 200, headers := [("Content-Type", "application/json")],
                              body := Body.correct correct }, u.2)

end SubmitAnswerHandler

namespace GetNextQuestionHandler

/-- The loop computing `isLast`: whether some index `i` (counting from `i`) holds `cur`
and is `len(order) - 1`. -/
def isLastLoop (cur : Int) (len : Nat) : List Int → Nat → Bool
  | [], _ => false
  | q :: rest, i =>
    if q = cur ∧ (i : Int) = (len : Int) - 1 then true else isLastLoop cur len rest (i + 1)

/-- The redaction loop: `Value3 = nil` on every element of `ParameterValues`. -/
def redact (question : Question) : Question :=
  { question with Case := { question.Case with
      ParameterValues := question.Case.ParameterValues.map (fun pv => { pv with Value3 := none }) } }

/-- Method `GetNextQuestionHandler.Handle`.  Inputs: the path value `quizSessionId` and
the `user_id` of the request context. -/
def Handle (sessionId : String) (userID : Int) (w : World) : Option Response × World :=
  if sessionId = "" then (some (httpError "missing session id" 400), w)
  else
    match Atoi sessionId with
    | none => (some (httpError "invalid session id" 400), w)
    | some sessionID =>
      let s := PostgresStorage.GetQuizSessionByID sessionID w
      match s.1 with
      | Except.error _ => (some (httpError "failed to get session" 404), s.2)
      | Except.ok session =>
        if session.UserID ≠ userID then (some (httpError "failed to get session" 404), s.2)
        else if session.Status = "finished" then (some (httpError "quiz is finished" 404), s.2)
        else if session.CurrentQuestionID ≤ 0 then
          (some { status := 204, headers := [], body := Body.empty }, s.2)
        else
          let q := PostgresStorage.GetQuestionByID session.CurrentQuestionID s.2
          match q.1 with
          | Except.error _ => (some (httpError "failed to get question" 404), q.2)
          | Except.ok question =>
            let question := redact question
            let isLast : Bool :=
              if session.TestID.isSome then
                isLastLoop session.CurrentQuestionID session.GroupOrder.length session.GroupOrder 0
              else false
            let t := q.2.now
            let session := { session with QuestionRequestedTime := t.1 }
            let u := PostgresStorage.UpdateQuizSession session t.2
            (some { status := 200,
                    headers := [("X-Quiz-Is-Last", toString isLast), ("Content-Type", "application/json")],
                    body := Body.question question isLast }, u.2)

end GetNextQuestionHandler

namespace FinishQuizHandler

/-- Method `FinishQuizHandler.Handle`.  Input: the path value `quizSessionId`.  When the
update fails the 500 response is written and the code goes on (there is no
`return`): the stats service is still notified, and the later `WriteHeader(200)` has
no effect on a response already written. -/
def Handle (quizSessionIdString : String) (w : World) : Option Response × World :=
  if quizSessionIdString = "" then (some (httpError "invalid quiz session id" 400), w)
  else
    match Atoi quizSessionIdString with
    | none => (some (httpError "invalid quiz session id" 400), w)
    | some quizSessionID =>
      let s := PostgresStorage.GetQuizSessionByID quizSessionID w
      match s.1 with
      | Except.error _ => (some (httpError "internal server error" 500), s.2)
      | Except.ok session =>
        let t := s.2.now
        let session := { session with Status := QuizStatusFinished, FinishedAt := some t.1 }
        let u := PostgresStorage.UpdateQuizSession session t.2
        let f := StatsClient.FinishSession quizSessionID u.2
        match u.1 with
        | some _ => (some (httpError "internal server error" 500), f.2)
        | none => (some { status := 200, headers := [], body := Body.empty }, f.2)

end FinishQuizHandler

/-- Wrap-around of an `int64` product. -/
def wrap64 (x : Int) : Int := (x + 2 ^ 63) % 2 ^ 64 - 2 ^ 63

namespace StartQuizHandler

/-- The access-policy `switch mode` at the head of `Handle`: `none` when the start is
permitted, else the response that ends the request. -/
def policy (mode : String) (hours : Int) (userID : Int) (w : World) : Option Response × World :=
  if mode = "manual" then
    let a := PostgresStorage.IsUserApproved userID w
    match a.1 with
    | Except.error _ => (some (httpError "internal server error" 500), a.2)
    | Except.ok ok =>
      if !ok then
        (some (writeJSONError 403
          [("error", JVal.str "approval_required"),
           ("message", JVal.str "Account requires manual approval by an administrator."),
           ("mode", JVal.str "manual")]), a.2)
      else (none, a.2)
  else if mode = "cooldown" then
    let g := PostgresStorage.UpsertAndGetRegisteredAt userID w
    match g.1 with
    | Except.error _ => (some (httpError "internal server error" 500), g.2)
    | Except.ok regAt =>
      let readyAt : Time := regAt + wrap64 (hours * Hour)
      let n := g.2.now
      if n.1 < readyAt then
        let n2 := n.2.now
        let left := timeSub readyAt n2.1
        let waitSeconds := if durationSeconds left < 0 then 0 else durationSeconds left
        (some (writeJSONError 403
          [("error", JVal.str "cooldown_active"),
           ("message", JVal.str "Please wait before starting the quiz."),
           ("mode", JVal.str "cooldown"),
           ("cooldownHours", JVal.num hours),
           ("waitSeconds", JVal.num waitSeconds),
           ("readyAt", JVal.time (formatRFC3339 readyAt))]), n2.2)
      else (none, n.2)
  else (none, w)

/-- The head of `Handle`: `GetSecuritySettings` (which never fails), then the
access-policy switch. -/
def accessGate (userID : Int) (w : World) : Option Response × World :=
  let sec := PostgresStorage.GetSecuritySettings w
  policy sec.1.1 sec.1.2 userID sec.2

/-- The test-bound branch of the initial ordering (`testCode != ""`). -/
def buildTest (payload : StartQuizPayload) (userID : Int) (testCode : String) (w : World) :
    Except Response QuizSession × World :=
  let t := PostgresStorage.GetTestByCode testCode w
  match t.1 with
  | Except.error _ => (Except.error (httpError "internal server error" 500), t.2)
  | Except.ok none =>
    (Except.error (writeJSONError 400
      [("error", JVal.str "invalid_test_code"), ("message", JVal.str "Unknown test code.")]), t.2)
  | Except.ok (some test) =>
    let o := PostgresStorage.GetTestQuestionIDsOrdered test.ID t.2
    match o.1 with
    | Except.error _ => (Except.error (httpError "internal server error" 500), o.2)
    | Except.ok [] => (Except.error (httpError "test has no questions" 503), o.2)
    | Except.ok (q :: rest) =>
      (Except.ok { QuizSession.zero with
          Mode := payload.Mode, UserID := userID, Status := QuizStatusNotStarted,
          ScreenSize := toString payload.ScreenWidth ++ "x" ++ toString payload.ScreenHeight,
          CurrentQuestionID := q, CurrentGroup := 0, GroupOrder := q :: rest,
          TestID := some test.ID, TestCode := some test.Code }, o.2)

/-- The free-roam branch of the initial ordering (`testCode == ""`). -/
def buildFree (payload : StartQuizPayload) (userID : Int) (w : World) :
    Except Response QuizSession × World :=
  let g := PostgresStorage.GetNextQuestionGroupID 0 w
  match g.1 with
  | Except.error _ => (Except.error (httpError "internal server error" 500), g.2)
  | Except.ok groupID =>
    let o := PostgresStorage.GetGroupQuestionsIDsRandomOrder groupID g.2
    match o.1 with
    | Except.error _ => (Except.error (httpError "internal server error" 500), o.2)
    | Except.ok [] => (Except.error (httpError "no questions in group" 503), o.2)
    | Except.ok (q :: rest) =>
      (Except.ok { QuizSession.zero with
          Mode := payload.Mode, UserID := userID, Status := QuizStatusNotStarted,
          ScreenSize := toString payload.ScreenWidth ++ "x" ++ toString payload.ScreenHeight,
          CurrentQuestionID := q, CurrentGroup := groupID, GroupOrder := q :: rest }, o.2)

/-- The block that supersedes the user's last session and, for a non-test start,
adopts its position. -/
def supersede (testCode : String) (userID : Int) (newQuizSession : QuizSession) (w : World) :
    QuizSession × World :=
  let l := PostgresStorage.GetUserLastQuizSession userID w
  match l.1 with
  | Except.ok (some session) =>
    let session := { session with FinishedAt := session.UpdatedAt, Status := QuizStatusFinished }
    let u := PostgresStorage.UpdateQuizSession session l.2
    if testCode = "" ∧ session.TestID = none ∧ session.CurrentQuestionID > 0 ∧
        session.GroupOrder.length > 0 then
      ({ newQuizSession with CurrentQuestionID := session.CurrentQuestionID,
                             CurrentGroup := session.CurrentGroup,
                             GroupOrder := session.GroupOrder }, u.2)
    else (newQuizSession, u.2)
  | _ => (newQuizSession, l.2)

/-- The last-resort block: regenerate the first group and ordering when the session
has no valid starting state; every failure in it is ignored. -/
def regenerate (newQuizSession : QuizSession) (w : World) : QuizSession × World :=
  if newQuizSession.CurrentQuestionID ≤ 0 ∨ newQuizSession.GroupOrder.length = 0 then
    let g := PostgresStorage.GetNextQuestionGroupID 0 w
    match g.1 with
    | Except.error _ => (newQuizSession, g.2)
    | Except.ok gid =>
      let o := PostgresStorage.GetGroupQuestionsIDsRandomOrder gid g.2
      match o.1 with
      | Except.ok (q :: rest) =>
        ({ newQuizSession with CurrentGroup := gid, GroupOrder := q :: rest,
                               CurrentQuestionID := q }, o.2)
      | _ => (newQuizSession, o.2)
  else (newQuizSession, w)

/-- The initial ordering: the test-bound branch when the trimmed test code is not
empty, else the free-roam branch. -/
def build (payload : StartQuizPayload) (userID : Int) (testCode : String) (w : World) :
    Except Response QuizSession × World :=
  if testCode ≠ "" then buildTest payload userID testCode w else buildFree payload userID w

/-- The tail of `Handle`, from the supersession of the last session on: supersede,
last-resort regeneration, `CreateQuizSession`, the notification of the stats service
(whose failure is only logged), `GetTimeLimit`, and the response. -/
def persist (testCode : String) (userID : Int) (newQuizSession : QuizSession) (w : World) :
    Option Response × World :=
  let a := supersede testCode userID newQuizSession w
  let r := regenerate a.1 a.2
  let c := PostgresStorage.CreateQuizSession r.1 r.2
  match c.1 with
  | Except.error _ => (some (httpError "internal server error" 500), c.2)
  | Except.ok sessionCreated =>
    let v := StatsClient.SaveSession sessionCreated c.2
    let tl := PostgresStorage.GetTimeLimit v.2
    match tl.1 with
    | Except.error _ => (some (httpError "internal server error" 500), tl.2)
    | Except.ok timeLimit =>
      (some { status := 200, headers := [("Content-Type", "application/json")],
              body := Body.session sessionCreated timeLimit }, tl.2)

/-- Method `StartQuizHandler.Handle`.  Inputs: the `user_id` of the request context and
the request body as `json` decodes it into a `models.StartQuizPayload` (`none` when
decoding fails).  `payload.Validate()` checks nothing: the struct tags are written
`json:"mode" ,validate:"..."`, so the `validate` key is never found.  The body of the
Go function is cut into its consecutive blocks: `accessGate`, `build`, `persist`. -/
def Handle (userID : Int) (body : Option StartQuizPayload) (w : World) : Option Response × World :=
  let p := accessGate userID w
  match p.1 with
  | some resp => (some resp, p.2)
  | none =>
    match body with
    | none => (some (httpError "invalid request payload" 400), p.2)
    | some payload =>
      let testCode := TrimSpace payload.TestCode
      let b := build payload userID testCode p.2
      match b.1 with
      | Except.error resp => (some resp, b.2)
      | Except.ok newQuizSession => persist testCode userID newQuizSession b.2

end StartQuizHandler

/-! ## Predicates used in the statements -/

/-- Whether a call writes the session store. -/
def Call.isWrite : Call → Bool
  | Call.CreateQuizSession _ => true
  | Call.UpdateQuizSession _ => true
  | _ => false

/-- Whether a call fetches a question from the repository. -/
def Call.isQuestionFetch : Call → Bool
  | Call.GetQuestionByID _ => true
  | _ => false

/-- No SQL statement still to come is failed by the driver. -/
def NoFaults (w : World) : Prop := ∀ b ∈ w.faults, b = false

/-- Time passes before every reading of the clock still to come. -/
def PosTicks (w : World) : Prop := ∀ t ∈ w.ticks, 0 < t

/-- The session invariant of the data model: a positive `current_question_id` is an
element of `group_order`. -/
def PositionValid (s : QuizSession) : Prop :=
  0 < s.CurrentQuestionID → s.CurrentQuestionID ∈ s.GroupOrder

/-- A session that is not finished. -/
def Live (s : QuizSession) : Prop := s.Status ≠ QuizStatusFinished

instance (s : QuizSession) : Decidable (Live s) := by unfold Live; infer_instance

/-- The number of sessions of a user that are not finished. -/
def liveCount (userID : Int) (w : World) : Nat :=
  (w.quiz_sessions.filter (fun r => r.UserID = userID ∧ r.Status ≠ QuizStatusFinished)).length

/-- The second world comes from the first by calls that only read the tables: the
tables and configuration are the same, the clock has not gone back, the tapes have
only been consumed, and no write of the session store has been traced. -/
structure Frame (w w' : World) : Prop where
  sessions : w'.quiz_sessions = w.quiz_sessions
  nextID : w'.nextSessionID = w.nextSessionID
  qrtDefault : w'.questionRequestedTimeDefault = w.questionRequestedTimeDefault
  questions : w'.questions = w.questions
  tests : w'.tests = w.tests
  test_questions : w'.test_questions = w.test_questions
  settings : w'.settings = w.settings
  access : w'.quiz_user_access = w.quiz_user_access
  statsAddr : w'.statsAddr = w.statsAddr
  clock : w.clock ≤ w'.clock
  faults : w'.faults <:+ w.faults
  ticks : w'.ticks <:+ w.ticks
  writes : w'.trace.filter Call.isWrite = w.trace.filter Call.isWrite

/-- The part of `Frame` that also holds across writes of the session store: the other
tables and the configuration are the same, the clock has not gone back, and the
tapes have only been consumed. -/
structure Env (w w' : World) : Prop where
  qrtDefault : w'.questionRequestedTimeDefault = w.questionRequestedTimeDefault
  questions : w'.questions = w.questions
  tests : w'.tests = w.tests
  test_questions : w'.test_questions = w.test_questions
  settings : w'.settings = w.settings
  access : w'.quiz_user_access = w.quiz_user_access
  statsAddr : w'.statsAddr = w.statsAddr
  clock : w.clock ≤ w'.clock
  faults : w'.faults <:+ w.faults
  ticks : w'.ticks <:+ w.ticks

/-- Every stored session satisfies `P`. -/
def AllRows (P : QuizSession → Prop) (w : World) : Prop := ∀ r ∈ w.quiz_sessions, P r

/-- The user's most recent session: what `GetUserLastQuizSession` selects. -/
def lastSessionOf (userID : Int) (w : World) : Option QuizSession :=
  PostgresStorage.lastCreated (w.quiz_sessions.filter (fun r => r.UserID = userID))

/-- The condition under which `StartQuiz` adopts the position of the last session `p`
(`testCode` is the trimmed test code of the request). -/
def Adopts (testCode : String) (p : QuizSession) : Prop :=
  testCode = "" ∧ p.TestID = none ∧ 0 < p.CurrentQuestionID ∧ p.GroupOrder ≠ []

/-- The session `StartQuiz` writes back for the last session `p` it supersedes. -/
def superseded (p : QuizSession) : QuizSession :=
  { p with ScreenSize := "", QuestionRequestedTime := 0, FinishedAt := p.UpdatedAt,
           Status := QuizStatusFinished }

/-- A store in which supersession keeps at most one live session per user: the driver
will not fail, time passes between readings of the clock, session ids are unique
and below the serial, every row has a creation time that is not in the future, and a
session that is not finished is strictly the most recently created one of its user. -/
structure StoreOK (w : World) : Prop where
  noFaults : NoFaults w
  posTicks : PosTicks w
  idsNodup : (w.quiz_sessions.map (fun r => r.ID)).Nodup
  idsBelow : ∀ r ∈ w.quiz_sessions, r.ID < w.nextSessionID
  createdPast : ∀ r ∈ w.quiz_sessions, ∃ t, r.CreatedAt = some t ∧ t ≤ w.clock
  liveIsLast : ∀ r ∈ w.quiz_sessions, Live r → ∀ r' ∈ w.quiz_sessions,
    r'.UserID = r.UserID → r'.ID ≠ r.ID → PostgresStorage.createdBefore r r' = true

/-- The store states reached from `w0` by calls of the four session handlers, with any
arguments; `SubmitAnswer` only on a session id whose stored session is not finished. -/
inductive Reach (w0 : World) : World → Prop where
  | init : Reach w0 w0
  | start (w : World) (userID : Int) (body : Option StartQuizPayload) :
      Reach w0 w → Reach w0 (StartQuizHandler.Handle userID body w).2
  | next (w : World) (sessionId : String) (userID : Int) :
      Reach w0 w → Reach w0 (GetNextQuestionHandler.Handle sessionId userID w).2
  | finish (w : World) (sessionId : String) :
      Reach w0 w → Reach w0 (FinishQuizHandler.Handle sessionId w).2
  | submit (w : World) (sessionId : String) (userID : Int) (body : Option QuestionAnswer) :
      Reach w0 w →
      (∀ r ∈ w.quiz_sessions, Atoi sessionId = some r.ID → Live r) →
      Reach w0 (SubmitAnswerHandler.Handle sessionId userID body w).2

/-- The `isLast` flag that `GetNextQuestion` computes for the session it read. -/
def isLastFlag (s : QuizSession) : Bool :=
  if s.TestID.isSome then
    GetNextQuestionHandler.isLastLoop s.CurrentQuestionID s.GroupOrder.length s.GroupOrder 0
  else false

/-- The response with which `GetNextQuestion` returns content. -/
def contentResponse (question : Question) (isLast : Bool) : Response :=
  { status := 200,
    headers := [("X-Quiz-Is-Last", toString isLast), ("Content-Type", "application/json")],
    body := Body.question question isLast }

/-- Whether a response carries a question. -/
def Response.isContent (r : Response) : Bool :=
  match r.body with
  | Body.question _ _ => true
  | _ => false

/-- The question `GetQuestionByID` builds from a row and its case. -/
def questionOfRow (row : QuestionRow) (c : Case) : Question :=
  { ID := row.id, Question := row.question, Options := row.options,
    PredictionAge := row.prediction_age, Case := c, Correct := none,
    Group := row.group_number }

/-- The request a call sends to the stats service, if it is one. -/
def Call.post : Call → Option (String × StatsBody)
  | Call.HttpPost url body => some (url, body)
  | _ => none

/-- The requests sent to the stats service so far, in order. -/
def posts (w : World) : List (String × StatsBody) := w.trace.filterMap Call.post

/-- The response with which `SubmitAnswer` succeeds. -/
def submitResponse (correct : String) : Response :=
  { status := 200, headers := [("Content-Type", "application/json")], body := Body.correct correct }

/-- What `TrimSpace` does to the runes of a string. -/
def trimRunes (l : List Char) : List Char :=
  ((l.dropWhile isSpace).reverse.dropWhile isSpace).reverse

/-- In the words of the specification: `t` is `s` with its leading and trailing white
space removed, that is, `s` is `t` between two runs of white space and `t` neither
starts nor ends with white space. -/
def IsTrimOf (t s : List Char) : Prop :=
  ∃ pre post : List Char, s = pre ++ t ++ post ∧
    (∀ c ∈ pre, isSpace c = true) ∧ (∀ c ∈ post, isSpace c = true) ∧
    (∀ c, t.head? = some c → isSpace c = false) ∧
    (∀ c, t.getLast? = some c → isSpace c = false)

/-- In the words of the specification: two runes are the same up to letter case, that
is, they are the same rune or two case variants of one letter (two runes of one orbit
of the table). -/
def SameLetter (orbits : List (List Char)) (x y : Char) : Prop :=
  x = y ∨ ∃ o ∈ orbits, x ∈ o ∧ y ∈ o

/-- In the words of the specification: two texts are equal ignoring letter case, that
is, they have the same length and, place by place, the same letter up to case. -/
def SameIgnoringCase (orbits : List (List Char)) (a b : List Char) : Prop :=
  List.Forall₂ (SameLetter orbits) a b

/-- In the words of the specification: the submitted answer and the correct option are
equal after trimming leading and trailing white space from both and ignoring letter
case. -/
def SameAnswer (orbits : List (List Char)) (answer correct : String) : Prop :=
  ∃ ta tc : List Char, IsTrimOf ta answer.toList ∧ IsTrimOf tc correct.toList ∧
    SameIgnoringCase orbits ta tc

/-- Answer `b` is answer `a` with the case of some letters changed and white space put
around it. -/
def PaddedRecased (orbits : List (List Char)) (b a : String) : Prop :=
  ∃ pre m post : String, b = pre ++ m ++ post ∧
    (∀ c ∈ pre.toList, isSpace c = true) ∧ (∀ c ∈ post.toList, isSpace c = true) ∧
    SameIgnoringCase orbits m.toList a.toList

/-- What a table of case orbits of package `unicode` satisfies, whatever the release:
the orbits are classes of an equivalence, so a rune lies in one orbit at most; two
ASCII runes of one orbit are a capital letter and its small letter, and every ASCII
capital letter shares an orbit with its small letter (the table `asciiFold` and the
ASCII branch of `strings.EqualFold` agree with the orbits); and no white space has a
case variant. -/
def FoldTable (orbits : List (List Char)) : Prop :=
  (∀ o1 ∈ orbits, ∀ o2 ∈ orbits, ∀ c ∈ o1, c ∈ o2 → o1 = o2) ∧
  (∀ o ∈ orbits, ∀ a ∈ o, ∀ b ∈ o, a.toNat < b.toNat → b.toNat < 0x80 →
    'A'.toNat ≤ a.toNat ∧ a.toNat ≤ 'Z'.toNat ∧ b.toNat = a.toNat + 32) ∧
  (∀ n < 26, ∃ o ∈ orbits, Char.ofNat ('A'.toNat + n) ∈ o ∧ Char.ofNat ('a'.toNat + n) ∈ o) ∧
  (∀ o ∈ orbits, ∀ c ∈ o, isSpace c = false)

instance (orbits : List (List Char)) : Decidable (FoldTable orbits) := by
  unfold FoldTable
  infer_instance

/-- Whether a list of numbers has no number twice. -/
def distinct : List Nat → Bool
  | [] => true
  | a :: l => !l.contains a && distinct l

/-- A valid starting state: a positive `current_question_id` and a non-empty
`group_order`. -/
def Startable (s : QuizSession) : Prop := 0 < s.CurrentQuestionID ∧ s.GroupOrder ≠ []

instance (s : QuizSession) : Decidable (Startable s) := by
  unfold Startable
  infer_instance

/-- The session a call hands to `CreateQuizSession`, if it is one. -/
def Call.created : Call → Option QuizSession
  | Call.CreateQuizSession s => some s
  | _ => none

/-- The sessions handed to `CreateQuizSession` so far, in order. -/
def creates (w : World) : List QuizSession := w.trace.filterMap Call.created

/-- Method `SetNextQuestionID` applied `k` times in a row, each time to the session the
application before left, as long as it returns nil: the outcome of the last
application made (nil when none was made) with the session it left. -/
def setNextTimes : Nat → QuizSession → World → (Outcome × QuizSession) × World
  | 0, qs, w => ((Outcome.ok, qs), w)
  | k + 1, qs, w =>
    match setNextTimes k qs w with
    | ((Outcome.ok, qs1), w1) => SubmitAnswerHandler.SetNextQuestionID qs1 w1
    | r => r

/-- The world without its ghost trace and without the replies of the stats service still
to come: what the session store and the repository depend on. -/
def World.mute (w : World) : World := { w with trace := [], statsReplies := [] }

/-- The answer record `SubmitAnswer` builds for the stats service. -/
def answerRecord (orbits : List (List Char)) (session : QuizSession) (answer : QuestionAnswer)
    (correct : String) (question : Question) (timeSpend : Int) : QuestionAnswer :=
  { QuestionID := session.CurrentQuestionID,
    Answer := answer.Answer,
    IsCorrect := EqualFold orbits (TrimSpace answer.Answer) (TrimSpace correct),
    ScreenSize := answer.ScreenSize,
    TimeSpent := durationSeconds timeSpend,
    CaseCode := question.Case.Code }

/-- The tail of `SubmitAnswerHandler.Handle` from the result `r` of the recording step on:
the error check, `SetNextQuestionID`, `UpdateQuizSession`, the response. -/
def submitTail (session : QuizSession) (correct : String) (r : Option GoError × World) :
    Option Response × World :=
  match r.1 with
  | some _ => (some (httpError "internal server error" 500), r.2)
  | none =>
    match (SubmitAnswerHandler.SetNextQuestionID session r.2).1.1 with
    | Outcome.panic => (none, (SubmitAnswerHandler.SetNextQuestionID session r.2).2)
    | Outcome.error _ =>
      (some (httpError "internal server error" 500),
        (SubmitAnswerHandler.SetNextQuestionID session r.2).2)
    | Outcome.ok =>
      match (PostgresStorage.UpdateQuizSession
          (SubmitAnswerHandler.SetNextQuestionID session r.2).1.2
          (SubmitAnswerHandler.SetNextQuestionID session r.2).2).1 with
      | some _ =>
        (some (httpError "internal server error" 500),
          (PostgresStorage.UpdateQuizSession
            (SubmitAnswerHandler.SetNextQuestionID session r.2).1.2
            (SubmitAnswerHandler.SetNextQuestionID session r.2).2).2)
      | none =>
        (some (submitResponse correct),
          (PostgresStorage.UpdateQuizSession
            (SubmitAnswerHandler.SetNextQuestionID session r.2).1.2
            (SubmitAnswerHandler.SetNextQuestionID session r.2).2).2)

/-- The response `ApprovalRequired` of the access gate. -/
def approvalRequired : Response :=
  writeJSONError 403
    [("error", JVal.str "approval_required"),
     ("message", JVal.str "Account requires manual approval by an administrator."),
     ("mode", JVal.str "manual")]

/-- The response `CooldownActive` of the access gate. -/
def cooldownActive (hours waitSeconds : Int) (readyAt : Time) : Response :=
  writeJSONError 403
    [("error", JVal.str "cooldown_active"),
     ("message", JVal.str "Please wait before starting the quiz."),
     ("mode", JVal.str "cooldown"),
     ("cooldownHours", JVal.num hours),
     ("waitSeconds", JVal.num waitSeconds),
     ("readyAt", JVal.time (formatRFC3339 readyAt))]

/-- Whether the user has an approval record with `approved = true`. -/
def Approved (userID : Int) (w : World) : Prop :=
  (w.quiz_user_access.find? (fun p => p.1 = userID)).map (fun p => p.2) = some true

instance (userID : Int) (w : World) : Decidable (Approved userID w) := by
  unfold Approved; infer_instance

/-! ## Concrete inputs used by the witnesses and counterexamples -/

/-- A case with one parameter whose third value is present. -/
def demoCase : Case :=
  { ID := 1, Code := "C-001", Gender := "m", Age1 := 9, Age2 := 12, Age3 := 15,
    Parameters := [{ ID := 1, Name := "SNA", Description := "", ReferenceValues := "", Order := 1 }],
    ParameterValues := [{ ParameterID := 1, Value1 := 80, Value2 := 81, Value3 := some 82 }] }

/-- A question row of group `g` with id `i`, correct option `"Predominantly horizontal"`. -/
def demoQuestion (i g : Int) : QuestionRow :=
  { id := i, question := "growth direction", prediction_age := 15, group_number := g,
    case_row := some demoCase, options := ["Predominantly horizontal", "Predominantly vertical"],
    correct_options := ["Predominantly horizontal"] }

/-- The case orbits of Unicode that hold a rune below U+0180 (Basic Latin, Latin-1
Supplement and Latin Extended-A): capital and small letter, with the Kelvin sign, the
long s, the Angstrom sign, the capital sharp s and the Greek mu where Unicode puts
them. -/
def demoOrbits : List (List Char) :=
  [['A', 'a'], ['B', 'b'], ['C', 'c'], ['D', 'd'], ['E', 'e'], ['F', 'f'], ['G', 'g'],
   ['H', 'h'], ['I', 'i'], ['J', 'j'], ['K', 'k', '\u212A'], ['L', 'l'], ['M', 'm'], ['N', 'n'],
   ['O', 'o'], ['P', 'p'], ['Q', 'q'], ['R', 'r'], ['S', 's', 'ſ'], ['T', 't'], ['U', 'u'],
   ['V', 'v'], ['W', 'w'], ['X', 'x'], ['Y', 'y'], ['Z', 'z'], ['ß', '\u1E9E'], ['À', 'à'],
   ['Á', 'á'], ['Â', 'â'], ['Ã', 'ã'], ['Ä', 'ä'], ['Å', 'å', '\u212B'], ['Æ', 'æ'], ['Ç', 'ç'],
   ['È', 'è'], ['É', 'é'], ['Ê', 'ê'], ['Ë', 'ë'], ['Ì', 'ì'], ['Í', 'í'], ['Î', 'î'],
   ['Ï', 'ï'], ['Ð', 'ð'], ['Ñ', 'ñ'], ['Ò', 'ò'], ['Ó', 'ó'], ['Ô', 'ô'], ['Õ', 'õ'],
   ['Ö', 'ö'], ['Ø', 'ø'], ['Ù', 'ù'], ['Ú', 'ú'], ['Û', 'û'], ['Ü', 'ü'], ['Ý', 'ý'],
   ['Þ', 'þ'], ['ÿ', 'Ÿ'], ['Ā', 'ā'], ['Ă', 'ă'], ['Ą', 'ą'], ['Ć', 'ć'], ['Ĉ', 'ĉ'],
   ['Ċ', 'ċ'], ['Č', 'č'], ['Ď', 'ď'], ['Đ', 'đ'], ['Ē', 'ē'], ['Ĕ', 'ĕ'], ['Ė', 'ė'],
   ['Ę', 'ę'], ['Ě', 'ě'], ['Ĝ', 'ĝ'], ['Ğ', 'ğ'], ['Ġ', 'ġ'], ['Ģ', 'ģ'], ['Ĥ', 'ĥ'],
   ['Ħ', 'ħ'], ['Ĩ', 'ĩ'], ['Ī', 'ī'], ['Ĭ', 'ĭ'], ['Į', 'į'], ['Ĳ', 'ĳ'], ['Ĵ', 'ĵ'],
   ['Ķ', 'ķ'], ['Ĺ', 'ĺ'], ['Ļ', 'ļ'], ['Ľ', 'ľ'], ['Ŀ', 'ŀ'], ['Ł', 'ł'], ['Ń', 'ń'],
   ['Ņ', 'ņ'], ['Ň', 'ň'], ['Ŋ', 'ŋ'], ['Ō', 'ō'], ['Ŏ', 'ŏ'], ['Ő', 'ő'], ['Œ', 'œ'],
   ['Ŕ', 'ŕ'], ['Ŗ', 'ŗ'], ['Ř', 'ř'], ['Ś', 'ś'], ['Ŝ', 'ŝ'], ['Ş', 'ş'], ['Š', 'š'],
   ['Ţ', 'ţ'], ['Ť', 'ť'], ['Ŧ', 'ŧ'], ['Ũ', 'ũ'], ['Ū', 'ū'], ['Ŭ', 'ŭ'], ['Ů', 'ů'],
   ['Ű', 'ű'], ['Ų', 'ų'], ['Ŵ', 'ŵ'], ['Ŷ', 'ŷ'], ['Ź', 'ź'], ['Ż', 'ż'], ['Ž', 'ž'],
   ['µ', '\u039C', '\u03BC']]

/-- A database with group 7 = questions 11, 12, 13, group 8 = questions 21, 22, the
test `"ABCD"` with ordered questions 5, 6, 7, open access, and no session yet. -/
def demoWorld : World :=
  { quiz_sessions := [], nextSessionID := 1, questionRequestedTimeDefault := 0,
    questions := [demoQuestion 11 7, demoQuestion 12 7, demoQuestion 13 7,
                  demoQuestion 21 8, demoQuestion 22 8,
                  demoQuestion 5 9, demoQuestion 6 9, demoQuestion 7 9],
    tests := [{ ID := 3, Code := "ABCD", Name := "midterm", CreatedBy := 1, CreatedAt := 0 }],
    test_questions := [⟨3, 6, 1⟩, ⟨3, 5, 0⟩, ⟨3, 7, 2⟩],
    settings := [("quiz_security_mode", "open"), ("time_limit", "30")],
    quiz_user_access := [], quiz_user_registry := [],
    clock := 1000, faults := [], random := [], ticks := [],
    statsReplies := [], statsAddr := "http://stats:8080/stats",
    caseOrbits := demoOrbits, trace := [] }

/-- A session of user 42 with the given position. -/
def demoSession (id : Int) (status : QuizStatus) (cq group : Int) (order : List Int)
    (test : Option Int) (created : Time) : QuizSession :=
  { ID := id, UserID := 42, Mode := QuizModeClassic, Status := status, ScreenSize := "800x600",
    CurrentQuestionID := cq, CurrentGroup := group, GroupOrder := order,
    CreatedAt := some created, UpdatedAt := some created, FinishedAt := none,
    QuestionRequestedTime := created, TestID := test,
    TestCode := test.map (fun _ => "ABCD") }

/-- The test session of the scenario: test `"ABCD"`, order 5, 6, 7, on its last question. -/
def demoTest7 : QuizSession := demoSession 2 QuizStatusInProgress 7 0 [5, 6, 7] (some 3) 1000

/-- A test session whose order repeats question 7. -/
def demoDup7 : QuizSession := demoSession 2 QuizStatusInProgress 7 0 [7, 5, 7] (some 3) 1000

/-- The free-roam session of the scenario: group 7 in the order 12, 11, 13, on question 12. -/
def demoFree12 : QuizSession := demoSession 1 QuizStatusNotStarted 12 7 [12, 11, 13] none 1000

/-- The free-roam session of the scenario on the last question of its group. -/
def demoFree13 : QuizSession := demoSession 1 QuizStatusInProgress 13 7 [12, 11, 13] none 1000

/-- A free-roam session whose order repeats question 13. -/
def demoFreeDup : QuizSession := demoSession 1 QuizStatusInProgress 13 7 [13, 11, 13] none 1000

/-- A stored session whose current question, 11, is not in its order. -/
def demoCorrupt : QuizSession := demoSession 4 QuizStatusInProgress 11 7 [12, 13] none 1000

/-- An answer as a client submits it. -/
def demoAnswer : QuestionAnswer :=
  { QuestionID := 0, Answer := " predominantly HORIZONTAL ", IsCorrect := false,
    ScreenSize := "800x600", TimeSpent := 0, CaseCode := "" }

/-- The demo database holding the free-roam session of the scenario. -/
def demoStore : World := { demoWorld with quiz_sessions := [demoFree12], nextSessionID := 2 }

/-- A start request without test code. -/
def demoStart : StartQuizPayload :=
  { Mode := QuizModeClassic, ScreenWidth := 800, ScreenHeight := 600, TestCode := "" }

/-- A start request with the test code `"ABCD"`, padded with blanks. -/
def demoStartTest : StartQuizPayload :=
  { Mode := QuizModeClassic, ScreenWidth := 800, ScreenHeight := 600, TestCode := " ABCD " }

/-- A finished free-roam session of user 42, stopped on question 12. -/
def demoFinished : QuizSession :=
  { demoSession 5 QuizStatusFinished 12 7 [12, 11, 13] none 900 with FinishedAt := some 950 }

/-- The demo database holding only the finished session. -/
def demoFinishedStore : World := { demoWorld with quiz_sessions := [demoFinished], nextSessionID := 6 }

/-- The fresh free-roam ordering the demo database yields for user 42: group 7 in
table order (the `random` tape is empty). -/
def demoFresh : QuizSession :=
  { QuizSession.zero with
    Mode := QuizModeClassic, UserID := 42, Status := QuizStatusNotStarted, ScreenSize := "800x600",
    CurrentQuestionID := 11, CurrentGroup := 7, GroupOrder := [11, 12, 13] }

/-- The test `"ABCD"` of the demo database. -/
def demoTestRow : Test := { ID := 3, Code := "ABCD", Name := "midterm", CreatedBy := 1, CreatedAt := 0 }

/-- A start request with a test code no test has. -/
def demoStartUnknown : StartQuizPayload :=
  { Mode := QuizModeClassic, ScreenWidth := 800, ScreenHeight := 600, TestCode := "ZZZZ" }

/-- A finished session of user 42 created after the free-roam session of the scenario. -/
def demoFinishedLater : QuizSession :=
  { demoSession 7 QuizStatusFinished 21 8 [21, 22] none 1100 with FinishedAt := some 1150 }

/-- A store in which user 42 has one live session, which is not the most recent one. -/
def demoOlderLive : World :=
  { demoWorld with quiz_sessions := [demoFree12, demoFinishedLater], nextSessionID := 8,
                   clock := 2000 }

/-- The demo database holding the test session of the scenario, on its last question. -/
def demoTestStore : World := { demoWorld with quiz_sessions := [demoTest7], nextSessionID := 3 }

/-- The demo database holding the free-roam session on the last question of its group. -/
def demoLastFreeStore : World := { demoWorld with quiz_sessions := [demoFree13], nextSessionID := 2 }

/-- The store of `demoOlderLive`, at clock 2000, with a driver that fails the fifth SQL
statement to come. -/
def demoUpdateFails : World :=
  { demoOlderLive with faults := [false, false, false, false, true] }

/-- An answer naming the option that is not the correct one. -/
def demoWrongAnswer : QuestionAnswer := { demoAnswer with Answer := "Predominantly vertical" }

/-- The correct option of the demo questions in capitals, with white space around it. -/
def demoShoutedAnswer : QuestionAnswer :=
  { demoAnswer with Answer := "\t PREDOMINANTLY HORIZONTAL\n" }

/-- A repository whose only question has the id 0. -/
def demoZeroWorld : World := { demoWorld with questions := [demoQuestion 0 7] }

/-- The same repository with a driver that fails the sixth SQL statement to come. -/
def demoZeroFaulty : World :=
  { demoZeroWorld with faults := [false, false, false, false, false, true] }

/-- The demo store with a stats service that answers the next request with 500. -/
def demoRejectingStats : World := { demoStore with statsReplies := [StatsReply.status 500] }

/-- The demo database in cooldown mode, 24 hours, one hundred hours after the zero time,
with user 42 registered ten hours ago. -/
def demoCooldown : World :=
  { demoWorld with
    settings := [("quiz_security_mode", "cooldown"), ("quiz_cooldown_hours", "24"),
                 ("time_limit", "30")],
    quiz_user_registry := [(42, 90 * Hour)], clock := 100 * Hour }

/-- The same database with a driver that fails the third SQL statement to come, the
first `SELECT` of `UpsertAndGetRegisteredAt` in a `StartQuiz`. -/
def demoCooldownFaulty : World := { demoCooldown with faults := [false, false, true] }

/-- A store that picks group 8 and then returns no question for it, without error. -/
def demoEmptyGroupStore : SubmitAnswerHandler.Store Unit :=
  { GetNextQuestionGroupID := fun _ s => (Except.ok 8, s),
    GetGroupQuestionsIDsRandomOrder := fun _ s => (Except.ok [], s) }

/-- A test session on the first question of the order 5, -1. -/
def demoMinusOne : QuizSession := demoSession 2 QuizStatusInProgress 5 0 [5, -1] (some 3) 1000

/-- The test session of the scenario on its first question. -/
def demoTest5 : QuizSession := demoSession 2 QuizStatusInProgress 5 0 [5, 6, 7] (some 3) 1000

/-- The free-roam session of the scenario in educational mode. -/
def demoEducational : QuizSession := { demoFree12 with Mode := QuizModeEducational }

/-- The demo database holding the educational session. -/
def demoEducationalStore : World :=
  { demoWorld with quiz_sessions := [demoEducational], nextSessionID := 2 }

/-- An answer of white space only. -/
def demoBlankAnswer : QuestionAnswer := { demoAnswer with Answer := "  \t " }

/-- The demo store with a stats service that cannot be reached. -/
def demoUnreachableStats : World := { demoStore with statsReplies := [StatsReply.transportError] }

/-- The demo database in manual mode, with user 42 approved and user 7 on record as not
approved. -/
def demoManual : World :=
  { demoWorld with
    settings := [("quiz_security_mode", "manual"), ("time_limit", "30")],
    quiz_user_access := [(42, true), (7, false)] }

/-- The cooldown database with the cooldown set to 2562048 hours, more than a
`time.Duration` can hold. -/
def demoCooldownOverflow : World :=
  { demoCooldown with
    settings := [("quiz_security_mode", "cooldown"), ("quiz_cooldown_hours", "2562048"),
                 ("time_limit", "30")] }

/-- A cooldown of 5000 hours, read one thousand hours after the zero time for a user whose
wait ends 16777216.999999999 seconds after the second reading of the clock. -/
def demoCooldownLong : World :=
  { demoWorld with
    settings := [("quiz_security_mode", "cooldown"), ("quiz_cooldown_hours", "5000"),
                 ("time_limit", "30")],
    quiz_user_registry := [(42, 2377217000000001)], clock := 1000 * Hour }

/-- The demo store with a question 12 whose options are Polish words; the correct one is
`"przód"`. -/
def demoPolishStore : World :=
  { demoStore with
    questions := [{ demoQuestion 12 7 with options := ["przód", "tył"],
                                           correct_options := ["przód"] },
                  demoQuestion 11 7, demoQuestion 13 7] }

/-- The correct option of the Polish question in capitals, with white space around it. -/
def demoPolishAnswer : QuestionAnswer := { demoAnswer with Answer := " PRZÓD\n" }

/-- The demo database with a test `"ABCD"` whose ordered questions are 0 and 5: the ids of
a test are taken from the request that creates it as they come. -/
def demoTestZero : World := { demoWorld with test_questions := [⟨3, 0, 0⟩, ⟨3, 5, 1⟩] }

/-- The same database with a driver that fails the sixth SQL statement to come. -/
def demoTestZeroFaulty : World :=
  { demoTestZero with faults := [false, false, false, false, false, true] }

/-! ## Lemmas about the scan of `group_order` -/


theorem rangeFind_eq (cur : Int) (l : List Int) (i : Nat) :
    rangeFind cur l i = if cur ∈ l then some (i + l.indexOf cur) else none := by
  induction l generalizing i with
  | nil => simp [rangeFind]
  | cons q rest ih =>
    by_cases h : q = cur
    · subst h
      simp [rangeFind]
    · have h2 : ¬ cur = q := fun e => h e.symm
      simp only [rangeFind, h, if_false, ih, List.mem_cons, h2, false_or,
        List.indexOf_cons_ne _ h]
      split
      · congr 1
        omega
      · rfl

theorem indexOf_le_of_get (cur : Int) (l : List Int) (k : Nat) (h : l.get? k = some cur) :
    l.indexOf cur ≤ k := by
  induction l generalizing k with
  | nil => simp at h
  | cons q rest ih =>
    by_cases hq : q = cur
    · subst hq; simp
    · cases k with
      | zero => simp at h; exact absurd h hq
      | succ k =>
        rw [List.indexOf_cons_ne _ hq]
        have := ih k (by simpa using h)
        omega

/-- A value that is the final element and occurs nowhere before it is first found at
the final position. -/
theorem indexOf_of_last (cur : Int) (l : List Int) (hlast : l.getLast? = some cur)
    (hfirst : cur ∉ l.dropLast) : cur ∈ l ∧ l.indexOf cur + 1 = l.length := by
  have hmem : cur ∈ l := List.mem_of_getLast?_eq_some hlast
  refine ⟨hmem, ?_⟩
  have hne : l ≠ [] := List.ne_nil_of_mem hmem
  have hl : l = l.dropLast ++ [cur] := by
    have h1 := List.dropLast_append_getLast hne
    have h2 : l.getLast hne = cur := by
      rw [List.getLast?_eq_getLast _ hne] at hlast
      exact Option.some.inj hlast
    rw [h2] at h1
    exact h1.symm
  have hlen : l.length = l.dropLast.length + 1 := by
    conv_lhs => rw [hl]
    simp
  rw [hlen]
  conv_lhs => rw [hl]
  rw [List.indexOf_append_of_not_mem hfirst]
  simp


theorem rangeFind_of_mem (cur : Int) (l : List Int) (h : cur ∈ l) :
    rangeFind cur l 0 = some (l.indexOf cur) := by
  rw [rangeFind_eq, if_pos h]; simp

theorem rangeFind_of_not_mem (cur : Int) (l : List Int) (h : cur ∉ l) :
    rangeFind cur l 0 = none := by
  rw [rangeFind_eq, if_neg h]

theorem Atoi_ne_empty (s : String) (id : Int) (h : Atoi s = some id) : s ≠ "" := by
  intro e
  subst e
  have h0 : Atoi "" = none := by decide
  rw [h0] at h
  exact Option.noConfusion h

/-- What `GetNextQuestion` does for an owned, unfinished session with no current question. -/
theorem getNext_noContent (sid : String) (id userID : Int) (w : World) (s : QuizSession)
    (hid : Atoi sid = some id)
    (hs : (PostgresStorage.GetQuizSessionByID id w).1 = Except.ok s)
    (hown : s.UserID = userID) (hst : s.Status ≠ QuizStatusFinished)
    (hcq : s.CurrentQuestionID ≤ 0) :
    GetNextQuestionHandler.Handle sid userID w =
      (some { status := 204, headers := [], body := Body.empty },
       (PostgresStorage.GetQuizSessionByID id w).2) := by
  have hne := Atoi_ne_empty sid id hid
  unfold GetNextQuestionHandler.Handle
  simp only [hne, if_false, hid, hs]
  have hst2 : ¬ s.Status = "finished" := hst
  simp [hown, hst2, hcq]

theorem GetQuizSessionByID_sessions (id : Int) (w : World) :
    (PostgresStorage.GetQuizSessionByID id w).2.quiz_sessions = w.quiz_sessions := by
  unfold PostgresStorage.GetQuizSessionByID
  simp only [World.stmt, World.log]
  split
  · rfl
  · split <;> rfl

theorem GetQuizSessionByID_trace (id : Int) (w : World) :
    (PostgresStorage.GetQuizSessionByID id w).2.trace = w.trace ++ [Call.GetQuizSessionByID id] := by
  unfold PostgresStorage.GetQuizSessionByID
  simp only [World.stmt, World.log]
  split
  · rfl
  · split <;> rfl


theorem GetNextQuestionGroupID_trace (cg : Int) (w : World) :
    (PostgresStorage.GetNextQuestionGroupID cg w).2.trace =
      w.trace ++ [Call.GetNextQuestionGroupID cg] := by
  unfold PostgresStorage.GetNextQuestionGroupID
  simp only [World.stmt, World.log, World.rand]
  split
  · rfl
  · split <;> rfl

theorem GetGroupQuestionsIDsRandomOrder_trace (g : Int) (w : World) :
    (PostgresStorage.GetGroupQuestionsIDsRandomOrder g w).2.trace =
      w.trace ++ [Call.GetGroupQuestionsIDsRandomOrder g] := by
  unfold PostgresStorage.GetGroupQuestionsIDsRandomOrder
  simp only [World.stmt, World.log, World.rand]
  split <;> rfl

/-- The group `GetNextQuestionGroupID` draws is not the excluded one. -/
theorem GetNextQuestionGroupID_ne (cg g : Int) (w : World) (hcg : cg ≠ 0)
    (h : (PostgresStorage.GetNextQuestionGroupID cg w).1 = Except.ok g) : g ≠ cg := by
  unfold PostgresStorage.GetNextQuestionGroupID at h
  simp only [World.stmt, World.log, World.rand, hcg, if_false] at h
  split at h
  · simp at h
  · split at h
    · simp at h
    · rename_i g0 gs heq
      simp only [Except.ok.injEq] at h
      have hlt : (w.random.headD 0) % (g0 :: gs).length < (g0 :: gs).length :=
        Nat.mod_lt _ (by simp)
      have hmem : g ∈ g0 :: gs := by
        rw [← h, List.getD_eq_getElem _ _ hlt]
        exact List.getElem_mem _
      rw [← heq] at hmem
      have := (List.mem_filter.mp hmem).2
      simpa using this


/-! ## Frame lemmas: what the read-only calls leave unchanged -/

theorem Frame.refl (w : World) : Frame w w :=
  ⟨rfl, rfl, rfl, rfl, rfl, rfl, rfl, rfl, rfl, le_refl _, List.suffix_refl _, List.suffix_refl _, rfl⟩

theorem Frame.trans {a b c : World} (h1 : Frame a b) (h2 : Frame b c) : Frame a c :=
  ⟨h2.sessions.trans h1.sessions, h2.nextID.trans h1.nextID, h2.qrtDefault.trans h1.qrtDefault,
   h2.questions.trans h1.questions, h2.tests.trans h1.tests,
   h2.test_questions.trans h1.test_questions, h2.settings.trans h1.settings,
   h2.access.trans h1.access, h2.statsAddr.trans h1.statsAddr,
   le_trans h1.clock h2.clock, h2.faults.trans h1.faults, h2.ticks.trans h1.ticks,
   h2.writes.trans h1.writes⟩

theorem Frame.noFaults {w w' : World} (h : Frame w w') (hf : NoFaults w) : NoFaults w' :=
  fun b hb => hf b (h.faults.subset hb)

theorem Frame.posTicks {w w' : World} (h : Frame w w') (hf : PosTicks w) : PosTicks w' :=
  fun b hb => hf b (h.ticks.subset hb)

theorem frame_log (c : Call) (w : World) (hc : c.isWrite = false) : Frame w (w.log c) :=
  ⟨rfl, rfl, rfl, rfl, rfl, rfl, rfl, rfl, rfl, le_refl _, List.suffix_refl _, List.suffix_refl _,
   by simp [World.log, List.filter_append, hc]⟩

theorem frame_stmt (w : World) : Frame w w.stmt.2 :=
  ⟨rfl, rfl, rfl, rfl, rfl, rfl, rfl, rfl, rfl, le_refl _, List.tail_suffix _, List.suffix_refl _, rfl⟩

theorem frame_now (w : World) : Frame w w.now.2 :=
  ⟨rfl, rfl, rfl, rfl, rfl, rfl, rfl, rfl, rfl, by simp [World.now], List.suffix_refl _,
   List.tail_suffix _, rfl⟩

theorem frame_rand (w : World) : Frame w w.rand.2 :=
  ⟨rfl, rfl, rfl, rfl, rfl, rfl, rfl, rfl, rfl, le_refl _, List.suffix_refl _, List.suffix_refl _, rfl⟩

theorem frame_statsDo (w : World) : Frame w w.statsDo.2 :=
  ⟨rfl, rfl, rfl, rfl, rfl, rfl, rfl, rfl, rfl, le_refl _, List.suffix_refl _, List.suffix_refl _, rfl⟩

theorem frame_log_stmt (c : Call) (w : World) (hc : c.isWrite = false) :
    Frame w (w.log c).stmt.2 :=
  (frame_log c w hc).trans (frame_stmt _)

theorem stmt_noFaults (w : World) (hf : NoFaults w) : w.stmt.1 = false := by
  unfold World.stmt
  cases h : w.faults with
  | nil => rfl
  | cons b rest => simpa using hf b (by simp [h])

theorem log_stmt_noFaults (c : Call) (w : World) (hf : NoFaults w) : (w.log c).stmt.1 = false :=
  stmt_noFaults _ hf

theorem frame_GetQuizSessionByID (id : Int) (w : World) :
    Frame w (PostgresStorage.GetQuizSessionByID id w).2 := by
  unfold PostgresStorage.GetQuizSessionByID
  have h := frame_log_stmt (Call.GetQuizSessionByID id) w rfl
  dsimp only
  split
  · exact h
  · split <;> exact h

theorem frame_GetUserLastQuizSession (u : Int) (w : World) :
    Frame w (PostgresStorage.GetUserLastQuizSession u w).2 := by
  unfold PostgresStorage.GetUserLastQuizSession
  have h := frame_log_stmt (Call.GetUserLastQuizSession u) w rfl
  dsimp only
  split
  · exact h
  · split <;> exact h

theorem frame_GetQuestionByID (id : Int) (w : World) :
    Frame w (PostgresStorage.GetQuestionByID id w).2 := by
  unfold PostgresStorage.GetQuestionByID
  have h := frame_log_stmt (Call.GetQuestionByID id) w rfl
  dsimp only
  split
  · exact h
  · split
    · exact h
    · split
      · exact h
      · split
        · exact h.trans (frame_stmt _)
        · split
          · exact (h.trans (frame_stmt _)).trans (frame_stmt _)
          · exact (h.trans (frame_stmt _)).trans (frame_stmt _)

theorem frame_GetQuestionCorrectOption (id : Int) (w : World) :
    Frame w (PostgresStorage.GetQuestionCorrectOption id w).2 := by
  unfold PostgresStorage.GetQuestionCorrectOption
  have h := frame_log_stmt (Call.GetQuestionCorrectOption id) w rfl
  dsimp only
  split
  · exact h
  · split <;> exact h

theorem frame_GetGroupQuestionsIDsRandomOrder (g : Int) (w : World) :
    Frame w (PostgresStorage.GetGroupQuestionsIDsRandomOrder g w).2 := by
  unfold PostgresStorage.GetGroupQuestionsIDsRandomOrder
  have h := frame_log_stmt (Call.GetGroupQuestionsIDsRandomOrder g) w rfl
  dsimp only
  split
  · exact h
  · exact h.trans (frame_rand _)

theorem frame_GetNextQuestionGroupID (g : Int) (w : World) :
    Frame w (PostgresStorage.GetNextQuestionGroupID g w).2 := by
  unfold PostgresStorage.GetNextQuestionGroupID
  have h := frame_log_stmt (Call.GetNextQuestionGroupID g) w rfl
  dsimp only
  split
  · exact h
  · split
    · exact h
    · exact h.trans (frame_rand _)

theorem frame_GetTimeLimit (w : World) : Frame w (PostgresStorage.GetTimeLimit w).2 := by
  unfold PostgresStorage.GetTimeLimit
  have h := frame_log_stmt Call.GetTimeLimit w rfl
  dsimp only
  split
  · exact h
  · split
    · exact h
    · split <;> exact h

theorem frame_GetSecuritySettings (w : World) :
    Frame w (PostgresStorage.GetSecuritySettings w).2 := by
  unfold PostgresStorage.GetSecuritySettings
  exact (frame_log_stmt Call.GetSecuritySettings w rfl).trans (frame_stmt _)

theorem frame_IsUserApproved (u : Int) (w : World) :
    Frame w (PostgresStorage.IsUserApproved u w).2 := by
  unfold PostgresStorage.IsUserApproved
  have h := frame_log_stmt (Call.IsUserApproved u) w rfl
  dsimp only
  split
  · exact h
  · split <;> exact h

theorem frame_GetTestByCode (c : String) (w : World) :
    Frame w (PostgresStorage.GetTestByCode c w).2 := by
  unfold PostgresStorage.GetTestByCode
  have h := frame_log_stmt (Call.GetTestByCode c) w rfl
  dsimp only
  split <;> exact h

theorem frame_GetTestQuestionIDsOrdered (t : Int) (w : World) :
    Frame w (PostgresStorage.GetTestQuestionIDsOrdered t w).2 := by
  unfold PostgresStorage.GetTestQuestionIDsOrdered
  have h := frame_log_stmt (Call.GetTestQuestionIDsOrdered t) w rfl
  dsimp only
  split <;> exact h


theorem frame_SaveResponse (id : Int) (a : QuestionAnswer) (w : World) :
    Frame w (StatsClient.SaveResponse id a w).2 := by
  unfold StatsClient.SaveResponse
  have h := (frame_log (Call.HttpPost (w.statsAddr ++ "/sessions/" ++ Itoa id ++ "/respond")
              (StatsBody.answer a)) w rfl).trans (frame_statsDo _)
  dsimp only
  split
  · exact h
  · split <;> exact h

theorem frame_SaveSession (s : QuizSession) (w : World) :
    Frame w (StatsClient.SaveSession s w).2 := by
  unfold StatsClient.SaveSession
  have h := (frame_log (Call.HttpPost (w.statsAddr ++ "/sessions/save")
              (StatsBody.session s)) w rfl).trans (frame_statsDo _)
  dsimp only
  split
  · exact h
  · split <;> exact h

theorem frame_FinishSession (id : Int) (w : World) :
    Frame w (StatsClient.FinishSession id w).2 := by
  unfold StatsClient.FinishSession
  have h := (frame_log (Call.HttpPost (w.statsAddr ++ "/sessions" ++ Itoa id ++ "/finish")
              StatsBody.none) w rfl).trans (frame_statsDo _)
  dsimp only
  split
  · exact h
  · split <;> exact h

theorem setNext_not_found (qs : QuizSession) (w : World)
    (h : qs.CurrentQuestionID ∉ qs.GroupOrder) :
    SubmitAnswerHandler.SetNextQuestionID qs w =
      ((Outcome.error (GoError.errorf "question not found in group order"), qs), w) := by
  unfold SubmitAnswerHandler.SetNextQuestionID
  rw [rangeFind_of_not_mem _ _ h]
  split <;> rfl

/-- When the stored session's current question is not in its order, `SubmitAnswer`
only reads, and answers a decodable request with an internal error. -/
theorem submit_not_found (sid : String) (id userID : Int) (body : Option QuestionAnswer)
    (w : World) (s : QuizSession)
    (hid : Atoi sid = some id)
    (hs : (PostgresStorage.GetQuizSessionByID id w).1 = Except.ok s)
    (hnot : s.CurrentQuestionID ∉ s.GroupOrder) :
    Frame w (SubmitAnswerHandler.Handle sid userID body w).2 ∧
    (body ≠ none → (SubmitAnswerHandler.Handle sid userID body w).1 =
        some (httpError "internal server error" 500)) := by
  have hne := Atoi_ne_empty sid id hid
  have f1 := frame_GetQuizSessionByID id w
  have f2 := f1.trans (frame_now (PostgresStorage.GetQuizSessionByID id w).2)
  have f3 := f2.trans (frame_GetQuestionCorrectOption s.CurrentQuestionID
    (PostgresStorage.GetQuizSessionByID id w).2.now.2)
  have f4 := f3.trans (frame_GetQuestionByID s.CurrentQuestionID
    (PostgresStorage.GetQuestionCorrectOption s.CurrentQuestionID
      (PostgresStorage.GetQuizSessionByID id w).2.now.2).2)
  unfold SubmitAnswerHandler.Handle
  simp only [hne, if_false, hid, hs]
  split
  · exact ⟨f2, fun _ => rfl⟩
  · split
    · exact ⟨f3, fun _ => rfl⟩
    · cases body with
      | none => exact ⟨f3, fun h => absurd rfl h⟩
      | some answer =>
        dsimp only
        split
        · exact ⟨f4, fun _ => rfl⟩
        · rw [setNext_not_found _ _ (by simpa using hnot)]
          dsimp only
          by_cases hE : s.Mode = QuizModeEducational ∧ TrimSpace answer.Answer = ""
          · simp only [hE, and_self, if_true]
            exact ⟨f4, fun _ => trivial⟩
          · simp only [hE, if_false]
            split
            · exact ⟨f4.trans (frame_SaveResponse _ _ _), fun _ => rfl⟩
            · exact ⟨f4.trans (frame_SaveResponse _ _ _), fun _ => rfl⟩


/-! ## Writes of the session store -/

theorem Frame.env {w w' : World} (h : Frame w w') : Env w w' :=
  ⟨h.qrtDefault, h.questions, h.tests, h.test_questions, h.settings, h.access, h.statsAddr,
   h.clock, h.faults, h.ticks⟩

theorem Env.same (w : World) : Env w w := (Frame.refl w).env

theorem Env.comp {a b c : World} (h1 : Env a b) (h2 : Env b c) : Env a c :=
  ⟨h2.qrtDefault.trans h1.qrtDefault, h2.questions.trans h1.questions, h2.tests.trans h1.tests,
   h2.test_questions.trans h1.test_questions, h2.settings.trans h1.settings,
   h2.access.trans h1.access, h2.statsAddr.trans h1.statsAddr,
   le_trans h1.clock h2.clock, h2.faults.trans h1.faults, h2.ticks.trans h1.ticks⟩

theorem Env.keepsNoFaults {w w' : World} (h : Env w w') (hf : NoFaults w) : NoFaults w' :=
  fun b hb => hf b (h.faults.subset hb)

theorem Env.keepsPosTicks {w w' : World} (h : Env w w') (hf : PosTicks w) : PosTicks w' :=
  fun b hb => hf b (h.ticks.subset hb)

theorem AllRows.of_frame {P : QuizSession → Prop} {w w' : World} (h : Frame w w')
    (hP : AllRows P w) : AllRows P w' := by
  unfold AllRows
  rw [h.sessions]
  exact hP

theorem env_update (s : QuizSession) (w : World) :
    Env w (PostgresStorage.UpdateQuizSession s w).2 := by
  unfold PostgresStorage.UpdateQuizSession
  have h1 : Env w (w.log (Call.UpdateQuizSession s)).stmt.2 :=
    ⟨rfl, rfl, rfl, rfl, rfl, rfl, rfl, le_refl _, List.tail_suffix _, List.suffix_refl _⟩
  dsimp only
  split
  · exact h1
  · exact h1.comp
      ⟨rfl, rfl, rfl, rfl, rfl, rfl, rfl, by simp [World.now, World.stmt, World.log],
       List.suffix_refl _, List.tail_suffix _⟩

theorem update_nextID (s : QuizSession) (w : World) :
    (PostgresStorage.UpdateQuizSession s w).2.nextSessionID = w.nextSessionID := by
  unfold PostgresStorage.UpdateQuizSession
  dsimp only
  split <;> rfl

/-- What `UpdateQuizSession` does to the rows: nothing when the driver fails, else the
`SET` list on every row with the id. -/
theorem update_cases (s : QuizSession) (w : World) :
    ((PostgresStorage.UpdateQuizSession s w).1 = some GoError.driver ∧
      (PostgresStorage.UpdateQuizSession s w).2.quiz_sessions = w.quiz_sessions) ∨
    ((PostgresStorage.UpdateQuizSession s w).1 = none ∧
      (PostgresStorage.UpdateQuizSession s w).2.quiz_sessions =
        w.quiz_sessions.map (fun r =>
          if r.ID = s.ID then
            PostgresStorage.updateRow s (PostgresStorage.UpdateQuizSession s w).2.clock r
          else r)) := by
  unfold PostgresStorage.UpdateQuizSession
  dsimp only
  split
  · exact Or.inl ⟨rfl, rfl⟩
  · exact Or.inr ⟨rfl, rfl⟩

theorem update_ok (s : QuizSession) (w : World) (hf : NoFaults w) :
    (PostgresStorage.UpdateQuizSession s w).1 = none ∧
    (PostgresStorage.UpdateQuizSession s w).2.quiz_sessions =
      w.quiz_sessions.map (fun r =>
        if r.ID = s.ID then
          PostgresStorage.updateRow s (PostgresStorage.UpdateQuizSession s w).2.clock r
        else r) := by
  rcases update_cases s w with h | h
  · exfalso
    have h0 := log_stmt_noFaults (Call.UpdateQuizSession s) w hf
    have h1 := h.1
    unfold PostgresStorage.UpdateQuizSession at h1
    simp [h0] at h1
  · exact h

theorem update_trace (s : QuizSession) (w : World) :
    (PostgresStorage.UpdateQuizSession s w).2.trace = w.trace ++ [Call.UpdateQuizSession s] := by
  unfold PostgresStorage.UpdateQuizSession
  dsimp only
  split <;> rfl

/-- The row `CreateQuizSession` inserts. -/
theorem env_create (s : QuizSession) (w : World) :
    Env w (PostgresStorage.CreateQuizSession s w).2 := by
  unfold PostgresStorage.CreateQuizSession
  have h1 : Env w (w.log (Call.CreateQuizSession s)).stmt.2 :=
    ⟨rfl, rfl, rfl, rfl, rfl, rfl, rfl, le_refl _, List.tail_suffix _, List.suffix_refl _⟩
  dsimp only
  split
  · exact h1
  · exact h1.comp
      ⟨rfl, rfl, rfl, rfl, rfl, rfl, rfl, by simp [World.now, World.stmt, World.log],
       List.suffix_refl _, List.tail_suffix _⟩

theorem create_cases (s : QuizSession) (w : World) :
    ((PostgresStorage.CreateQuizSession s w).1 = Except.error GoError.driver ∧
      (PostgresStorage.CreateQuizSession s w).2.quiz_sessions = w.quiz_sessions ∧
      (PostgresStorage.CreateQuizSession s w).2.nextSessionID = w.nextSessionID) ∨
    (∃ (row : QuizSession) (t : Time),
      (PostgresStorage.CreateQuizSession s w).1 =
        Except.ok { s with ID := w.nextSessionID, CreatedAt := some t, UpdatedAt := some t } ∧
      (PostgresStorage.CreateQuizSession s w).2.quiz_sessions = w.quiz_sessions ++ [row] ∧
      (PostgresStorage.CreateQuizSession s w).2.nextSessionID = w.nextSessionID + 1 ∧
      row.ID = w.nextSessionID ∧ row.UserID = s.UserID ∧ row.Mode = s.Mode ∧
      row.Status = s.Status ∧
      row.CurrentQuestionID = s.CurrentQuestionID ∧ row.CurrentGroup = s.CurrentGroup ∧
      row.GroupOrder = s.GroupOrder ∧ row.TestID = s.TestID ∧ row.TestCode = s.TestCode ∧
      row.FinishedAt = none ∧ row.CreatedAt = some t ∧
      t = (PostgresStorage.CreateQuizSession s w).2.clock ∧
      t = w.clock + ((w.ticks.headD 1 : Nat) : Int)) := by
  unfold PostgresStorage.CreateQuizSession
  dsimp only
  split
  · exact Or.inl ⟨rfl, rfl, rfl⟩
  · refine Or.inr ⟨_, (w.log (Call.CreateQuizSession s)).stmt.2.now.1, rfl, rfl, rfl, rfl, rfl,
      rfl, rfl, rfl, rfl, rfl, rfl, rfl, rfl, rfl, rfl, rfl⟩

theorem create_ok (s : QuizSession) (w : World) (hf : NoFaults w) :
    ∃ (row : QuizSession) (t : Time),
      (PostgresStorage.CreateQuizSession s w).1 =
        Except.ok { s with ID := w.nextSessionID, CreatedAt := some t, UpdatedAt := some t } ∧
      (PostgresStorage.CreateQuizSession s w).2.quiz_sessions = w.quiz_sessions ++ [row] ∧
      (PostgresStorage.CreateQuizSession s w).2.nextSessionID = w.nextSessionID + 1 ∧
      row.ID = w.nextSessionID ∧ row.UserID = s.UserID ∧ row.Mode = s.Mode ∧
      row.Status = s.Status ∧
      row.CurrentQuestionID = s.CurrentQuestionID ∧ row.CurrentGroup = s.CurrentGroup ∧
      row.GroupOrder = s.GroupOrder ∧ row.TestID = s.TestID ∧ row.TestCode = s.TestCode ∧
      row.FinishedAt = none ∧ row.CreatedAt = some t ∧
      t = (PostgresStorage.CreateQuizSession s w).2.clock ∧
      t = w.clock + ((w.ticks.headD 1 : Nat) : Int) := by
  rcases create_cases s w with h | h
  · exfalso
    have h0 := log_stmt_noFaults (Call.CreateQuizSession s) w hf
    have h1 := h.1
    unfold PostgresStorage.CreateQuizSession at h1
    simp [h0] at h1
  · exact h

theorem create_trace (s : QuizSession) (w : World) :
    (PostgresStorage.CreateQuizSession s w).2.trace = w.trace ++ [Call.CreateQuizSession s] := by
  unfold PostgresStorage.CreateQuizSession
  dsimp only
  split <;> rfl


/-! ## Reads of the session store -/

theorem lastCreated_mem (l : List QuizSession) (m : QuizSession)
    (h : PostgresStorage.lastCreated l = some m) : m ∈ l := by
  induction l generalizing m with
  | nil => simp [PostgresStorage.lastCreated] at h
  | cons r rs ih =>
    unfold PostgresStorage.lastCreated at h
    split at h
    · simp only [Option.some.injEq] at h
      subst h
      exact List.mem_cons_self _ _
    · rename_i m0 hm0
      split at h
      · simp only [Option.some.injEq] at h
        subst h
        exact List.mem_cons_of_mem _ (ih _ hm0)
      · simp only [Option.some.injEq] at h
        subst h
        exact List.mem_cons_self _ _

theorem GetQuizSessionByID_ok (id : Int) (w : World) (s : QuizSession)
    (h : (PostgresStorage.GetQuizSessionByID id w).1 = Except.ok s) :
    ∃ r ∈ w.quiz_sessions, r.ID = id ∧ s = { r with ScreenSize := "" } ∧
      w.quiz_sessions.find? (fun r => r.ID = id) = some r := by
  unfold PostgresStorage.GetQuizSessionByID at h
  dsimp only at h
  split at h
  · simp at h
  · split at h
    · simp at h
    · rename_i r hr
      simp only [Except.ok.injEq] at h
      have hr2 : w.quiz_sessions.find? (fun r => decide (r.ID = id)) = some r := hr
      refine ⟨r, List.mem_of_find?_eq_some hr2, ?_, h.symm, hr2⟩
      simpa using List.find?_some hr2

theorem GetUserLastQuizSession_some (u : Int) (w : World) (s : QuizSession)
    (h : (PostgresStorage.GetUserLastQuizSession u w).1 = Except.ok (some s)) :
    ∃ r ∈ w.quiz_sessions, r.UserID = u ∧
      s = { r with ScreenSize := "", QuestionRequestedTime := 0 } ∧
      PostgresStorage.lastCreated (w.quiz_sessions.filter (fun r => r.UserID = u)) = some r := by
  unfold PostgresStorage.GetUserLastQuizSession at h
  dsimp only at h
  split at h
  · simp at h
  · split at h
    · simp at h
    · rename_i r hr
      simp only [Except.ok.injEq, Option.some.injEq] at h
      have hr2 : PostgresStorage.lastCreated
          (w.quiz_sessions.filter (fun r => decide (r.UserID = u))) = some r := hr
      have hm := lastCreated_mem _ _ hr2
      rw [List.mem_filter] at hm
      exact ⟨r, hm.1, by simpa using hm.2, h.symm, hr2⟩

theorem GetUserLastQuizSession_ok (u : Int) (w : World) (hf : NoFaults w) :
    (PostgresStorage.GetUserLastQuizSession u w).1 =
      Except.ok ((PostgresStorage.lastCreated (w.quiz_sessions.filter (fun r => r.UserID = u))).map
        (fun r => { r with ScreenSize := "", QuestionRequestedTime := 0 })) := by
  have h0 := log_stmt_noFaults (Call.GetUserLastQuizSession u) w hf
  unfold PostgresStorage.GetUserLastQuizSession
  simp only [h0]
  have e : (w.log (Call.GetUserLastQuizSession u)).stmt.2.quiz_sessions = w.quiz_sessions := rfl
  rw [e]
  cases h : PostgresStorage.lastCreated (w.quiz_sessions.filter (fun r => decide (r.UserID = u))) <;>
    simp


/-! ## The blocks of `StartQuizHandler.Handle` -/

theorem frame_Upsert (u : Int) (w : World) :
    Frame w (PostgresStorage.UpsertAndGetRegisteredAt u w).2 := by
  unfold PostgresStorage.UpsertAndGetRegisteredAt
  have h := frame_log_stmt (Call.UpsertAndGetRegisteredAt u) w rfl
  dsimp only
  split
  · exact h
  · split
    · exact h.trans (frame_stmt _)
    · split
      · exact (h.trans (frame_stmt _)).trans (frame_stmt _)
      · refine (h.trans (frame_stmt _)).trans ((frame_now _).trans ?_)
        exact ⟨rfl, rfl, rfl, rfl, rfl, rfl, rfl, rfl, rfl, le_refl _, List.suffix_refl _,
          List.suffix_refl _, rfl⟩

theorem frame_policy (mode : String) (hours u : Int) (w : World) :
    Frame w (StartQuizHandler.policy mode hours u w).2 := by
  unfold StartQuizHandler.policy
  split
  · dsimp only
    split
    · exact frame_IsUserApproved _ _
    · split <;> exact frame_IsUserApproved _ _
  · split
    · dsimp only
      split
      · exact frame_Upsert _ _
      · split
        · exact ((frame_Upsert _ _).trans (frame_now _)).trans (frame_now _)
        · exact (frame_Upsert _ _).trans (frame_now _)
    · exact Frame.refl _

theorem frame_accessGate (u : Int) (w : World) :
    Frame w (StartQuizHandler.accessGate u w).2 := by
  unfold StartQuizHandler.accessGate
  exact (frame_GetSecuritySettings w).trans (frame_policy _ _ _ _)

theorem frame_buildTest (p : StartQuizPayload) (u : Int) (c : String) (w : World) :
    Frame w (StartQuizHandler.buildTest p u c w).2 := by
  unfold StartQuizHandler.buildTest
  dsimp only
  split
  · exact frame_GetTestByCode _ _
  · exact frame_GetTestByCode _ _
  · split
    · exact (frame_GetTestByCode _ _).trans (frame_GetTestQuestionIDsOrdered _ _)
    · exact (frame_GetTestByCode _ _).trans (frame_GetTestQuestionIDsOrdered _ _)
    · exact (frame_GetTestByCode _ _).trans (frame_GetTestQuestionIDsOrdered _ _)

theorem frame_buildFree (p : StartQuizPayload) (u : Int) (w : World) :
    Frame w (StartQuizHandler.buildFree p u w).2 := by
  unfold StartQuizHandler.buildFree
  dsimp only
  split
  · exact frame_GetNextQuestionGroupID _ _
  · split
    · exact (frame_GetNextQuestionGroupID _ _).trans (frame_GetGroupQuestionsIDsRandomOrder _ _)
    · exact (frame_GetNextQuestionGroupID _ _).trans (frame_GetGroupQuestionsIDsRandomOrder _ _)
    · exact (frame_GetNextQuestionGroupID _ _).trans (frame_GetGroupQuestionsIDsRandomOrder _ _)

theorem frame_regenerate (s : QuizSession) (w : World) :
    Frame w (StartQuizHandler.regenerate s w).2 := by
  unfold StartQuizHandler.regenerate
  split
  · dsimp only
    split
    · exact frame_GetNextQuestionGroupID _ _
    · split
      · exact (frame_GetNextQuestionGroupID _ _).trans (frame_GetGroupQuestionsIDsRandomOrder _ _)
      · exact (frame_GetNextQuestionGroupID _ _).trans (frame_GetGroupQuestionsIDsRandomOrder _ _)
  · exact Frame.refl _

theorem buildTest_valid (p : StartQuizPayload) (u : Int) (c : String) (w : World)
    (s : QuizSession) (h : (StartQuizHandler.buildTest p u c w).1 = Except.ok s) :
    s.CurrentQuestionID ∈ s.GroupOrder := by
  unfold StartQuizHandler.buildTest at h
  dsimp only at h
  split at h
  · simp at h
  · simp at h
  · split at h
    · simp at h
    · simp at h
    · simp only [Except.ok.injEq] at h
      subst h
      simp

theorem buildFree_valid (p : StartQuizPayload) (u : Int) (w : World)
    (s : QuizSession) (h : (StartQuizHandler.buildFree p u w).1 = Except.ok s) :
    s.CurrentQuestionID ∈ s.GroupOrder := by
  unfold StartQuizHandler.buildFree at h
  dsimp only at h
  split at h
  · simp at h
  · split at h
    · simp at h
    · simp at h
    · simp only [Except.ok.injEq] at h
      subst h
      simp

theorem regenerate_valid (s : QuizSession) (w : World) (h : PositionValid s) :
    PositionValid (StartQuizHandler.regenerate s w).1 := by
  unfold StartQuizHandler.regenerate
  split
  · dsimp only
    split
    · exact h
    · split
      · intro _
        simp
      · exact h
  · exact h


/-! ## The position invariant -/

theorem allRows_update {P : QuizSession → Prop} (s : QuizSession) (w : World)
    (hP : ∀ r t, r ∈ w.quiz_sessions → P r → P (PostgresStorage.updateRow s t r))
    (h : AllRows P w) : AllRows P (PostgresStorage.UpdateQuizSession s w).2 := by
  intro r hr
  rcases update_cases s w with hc | hc
  · rw [hc.2] at hr
    exact h r hr
  · rw [hc.2, List.mem_map] at hr
    obtain ⟨r0, hr0, rfl⟩ := hr
    split
    · exact hP r0 _ hr0 (h r0 hr0)
    · exact h r0 hr0

theorem allRows_create {P : QuizSession → Prop} (s : QuizSession) (w : World)
    (hP : ∀ row : QuizSession, row.CurrentQuestionID = s.CurrentQuestionID →
      row.GroupOrder = s.GroupOrder → row.Status = s.Status → row.UserID = s.UserID → P row)
    (h : AllRows P w) : AllRows P (PostgresStorage.CreateQuizSession s w).2 := by
  intro r hr
  rcases create_cases s w with hc | ⟨row, t, _, h2, _, _, hu, _, hst, hcq, _, hgo, _⟩
  · rw [hc.2.1] at hr
    exact h r hr
  · rw [h2, List.mem_append, List.mem_singleton] at hr
    rcases hr with hr | rfl
    · exact h r hr
    · exact hP _ hcq hgo hst hu

theorem positionValid_congr (a b : QuizSession) (h1 : b.CurrentQuestionID = a.CurrentQuestionID)
    (h2 : b.GroupOrder = a.GroupOrder) (h : PositionValid a) : PositionValid b := by
  unfold PositionValid at *
  rw [h1, h2]
  exact h

theorem positionValid_of_mem (s : QuizSession) (h : s.CurrentQuestionID ∈ s.GroupOrder) :
    PositionValid s := fun _ => h

theorem supersede_valid (c : String) (u : Int) (n : QuizSession) (w : World)
    (hn : PositionValid n) (h : AllRows PositionValid w) :
    PositionValid (StartQuizHandler.supersede c u n w).1 ∧
    AllRows PositionValid (StartQuizHandler.supersede c u n w).2 := by
  unfold StartQuizHandler.supersede
  dsimp only
  split
  · rename_i session hs
    obtain ⟨r, hr, _, rfl, _⟩ := GetUserLastQuizSession_some u w session hs
    have hv : PositionValid r := h r hr
    have h1 : AllRows PositionValid (PostgresStorage.GetUserLastQuizSession u w).2 :=
      AllRows.of_frame (frame_GetUserLastQuizSession u w) h
    have h2 := allRows_update
      { r with ScreenSize := "", QuestionRequestedTime := 0, FinishedAt := r.UpdatedAt,
               Status := QuizStatusFinished }
      (PostgresStorage.GetUserLastQuizSession u w).2
      (fun r0 t _ _ => positionValid_congr r _ rfl rfl hv) h1
    split
    · exact ⟨positionValid_congr r _ rfl rfl hv, h2⟩
    · exact ⟨hn, h2⟩
  · exact ⟨hn, AllRows.of_frame (frame_GetUserLastQuizSession u w) h⟩

theorem persist_valid (c : String) (u : Int) (n : QuizSession) (w : World)
    (hn : PositionValid n) (h : AllRows PositionValid w) :
    AllRows PositionValid (StartQuizHandler.persist c u n w).2 := by
  obtain ⟨h1, h2⟩ := supersede_valid c u n w hn h
  have h3 := regenerate_valid _ (StartQuizHandler.supersede c u n w).2 h1
  have h4 := AllRows.of_frame (frame_regenerate (StartQuizHandler.supersede c u n w).1
    (StartQuizHandler.supersede c u n w).2) h2
  have h5 := allRows_create _ _ (fun row e1 e2 _ _ => positionValid_congr _ row e1 e2 h3) h4
  unfold StartQuizHandler.persist
  dsimp only
  split
  · exact h5
  · split
    · exact AllRows.of_frame ((frame_SaveSession _ _).trans (frame_GetTimeLimit _)) h5
    · exact AllRows.of_frame ((frame_SaveSession _ _).trans (frame_GetTimeLimit _)) h5

theorem frame_build (p : StartQuizPayload) (u : Int) (c : String) (w : World) :
    Frame w (StartQuizHandler.build p u c w).2 := by
  unfold StartQuizHandler.build
  split
  · exact frame_buildTest _ _ _ _
  · exact frame_buildFree _ _ _

theorem build_valid (p : StartQuizPayload) (u : Int) (c : String) (w : World)
    (s : QuizSession) (h : (StartQuizHandler.build p u c w).1 = Except.ok s) :
    s.CurrentQuestionID ∈ s.GroupOrder := by
  unfold StartQuizHandler.build at h
  split at h
  · exact buildTest_valid _ _ _ _ _ h
  · exact buildFree_valid _ _ _ _ h

theorem start_valid (u : Int) (body : Option StartQuizPayload) (w : World)
    (h : AllRows PositionValid w) :
    AllRows PositionValid (StartQuizHandler.Handle u body w).2 := by
  have h1 := AllRows.of_frame (frame_accessGate u w) h
  unfold StartQuizHandler.Handle
  dsimp only
  split
  · exact h1
  · cases body with
    | none => exact h1
    | some payload =>
      dsimp only
      have h2 := AllRows.of_frame (frame_build payload u (TrimSpace payload.TestCode)
        (StartQuizHandler.accessGate u w).2) h1
      split
      · exact h2
      · rename_i s hs
        exact persist_valid _ _ _ _ (positionValid_of_mem _ (build_valid _ _ _ _ _ hs)) h2

theorem getNext_valid (sid : String) (u : Int) (w : World) (h : AllRows PositionValid w) :
    AllRows PositionValid (GetNextQuestionHandler.Handle sid u w).2 := by
  unfold GetNextQuestionHandler.Handle
  split
  · exact h
  · split
    · exact h
    · rename_i id hid
      have h1 := AllRows.of_frame (frame_GetQuizSessionByID id w) h
      dsimp only
      split
      · exact h1
      · rename_i s hs
        obtain ⟨r, hr, _, rfl, _⟩ := GetQuizSessionByID_ok id w s hs
        split
        · exact h1
        · split
          · exact h1
          · split
            · exact h1
            · have h2 := AllRows.of_frame (frame_GetQuestionByID r.CurrentQuestionID
                (PostgresStorage.GetQuizSessionByID id w).2) h1
              dsimp only
              split
              · exact h2
              · dsimp only
                exact allRows_update _ _
                  (fun r0 t _ _ => positionValid_congr r _ rfl rfl (h r hr))
                  (AllRows.of_frame (frame_now _) h2)

theorem finish_valid (sid : String) (w : World) (h : AllRows PositionValid w) :
    AllRows PositionValid (FinishQuizHandler.Handle sid w).2 := by
  unfold FinishQuizHandler.Handle
  split
  · exact h
  · split
    · exact h
    · rename_i id hid
      have h1 := AllRows.of_frame (frame_GetQuizSessionByID id w) h
      dsimp only
      split
      · exact h1
      · rename_i s hs
        obtain ⟨r, hr, _, rfl, _⟩ := GetQuizSessionByID_ok id w s hs
        dsimp only
        have h3 := AllRows.of_frame (frame_FinishSession id _)
          (allRows_update
            { r with ScreenSize := "", Status := QuizStatusFinished,
                     FinishedAt := some (PostgresStorage.GetQuizSessionByID id w).2.now.1 }
            (PostgresStorage.GetQuizSessionByID id w).2.now.2
            (fun r0 t _ _ => positionValid_congr r _ rfl rfl (h r hr))
            (AllRows.of_frame (frame_now _) h1))
        split
        · exact h3
        · exact h3


theorem frame_setNext (qs : QuizSession) (w : World) :
    Frame w (SubmitAnswerHandler.SetNextQuestionID qs w).2 := by
  unfold SubmitAnswerHandler.SetNextQuestionID
  split
  · split
    · split <;> exact Frame.refl _
    · exact Frame.refl _
  · split
    · split
      · exact Frame.refl _
      · dsimp only
        split
        · exact frame_GetNextQuestionGroupID _ _
        · split
          · exact (frame_GetNextQuestionGroupID _ _).trans (frame_GetGroupQuestionsIDsRandomOrder _ _)
          · exact (frame_GetNextQuestionGroupID _ _).trans (frame_GetGroupQuestionsIDsRandomOrder _ _)
          · exact (frame_GetNextQuestionGroupID _ _).trans (frame_GetGroupQuestionsIDsRandomOrder _ _)
    · exact Frame.refl _

theorem getD_mem_of_lt (l : List Int) (i : Nat) (h : i < l.length) : l.getD i 0 ∈ l := by
  rw [List.getD_eq_getElem _ _ h]
  exact List.getElem_mem _

/-- The three shapes of a session that `SetNextQuestionID` returns with nil. -/
theorem setNext_ok_shape (qs : QuizSession) (w : World)
    (h : (SubmitAnswerHandler.SetNextQuestionID qs w).1.1 = Outcome.ok) :
    (∃ i, i + 1 < qs.GroupOrder.length ∧ (SubmitAnswerHandler.SetNextQuestionID qs w).1.2 =
        { qs with CurrentQuestionID := qs.GroupOrder.getD (i + 1) 0 }) ∨
    (SubmitAnswerHandler.SetNextQuestionID qs w).1.2 = { qs with CurrentQuestionID := -1 } ∨
    (∃ g q rest, (SubmitAnswerHandler.SetNextQuestionID qs w).1.2 =
        { qs with CurrentGroup := g, GroupOrder := q :: rest, CurrentQuestionID := q }) := by
  generalize hr : SubmitAnswerHandler.SetNextQuestionID qs w = res at h ⊢
  unfold SubmitAnswerHandler.SetNextQuestionID at hr
  split at hr
  · split at hr
    · split at hr
      · rename_i i _ hlt
        subst hr
        exact Or.inl ⟨i, hlt, rfl⟩
      · subst hr
        exact Or.inr (Or.inl rfl)
    · subst hr
      simp at h
  · split at hr
    · split at hr
      · rename_i i _ hlt
        subst hr
        exact Or.inl ⟨i, hlt, rfl⟩
      · dsimp only at hr
        split at hr
        · subst hr
          simp at h
        · split at hr
          · subst hr
            simp at h
          · subst hr
            simp at h
          · subst hr
            exact Or.inr (Or.inr ⟨_, _, _, rfl⟩)
    · subst hr
      simp at h

theorem setNext_valid (qs : QuizSession) (w : World)
    (h : (SubmitAnswerHandler.SetNextQuestionID qs w).1.1 = Outcome.ok) :
    PositionValid (SubmitAnswerHandler.SetNextQuestionID qs w).1.2 := by
  rcases setNext_ok_shape qs w h with ⟨i, hlt, e⟩ | e | ⟨g, q, rest, e⟩
  · rw [e]
    exact positionValid_of_mem _ (getD_mem_of_lt _ _ hlt)
  · rw [e]
    intro h0
    simp at h0
  · rw [e]
    exact positionValid_of_mem _ (by simp)

/-- The session `SetNextQuestionID` hands back keeps the id, owner, mode and status. -/
theorem setNext_keeps (qs : QuizSession) (w : World) :
    (SubmitAnswerHandler.SetNextQuestionID qs w).1.2.ID = qs.ID ∧
    (SubmitAnswerHandler.SetNextQuestionID qs w).1.2.UserID = qs.UserID ∧
    (SubmitAnswerHandler.SetNextQuestionID qs w).1.2.Status = qs.Status ∧
    (SubmitAnswerHandler.SetNextQuestionID qs w).1.2.Mode = qs.Mode ∧
    (SubmitAnswerHandler.SetNextQuestionID qs w).1.2.FinishedAt = qs.FinishedAt := by
  generalize hr : SubmitAnswerHandler.SetNextQuestionID qs w = res
  unfold SubmitAnswerHandler.SetNextQuestionID at hr
  split at hr
  · split at hr
    · split at hr <;> (subst hr; exact ⟨rfl, rfl, rfl, rfl, rfl⟩)
    · subst hr; exact ⟨rfl, rfl, rfl, rfl, rfl⟩
  · split at hr
    · split at hr
      · subst hr; exact ⟨rfl, rfl, rfl, rfl, rfl⟩
      · dsimp only at hr
        split at hr
        · subst hr; exact ⟨rfl, rfl, rfl, rfl, rfl⟩
        · split at hr <;> (subst hr; exact ⟨rfl, rfl, rfl, rfl, rfl⟩)
    · subst hr; exact ⟨rfl, rfl, rfl, rfl, rfl⟩


/-- The two ways `SubmitAnswer` ends: without any write, or with the one update of the
session that `SetNextQuestionID` handed back with nil, for the owner. -/
theorem submit_cases (sid : String) (u : Int) (body : Option QuestionAnswer) (w : World) :
    Frame w (SubmitAnswerHandler.Handle sid u body w).2 ∨
    ∃ (id : Int) (r : QuizSession) (w1 : World),
      Atoi sid = some id ∧ r ∈ w.quiz_sessions ∧ r.ID = id ∧
      w.quiz_sessions.find? (fun r => r.ID = id) = some r ∧ r.UserID = u ∧ Frame w w1 ∧
      (SubmitAnswerHandler.SetNextQuestionID
        { r with ScreenSize := "", Status := QuizStatusInProgress } w1).1.1 = Outcome.ok ∧
      (SubmitAnswerHandler.Handle sid u body w).2 =
        (PostgresStorage.UpdateQuizSession
          (SubmitAnswerHandler.SetNextQuestionID
            { r with ScreenSize := "", Status := QuizStatusInProgress } w1).1.2
          (SubmitAnswerHandler.SetNextQuestionID
            { r with ScreenSize := "", Status := QuizStatusInProgress } w1).2).2 := by
  unfold SubmitAnswerHandler.Handle
  split
  · exact Or.inl (Frame.refl _)
  · split
    · exact Or.inl (Frame.refl _)
    · rename_i id hid
      have f1 := frame_GetQuizSessionByID id w
      dsimp only
      split
      · exact Or.inl f1
      · rename_i s hs
        obtain ⟨r, hr, hrid, rfl, hfind⟩ := GetQuizSessionByID_ok id w s hs
        have f2 := f1.trans (frame_now (PostgresStorage.GetQuizSessionByID id w).2)
        have f3 := f2.trans (frame_GetQuestionCorrectOption r.CurrentQuestionID
          (PostgresStorage.GetQuizSessionByID id w).2.now.2)
        have f4 := f3.trans (frame_GetQuestionByID r.CurrentQuestionID
          (PostgresStorage.GetQuestionCorrectOption r.CurrentQuestionID
            (PostgresStorage.GetQuizSessionByID id w).2.now.2).2)
        split
        · exact Or.inl f2
        · rename_i hown
          have hown2 : r.UserID = u := by
            have : ¬ u ≠ r.UserID := hown
            exact (not_not.mp this).symm
          split
          · exact Or.inl f3
          · cases body with
            | none => exact Or.inl f3
            | some answer =>
              dsimp only
              split
              · exact Or.inl f4
              · rename_i question hq
                by_cases hE : r.Mode = QuizModeEducational ∧ TrimSpace answer.Answer = ""
                · rw [if_pos hE]
                  dsimp only
                  split
                  · exact Or.inl (f4.trans (frame_setNext _ _))
                  · exact Or.inl (f4.trans (frame_setNext _ _))
                  · rename_i hok
                    split
                    · exact Or.inr ⟨id, r, _, hid, hr, hrid, hfind, hown2, f4, hok, rfl⟩
                    · exact Or.inr ⟨id, r, _, hid, hr, hrid, hfind, hown2, f4, hok, rfl⟩
                · rw [if_neg hE]
                  split
                  · exact Or.inl (f4.trans (frame_SaveResponse _ _ _))
                  · split
                    · exact Or.inl ((f4.trans (frame_SaveResponse _ _ _)).trans (frame_setNext _ _))
                    · exact Or.inl ((f4.trans (frame_SaveResponse _ _ _)).trans (frame_setNext _ _))
                    · rename_i hok
                      split
                      · exact Or.inr ⟨id, r, _, hid, hr, hrid, hfind, hown2,
                          f4.trans (frame_SaveResponse _ _ _), hok, rfl⟩
                      · exact Or.inr ⟨id, r, _, hid, hr, hrid, hfind, hown2,
                          f4.trans (frame_SaveResponse _ _ _), hok, rfl⟩


theorem submit_valid (sid : String) (u : Int) (body : Option QuestionAnswer) (w : World)
    (h : AllRows PositionValid w) :
    AllRows PositionValid (SubmitAnswerHandler.Handle sid u body w).2 := by
  rcases submit_cases sid u body w with hf | ⟨id, r, w1, _, _, _, _, _, hf, hok, he⟩
  · exact AllRows.of_frame hf h
  · rw [he]
    have hv := setNext_valid _ _ hok
    exact allRows_update _ _ (fun r0 t _ _ => positionValid_congr _ _ rfl rfl hv)
      (AllRows.of_frame (hf.trans (frame_setNext _ _)) h)

theorem demoStore_valid : AllRows PositionValid demoStore := by
  intro r hr
  have : r = demoFree12 := by simpa [demoStore] using hr
  subst this
  intro _
  decide


/-! ## `StartQuiz` when the store works -/

theorem env_supersede (c : String) (u : Int) (n : QuizSession) (w : World) :
    Env w (StartQuizHandler.supersede c u n w).2 ∧
    (StartQuizHandler.supersede c u n w).2.nextSessionID = w.nextSessionID := by
  have f := frame_GetUserLastQuizSession u w
  unfold StartQuizHandler.supersede
  dsimp only
  split
  · split
    · exact ⟨f.env.comp (env_update _ _), (update_nextID _ _).trans f.nextID⟩
    · exact ⟨f.env.comp (env_update _ _), (update_nextID _ _).trans f.nextID⟩
  · exact ⟨f.env, f.nextID⟩

theorem supersede_none (c : String) (u : Int) (n : QuizSession) (w : World)
    (hf : NoFaults w) (hlast : lastSessionOf u w = none) :
    (StartQuizHandler.supersede c u n w).1 = n ∧
    (StartQuizHandler.supersede c u n w).2.quiz_sessions = w.quiz_sessions := by
  have h := GetUserLastQuizSession_ok u w hf
  unfold lastSessionOf at hlast
  rw [hlast] at h
  unfold StartQuizHandler.supersede
  simp only [h, Option.map_none']
  refine ⟨?_, ?_⟩
  · first | rfl | trivial
  · exact (frame_GetUserLastQuizSession u w).sessions

theorem supersede_some (c : String) (u : Int) (n p : QuizSession) (w : World)
    (hf : NoFaults w) (hlast : lastSessionOf u w = some p) :
    (Adopts c p → (StartQuizHandler.supersede c u n w).1 =
      { n with CurrentQuestionID := p.CurrentQuestionID, CurrentGroup := p.CurrentGroup,
               GroupOrder := p.GroupOrder }) ∧
    (¬ Adopts c p → (StartQuizHandler.supersede c u n w).1 = n) ∧
    (StartQuizHandler.supersede c u n w).2.quiz_sessions =
      w.quiz_sessions.map (fun r =>
        if r.ID = p.ID then
          PostgresStorage.updateRow (superseded p) (StartQuizHandler.supersede c u n w).2.clock r
        else r) := by
  have h := GetUserLastQuizSession_ok u w hf
  unfold lastSessionOf at hlast
  rw [hlast] at h
  have f := frame_GetUserLastQuizSession u w
  have hu := (update_ok (superseded p) (PostgresStorage.GetUserLastQuizSession u w).2
    (f.noFaults hf)).2
  rw [f.sessions] at hu
  unfold StartQuizHandler.supersede
  simp only [h, Option.map_some']
  split
  · rename_i hc
    have ha : Adopts c p := ⟨hc.1, hc.2.1, hc.2.2.1, List.length_pos.mp hc.2.2.2⟩
    exact ⟨fun _ => rfl, fun hn => absurd ha hn, hu⟩
  · rename_i hc
    have ha : ¬ Adopts c p := fun ha =>
      hc ⟨ha.1, ha.2.1, ha.2.2.1, List.length_pos.mpr ha.2.2.2⟩
    exact ⟨fun h0 => absurd h0 ha, fun _ => rfl, hu⟩

theorem regenerate_noop (s : QuizSession) (w : World) (h1 : 0 < s.CurrentQuestionID)
    (h2 : s.GroupOrder ≠ []) : StartQuizHandler.regenerate s w = (s, w) := by
  unfold StartQuizHandler.regenerate
  have h3 : ¬ (s.CurrentQuestionID ≤ 0 ∨ s.GroupOrder.length = 0) := by
    intro h
    rcases h with h | h
    · omega
    · exact h2 (List.length_eq_zero.mp h)
  simp only [h3, if_false]


theorem supersede_keeps (c : String) (u : Int) (n : QuizSession) (w : World) :
    (StartQuizHandler.supersede c u n w).1.UserID = n.UserID ∧
    (StartQuizHandler.supersede c u n w).1.Status = n.Status ∧
    (StartQuizHandler.supersede c u n w).1.Mode = n.Mode ∧
    (StartQuizHandler.supersede c u n w).1.TestID = n.TestID ∧
    (StartQuizHandler.supersede c u n w).1.TestCode = n.TestCode := by
  unfold StartQuizHandler.supersede
  dsimp only
  split
  · split <;> exact ⟨rfl, rfl, rfl, rfl, rfl⟩
  · exact ⟨rfl, rfl, rfl, rfl, rfl⟩

theorem regenerate_keeps (s : QuizSession) (w : World) :
    (StartQuizHandler.regenerate s w).1.UserID = s.UserID ∧
    (StartQuizHandler.regenerate s w).1.Status = s.Status ∧
    (StartQuizHandler.regenerate s w).1.Mode = s.Mode ∧
    (StartQuizHandler.regenerate s w).1.TestID = s.TestID ∧
    (StartQuizHandler.regenerate s w).1.TestCode = s.TestCode := by
  unfold StartQuizHandler.regenerate
  split
  · dsimp only
    split
    · exact ⟨rfl, rfl, rfl, rfl, rfl⟩
    · split <;> exact ⟨rfl, rfl, rfl, rfl, rfl⟩
  · exact ⟨rfl, rfl, rfl, rfl, rfl⟩

theorem headD_tick_pos (w : World) (h : PosTicks w) : 0 < w.ticks.headD 1 := by
  cases ht : w.ticks with
  | nil => simp
  | cons t rest => simpa using h t (by simp [ht])

theorem persist_frame (c : String) (u : Int) (n : QuizSession) (w : World) :
    Frame (PostgresStorage.CreateQuizSession
        (StartQuizHandler.regenerate (StartQuizHandler.supersede c u n w).1
          (StartQuizHandler.supersede c u n w).2).1
        (StartQuizHandler.regenerate (StartQuizHandler.supersede c u n w).1
          (StartQuizHandler.supersede c u n w).2).2).2
      (StartQuizHandler.persist c u n w).2 := by
  unfold StartQuizHandler.persist
  dsimp only
  split
  · exact Frame.refl _
  · split
    · exact (frame_SaveSession _ _).trans (frame_GetTimeLimit _)
    · exact (frame_SaveSession _ _).trans (frame_GetTimeLimit _)

/-- What `persist` leaves in the store when the driver does not fail: the rows as
`supersede` left them, then the new row. -/
theorem persist_rows (c : String) (u : Int) (n : QuizSession) (w : World) (hf : NoFaults w) :
    ∃ (new : QuizSession) (t : Time),
      (StartQuizHandler.persist c u n w).2.quiz_sessions =
        (StartQuizHandler.supersede c u n w).2.quiz_sessions ++ [new] ∧
      (StartQuizHandler.persist c u n w).2.nextSessionID = w.nextSessionID + 1 ∧
      Env w (StartQuizHandler.persist c u n w).2 ∧
      new.ID = w.nextSessionID ∧ new.UserID = n.UserID ∧ new.Status = n.Status ∧
      new.Mode = n.Mode ∧ new.TestID = n.TestID ∧ new.TestCode = n.TestCode ∧
      new.FinishedAt = none ∧
      new.CurrentQuestionID = (StartQuizHandler.regenerate (StartQuizHandler.supersede c u n w).1
        (StartQuizHandler.supersede c u n w).2).1.CurrentQuestionID ∧
      new.CurrentGroup = (StartQuizHandler.regenerate (StartQuizHandler.supersede c u n w).1
        (StartQuizHandler.supersede c u n w).2).1.CurrentGroup ∧
      new.GroupOrder = (StartQuizHandler.regenerate (StartQuizHandler.supersede c u n w).1
        (StartQuizHandler.supersede c u n w).2).1.GroupOrder ∧
      new.CreatedAt = some t ∧ (StartQuizHandler.supersede c u n w).2.clock ≤ t ∧
      (PosTicks w → (StartQuizHandler.supersede c u n w).2.clock < t) ∧
      t ≤ (StartQuizHandler.persist c u n w).2.clock := by
  obtain ⟨e1, n1⟩ := env_supersede c u n w
  have f2 := frame_regenerate (StartQuizHandler.supersede c u n w).1
    (StartQuizHandler.supersede c u n w).2
  have hf2 : NoFaults (StartQuizHandler.regenerate (StartQuizHandler.supersede c u n w).1
      (StartQuizHandler.supersede c u n w).2).2 := f2.noFaults (e1.keepsNoFaults hf)
  obtain ⟨row, t, hc1, hc2, hc3, hid, hu, hm, hst, hcq, hcg, hgo, hti, htc, hfin, hcr, ht1, ht2⟩ :=
    create_ok _ _ hf2
  obtain ⟨k1, k2, k3, k4, k5⟩ := supersede_keeps c u n w
  obtain ⟨r1, r2, r3, r4, r5⟩ := regenerate_keeps (StartQuizHandler.supersede c u n w).1
    (StartQuizHandler.supersede c u n w).2
  have ec := env_create
    (StartQuizHandler.regenerate (StartQuizHandler.supersede c u n w).1
      (StartQuizHandler.supersede c u n w).2).1
    (StartQuizHandler.regenerate (StartQuizHandler.supersede c u n w).1
      (StartQuizHandler.supersede c u n w).2).2
  have fw := persist_frame c u n w
  have hnn := Int.ofNat_nonneg ((StartQuizHandler.regenerate (StartQuizHandler.supersede c u n w).1
      (StartQuizHandler.supersede c u n w).2).2.ticks.headD 1)
  have hck := f2.clock
  refine ⟨row, t, ?_, ?_, ?_, hid.trans (f2.nextID.trans n1), hu.trans (r1.trans k1),
    hst.trans (r2.trans k2), hm.trans (r3.trans k3), hti.trans (r4.trans k4),
    htc.trans (r5.trans k5), hfin, hcq, hcg, hgo, hcr, ?_, ?_, ?_⟩
  · rw [fw.sessions, hc2, f2.sessions]
  · rw [fw.nextID, hc3, f2.nextID, n1]
  · exact ((e1.comp f2.env).comp ec).comp fw.env
  · rw [ht2]
    exact le_trans hck (Int.le_add_of_nonneg_right hnn)
  · intro hp
    have hp2 := headD_tick_pos _ (f2.posTicks (e1.keepsPosTicks hp))
    rw [ht2]
    exact lt_of_le_of_lt hck (Int.lt_add_of_pos_right _ (by exact_mod_cast hp2))
  · rw [ht1]
    exact fw.clock


theorem start_eq_persist (u : Int) (payload : StartQuizPayload) (w : World) (fresh : QuizSession)
    (hgate : (StartQuizHandler.accessGate u w).1 = none)
    (hbuild : (StartQuizHandler.build payload u (TrimSpace payload.TestCode)
      (StartQuizHandler.accessGate u w).2).1 = Except.ok fresh) :
    StartQuizHandler.Handle u (some payload) w =
      StartQuizHandler.persist (TrimSpace payload.TestCode) u fresh
        (StartQuizHandler.build payload u (TrimSpace payload.TestCode)
          (StartQuizHandler.accessGate u w).2).2 := by
  unfold StartQuizHandler.Handle
  simp only [hgate, hbuild]

theorem buildFree_shape (p : StartQuizPayload) (u : Int) (w : World) (s : QuizSession)
    (h : (StartQuizHandler.buildFree p u w).1 = Except.ok s) :
    s.UserID = u ∧ s.Status = QuizStatusNotStarted ∧ s.TestID = none ∧ s.TestCode = none ∧
    s.Mode = p.Mode ∧ s.GroupOrder.head? = some s.CurrentQuestionID := by
  unfold StartQuizHandler.buildFree at h
  dsimp only at h
  split at h
  · simp at h
  · split at h
    · simp at h
    · simp at h
    · simp only [Except.ok.injEq] at h
      subst h
      exact ⟨rfl, rfl, rfl, rfl, rfl, rfl⟩

theorem lastSessionOf_frame {w w' : World} (f : Frame w w') (u : Int) :
    lastSessionOf u w' = lastSessionOf u w := by
  unfold lastSessionOf
  rw [f.sessions]

/-- The position of the session `persist` creates when the position handed on by
`supersede` is a valid start. -/
theorem persist_position (c : String) (u : Int) (n : QuizSession) (w : World) (hf : NoFaults w)
    (h1 : 0 < (StartQuizHandler.supersede c u n w).1.CurrentQuestionID)
    (h2 : (StartQuizHandler.supersede c u n w).1.GroupOrder ≠ []) :
    ∃ new : QuizSession,
      (StartQuizHandler.persist c u n w).2.quiz_sessions =
        (StartQuizHandler.supersede c u n w).2.quiz_sessions ++ [new] ∧
      new.ID = w.nextSessionID ∧ new.UserID = n.UserID ∧ new.Status = n.Status ∧
      new.TestID = n.TestID ∧ new.TestCode = n.TestCode ∧
      new.CurrentQuestionID = (StartQuizHandler.supersede c u n w).1.CurrentQuestionID ∧
      new.CurrentGroup = (StartQuizHandler.supersede c u n w).1.CurrentGroup ∧
      new.GroupOrder = (StartQuizHandler.supersede c u n w).1.GroupOrder := by
  obtain ⟨new, t, a1, _, _, a4, a5, a6, _, a8, a9, _, a11, a12, a13, _⟩ := persist_rows c u n w hf
  rw [regenerate_noop _ _ h1 h2] at a11 a12 a13
  exact ⟨new, a1, a4, a5, a6, a8, a9, a11, a12, a13⟩


theorem noFaults_of_nil (w : World) (h : w.faults = []) : NoFaults w := by
  intro b hb
  rw [h] at hb
  exact absurd hb (List.not_mem_nil b)


theorem GetTestByCode_ok (c : String) (w : World) (hf : NoFaults w) :
    (PostgresStorage.GetTestByCode c w).1 = Except.ok (w.tests.find? (fun t => t.Code = c)) := by
  have h0 := log_stmt_noFaults (Call.GetTestByCode c) w hf
  unfold PostgresStorage.GetTestByCode
  simp only [h0]
  rfl

theorem GetTestQuestionIDsOrdered_ok (t : Int) (w : World) (hf : NoFaults w) :
    (PostgresStorage.GetTestQuestionIDsOrdered t w).1 =
      Except.ok (PostgresStorage.orderedQuestionIDs w.test_questions t) := by
  have h0 := log_stmt_noFaults (Call.GetTestQuestionIDsOrdered t) w hf
  unfold PostgresStorage.GetTestQuestionIDsOrdered
  simp only [h0]
  rfl

/-- The test-bound branch when the store works. -/
theorem buildTest_ok (p : StartQuizPayload) (u : Int) (c : String) (w : World) (hf : NoFaults w) :
    (w.tests.find? (fun t => t.Code = c) = none →
      (StartQuizHandler.buildTest p u c w).1 = Except.error (writeJSONError 400
        [("error", JVal.str "invalid_test_code"), ("message", JVal.str "Unknown test code.")])) ∧
    (∀ t, w.tests.find? (fun t => t.Code = c) = some t →
      (PostgresStorage.orderedQuestionIDs w.test_questions t.ID = [] →
        (StartQuizHandler.buildTest p u c w).1 =
          Except.error (httpError "test has no questions" 503)) ∧
      (∀ q rest, PostgresStorage.orderedQuestionIDs w.test_questions t.ID = q :: rest →
        (StartQuizHandler.buildTest p u c w).1 = Except.ok { QuizSession.zero with
          Mode := p.Mode, UserID := u, Status := QuizStatusNotStarted,
          ScreenSize := toString p.ScreenWidth ++ "x" ++ toString p.ScreenHeight,
          CurrentQuestionID := q, CurrentGroup := 0, GroupOrder := q :: rest,
          TestID := some t.ID, TestCode := some t.Code })) := by
  have h1 := GetTestByCode_ok c w hf
  have f1 := frame_GetTestByCode c w
  refine ⟨fun hn => ?_, fun t ht => ?_⟩
  · rw [hn] at h1
    unfold StartQuizHandler.buildTest
    simp only [h1]
  · rw [ht] at h1
    have h2 := GetTestQuestionIDsOrdered_ok t.ID _ (f1.noFaults hf)
    rw [f1.test_questions] at h2
    refine ⟨fun ho => ?_, fun q rest ho => ?_⟩
    · rw [ho] at h2
      unfold StartQuizHandler.buildTest
      simp only [h1, h2]
    · rw [ho] at h2
      unfold StartQuizHandler.buildTest
      simp only [h1, h2]

theorem supersede_test (c : String) (u : Int) (n : QuizSession) (w : World) (hc : c ≠ "") :
    (StartQuizHandler.supersede c u n w).1 = n := by
  unfold StartQuizHandler.supersede
  dsimp only
  split
  · split
    · rename_i h
      exact absurd h.1 hc
    · rfl
  · rfl

theorem supersede_length (c : String) (u : Int) (n : QuizSession) (w : World) :
    (StartQuizHandler.supersede c u n w).2.quiz_sessions.length = w.quiz_sessions.length := by
  have f := frame_GetUserLastQuizSession u w
  unfold StartQuizHandler.supersede
  dsimp only
  have key : ∀ s, (PostgresStorage.UpdateQuizSession s
      (PostgresStorage.GetUserLastQuizSession u w).2).2.quiz_sessions.length =
      w.quiz_sessions.length := by
    intro s
    rcases update_cases s (PostgresStorage.GetUserLastQuizSession u w).2 with h | h
    · rw [h.2, f.sessions]
    · rw [h.2, List.length_map, f.sessions]
  split
  · split
    · exact key _
    · exact key _
  · rw [f.sessions]


/-- A start that ends in `build` with an error changes nothing in the session store. -/
theorem start_build_error (u : Int) (payload : StartQuizPayload) (w : World) (resp : Response)
    (hgate : (StartQuizHandler.accessGate u w).1 = none)
    (hbuild : (StartQuizHandler.build payload u (TrimSpace payload.TestCode)
      (StartQuizHandler.accessGate u w).2).1 = Except.error resp) :
    (StartQuizHandler.Handle u (some payload) w).1 = some resp ∧
    Frame w (StartQuizHandler.Handle u (some payload) w).2 := by
  have fr : Frame w (StartQuizHandler.build payload u (TrimSpace payload.TestCode)
      (StartQuizHandler.accessGate u w).2).2 :=
    (frame_accessGate u w).trans (frame_build _ _ _ _)
  unfold StartQuizHandler.Handle
  simp only [hgate, hbuild]
  exact ⟨trivial, fr⟩


/-! ## At most one live session per user -/

theorem createdBefore_irrefl (r : QuizSession) : PostgresStorage.createdBefore r r = false := by
  unfold PostgresStorage.createdBefore
  cases r.CreatedAt <;> simp

theorem createdBefore_asymm (a b : QuizSession) (h : PostgresStorage.createdBefore a b = true) :
    PostgresStorage.createdBefore b a = false := by
  unfold PostgresStorage.createdBefore at *
  cases ha : a.CreatedAt <;> cases hb : b.CreatedAt <;> simp [ha, hb] at h ⊢
  exact le_of_lt h

theorem createdBefore_negTrans (a b c : QuizSession)
    (h1 : PostgresStorage.createdBefore a b = false)
    (h2 : PostgresStorage.createdBefore b c = false) :
    PostgresStorage.createdBefore a c = false := by
  unfold PostgresStorage.createdBefore at *
  cases ha : a.CreatedAt <;> cases hb : b.CreatedAt <;> cases hc : c.CreatedAt <;>
    simp [ha, hb, hc] at h1 h2 ⊢
  exact le_trans h1 h2

theorem lastCreated_none (l : List QuizSession) (h : PostgresStorage.lastCreated l = none) :
    l = [] := by
  cases l with
  | nil => rfl
  | cons r rs =>
    unfold PostgresStorage.lastCreated at h
    split at h
    · simp at h
    · split at h <;> simp at h

theorem lastCreated_max (l : List QuizSession) (m : QuizSession)
    (h : PostgresStorage.lastCreated l = some m) :
    ∀ r ∈ l, PostgresStorage.createdBefore r m = false := by
  induction l generalizing m with
  | nil => simp [PostgresStorage.lastCreated] at h
  | cons x xs ih =>
    unfold PostgresStorage.lastCreated at h
    split at h
    · rename_i hn
      simp only [Option.some.injEq] at h
      subst h
      have := lastCreated_none _ hn
      subst this
      intro r hr
      simp only [List.mem_singleton] at hr
      subst hr
      exact createdBefore_irrefl _
    · rename_i m0 hm0
      split at h
      · rename_i hb
        simp only [Option.some.injEq] at h
        subst h
        intro r hr
        rcases List.mem_cons.mp hr with rfl | hr
        · exact createdBefore_asymm _ _ hb
        · exact ih _ hm0 r hr
      · rename_i hb
        simp only [Option.some.injEq] at h
        subst h
        intro r hr
        rcases List.mem_cons.mp hr with rfl | hr
        · exact createdBefore_irrefl _
        · exact createdBefore_negTrans _ _ _ (ih _ hm0 r hr) (by simpa using hb)


/-- Rewriting rows in place, keeping id, owner and creation time and reviving no
finished session, keeps the store well-formed. -/
theorem storeOK_map (w w' : World) (f : QuizSession → QuizSession)
    (henv : Env w w') (hrows : w'.quiz_sessions = w.quiz_sessions.map f)
    (hnext : w'.nextSessionID = w.nextSessionID)
    (hid : ∀ r, (f r).ID = r.ID) (hu : ∀ r, (f r).UserID = r.UserID)
    (hc : ∀ r, (f r).CreatedAt = r.CreatedAt)
    (hlive : ∀ r ∈ w.quiz_sessions, Live (f r) → Live r)
    (h : StoreOK w) : StoreOK w' := by
  refine ⟨henv.keepsNoFaults h.noFaults, henv.keepsPosTicks h.posTicks, ?_, ?_, ?_, ?_⟩
  · rw [hrows, List.map_map]
    have : ((fun r => r.ID) ∘ f) = (fun r : QuizSession => r.ID) := by
      funext r
      exact hid r
    rw [this]
    exact h.idsNodup
  · intro r hr
    rw [hrows, List.mem_map] at hr
    obtain ⟨r0, hr0, rfl⟩ := hr
    rw [hid, hnext]
    exact h.idsBelow r0 hr0
  · intro r hr
    rw [hrows, List.mem_map] at hr
    obtain ⟨r0, hr0, rfl⟩ := hr
    obtain ⟨t, ht, hle⟩ := h.createdPast r0 hr0
    exact ⟨t, (hc r0).trans ht, le_trans hle henv.clock⟩
  · intro r hr hl r' hr' hsame hne
    rw [hrows, List.mem_map] at hr hr'
    obtain ⟨r0, hr0, rfl⟩ := hr
    obtain ⟨r1, hr1, rfl⟩ := hr'
    have := h.liveIsLast r0 hr0 (hlive r0 hr0 hl) r1 hr1
      (by rw [← hu r1, ← hu r0]; exact hsame) (by rw [← hid r1, ← hid r0]; exact hne)
    unfold PostgresStorage.createdBefore at this ⊢
    rw [hc r0, hc r1]
    exact this

theorem storeOK_frame {w w' : World} (f : Frame w w') (h : StoreOK w) : StoreOK w' := by
  refine storeOK_map w w' id f.env ?_ f.nextID (fun _ => rfl) (fun _ => rfl) (fun _ => rfl)
    (fun _ _ hl => hl) h
  rw [f.sessions, List.map_id]

/-- An update that revives no finished session keeps the store well-formed. -/
theorem storeOK_update (s : QuizSession) (w : World) (h : StoreOK w)
    (hl : ∀ r ∈ w.quiz_sessions, r.ID = s.ID → Live s → Live r) :
    StoreOK (PostgresStorage.UpdateQuizSession s w).2 := by
  refine storeOK_map w _ (fun r =>
      if r.ID = s.ID then
        PostgresStorage.updateRow s (PostgresStorage.UpdateQuizSession s w).2.clock r
      else r) (env_update s w) (update_ok s w h.noFaults).2 (update_nextID s w)
    ?_ ?_ ?_ ?_ h
  · intro r
    dsimp only
    split <;> rfl
  · intro r
    dsimp only
    split <;> rfl
  · intro r
    dsimp only
    split <;> rfl
  · intro r hr
    dsimp only
    split
    · rename_i he
      intro hlv
      exact hl r hr he hlv
    · exact fun hlv => hlv

theorem getNext_storeOK (sid : String) (u : Int) (w : World) (h : StoreOK w) :
    StoreOK (GetNextQuestionHandler.Handle sid u w).2 := by
  unfold GetNextQuestionHandler.Handle
  split
  · exact h
  · split
    · exact h
    · rename_i id hid
      have f1 := frame_GetQuizSessionByID id w
      have h1 := storeOK_frame f1 h
      dsimp only
      split
      · exact h1
      · rename_i s hs
        obtain ⟨r, hr, hrid, rfl, hfind⟩ := GetQuizSessionByID_ok id w s hs
        split
        · exact h1
        · split
          · exact h1
          · split
            · exact h1
            · have f2 := f1.trans (frame_GetQuestionByID r.CurrentQuestionID
                (PostgresStorage.GetQuizSessionByID id w).2)
              dsimp only
              split
              · exact storeOK_frame f2 h
              · dsimp only
                have f3 := f2.trans (frame_now _)
                refine storeOK_update _ _ (storeOK_frame f3 h) ?_
                intro r0 hr0 he hlv
                rw [f3.sessions] at hr0
                have : r0 = r := by
                  have hn := h.idsNodup
                  exact List.inj_on_of_nodup_map hn hr0 hr he
                rw [this]
                exact hlv


theorem finish_storeOK (sid : String) (w : World) (h : StoreOK w) :
    StoreOK (FinishQuizHandler.Handle sid w).2 := by
  unfold FinishQuizHandler.Handle
  split
  · exact h
  · split
    · exact h
    · rename_i id hid
      have f1 := frame_GetQuizSessionByID id w
      dsimp only
      split
      · exact storeOK_frame f1 h
      · rename_i s hs
        have h3 : StoreOK (StatsClient.FinishSession id
            (PostgresStorage.UpdateQuizSession
              { s with Status := QuizStatusFinished,
                       FinishedAt := some (PostgresStorage.GetQuizSessionByID id w).2.now.1 }
              (PostgresStorage.GetQuizSessionByID id w).2.now.2).2).2 := by
          refine storeOK_frame (frame_FinishSession id _) (storeOK_update _ _
            (storeOK_frame (f1.trans (frame_now _)) h) ?_)
          intro r0 _ _ hlv
          exact absurd rfl hlv
        split
        · exact h3
        · exact h3

theorem submit_storeOK (sid : String) (u : Int) (body : Option QuestionAnswer) (w : World)
    (h : StoreOK w) (hlive : ∀ r ∈ w.quiz_sessions, Atoi sid = some r.ID → Live r) :
    StoreOK (SubmitAnswerHandler.Handle sid u body w).2 := by
  rcases submit_cases sid u body w with hf | ⟨id, r, w1, hid, hr, hrid, _, _, hf, hok, he⟩
  · exact storeOK_frame hf h
  · rw [he]
    have f2 := hf.trans (frame_setNext
      { r with ScreenSize := "", Status := QuizStatusInProgress } w1)
    refine storeOK_update _ _ (storeOK_frame f2 h) ?_
    intro r0 hr0 he0 _
    rw [f2.sessions] at hr0
    rw [(setNext_keeps _ _).1] at he0
    have : r0 = r := List.inj_on_of_nodup_map h.idsNodup hr0 hr he0
    rw [this]
    exact hlive r hr (by rw [hrid]; exact hid)


/-- After `supersede` the store is still well-formed and the user has no live session. -/
theorem supersede_storeOK (c : String) (u : Int) (n : QuizSession) (w : World) (h : StoreOK w) :
    StoreOK (StartQuizHandler.supersede c u n w).2 ∧
    ∀ r ∈ (StartQuizHandler.supersede c u n w).2.quiz_sessions, r.UserID = u → ¬ Live r := by
  obtain ⟨e1, n1⟩ := env_supersede c u n w
  cases hl : lastSessionOf u w with
  | none =>
    obtain ⟨_, s2⟩ := supersede_none c u n w h.noFaults hl
    constructor
    · exact storeOK_map w _ id e1 (by rw [s2, List.map_id]) n1 (fun _ => rfl) (fun _ => rfl)
        (fun _ => rfl) (fun _ _ hl => hl) h
    · intro r hr hu _
      rw [s2] at hr
      unfold lastSessionOf at hl
      have hnil := lastCreated_none _ hl
      have hmem : r ∈ w.quiz_sessions.filter (fun r => decide (r.UserID = u)) :=
        List.mem_filter.mpr ⟨hr, by simpa using hu⟩
      rw [hnil] at hmem
      exact absurd hmem (List.not_mem_nil _)
  | some p =>
    obtain ⟨_, _, s3⟩ := supersede_some c u n p w h.noFaults hl
    unfold lastSessionOf at hl
    have hpm := lastCreated_mem _ _ hl
    have hp : p ∈ w.quiz_sessions := (List.mem_filter.mp hpm).1
    have hpu : p.UserID = u := by simpa using (List.mem_filter.mp hpm).2
    have hmax := lastCreated_max _ _ hl
    constructor
    · refine storeOK_map w _ _ e1 s3 n1 ?_ ?_ ?_ ?_ h
      · intro r
        dsimp only
        split <;> rfl
      · intro r
        dsimp only
        split <;> rfl
      · intro r
        dsimp only
        split <;> rfl
      · intro r _
        dsimp only
        split
        · intro hlv
          exact absurd rfl hlv
        · exact fun hlv => hlv
    · intro r' hr' hu hlv
      rw [s3, List.mem_map] at hr'
      obtain ⟨r, hr, rfl⟩ := hr'
      by_cases he : r.ID = p.ID
      · rw [if_pos he] at hlv
        exact hlv rfl
      · rw [if_neg he] at hlv hu
        have hb := h.liveIsLast r hr hlv p hp (by rw [hpu, hu]) (fun e => he e.symm)
        have hnb := hmax r (List.mem_filter.mpr ⟨hr, by simpa using hu⟩)
        rw [hb] at hnb
        exact absurd hnb (by simp)

theorem persist_storeOK (c : String) (u : Int) (n : QuizSession) (w : World) (h : StoreOK w)
    (hu : n.UserID = u) : StoreOK (StartQuizHandler.persist c u n w).2 := by
  obtain ⟨hs, hnolive⟩ := supersede_storeOK c u n w h
  obtain ⟨_, n1⟩ := env_supersede c u n w
  obtain ⟨new, t, a1, a2, a3, a4, a5, _, _, _, _, _, _, _, _, a14, a15, a16, a17⟩ :=
    persist_rows c u n w h.noFaults
  have hlt := a16 h.posTicks
  refine ⟨a3.keepsNoFaults h.noFaults, a3.keepsPosTicks h.posTicks, ?_, ?_, ?_, ?_⟩
  · rw [a1, List.map_append, List.map_singleton]
    refine List.Nodup.append hs.idsNodup (List.nodup_singleton _) ?_
    intro x hx1 hx2
    rw [List.mem_singleton] at hx2
    rw [List.mem_map] at hx1
    obtain ⟨r, hr, rfl⟩ := hx1
    have := hs.idsBelow r hr
    rw [n1, hx2, a4] at this
    exact lt_irrefl _ this
  · intro r hr
    rw [a1, List.mem_append, List.mem_singleton] at hr
    rw [a2]
    rcases hr with hr | rfl
    · have := hs.idsBelow r hr
      rw [n1] at this
      exact lt_trans this (lt_add_one _)
    · rw [a4]
      exact lt_add_one _
  · intro r hr
    rw [a1, List.mem_append, List.mem_singleton] at hr
    rcases hr with hr | rfl
    · obtain ⟨t0, ht0, hle⟩ := hs.createdPast r hr
      exact ⟨t0, ht0, le_trans hle (le_trans a15 a17)⟩
    · exact ⟨t, a14, a17⟩
  · intro r hr hlv r' hr' hsame hne
    rw [a1, List.mem_append, List.mem_singleton] at hr hr'
    rcases hr with hr | rfl
    · rcases hr' with hr' | rfl
      · exact hs.liveIsLast r hr hlv r' hr' hsame hne
      · exact absurd hlv (hnolive r hr (by rw [← hsame, a5, hu]))
    · rcases hr' with hr' | rfl
      · obtain ⟨t0, ht0, hle⟩ := hs.createdPast r' hr'
        unfold PostgresStorage.createdBefore
        rw [a14, ht0]
        simpa using lt_of_le_of_lt hle hlt
      · exact absurd rfl hne


theorem buildTest_user (p : StartQuizPayload) (u : Int) (c : String) (w : World)
    (s : QuizSession) (h : (StartQuizHandler.buildTest p u c w).1 = Except.ok s) :
    s.UserID = u := by
  unfold StartQuizHandler.buildTest at h
  dsimp only at h
  split at h
  · simp at h
  · simp at h
  · split at h
    · simp at h
    · simp at h
    · simp only [Except.ok.injEq] at h
      subst h
      rfl

theorem build_user (p : StartQuizPayload) (u : Int) (c : String) (w : World)
    (s : QuizSession) (h : (StartQuizHandler.build p u c w).1 = Except.ok s) :
    s.UserID = u := by
  unfold StartQuizHandler.build at h
  split at h
  · exact buildTest_user _ _ _ _ _ h
  · exact (buildFree_shape _ _ _ _ h).1

theorem start_storeOK (u : Int) (body : Option StartQuizPayload) (w : World) (h : StoreOK w) :
    StoreOK (StartQuizHandler.Handle u body w).2 := by
  have h1 := storeOK_frame (frame_accessGate u w) h
  unfold StartQuizHandler.Handle
  dsimp only
  split
  · exact h1
  · cases body with
    | none => exact h1
    | some payload =>
      dsimp only
      have h2 := storeOK_frame (frame_build payload u (TrimSpace payload.TestCode)
        (StartQuizHandler.accessGate u w).2) h1
      split
      · exact h2
      · rename_i s hs
        exact persist_storeOK _ _ _ _ h2 (build_user _ _ _ _ _ hs)

theorem reach_storeOK (w0 w : World) (h0 : StoreOK w0) (h : Reach w0 w) : StoreOK w := by
  induction h with
  | init => exact h0
  | start w u body _ ih => exact start_storeOK u body w ih
  | next w sid u _ ih => exact getNext_storeOK sid u w ih
  | finish w sid _ ih => exact finish_storeOK sid w ih
  | submit w sid u body _ hl ih => exact submit_storeOK sid u body w ih hl

theorem storeOK_liveCount (w : World) (h : StoreOK w) (u : Int) : liveCount u w ≤ 1 := by
  unfold liveCount
  have hsub : (w.quiz_sessions.filter
      (fun r => decide (r.UserID = u ∧ r.Status ≠ QuizStatusFinished))).Sublist w.quiz_sessions :=
    List.filter_sublist _
  have hnd := (h.idsNodup.sublist (hsub.map (fun r => r.ID)))
  have hmem : ∀ r ∈ w.quiz_sessions.filter
      (fun r => decide (r.UserID = u ∧ r.Status ≠ QuizStatusFinished)),
      r ∈ w.quiz_sessions ∧ r.UserID = u ∧ Live r := by
    intro r hr
    have := List.mem_filter.mp hr
    have h2 : r.UserID = u ∧ r.Status ≠ QuizStatusFinished := by simpa using this.2
    exact ⟨this.1, h2.1, h2.2⟩
  match hl : w.quiz_sessions.filter
      (fun r => decide (r.UserID = u ∧ r.Status ≠ QuizStatusFinished)) with
  | [] => rw [hl]; exact Nat.zero_le _
  | [_] => rw [hl]; exact Nat.le_refl _
  | a :: b :: rest =>
    exfalso
    rw [hl] at hnd hmem
    obtain ⟨ha, hau, hal⟩ := hmem a (by simp)
    obtain ⟨hb, hbu, hbl⟩ := hmem b (by simp)
    have hne : a.ID ≠ b.ID := by
      intro e
      simp only [List.map_cons, List.nodup_cons, List.mem_cons, not_or] at hnd
      exact hnd.1.1 e
    have h1 := h.liveIsLast a ha hal b hb (by rw [hau, hbu]) (fun e => hne e.symm)
    have h2 := h.liveIsLast b hb hbl a ha (by rw [hau, hbu]) hne
    rw [createdBefore_asymm _ _ h1] at h2
    exact absurd h2 (by simp)


theorem demoStore_ok : StoreOK demoStore := by
  refine ⟨noFaults_of_nil _ rfl, ?_, by decide, ?_, ?_, ?_⟩
  · intro t ht
    exact absurd ht (List.not_mem_nil _)
  · intro r hr
    have : r = demoFree12 := by simpa [demoStore] using hr
    subst this
    decide
  · intro r hr
    have : r = demoFree12 := by simpa [demoStore] using hr
    subst this
    exact ⟨1000, rfl, by decide⟩
  · intro r hr _ r' hr' _ hne
    have e1 : r = demoFree12 := by simpa [demoStore] using hr
    have e2 : r' = demoFree12 := by simpa [demoStore] using hr'
    rw [e1, e2] at hne
    exact absurd rfl hne

/-! ## `GetNextQuestion`: the two ways it ends -/

/-- Either `GetNextQuestion` ends without content, having only read, or it returns the
redacted question of the session it read for its owner and then writes that session
back with a new `question_requested_time`. -/
theorem getNext_cases (sid : String) (u : Int) (w : World) :
    (Frame w (GetNextQuestionHandler.Handle sid u w).2 ∧
      ∃ resp, (GetNextQuestionHandler.Handle sid u w).1 = some resp ∧ resp.isContent = false) ∨
    ∃ (id : Int) (r : QuizSession) (stored : Question),
      Atoi sid = some id ∧ r ∈ w.quiz_sessions ∧ r.ID = id ∧
      w.quiz_sessions.find? (fun r => r.ID = id) = some r ∧
      (PostgresStorage.GetQuizSessionByID id w).1 = Except.ok { r with ScreenSize := "" } ∧
      r.UserID = u ∧ r.Status ≠ "finished" ∧ 0 < r.CurrentQuestionID ∧
      (PostgresStorage.GetQuestionByID r.CurrentQuestionID
        (PostgresStorage.GetQuizSessionByID id w).2).1 = Except.ok stored ∧
      GetNextQuestionHandler.Handle sid u w =
        (some (contentResponse (GetNextQuestionHandler.redact stored) (isLastFlag r)),
         (PostgresStorage.UpdateQuizSession
            { r with ScreenSize := "",
                     QuestionRequestedTime :=
                      (PostgresStorage.GetQuestionByID r.CurrentQuestionID
                        (PostgresStorage.GetQuizSessionByID id w).2).2.now.1 }
            (PostgresStorage.GetQuestionByID r.CurrentQuestionID
              (PostgresStorage.GetQuizSessionByID id w).2).2.now.2).2) := by
  unfold GetNextQuestionHandler.Handle
  split
  · exact Or.inl ⟨Frame.refl w, _, rfl, rfl⟩
  · split
    · exact Or.inl ⟨Frame.refl w, _, rfl, rfl⟩
    · rename_i id hid
      have f1 := frame_GetQuizSessionByID id w
      dsimp only
      split
      · exact Or.inl ⟨f1, _, rfl, rfl⟩
      · rename_i s hs
        obtain ⟨r, hr, hrid, rfl, hfind⟩ := GetQuizSessionByID_ok id w s hs
        split
        · exact Or.inl ⟨f1, _, rfl, rfl⟩
        · rename_i hu
          split
          · exact Or.inl ⟨f1, _, rfl, rfl⟩
          · rename_i hst
            split
            · exact Or.inl ⟨f1, _, rfl, rfl⟩
            · rename_i hcq
              have f2 := frame_GetQuestionByID r.CurrentQuestionID
                (PostgresStorage.GetQuizSessionByID id w).2
              dsimp only
              split
              · exact Or.inl ⟨f1.trans f2, _, rfl, rfl⟩
              · rename_i stored hq
                refine Or.inr ⟨id, r, stored, hid, hr, hrid, hfind, hs, ?_, hst, ?_, hq, rfl⟩
                · exact not_not.mp hu
                · exact not_le.mp hcq

theorem isLastLoop_eq (cur : Int) (l : List Int) (i : Nat) :
    GetNextQuestionHandler.isLastLoop cur (i + l.length) l i = decide (l.getLast? = some cur) := by
  induction l generalizing i with
  | nil => simp [GetNextQuestionHandler.isLastLoop]
  | cons q rest ih =>
    unfold GetNextQuestionHandler.isLastLoop
    have e : i + (q :: rest).length = (i + 1) + rest.length := by simp; omega
    rw [e, ih (i + 1)]
    cases rest with
    | nil =>
      simp
    | cons a t =>
      have hne : ¬ (((i : Nat) : Int) = ((i + 1 + (a :: t).length : Nat) : Int) - 1) := by
        simp; omega
      rw [if_neg (fun h => hne h.2), List.getLast?_cons_cons]

theorem isLastFlag_iff (s : QuizSession) :
    isLastFlag s = true ↔ s.TestID ≠ none ∧ s.GroupOrder.getLast? = some s.CurrentQuestionID := by
  unfold isLastFlag
  have h := isLastLoop_eq s.CurrentQuestionID s.GroupOrder 0
  rw [Nat.zero_add] at h
  rw [h]
  cases hT : s.TestID <;> simp

/-! ## Reads that succeed -/

theorem GetQuizSessionByID_noFaults (id : Int) (w : World) (r : QuizSession) (hf : NoFaults w)
    (h : w.quiz_sessions.find? (fun r => r.ID = id) = some r) :
    (PostgresStorage.GetQuizSessionByID id w).1 = Except.ok { r with ScreenSize := "" } := by
  unfold PostgresStorage.GetQuizSessionByID
  dsimp only
  rw [log_stmt_noFaults _ w hf]
  have h2 : (w.log (Call.GetQuizSessionByID id)).stmt.2.quiz_sessions = w.quiz_sessions := rfl
  simp only [h2, h]
  rfl

theorem GetQuestionByID_ok (id : Int) (w : World) (q : Question)
    (h : (PostgresStorage.GetQuestionByID id w).1 = Except.ok q) :
    ∃ (row : QuestionRow) (c : Case),
      w.questions.find? (fun q => q.id = id ∧ q.case_row.isSome) = some row ∧
      row.case_row = some c ∧ q = questionOfRow row c := by
  unfold PostgresStorage.GetQuestionByID at h
  dsimp only at h
  split at h
  · simp at h
  · split at h
    · simp at h
    · rename_i row hrow
      split at h
      · simp at h
      · rename_i c hc
        split at h
        · simp at h
        · split at h
          · simp at h
          · simp only [Except.ok.injEq] at h
            exact ⟨row, c, hrow, hc, h.symm⟩

theorem GetQuestionByID_noFaults (id : Int) (w : World) (row : QuestionRow) (c : Case)
    (hf : NoFaults w)
    (h : w.questions.find? (fun q => q.id = id ∧ q.case_row.isSome) = some row)
    (hc : row.case_row = some c) :
    (PostgresStorage.GetQuestionByID id w).1 = Except.ok (questionOfRow row c) := by
  unfold PostgresStorage.GetQuestionByID
  dsimp only
  have f1 := frame_log_stmt (Call.GetQuestionByID id) w rfl
  have f2 := frame_stmt (w.log (Call.GetQuestionByID id)).stmt.2
  rw [log_stmt_noFaults _ w hf]
  have h2 : (w.log (Call.GetQuestionByID id)).stmt.2.questions = w.questions := rfl
  simp only [h2, h, hc]
  rw [stmt_noFaults _ (f1.noFaults hf), stmt_noFaults _ ((f1.trans f2).noFaults hf)]
  rfl

/-- The content branch of `GetNextQuestion`, read forwards. -/
theorem getNext_content (sid : String) (u id : Int) (w : World) (s : QuizSession)
    (stored : Question) (hid : Atoi sid = some id)
    (hs : (PostgresStorage.GetQuizSessionByID id w).1 = Except.ok s)
    (hu : s.UserID = u) (hst : s.Status ≠ "finished") (hcq : 0 < s.CurrentQuestionID)
    (hq : (PostgresStorage.GetQuestionByID s.CurrentQuestionID
            (PostgresStorage.GetQuizSessionByID id w).2).1 = Except.ok stored) :
    (GetNextQuestionHandler.Handle sid u w).1 =
      some (contentResponse (GetNextQuestionHandler.redact stored) (isLastFlag s)) := by
  have hne : sid ≠ "" := Atoi_ne_empty sid id hid
  unfold GetNextQuestionHandler.Handle
  rw [if_neg hne]
  simp only [hid, hs]
  rw [if_neg (not_not.mpr hu), if_neg hst, if_neg (not_le.mpr hcq)]
  simp only [hq]
  rfl

/-! ## What a `GetNextQuestion` with content does to the store -/

theorem find_map_keep {α : Type} (p : α → Bool) (f : α → α) (l : List α)
    (hp : ∀ x, p (f x) = p x) : (l.map f).find? p = (l.find? p).map f := by
  induction l with
  | nil => rfl
  | cons a t ih =>
    simp only [List.map_cons, List.find?_cons, hp a]
    cases p a
    · exact ih
    · rfl

/-- The content case of `GetNextQuestion` in full: the response, the question behind it,
the instant stamped, the one write traced, and the rows afterwards. -/
theorem getNext_effect (sid : String) (u : Int) (w : World) (resp : Response)
    (h : (GetNextQuestionHandler.Handle sid u w).1 = some resp)
    (hc : resp.isContent = true) :
    ∃ (id : Int) (r : QuizSession) (row : QuestionRow) (c : Case) (t : Time),
      Atoi sid = some id ∧ w.quiz_sessions.find? (fun r => r.ID = id) = some r ∧
      r.ID = id ∧ r.UserID = u ∧ r.Status ≠ "finished" ∧ 0 < r.CurrentQuestionID ∧
      w.questions.find? (fun q => q.id = r.CurrentQuestionID ∧ q.case_row.isSome) = some row ∧
      row.case_row = some c ∧
      resp = contentResponse (GetNextQuestionHandler.redact (questionOfRow row c)) (isLastFlag r) ∧
      w.clock ≤ t ∧ t ≤ (GetNextQuestionHandler.Handle sid u w).2.clock ∧
      (GetNextQuestionHandler.Handle sid u w).2.trace.filter Call.isWrite =
        w.trace.filter Call.isWrite ++
          [Call.UpdateQuizSession { r with ScreenSize := "", QuestionRequestedTime := t }] ∧
      Env w (GetNextQuestionHandler.Handle sid u w).2 ∧
      ((GetNextQuestionHandler.Handle sid u w).2.quiz_sessions = w.quiz_sessions ∨
        ∃ t2, (GetNextQuestionHandler.Handle sid u w).2.quiz_sessions =
          w.quiz_sessions.map (fun x => if x.ID = id then
            PostgresStorage.updateRow { r with ScreenSize := "", QuestionRequestedTime := t } t2 x
            else x)) ∧
      (NoFaults w →
        ∃ t2, (GetNextQuestionHandler.Handle sid u w).2.quiz_sessions =
          w.quiz_sessions.map (fun x => if x.ID = id then
            PostgresStorage.updateRow { r with ScreenSize := "", QuestionRequestedTime := t } t2 x
            else x)) := by
  rcases getNext_cases sid u w with ⟨_, resp0, h0, hn⟩ |
    ⟨id, r, stored, hid, _, hrid, hfind, _, hu, hst, hcq, hq, hH⟩
  · rw [h0] at h
    cases h
    rw [hn] at hc
    cases hc
  · obtain ⟨row, c, hrow, hcase, rfl⟩ := GetQuestionByID_ok _ _ _ hq
    subst hrid
    have f1 := frame_GetQuizSessionByID r.ID w
    have f2 := frame_GetQuestionByID r.CurrentQuestionID (PostgresStorage.GetQuizSessionByID r.ID w).2
    have f3 := frame_now (PostgresStorage.GetQuestionByID r.CurrentQuestionID
      (PostgresStorage.GetQuizSessionByID r.ID w).2).2
    have f := (f1.trans f2).trans f3
    rw [f1.questions] at hrow
    rw [hH] at h
    cases h
    rw [hH]
    dsimp only
    generalize hw3 : (PostgresStorage.GetQuestionByID r.CurrentQuestionID
      (PostgresStorage.GetQuizSessionByID r.ID w).2).2 = w3 at f2 f3 f
    have hclock : w3.now.2.clock = w3.now.1 := rfl
    have e := env_update
      { r with ScreenSize := "", QuestionRequestedTime := w3.now.1 } w3.now.2
    refine ⟨r.ID, r, row, c, w3.now.1, hid, hfind, rfl, hu, hst, hcq, hrow, hcase, rfl, ?_, ?_, ?_,
      f.env.comp e, ?_, ?_⟩
    · rw [← hclock]
      exact f.clock
    · rw [← hclock]
      exact e.clock
    · rw [update_trace, List.filter_append, f.writes]
      rfl
    · rcases update_cases { r with ScreenSize := "", QuestionRequestedTime := w3.now.1 } w3.now.2
        with hx | hx
      · left
        rw [hx.2, f.sessions]
      · right
        rw [← f.sessions]
        exact ⟨_, hx.2⟩
    · intro hf
      have hx := update_ok { r with ScreenSize := "", QuestionRequestedTime := w3.now.1 } w3.now.2
        (f.noFaults hf)
      rw [← f.sessions]
      exact ⟨_, hx.2⟩

/-! ## Requests to the stats service -/

theorem posts_of_trace (w w' : World) (c : Call) (h : w'.trace = w.trace ++ [c])
    (hc : c.post = none) : posts w' = posts w := by
  unfold posts
  rw [h, List.filterMap_append]
  simp [List.filterMap_cons, hc]

theorem posts_GetQuizSessionByID (id : Int) (w : World) :
    posts (PostgresStorage.GetQuizSessionByID id w).2 = posts w :=
  posts_of_trace _ _ _ (GetQuizSessionByID_trace id w) rfl

theorem GetQuestionCorrectOption_trace (id : Int) (w : World) :
    (PostgresStorage.GetQuestionCorrectOption id w).2.trace =
      w.trace ++ [Call.GetQuestionCorrectOption id] := by
  unfold PostgresStorage.GetQuestionCorrectOption
  simp only [World.stmt, World.log]
  split
  · rfl
  · split <;> rfl

theorem GetQuestionByID_trace (id : Int) (w : World) :
    (PostgresStorage.GetQuestionByID id w).2.trace = w.trace ++ [Call.GetQuestionByID id] := by
  unfold PostgresStorage.GetQuestionByID
  simp only [World.stmt, World.log]
  split
  · rfl
  · split
    · rfl
    · split
      · rfl
      · split
        · rfl
        · split <;> rfl

theorem SaveResponse_trace (id : Int) (a : QuestionAnswer) (w : World) :
    (StatsClient.SaveResponse id a w).2.trace =
      w.trace ++ [Call.HttpPost (w.statsAddr ++ "/sessions/" ++ Itoa id ++ "/respond")
        (StatsBody.answer a)] := by
  unfold StatsClient.SaveResponse
  simp only [World.statsDo, World.log]
  split
  · rfl
  · split <;> rfl

theorem posts_setNext (qs : QuizSession) (w : World) :
    posts (SubmitAnswerHandler.SetNextQuestionID qs w).2 = posts w := by
  unfold SubmitAnswerHandler.SetNextQuestionID
  split
  · split
    · split <;> rfl
    · rfl
  · split
    · split
      · rfl
      · dsimp only
        have h1 := posts_of_trace _ _ _ (GetNextQuestionGroupID_trace qs.CurrentGroup w) rfl
        split
        · exact h1
        · rename_i g hg
          have h2 := (posts_of_trace _ _ _ (GetGroupQuestionsIDsRandomOrder_trace g
            (PostgresStorage.GetNextQuestionGroupID qs.CurrentGroup w).2) rfl).trans h1
          split
          · exact h2
          · exact h2
          · exact h2
    · rfl

theorem posts_update (s : QuizSession) (w : World) :
    posts (PostgresStorage.UpdateQuizSession s w).2 = posts w :=
  posts_of_trace _ _ _ (update_trace s w) rfl

theorem GetQuestionCorrectOption_ok (id : Int) (w : World) (c : String)
    (h : (PostgresStorage.GetQuestionCorrectOption id w).1 = Except.ok c) :
    ((w.questions.filter (fun q => q.id = id)).flatMap (fun q => q.correct_options)).head? = some c ∧
    ∃ row ∈ w.questions, row.id = id ∧ c ∈ row.correct_options := by
  unfold PostgresStorage.GetQuestionCorrectOption at h
  dsimp only at h
  split at h
  · simp at h
  · split at h
    · simp at h
    · rename_i o rest ho
      simp only [Except.ok.injEq] at h
      subst h
      have ho2 : (w.questions.filter (fun q => q.id = id)).flatMap (fun q => q.correct_options)
          = o :: rest := ho
      refine ⟨by rw [ho2]; rfl, ?_⟩
      have hm : o ∈ (w.questions.filter (fun q => q.id = id)).flatMap (fun q => q.correct_options) := by
        rw [ho2]
        exact List.mem_cons_self _ _
      rw [List.mem_flatMap] at hm
      obtain ⟨row, hrow, hmem⟩ := hm
      rw [List.mem_filter] at hrow
      exact ⟨row, hrow.1, by simpa using hrow.2, hmem⟩

/-! ## `SubmitAnswer`: its success and its report -/

theorem posts_SaveResponse (id : Int) (qa : QuestionAnswer) (w4 w : World)
    (hp : posts w4 = posts w) (ha : w4.statsAddr = w.statsAddr) :
    posts (StatsClient.SaveResponse id qa w4).2 = posts w ++
      [(w.statsAddr ++ "/sessions/" ++ Itoa id ++ "/respond", StatsBody.answer qa)] := by
  unfold posts
  rw [SaveResponse_trace, List.filterMap_append, ha]
  unfold posts at hp
  rw [hp]
  rfl

/-- A `SubmitAnswer` that answers 200 was made by the owner of the stored session
addressed, and its response carries what `GetQuestionCorrectOption` returned for the
current question of that session. -/
theorem submit_success (sid : String) (u : Int) (body : Option QuestionAnswer) (w : World) :
    ∀ resp, (SubmitAnswerHandler.Handle sid u body w).1 = some resp → resp.status = 200 →
    ∃ (id : Int) (r : QuizSession) (c : String),
      Atoi sid = some id ∧ w.quiz_sessions.find? (fun r => r.ID = id) = some r ∧ r.UserID = u ∧
      (PostgresStorage.GetQuestionCorrectOption r.CurrentQuestionID
        (PostgresStorage.GetQuizSessionByID id w).2.now.2).1 = Except.ok c ∧
      resp = submitResponse c := by
  unfold SubmitAnswerHandler.Handle
  split
  · intro resp h hs; cases h; exact absurd hs (by decide)
  · split
    · intro resp h hs; cases h; exact absurd hs (by decide)
    · rename_i id hid
      dsimp only
      split
      · intro resp h hs; cases h; exact absurd hs (by decide)
      · rename_i s hs
        obtain ⟨r, hr, hrid, rfl, hfind⟩ := GetQuizSessionByID_ok id w s hs
        split
        · intro resp h hs; cases h; exact absurd hs (by decide)
        · rename_i hown
          have hown2 : r.UserID = u := by
            have : ¬ u ≠ r.UserID := hown
            exact (not_not.mp this).symm
          split
          · intro resp h hs; cases h; exact absurd hs (by decide)
          · rename_i c hc
            cases body with
            | none => intro resp h hs; cases h; exact absurd hs (by decide)
            | some answer =>
              dsimp only
              split
              · intro resp h hs; cases h; exact absurd hs (by decide)
              · rename_i question hq
                split
                · intro resp h hs; cases h; exact absurd hs (by decide)
                · split
                  · intro resp h hs; cases h
                  · intro resp h hs; cases h; exact absurd hs (by decide)
                  · split
                    · intro resp h hs; cases h; exact absurd hs (by decide)
                    · intro resp h hs
                      cases h
                      exact ⟨id, r, c, hid, hfind, hown2, hc, rfl⟩

/-- What `SubmitAnswer` sends to the stats service: nothing, or the one answer record
built from the submitted answer and the correct option of the current question. -/
theorem submit_posts (sid : String) (u : Int) (body : Option QuestionAnswer) (w : World) :
    posts (SubmitAnswerHandler.Handle sid u body w).2 = posts w ∨
    ∃ (id : Int) (r : QuizSession) (c : String) (answer : QuestionAnswer) (case_code : String)
      (seconds : Int),
      Atoi sid = some id ∧ w.quiz_sessions.find? (fun r => r.ID = id) = some r ∧ r.UserID = u ∧
      (PostgresStorage.GetQuestionCorrectOption r.CurrentQuestionID
        (PostgresStorage.GetQuizSessionByID id w).2.now.2).1 = Except.ok c ∧
      body = some answer ∧
      ¬ (r.Mode = QuizModeEducational ∧ TrimSpace answer.Answer = "") ∧
      posts (SubmitAnswerHandler.Handle sid u body w).2 = posts w ++
        [(w.statsAddr ++ "/sessions/" ++ Itoa r.ID ++ "/respond",
          StatsBody.answer
            { QuestionID := r.CurrentQuestionID, Answer := answer.Answer,
              IsCorrect := EqualFold w.caseOrbits (TrimSpace answer.Answer) (TrimSpace c),
              ScreenSize := answer.ScreenSize, TimeSpent := seconds, CaseCode := case_code })] := by
  unfold SubmitAnswerHandler.Handle
  split
  · exact Or.inl rfl
  · split
    · exact Or.inl rfl
    · rename_i id hid
      have p1 := posts_GetQuizSessionByID id w
      have f1 := frame_GetQuizSessionByID id w
      dsimp only
      split
      · exact Or.inl p1
      · rename_i s hs
        obtain ⟨r, hr, hrid, rfl, hfind⟩ := GetQuizSessionByID_ok id w s hs
        have p2 : posts (PostgresStorage.GetQuizSessionByID id w).2.now.2 = posts w := p1
        have f2 := f1.trans (frame_now (PostgresStorage.GetQuizSessionByID id w).2)
        have p3 := (posts_of_trace _ _ _ (GetQuestionCorrectOption_trace r.CurrentQuestionID
          (PostgresStorage.GetQuizSessionByID id w).2.now.2) rfl).trans p2
        have f3 := f2.trans (frame_GetQuestionCorrectOption r.CurrentQuestionID
          (PostgresStorage.GetQuizSessionByID id w).2.now.2)
        have p4 := (posts_of_trace _ _ _ (GetQuestionByID_trace r.CurrentQuestionID
          (PostgresStorage.GetQuestionCorrectOption r.CurrentQuestionID
            (PostgresStorage.GetQuizSessionByID id w).2.now.2).2) rfl).trans p3
        have f4 := f3.trans (frame_GetQuestionByID r.CurrentQuestionID
          (PostgresStorage.GetQuestionCorrectOption r.CurrentQuestionID
            (PostgresStorage.GetQuizSessionByID id w).2.now.2).2)
        split
        · exact Or.inl p2
        · rename_i hown
          have hown2 : r.UserID = u := by
            have : ¬ u ≠ r.UserID := hown
            exact (not_not.mp this).symm
          split
          · exact Or.inl p3
          · rename_i c hc
            cases body with
            | none => exact Or.inl p3
            | some answer =>
              dsimp only
              split
              · exact Or.inl p4
              · rename_i question hq
                by_cases hE : r.Mode = QuizModeEducational ∧ TrimSpace answer.Answer = ""
                · rw [if_pos hE]
                  dsimp only
                  have p5 := (posts_setNext { r with ScreenSize := "", Status := QuizStatusInProgress }
                    _).trans p4
                  split
                  · exact Or.inl p5
                  · exact Or.inl p5
                  · split
                    · exact Or.inl ((posts_update _ _).trans p5)
                    · exact Or.inl ((posts_update _ _).trans p5)
                · rw [if_neg hE]
                  have p5 := fun qa => posts_SaveResponse r.ID qa _ w p4 f4.statsAddr
                  split
                  · exact Or.inr ⟨id, r, c, answer, question.Case.Code, _, hid, hfind, hown2, hc,
                      rfl, hE, p5 _⟩
                  · have p6 := fun qa => (posts_setNext
                      { r with ScreenSize := "", Status := QuizStatusInProgress }
                      (StatsClient.SaveResponse r.ID qa _).2).trans (p5 qa)
                    split
                    · exact Or.inr ⟨id, r, c, answer, question.Case.Code, _, hid, hfind, hown2, hc,
                        rfl, hE, p6 _⟩
                    · exact Or.inr ⟨id, r, c, answer, question.Case.Code, _, hid, hfind, hown2, hc,
                        rfl, hE, p6 _⟩
                    · split
                      · exact Or.inr ⟨id, r, c, answer, question.Case.Code, _, hid, hfind, hown2, hc,
                          rfl, hE, (posts_update _ _).trans (p6 _)⟩
                      · exact Or.inr ⟨id, r, c, answer, question.Case.Code, _, hid, hfind, hown2, hc,
                          rfl, hE, (posts_update _ _).trans (p6 _)⟩

/-! ## `TrimSpace` and `EqualFold` against the words of the specification -/

theorem TrimSpace_toList (s : String) : (TrimSpace s).toList = trimRunes s.toList := rfl

theorem dropWhile_all (p : Char → Bool) (pre rest : List Char) (h : ∀ c ∈ pre, p c = true) :
    (pre ++ rest).dropWhile p = rest.dropWhile p := by
  induction pre with
  | nil => rfl
  | cons a t ih =>
    rw [List.cons_append, List.dropWhile_cons, if_pos (h a (List.mem_cons_self _ _))]
    exact ih (fun c hc => h c (List.mem_cons_of_mem _ hc))

theorem dropWhile_head (p : Char → Bool) (l : List Char)
    (h : ∀ c, l.head? = some c → p c = false) : l.dropWhile p = l := by
  cases l with
  | nil => rfl
  | cons a t =>
    rw [List.dropWhile_cons, if_neg]
    rw [h a rfl]
    exact Bool.false_ne_true

theorem head_dropWhile (p : Char → Bool) (l : List Char) :
    ∀ c, (l.dropWhile p).head? = some c → p c = false := by
  induction l with
  | nil => intro c h; cases h
  | cons a t ih =>
    intro c h
    rw [List.dropWhile_cons] at h
    by_cases ha : p a = true
    · rw [if_pos ha] at h
      exact ih c h
    · rw [if_neg ha] at h
      cases h
      exact Bool.eq_false_iff.mpr ha

/-- The specification's trimming determines the runes `TrimSpace` leaves. -/
theorem isTrimOf_unique (t s : List Char) (h : IsTrimOf t s) : t = trimRunes s := by
  obtain ⟨pre, post, rfl, hpre, hpost, hhead, hlast⟩ := h
  unfold trimRunes
  rw [List.append_assoc, dropWhile_all _ _ _ hpre]
  cases t with
  | nil =>
    rw [List.nil_append]
    have : post.dropWhile isSpace = [] := by
      rw [List.dropWhile_eq_nil_iff]
      exact hpost
    rw [this]
    rfl
  | cons a r =>
    rw [dropWhile_head _ ((a :: r) ++ post)
      (fun c hc => hhead c (by simpa using hc))]
    rw [List.reverse_append, dropWhile_all _ _ _ (fun c hc => hpost c (List.mem_reverse.mp hc)),
      dropWhile_head _ _ (fun c hc => hlast c (by rw [← List.head?_reverse]; exact hc)),
      List.reverse_reverse]

/-- The runes `TrimSpace` leaves are a trimming in the specification's sense. -/
theorem trimRunes_isTrimOf (s : List Char) : IsTrimOf (trimRunes s) s := by
  refine ⟨s.takeWhile isSpace, ((s.dropWhile isSpace).reverse.takeWhile isSpace).reverse, ?_, ?_, ?_,
    ?_, ?_⟩
  · unfold trimRunes
    rw [List.append_assoc, ← List.reverse_append, List.takeWhile_append_dropWhile,
      List.reverse_reverse, List.takeWhile_append_dropWhile]
  · intro c hc
    exact (List.mem_takeWhile_imp hc)
  · intro c hc
    exact (List.mem_takeWhile_imp (List.mem_reverse.mp hc))
  · intro c hc
    unfold trimRunes at hc
    have hd := head_dropWhile isSpace s
    have hsplit : s.dropWhile isSpace =
        ((s.dropWhile isSpace).reverse.dropWhile isSpace).reverse ++
        ((s.dropWhile isSpace).reverse.takeWhile isSpace).reverse := by
      rw [← List.reverse_append, List.takeWhile_append_dropWhile, List.reverse_reverse]
    apply hd c
    rw [hsplit]
    generalize ((s.dropWhile isSpace).reverse.dropWhile isSpace).reverse = x at hc
    cases x with
    | nil => cases hc
    | cons a r => exact hc
  · intro c hc
    unfold trimRunes at hc
    rw [List.getLast?_reverse] at hc
    exact head_dropWhile isSpace _ c hc

/-- White space around a string does not change what `TrimSpace` leaves. -/
theorem TrimSpace_pad (pre s post : String) (hpre : ∀ c ∈ pre.toList, isSpace c = true)
    (hpost : ∀ c ∈ post.toList, isSpace c = true) :
    TrimSpace (pre ++ s ++ post) = TrimSpace s := by
  have h := trimRunes_isTrimOf s.toList
  generalize hT : trimRunes s.toList = T at h
  obtain ⟨p, q, hs, hp, hq, hh, hl⟩ := h
  have h2 : IsTrimOf T (pre ++ s ++ post).toList := by
    refine ⟨pre.toList ++ p, q ++ post.toList, ?_, ?_, ?_, hh, hl⟩
    · rw [String.toList, String.data_append, String.data_append]
      change pre.toList ++ s.toList ++ post.toList = _
      rw [hs]
      simp only [List.append_assoc]
    · intro c hc
      rcases List.mem_append.mp hc with h | h
      · exact hpre c h
      · exact hp c h
    · intro c hc
      rcases List.mem_append.mp hc with h | h
      · exact hq c h
      · exact hpost c h
  have h3 := isTrimOf_unique _ _ h2
  unfold TrimSpace
  change String.mk (trimRunes (pre ++ s ++ post).toList) = String.mk (trimRunes s.toList)
  rw [← h3, hT]

theorem toNat_inj (a b : Char) (h : a.toNat = b.toNat) : a = b := by
  have := congrArg Char.ofNat h
  simpa [Char.ofNat_toNat] using this

theorem smallest_none (l : List Char) (h : smallest l = none) : l = [] := by
  cases l with
  | nil => rfl
  | cons c l =>
    unfold smallest at h
    split at h
    · cases h
    · split at h <;> cases h

theorem smallest_some (l : List Char) (m : Char) (h : smallest l = some m) :
    m ∈ l ∧ ∀ x ∈ l, m.toNat ≤ x.toNat := by
  induction l generalizing m with
  | nil => cases h
  | cons c l ih =>
    unfold smallest at h
    split at h
    · rename_i hn
      cases h
      rw [smallest_none l hn]
      simp
    · rename_i a ha
      have h1 := ih a ha
      split at h
      · rename_i hlt
        cases h
        refine ⟨List.mem_cons_self _ _, fun x hx => ?_⟩
        rcases List.mem_cons.1 hx with rfl | hx
        · exact le_refl _
        · have := h1.2 x hx
          omega
      · rename_i hlt
        cases h
        refine ⟨List.mem_cons_of_mem _ h1.1, fun x hx => ?_⟩
        rcases List.mem_cons.1 hx with rfl | hx
        · omega
        · exact h1.2 x hx

theorem orbitOf_cases (orbits : List (List Char)) (r : Char) :
    (orbitOf orbits r ∈ orbits ∧ r ∈ orbitOf orbits r) ∨
    (orbitOf orbits r = [r] ∧ ∀ o ∈ orbits, r ∉ o) := by
  unfold orbitOf
  cases h : orbits.find? (fun o => o.contains r) with
  | none =>
    right
    refine ⟨rfl, fun o ho hr => ?_⟩
    have := List.find?_eq_none.1 h o ho
    simp at this
    exact this hr
  | some o =>
    left
    have h1 := List.mem_of_find?_eq_some h
    have h2 := List.find?_some h
    simp only [Option.getD_some]
    exact ⟨h1, by simpa using h2⟩

theorem orbitOf_mem (orbits : List (List Char)) (r : Char) : r ∈ orbitOf orbits r := by
  rcases orbitOf_cases orbits r with h | h
  · exact h.2
  · rw [h.1]; exact List.mem_singleton_self r

theorem orbitOf_of_mem (orbits : List (List Char))
    (U : ∀ o1 ∈ orbits, ∀ o2 ∈ orbits, ∀ c ∈ o1, c ∈ o2 → o1 = o2)
    (o : List Char) (ho : o ∈ orbits) (r : Char) (hr : r ∈ o) : orbitOf orbits r = o := by
  rcases orbitOf_cases orbits r with h | h
  · exact U _ h.1 _ ho r h.2 hr
  · exact absurd hr (h.2 o ho)

theorem orbitOf_eq (orbits : List (List Char))
    (U : ∀ o1 ∈ orbits, ∀ o2 ∈ orbits, ∀ c ∈ o1, c ∈ o2 → o1 = o2)
    (r x : Char) (hx : x ∈ orbitOf orbits r) : orbitOf orbits x = orbitOf orbits r := by
  rcases orbitOf_cases orbits r with h | h
  · exact orbitOf_of_mem orbits U _ h.1 x hx
  · rw [h.1] at hx
    rw [List.mem_singleton.1 hx]

theorem sameLetter_iff (orbits : List (List Char))
    (U : ∀ o1 ∈ orbits, ∀ o2 ∈ orbits, ∀ c ∈ o1, c ∈ o2 → o1 = o2)
    (x y : Char) : SameLetter orbits x y ↔ y ∈ orbitOf orbits x := by
  constructor
  · rintro (rfl | ⟨o, ho, hx, hy⟩)
    · exact orbitOf_mem orbits x
    · rw [orbitOf_of_mem orbits U o ho x hx]
      exact hy
  · intro h
    rcases orbitOf_cases orbits x with h1 | h1
    · exact Or.inr ⟨_, h1.1, h1.2, h⟩
    · rw [h1.1] at h
      exact Or.inl (List.mem_singleton.1 h).symm

/-- What `unicode.SimpleFold` returns: a rune of the orbit, the smallest one above `r`,
or the smallest one of all when none is above `r`. -/
theorem simpleFold_spec (orbits : List (List Char)) (r : Char) :
    SimpleFold orbits r ∈ orbitOf orbits r ∧
    ((r.toNat < (SimpleFold orbits r).toNat ∧
        ∀ x ∈ orbitOf orbits r, r.toNat < x.toNat → (SimpleFold orbits r).toNat ≤ x.toNat) ∨
     ((∀ x ∈ orbitOf orbits r, x.toNat ≤ r.toNat) ∧
        ∀ x ∈ orbitOf orbits r, (SimpleFold orbits r).toNat ≤ x.toNat)) := by
  unfold SimpleFold
  cases h : smallest ((orbitOf orbits r).filter (fun c => r.toNat < c.toNat)) with
  | some c =>
    have h1 := smallest_some _ _ h
    have hc := List.mem_filter.1 h1.1
    refine ⟨hc.1, Or.inl ⟨by simpa using hc.2, fun x hx hlt => ?_⟩⟩
    exact h1.2 x (List.mem_filter.2 ⟨hx, by simpa using hlt⟩)
  | none =>
    have h0 := smallest_none _ h
    have hall : ∀ x ∈ orbitOf orbits r, x.toNat ≤ r.toNat := by
      intro x hx
      by_contra hlt
      have : x ∈ (orbitOf orbits r).filter (fun c => r.toNat < c.toNat) :=
        List.mem_filter.2 ⟨hx, by simpa using hlt⟩
      rw [h0] at this
      cases this
    cases h2 : smallest (orbitOf orbits r) with
    | none =>
      have := smallest_none _ h2
      have hm := orbitOf_mem orbits r
      rw [this] at hm
      cases hm
    | some m =>
      have h3 := smallest_some _ _ h2
      exact ⟨h3.1, Or.inr ⟨hall, h3.2⟩⟩

theorem countP_lt_of_imp {α : Type} (l : List α) (p q : α → Bool)
    (h : ∀ x ∈ l, p x = true → q x = true) (x : α) (hx : x ∈ l) (hq : q x = true)
    (hp : p x = false) : l.countP p < l.countP q := by
  induction l with
  | nil => cases hx
  | cons a l ih =>
    have hle : l.countP p ≤ l.countP q := by
      apply List.countP_mono_left
      intro y hy
      exact h y (List.mem_cons_of_mem _ hy)
    rcases List.mem_cons.1 hx with rfl | hx
    · rw [List.countP_cons_of_neg _ _ (by simp [hp]), List.countP_cons_of_pos _ _ hq]
      omega
    · have := ih (fun y hy => h y (List.mem_cons_of_mem _ hy)) hx
      by_cases hpa : p a = true
      · rw [List.countP_cons_of_pos _ _ hpa,
          List.countP_cons_of_pos _ _ (h a (List.mem_cons_self _ _) hpa)]
        omega
      · rw [List.countP_cons_of_neg _ _ hpa]
        by_cases hqa : q a = true
        · rw [List.countP_cons_of_pos _ _ hqa]; omega
        · rw [List.countP_cons_of_neg _ _ hqa]; exact this

theorem foldLoop_low (orbits : List (List Char)) (sr tr : Char) (o : List Char)
    (ho : ∀ r ∈ o, orbitOf orbits r = o) (hsr : sr ∈ o) (hlt : sr.toNat < tr.toNat) :
    ∀ (fuel : Nat) (r : Char), r ∈ o → r.toNat ≤ sr.toNat →
      o.countP (fun x => decide (r.toNat < x.toNat ∧ x.toNat ≤ sr.toNat)) ≤ fuel →
      foldLoop orbits sr tr fuel r = false := by
  intro fuel
  induction fuel with
  | zero =>
    intro r hr hle hm
    have hrs : r = sr := by
      by_contra hne
      have hlt2 : r.toNat < sr.toNat := by
        rcases Nat.lt_or_ge r.toNat sr.toNat with h | h
        · exact h
        · exact absurd (toNat_inj _ _ (Nat.le_antisymm hle h)) hne
      have : 0 < o.countP (fun x => decide (r.toNat < x.toNat ∧ x.toNat ≤ sr.toNat)) :=
        List.countP_pos_iff.2 ⟨sr, hsr, by simpa using hlt2⟩
      omega
    subst hrs
    unfold foldLoop
    simp only [beq_eq_false_iff_ne, ne_eq]
    intro h
    rw [h] at hlt
    omega
  | succ fuel ih =>
    intro r hr hle hm
    unfold foldLoop
    by_cases hrs : r = sr
    · subst hrs
      rw [if_neg (by simp)]
      simp only [beq_eq_false_iff_ne, ne_eq]
      intro h
      rw [h] at hlt
      omega
    · have hlt2 : r.toNat < sr.toNat := by
        rcases Nat.lt_or_ge r.toNat sr.toNat with h | h
        · exact h
        · exact absurd (toNat_inj _ _ (Nat.le_antisymm hle h)) hrs
      rw [if_pos ⟨hrs, by omega⟩]
      have hs := simpleFold_spec orbits r
      rw [ho r hr] at hs
      rcases hs.2 with ⟨h1, h2⟩ | ⟨h1, _⟩
      · have h3 := h2 sr hsr hlt2
        apply ih _ hs.1 h3
        have : o.countP (fun x => decide ((SimpleFold orbits r).toNat < x.toNat ∧ x.toNat ≤ sr.toNat))
            < o.countP (fun x => decide (r.toNat < x.toNat ∧ x.toNat ≤ sr.toNat)) := by
          apply countP_lt_of_imp _ _ _ _ (SimpleFold orbits r) hs.1
          · simp only [decide_eq_true_eq]
            exact ⟨h1, h3⟩
          · simp
          · intro x _ hx
            simp only [decide_eq_true_eq] at hx ⊢
            omega
        omega
      · have := h1 sr hsr
        omega

theorem foldLoop_high (orbits : List (List Char)) (sr tr : Char) (o : List Char)
    (ho : ∀ r ∈ o, orbitOf orbits r = o) (hsr : sr ∈ o) (hlt : sr.toNat < tr.toNat) :
    ∀ (fuel : Nat) (r : Char), r ∈ o → sr.toNat < r.toNat →
      (∀ x ∈ o, sr.toNat < x.toNat → x.toNat < r.toNat → x.toNat < tr.toNat) →
      o.countP (fun x => decide (r.toNat < x.toNat)) +
        o.countP (fun x => decide (x.toNat ≤ sr.toNat)) + 1 ≤ fuel →
      foldLoop orbits sr tr fuel r = decide (tr ∈ o) := by
  intro fuel
  induction fuel with
  | zero =>
    intro r _ _ _ hm
    omega
  | succ fuel ih =>
    intro r hr hgt hbelow hm
    unfold foldLoop
    have hrs : r ≠ sr := by
      intro h
      rw [h] at hgt
      omega
    by_cases hrt : r.toNat < tr.toNat
    · rw [if_pos ⟨hrs, hrt⟩]
      have hs := simpleFold_spec orbits r
      rw [ho r hr] at hs
      rcases hs.2 with ⟨h1, h2⟩ | ⟨h1, h2⟩
      · apply ih _ hs.1 (by omega)
        · intro x hx hx1 hx2
          rcases Nat.lt_or_ge r.toNat x.toNat with h | h
          · have := h2 x hx h
            omega
          · rcases Nat.lt_or_ge x.toNat r.toNat with h3 | h3
            · exact hbelow x hx hx1 h3
            · omega
        · have : o.countP (fun x => decide ((SimpleFold orbits r).toNat < x.toNat))
              < o.countP (fun x => decide (r.toNat < x.toNat)) := by
            apply countP_lt_of_imp _ _ _ _ (SimpleFold orbits r) hs.1
            · simpa using h1
            · simp
            · intro x _ hx
              simp only [decide_eq_true_eq] at hx ⊢
              omega
          omega
      · have hnot : tr ∉ o := by
          intro hm2
          have := h1 tr hm2
          omega
        rw [foldLoop_low orbits sr tr o ho hsr hlt fuel _ hs.1 (h2 sr hsr)]
        · simp [hnot]
        · have : o.countP (fun x => decide ((SimpleFold orbits r).toNat < x.toNat ∧
              x.toNat ≤ sr.toNat)) ≤ o.countP (fun x => decide (x.toNat ≤ sr.toNat)) := by
            apply List.countP_mono_left
            intro x _ hx
            simp only [decide_eq_true_eq] at hx ⊢
            exact hx.2
          omega
    · rw [if_neg (fun h => hrt h.2)]
      by_cases heq : r = tr
      · subst heq
        simp [hr]
      · have hnot : tr ∉ o := by
          intro hm2
          have h3 : tr.toNat < r.toNat := by
            rcases Nat.lt_or_ge tr.toNat r.toNat with h | h
            · exact h
            · exact absurd (toNat_inj _ _ (Nat.le_antisymm h (Nat.le_of_not_lt hrt))) heq
          have := hbelow tr hm2 hlt h3
          omega
        simp [hnot, heq]

/-- The general case of `strings.EqualFold` decides whether the larger rune is in the
orbit of the smaller one. -/
theorem foldLoop_iff (orbits : List (List Char))
    (U : ∀ o1 ∈ orbits, ∀ o2 ∈ orbits, ∀ c ∈ o1, c ∈ o2 → o1 = o2)
    (sr tr : Char) (hlt : sr.toNat < tr.toNat) :
    foldLoop orbits sr tr (orbitOf orbits sr).length (SimpleFold orbits sr) =
      decide (tr ∈ orbitOf orbits sr) := by
  have ho : ∀ r ∈ orbitOf orbits sr, orbitOf orbits r = orbitOf orbits sr :=
    fun r hr => orbitOf_eq orbits U sr r hr
  have hsr := orbitOf_mem orbits sr
  have hs := simpleFold_spec orbits sr
  have hsplit := List.length_eq_countP_add_countP (fun x => decide (x.toNat ≤ sr.toNat))
    (orbitOf orbits sr)
  rcases hs.2 with ⟨h1, h2⟩ | ⟨h1, h2⟩
  · apply foldLoop_high orbits sr tr _ ho hsr hlt _ _ hs.1 h1
    · intro x hx hx1 hx2
      have := h2 x hx hx1
      omega
    · have h3 : (orbitOf orbits sr).countP (fun x => decide ((SimpleFold orbits sr).toNat < x.toNat))
          < (orbitOf orbits sr).countP (fun x => decide (sr.toNat < x.toNat)) := by
        apply countP_lt_of_imp _ _ _ _ (SimpleFold orbits sr) hs.1
        · simpa using h1
        · simp
        · intro x _ hx
          simp only [decide_eq_true_eq] at hx ⊢
          omega
      have h4 : (orbitOf orbits sr).countP (fun x => decide (sr.toNat < x.toNat)) =
          (orbitOf orbits sr).countP (fun x => ¬ decide (x.toNat ≤ sr.toNat) = true) := by
        apply List.countP_congr
        intro x _
        simp
      omega
  · have hnot : tr ∉ orbitOf orbits sr := by
      intro hm2
      have := h1 tr hm2
      omega
    rw [foldLoop_low orbits sr tr _ ho hsr hlt _ _ hs.1 (h2 sr hsr)]
    · simp [hnot]
    · have : (orbitOf orbits sr).countP (fun x => decide ((SimpleFold orbits sr).toNat < x.toNat ∧
          x.toNat ≤ sr.toNat)) ≤ (orbitOf orbits sr).countP (fun x => decide (x.toNat ≤ sr.toNat)) := by
        apply List.countP_mono_left
        intro x _ hx
        simp only [decide_eq_true_eq] at hx ⊢
        exact hx.2
      omega

theorem sameLetter_symm (orbits : List (List Char)) (x y : Char) (h : SameLetter orbits x y) :
    SameLetter orbits y x := by
  rcases h with rfl | ⟨o, ho, hx, hy⟩
  · exact Or.inl rfl
  · exact Or.inr ⟨o, ho, hy, hx⟩

theorem sameLetter_trans (orbits : List (List Char))
    (U : ∀ o1 ∈ orbits, ∀ o2 ∈ orbits, ∀ c ∈ o1, c ∈ o2 → o1 = o2)
    (x y z : Char) (h1 : SameLetter orbits x y) (h2 : SameLetter orbits y z) :
    SameLetter orbits x z := by
  rcases h1 with rfl | ⟨o, ho, hx, hy⟩
  · exact h2
  · rcases h2 with rfl | ⟨o2, ho2, hy2, hz⟩
    · exact Or.inr ⟨o, ho, hx, hy⟩
    · have := U o ho o2 ho2 y hy hy2
      subst this
      exact Or.inr ⟨o, ho, hx, hz⟩

theorem sameLetter_space (orbits : List (List Char)) (F : FoldTable orbits) (x y : Char)
    (h : SameLetter orbits x y) : isSpace x = isSpace y := by
  rcases h with rfl | ⟨o, ho, hx, hy⟩
  · rfl
  · rw [F.2.2.2 o ho x hx, F.2.2.2 o ho y hy]

/-- One step of `strings.EqualFold` succeeds exactly on two runes that are the same up
to letter case. -/
theorem equalFoldRune_iff (orbits : List (List Char)) (F : FoldTable orbits) (s t : Char) :
    equalFoldRune orbits s t = true ↔ SameLetter orbits s t := by
  have key : ∀ sr tr : Char, sr.toNat < tr.toNat →
      ((if tr.toNat < 0x80 then
          decide ('A'.toNat ≤ sr.toNat ∧ sr.toNat ≤ 'Z'.toNat ∧
            tr.toNat = sr.toNat + 'a'.toNat - 'A'.toNat)
        else foldLoop orbits sr tr (orbitOf orbits sr).length (SimpleFold orbits sr)) = true ↔
        SameLetter orbits sr tr) := by
    intro sr tr hlt
    have hne : sr ≠ tr := by
      intro h
      rw [h] at hlt
      omega
    by_cases ha : tr.toNat < 0x80
    · rw [if_pos ha, decide_eq_true_iff]
      have hA : 'A'.toNat = 65 := rfl
      have hZ : 'Z'.toNat = 90 := rfl
      have hl : 'a'.toNat = 97 := rfl
      rw [hA, hZ, hl]
      constructor
      · rintro ⟨h1, h2, h3⟩
        obtain ⟨o, ho, m1, m2⟩ := F.2.2.1 (sr.toNat - 65) (by omega)
        rw [hA] at m1
        rw [hl] at m2
        have e1 : 65 + (sr.toNat - 65) = sr.toNat := by omega
        have e2 : 97 + (sr.toNat - 65) = tr.toNat := by omega
        rw [e1, Char.ofNat_toNat] at m1
        rw [e2, Char.ofNat_toNat] at m2
        exact Or.inr ⟨o, ho, m1, m2⟩
      · rintro (h | ⟨o, ho, m1, m2⟩)
        · exact absurd h hne
        · have := F.2.1 o ho sr m1 tr m2 hlt ha
          rw [hA, hZ] at this
          omega
    · rw [if_neg ha, foldLoop_iff orbits F.1 sr tr hlt, decide_eq_true_iff]
      exact (sameLetter_iff orbits F.1 sr tr).symm
  unfold equalFoldRune
  by_cases h : t = s
  · rw [if_pos h, h]
    exact ⟨fun _ => Or.inl rfl, fun _ => rfl⟩
  · rw [if_neg h]
    dsimp only
    by_cases hlt : t.toNat < s.toNat
    · rw [if_pos hlt, if_pos hlt]
      rw [key t s hlt]
      exact ⟨sameLetter_symm orbits t s, sameLetter_symm orbits s t⟩
    · rw [if_neg hlt, if_neg hlt]
      apply key s t
      rcases Nat.lt_or_ge s.toNat t.toNat with h1 | h1
      · exact h1
      · exact absurd (toNat_inj _ _ (Nat.le_antisymm h1 (Nat.le_of_not_lt hlt))) h

/-- Function `strings.EqualFold` holds exactly of two texts that are equal ignoring
letter case. -/
theorem equalFoldRunes_iff (orbits : List (List Char)) (F : FoldTable orbits)
    (a b : List Char) : equalFoldRunes orbits a b = true ↔ SameIgnoringCase orbits a b := by
  unfold SameIgnoringCase
  induction a generalizing b with
  | nil =>
    cases b with
    | nil => simp [equalFoldRunes]
    | cons y ys => simp [equalFoldRunes]
  | cons x xs ih =>
    cases b with
    | nil => simp [equalFoldRunes]
    | cons y ys =>
      simp only [equalFoldRunes, Bool.and_eq_true, List.forall₂_cons, ih,
        equalFoldRune_iff orbits F]

/-- The test of the code, `EqualFold` of the two `TrimSpace`s, is the relation of the
specification. -/
theorem equalFold_trim_iff (orbits : List (List Char)) (F : FoldTable orbits) (a c : String) :
    EqualFold orbits (TrimSpace a) (TrimSpace c) = true ↔ SameAnswer orbits a c := by
  unfold EqualFold SameAnswer
  rw [TrimSpace_toList, TrimSpace_toList, equalFoldRunes_iff orbits F]
  constructor
  · intro h
    exact ⟨_, _, trimRunes_isTrimOf _, trimRunes_isTrimOf _, h⟩
  · rintro ⟨ta, tc, h1, h2, h⟩
    rw [← isTrimOf_unique _ _ h1, ← isTrimOf_unique _ _ h2]
    exact h

theorem forall₂_dropWhile (R : Char → Char → Prop) (p : Char → Bool)
    (hp : ∀ x y, R x y → p x = p y) (a b : List Char) (h : List.Forall₂ R a b) :
    List.Forall₂ R (a.dropWhile p) (b.dropWhile p) := by
  induction h with
  | nil => exact List.Forall₂.nil
  | cons hxy hrest ih =>
    rename_i x y xs ys
    rw [List.dropWhile_cons, List.dropWhile_cons, hp x y hxy]
    by_cases hy : p y = true
    · rw [if_pos hy, if_pos hy]
      exact ih
    · rw [if_neg hy, if_neg hy]
      exact List.Forall₂.cons hxy hrest

theorem trimRunes_forall₂ (R : Char → Char → Prop) (hp : ∀ x y, R x y → isSpace x = isSpace y)
    (a b : List Char) (h : List.Forall₂ R a b) :
    List.Forall₂ R (trimRunes a) (trimRunes b) := by
  unfold trimRunes
  rw [List.forall₂_reverse_iff]
  apply forall₂_dropWhile R isSpace hp
  rw [List.forall₂_reverse_iff]
  exact forall₂_dropWhile R isSpace hp a b h

theorem sameIgnoringCase_symm (orbits : List (List Char)) (a b : List Char)
    (h : SameIgnoringCase orbits a b) : SameIgnoringCase orbits b a := by
  unfold SameIgnoringCase at h ⊢
  induction h with
  | nil => exact List.Forall₂.nil
  | cons hxy _ ih => exact List.Forall₂.cons (sameLetter_symm orbits _ _ hxy) ih

theorem sameIgnoringCase_trans (orbits : List (List Char))
    (U : ∀ o1 ∈ orbits, ∀ o2 ∈ orbits, ∀ c ∈ o1, c ∈ o2 → o1 = o2)
    (a b c : List Char) (h1 : SameIgnoringCase orbits a b) (h2 : SameIgnoringCase orbits b c) :
    SameIgnoringCase orbits a c := by
  unfold SameIgnoringCase at h1 h2 ⊢
  induction h1 generalizing c with
  | nil => exact h2
  | cons hxy _ ih =>
    cases h2 with
    | cons hyz hrest => exact List.Forall₂.cons (sameLetter_trans orbits U _ _ _ hxy hyz) (ih _ hrest)

/-- White space put around the answer and a change of the case of its letters do not
change the test of the code. -/
theorem equalFold_recased (orbits : List (List Char)) (F : FoldTable orbits) (b a c : String)
    (h : PaddedRecased orbits b a) :
    EqualFold orbits (TrimSpace b) (TrimSpace c) = EqualFold orbits (TrimSpace a) (TrimSpace c) := by
  obtain ⟨pre, m, post, hb, hpre, hpost, hm⟩ := h
  have hT : SameIgnoringCase orbits (trimRunes m.toList) (trimRunes a.toList) :=
    trimRunes_forall₂ _ (sameLetter_space orbits F) _ _ hm
  have e : ∀ x y : Bool, (x = true ↔ y = true) → x = y := by
    intro x y hxy
    cases x <;> cases y <;> simp_all
  apply e
  unfold EqualFold
  rw [hb, TrimSpace_pad pre m post hpre hpost, TrimSpace_toList, TrimSpace_toList,
    TrimSpace_toList, equalFoldRunes_iff orbits F, equalFoldRunes_iff orbits F]
  constructor
  · intro h1
    exact sameIgnoringCase_trans orbits F.1 _ _ _ (sameIgnoringCase_symm orbits _ _ hT) h1
  · intro h1
    exact sameIgnoringCase_trans orbits F.1 _ _ _ hT h1

theorem distinct_nodup (l : List Nat) (h : distinct l = true) : l.Nodup := by
  induction l with
  | nil => exact List.nodup_nil
  | cons a l ih =>
    simp only [distinct, Bool.and_eq_true, Bool.not_eq_true', List.contains_eq_any_beq,
      List.any_eq_false, beq_iff_eq] at h
    refine List.nodup_cons.2 ⟨fun hm => ?_, ih h.2⟩
    exact h.1 a hm rfl

/-- A table whose runes are all different has every rune in one orbit at most. -/
theorem unique_of_distinct (orbits : List (List Char))
    (h : distinct ((orbits.map (List.map Char.toNat)).flatten) = true) :
    ∀ o1 ∈ orbits, ∀ o2 ∈ orbits, ∀ c ∈ o1, c ∈ o2 → o1 = o2 := by
  intro o1 h1 o2 h2 c c1 c2
  by_contra hne
  have hn := distinct_nodup _ h
  rw [List.nodup_flatten] at hn
  have hp := hn.2
  rw [List.pairwise_map] at hp
  have := hp.forall (fun a b hab => hab.symm) h1 h2 hne
  exact this (List.mem_map_of_mem _ c1) (List.mem_map_of_mem _ c2)

set_option maxRecDepth 100000 in
/-- The demo table is a table of case orbits. -/
theorem demoOrbits_foldTable : FoldTable demoOrbits := by
  refine ⟨unique_of_distinct demoOrbits (by decide), ?_⟩
  decide

/-! ## `StartQuiz`: the starting state it persists -/

theorem shuffle_mem (seed : Nat) (l : List Int) (x : Int) (h : x ∈ shuffle seed l) : x ∈ l := by
  induction l generalizing seed with
  | nil => simp [shuffle] at h
  | cons a t ih =>
    unfold shuffle at h
    rw [List.mem_append, List.mem_cons] at h
    rcases h with h | h | h
    · exact List.mem_cons_of_mem _ (ih _ (List.mem_of_mem_take h))
    · rw [h]
      exact List.mem_cons_self _ _
    · exact List.mem_cons_of_mem _ (ih _ (List.mem_of_mem_drop h))

theorem GetGroupQuestionsIDsRandomOrder_mem (g : Int) (w : World) (l : List Int)
    (h : (PostgresStorage.GetGroupQuestionsIDsRandomOrder g w).1 = Except.ok l) :
    ∀ x ∈ l, ∃ q ∈ w.questions, q.id = x := by
  unfold PostgresStorage.GetGroupQuestionsIDsRandomOrder at h
  dsimp only at h
  split at h
  · simp at h
  · simp only [Except.ok.injEq] at h
    subst h
    intro x hx
    have hx2 := shuffle_mem _ _ _ hx
    rw [List.mem_map] at hx2
    obtain ⟨q, hq, rfl⟩ := hx2
    exact ⟨q, (List.mem_filter.mp hq).1, rfl⟩

theorem GetTestQuestionIDsOrdered_mem (t : Int) (w : World) (l : List Int)
    (h : (PostgresStorage.GetTestQuestionIDsOrdered t w).1 = Except.ok l) :
    ∀ x ∈ l, ∃ r ∈ w.test_questions, r.question_id = x := by
  unfold PostgresStorage.GetTestQuestionIDsOrdered at h
  dsimp only at h
  split at h
  · simp at h
  · simp only [Except.ok.injEq] at h
    subst h
    intro x hx
    unfold PostgresStorage.orderedQuestionIDs at hx
    rw [List.mem_map] at hx
    obtain ⟨r, hr, rfl⟩ := hx
    have hr2 := (List.perm_insertionSort _ _).mem_iff.mp hr
    exact ⟨r, (List.mem_filter.mp hr2).1, rfl⟩

/-- With positive question ids in the repository, the initial ordering is a valid
starting state. -/
theorem build_startable (p : StartQuizPayload) (u : Int) (c : String) (w : World) (s : QuizSession)
    (hq : ∀ q ∈ w.questions, 0 < q.id) (htq : ∀ r ∈ w.test_questions, 0 < r.question_id)
    (h : (StartQuizHandler.build p u c w).1 = Except.ok s) : Startable s := by
  unfold StartQuizHandler.build at h
  split at h
  · unfold StartQuizHandler.buildTest at h
    dsimp only at h
    split at h
    · simp at h
    · simp at h
    · rename_i test ht
      have f := frame_GetTestByCode c w
      split at h
      · simp at h
      · simp at h
      · rename_i q rest ho
        simp only [Except.ok.injEq] at h
        subst h
        obtain ⟨r, hr, hrq⟩ := GetTestQuestionIDsOrdered_mem _ _ _ ho q (List.mem_cons_self _ _)
        rw [f.test_questions] at hr
        refine ⟨?_, List.cons_ne_nil _ _⟩
        show 0 < q
        rw [← hrq]
        exact htq r hr
  · unfold StartQuizHandler.buildFree at h
    dsimp only at h
    split at h
    · simp at h
    · rename_i g hg
      have f := frame_GetNextQuestionGroupID 0 w
      split at h
      · simp at h
      · simp at h
      · rename_i q rest ho
        simp only [Except.ok.injEq] at h
        subst h
        obtain ⟨r, hr, hrq⟩ := GetGroupQuestionsIDsRandomOrder_mem _ _ _ ho q (List.mem_cons_self _ _)
        rw [f.questions] at hr
        refine ⟨?_, List.cons_ne_nil _ _⟩
        show 0 < q
        rw [← hrq]
        exact hq r hr

theorem supersede_startable (c : String) (u : Int) (n : QuizSession) (w : World)
    (hn : Startable n) : Startable (StartQuizHandler.supersede c u n w).1 := by
  unfold StartQuizHandler.supersede
  dsimp only
  split
  · split
    · rename_i h
      exact ⟨h.2.2.1, List.length_pos.mp h.2.2.2⟩
    · exact hn
  · exact hn

theorem creates_of_writes (w w' : World)
    (h : w'.trace.filter Call.isWrite = w.trace.filter Call.isWrite) : creates w' = creates w := by
  have key : ∀ l : List Call, l.filterMap Call.created = (l.filter Call.isWrite).filterMap Call.created := by
    intro l
    induction l with
    | nil => rfl
    | cons a t ih =>
      cases a <;> simp [List.filter_cons, List.filterMap_cons, Call.isWrite, Call.created, ih]
  unfold creates
  rw [key, h, ← key]

theorem creates_frame {w w' : World} (h : Frame w w') : creates w' = creates w :=
  creates_of_writes w w' h.writes

theorem creates_update (s : QuizSession) (w : World) :
    creates (PostgresStorage.UpdateQuizSession s w).2 = creates w := by
  unfold creates
  rw [update_trace, List.filterMap_append]
  simp [List.filterMap_cons, Call.created]

theorem update_length (s : QuizSession) (w : World) :
    (PostgresStorage.UpdateQuizSession s w).2.quiz_sessions.length = w.quiz_sessions.length := by
  rcases update_cases s w with h | h
  · rw [h.2]
  · rw [h.2, List.length_map]

theorem supersede_creates (c : String) (u : Int) (n : QuizSession) (w : World) :
    creates (StartQuizHandler.supersede c u n w).2 = creates w ∧
    (StartQuizHandler.supersede c u n w).2.quiz_sessions.length = w.quiz_sessions.length := by
  have f := frame_GetUserLastQuizSession u w
  have h1 : ∀ s, creates (PostgresStorage.UpdateQuizSession s
        (PostgresStorage.GetUserLastQuizSession u w).2).2 = creates w ∧
      (PostgresStorage.UpdateQuizSession s
        (PostgresStorage.GetUserLastQuizSession u w).2).2.quiz_sessions.length =
        w.quiz_sessions.length := by
    intro s
    exact ⟨(creates_update _ _).trans (creates_frame f), by rw [update_length, f.sessions]⟩
  unfold StartQuizHandler.supersede
  dsimp only
  split
  · split
    · exact h1 _
    · exact h1 _
  · exact ⟨creates_frame f, by rw [f.sessions]⟩

/-- What `persist` hands to `CreateQuizSession`, always, and the rows it leaves: the
rows of before, superseded or not, and after them the new row if the insert worked. -/
theorem persist_creates (c : String) (u : Int) (n : QuizSession) (w : World) :
    creates (StartQuizHandler.persist c u n w).2 = creates w ++
      [(StartQuizHandler.regenerate (StartQuizHandler.supersede c u n w).1
        (StartQuizHandler.supersede c u n w).2).1] ∧
    ((StartQuizHandler.persist c u n w).2.quiz_sessions.drop w.quiz_sessions.length = [] ∨
      ∃ row, (StartQuizHandler.persist c u n w).2.quiz_sessions.drop w.quiz_sessions.length = [row] ∧
        row.CurrentQuestionID = (StartQuizHandler.regenerate (StartQuizHandler.supersede c u n w).1
          (StartQuizHandler.supersede c u n w).2).1.CurrentQuestionID ∧
        row.GroupOrder = (StartQuizHandler.regenerate (StartQuizHandler.supersede c u n w).1
          (StartQuizHandler.supersede c u n w).2).1.GroupOrder) := by
  have fp := persist_frame c u n w
  obtain ⟨hc1, hl1⟩ := supersede_creates c u n w
  have fr := frame_regenerate (StartQuizHandler.supersede c u n w).1
    (StartQuizHandler.supersede c u n w).2
  constructor
  · rw [creates_frame fp]
    unfold creates
    rw [create_trace, List.filterMap_append]
    have := creates_frame fr
    unfold creates at this hc1
    rw [this, hc1]
    rfl
  · rw [fp.sessions]
    rcases create_cases (StartQuizHandler.regenerate (StartQuizHandler.supersede c u n w).1
      (StartQuizHandler.supersede c u n w).2).1 (StartQuizHandler.regenerate
      (StartQuizHandler.supersede c u n w).1 (StartQuizHandler.supersede c u n w).2).2
      with h | ⟨row, t, _, hrows, _, _, _, _, _, hcq, _, hgo, _⟩
    · left
      rw [h.2.1, fr.sessions, ← hl1, List.drop_length]
    · right
      refine ⟨row, ?_, hcq, hgo⟩
      rw [hrows, fr.sessions, ← hl1, List.drop_left]

/-! ## Walking through a test -/

/-- One step of a test-bound session that stands on the `k`-th element of an ordering
without repetition. -/
theorem setNext_test_step (s : QuizSession) (w : World) (k : Nat) (ht : s.TestID.isSome = true)
    (hd : s.GroupOrder.Nodup) (hk : k < s.GroupOrder.length)
    (hcq : s.CurrentQuestionID = s.GroupOrder.getD k 0) :
    SubmitAnswerHandler.SetNextQuestionID s w =
      ((Outcome.ok, { s with CurrentQuestionID :=
          if k + 1 < s.GroupOrder.length then s.GroupOrder.getD (k + 1) 0 else -1 }), w) := by
  have hget : s.GroupOrder.getD k 0 = s.GroupOrder[k] := List.getD_eq_getElem _ _ hk
  have hmem : s.CurrentQuestionID ∈ s.GroupOrder := by
    rw [hcq, hget]
    exact List.getElem_mem _
  have hidx : s.GroupOrder.indexOf s.CurrentQuestionID = k := by
    rw [hcq, hget]
    exact List.indexOf_getElem hd k hk
  unfold SubmitAnswerHandler.SetNextQuestionID
  rw [if_pos ht, rangeFind_of_mem _ _ hmem, hidx]
  dsimp only
  split <;> rfl

theorem setNextTimes_test (qs : QuizSession) (w : World) (ht : qs.TestID.isSome = true)
    (hd : qs.GroupOrder.Nodup) (hcq : qs.CurrentQuestionID = qs.GroupOrder.getD 0 0)
    (k : Nat) (hk : k < qs.GroupOrder.length) :
    setNextTimes k qs w =
      ((Outcome.ok, { qs with CurrentQuestionID := qs.GroupOrder.getD k 0 }), w) := by
  induction k with
  | zero =>
    unfold setNextTimes
    rw [← hcq]
  | succ k ih =>
    unfold setNextTimes
    rw [ih (by omega)]
    dsimp only
    have hk2 : k < qs.GroupOrder.length := by omega
    rw [setNext_test_step { qs with CurrentQuestionID := qs.GroupOrder.getD k 0 } w k ht hd
      hk2 rfl]
    dsimp only
    rw [if_pos hk]

/-! ## `SubmitAnswer` from the recording step on -/

/-- A `SubmitAnswer` that gets as far as the recording step: what it does from there. -/
theorem submit_decompose (sid : String) (u id : Int) (answer : QuestionAnswer) (w : World)
    (s : QuizSession) (c : String) (question : Question)
    (hid : Atoi sid = some id)
    (hs : (PostgresStorage.GetQuizSessionByID id w).1 = Except.ok s)
    (hown : u = s.UserID)
    (hc : (PostgresStorage.GetQuestionCorrectOption s.CurrentQuestionID
      (PostgresStorage.GetQuizSessionByID id w).2.now.2).1 = Except.ok c)
    (hq : (PostgresStorage.GetQuestionByID s.CurrentQuestionID
      (PostgresStorage.GetQuestionCorrectOption s.CurrentQuestionID
        (PostgresStorage.GetQuizSessionByID id w).2.now.2).2).1 = Except.ok question) :
    SubmitAnswerHandler.Handle sid u (some answer) w =
      submitTail { s with Status := QuizStatusInProgress } c
        (if s.Mode = QuizModeEducational ∧ TrimSpace answer.Answer = "" then
          (none, (PostgresStorage.GetQuestionByID s.CurrentQuestionID
            (PostgresStorage.GetQuestionCorrectOption s.CurrentQuestionID
              (PostgresStorage.GetQuizSessionByID id w).2.now.2).2).2)
        else StatsClient.SaveResponse s.ID
          (answerRecord w.caseOrbits s answer c question
            (timeSub (PostgresStorage.GetQuizSessionByID id w).2.now.1 s.QuestionRequestedTime))
          (PostgresStorage.GetQuestionByID s.CurrentQuestionID
            (PostgresStorage.GetQuestionCorrectOption s.CurrentQuestionID
              (PostgresStorage.GetQuizSessionByID id w).2.now.2).2).2) := by
  have hne : sid ≠ "" := Atoi_ne_empty sid id hid
  unfold SubmitAnswerHandler.Handle
  rw [if_neg hne]
  simp only [hid, hs]
  rw [if_neg (not_not.mpr hown)]
  simp only [hc, hq]
  rfl

/-! ## The store does not depend on the trace or on the stats service -/

theorem mute_GetNextQuestionGroupID (g : Int) (w1 w2 : World) (h : w1.mute = w2.mute) :
    (PostgresStorage.GetNextQuestionGroupID g w1).1 = (PostgresStorage.GetNextQuestionGroupID g w2).1 ∧
    (PostgresStorage.GetNextQuestionGroupID g w1).2.mute =
      (PostgresStorage.GetNextQuestionGroupID g w2).2.mute := by
  cases w1
  cases w2
  simp only [World.mute, World.mk.injEq, and_true] at h
  obtain ⟨rfl, rfl, rfl, rfl, rfl, rfl, rfl, rfl, rfl, rfl, rfl, rfl, rfl, _, rfl, rfl⟩ := h
  unfold PostgresStorage.GetNextQuestionGroupID
  simp only [World.stmt, World.log, World.rand]
  split
  · exact ⟨rfl, rfl⟩
  · split <;> exact ⟨rfl, rfl⟩

theorem mute_GetGroupQuestionsIDsRandomOrder (g : Int) (w1 w2 : World) (h : w1.mute = w2.mute) :
    (PostgresStorage.GetGroupQuestionsIDsRandomOrder g w1).1 =
      (PostgresStorage.GetGroupQuestionsIDsRandomOrder g w2).1 ∧
    (PostgresStorage.GetGroupQuestionsIDsRandomOrder g w1).2.mute =
      (PostgresStorage.GetGroupQuestionsIDsRandomOrder g w2).2.mute := by
  cases w1
  cases w2
  simp only [World.mute, World.mk.injEq, and_true] at h
  obtain ⟨rfl, rfl, rfl, rfl, rfl, rfl, rfl, rfl, rfl, rfl, rfl, rfl, rfl, _, rfl, rfl⟩ := h
  unfold PostgresStorage.GetGroupQuestionsIDsRandomOrder
  simp only [World.stmt, World.log, World.rand]
  split <;> exact ⟨rfl, rfl⟩

theorem mute_UpdateQuizSession (s : QuizSession) (w1 w2 : World) (h : w1.mute = w2.mute) :
    (PostgresStorage.UpdateQuizSession s w1).1 = (PostgresStorage.UpdateQuizSession s w2).1 ∧
    (PostgresStorage.UpdateQuizSession s w1).2.mute =
      (PostgresStorage.UpdateQuizSession s w2).2.mute := by
  cases w1
  cases w2
  simp only [World.mute, World.mk.injEq, and_true] at h
  obtain ⟨rfl, rfl, rfl, rfl, rfl, rfl, rfl, rfl, rfl, rfl, rfl, rfl, rfl, _, rfl, rfl⟩ := h
  unfold PostgresStorage.UpdateQuizSession
  simp only [World.stmt, World.log, World.now]
  split <;> exact ⟨rfl, rfl⟩

theorem mute_setNext (qs : QuizSession) (w1 w2 : World) (h : w1.mute = w2.mute) :
    (SubmitAnswerHandler.SetNextQuestionID qs w1).1 = (SubmitAnswerHandler.SetNextQuestionID qs w2).1 ∧
    (SubmitAnswerHandler.SetNextQuestionID qs w1).2.mute =
      (SubmitAnswerHandler.SetNextQuestionID qs w2).2.mute := by
  unfold SubmitAnswerHandler.SetNextQuestionID
  split
  · split
    · split <;> exact ⟨rfl, h⟩
    · exact ⟨rfl, h⟩
  · split
    · split
      · exact ⟨rfl, h⟩
      · dsimp only
        obtain ⟨g1, g2⟩ := mute_GetNextQuestionGroupID qs.CurrentGroup w1 w2 h
        rw [g1]
        split
        · exact ⟨rfl, g2⟩
        · rename_i g hg
          obtain ⟨o1, o2⟩ := mute_GetGroupQuestionsIDsRandomOrder g _ _ g2
          rw [o1]
          split
          · exact ⟨rfl, o2⟩
          · exact ⟨rfl, o2⟩
          · exact ⟨rfl, o2⟩
    · exact ⟨rfl, h⟩

theorem mute_SaveResponse (id : Int) (a : QuestionAnswer) (w : World) :
    (StatsClient.SaveResponse id a w).2.mute = w.mute := by
  unfold StatsClient.SaveResponse
  simp only [World.statsDo, World.log]
  split
  · rfl
  · split <;> rfl

/-- The tail of `SubmitAnswer` gives the same response and the same store whether or not
an answer was recorded before it. -/
theorem mute_submitTail (session : QuizSession) (c : String) (w1 w2 : World)
    (h : w1.mute = w2.mute) :
    (submitTail session c (none, w1)).1 = (submitTail session c (none, w2)).1 ∧
    (submitTail session c (none, w1)).2.mute = (submitTail session c (none, w2)).2.mute := by
  unfold submitTail
  dsimp only
  obtain ⟨n1, n2⟩ := mute_setNext session w1 w2 h
  rw [n1]
  split
  · exact ⟨rfl, n2⟩
  · exact ⟨rfl, n2⟩
  · obtain ⟨u1, u2⟩ := mute_UpdateQuizSession
      (SubmitAnswerHandler.SetNextQuestionID session w2).1.2 _ _ n2
    rw [u1]
    split
    · exact ⟨rfl, u2⟩
    · exact ⟨rfl, u2⟩

theorem posts_submitTail (s : QuizSession) (c : String) (r : Option GoError × World) :
    posts (submitTail s c r).2 = posts r.2 := by
  unfold submitTail
  split
  · rfl
  · split
    · exact posts_setNext _ _
    · exact posts_setNext _ _
    · split
      · exact (posts_update _ _).trans (posts_setNext _ _)
      · exact (posts_update _ _).trans (posts_setNext _ _)

/-- The reads `SubmitAnswer` makes before the recording step send nothing to the stats
service and leave its replies and its address alone. -/
theorem submit_reads (id : Int) (cq : Int) (w : World) :
    posts (PostgresStorage.GetQuestionByID cq
      (PostgresStorage.GetQuestionCorrectOption cq
        (PostgresStorage.GetQuizSessionByID id w).2.now.2).2).2 = posts w ∧
    Frame w (PostgresStorage.GetQuestionByID cq
      (PostgresStorage.GetQuestionCorrectOption cq
        (PostgresStorage.GetQuizSessionByID id w).2.now.2).2).2 ∧
    (PostgresStorage.GetQuestionByID cq
      (PostgresStorage.GetQuestionCorrectOption cq
        (PostgresStorage.GetQuizSessionByID id w).2.now.2).2).2.statsReplies = w.statsReplies := by
  have p1 := posts_GetQuizSessionByID id w
  have f1 := frame_GetQuizSessionByID id w
  have p2 : posts (PostgresStorage.GetQuizSessionByID id w).2.now.2 = posts w := p1
  have f2 := f1.trans (frame_now (PostgresStorage.GetQuizSessionByID id w).2)
  have p3 := (posts_of_trace _ _ _ (GetQuestionCorrectOption_trace cq
    (PostgresStorage.GetQuizSessionByID id w).2.now.2) rfl).trans p2
  have f3 := f2.trans (frame_GetQuestionCorrectOption cq
    (PostgresStorage.GetQuizSessionByID id w).2.now.2)
  have p4 := (posts_of_trace _ _ _ (GetQuestionByID_trace cq
    (PostgresStorage.GetQuestionCorrectOption cq
      (PostgresStorage.GetQuizSessionByID id w).2.now.2).2) rfl).trans p3
  have f4 := f3.trans (frame_GetQuestionByID cq
    (PostgresStorage.GetQuestionCorrectOption cq
      (PostgresStorage.GetQuizSessionByID id w).2.now.2).2)
  refine ⟨p4, f4, ?_⟩
  have s1 : (PostgresStorage.GetQuizSessionByID id w).2.statsReplies = w.statsReplies := by
    unfold PostgresStorage.GetQuizSessionByID
    simp only [World.stmt, World.log]
    split
    · rfl
    · split <;> rfl
  have s2 : ∀ w0 : World, (PostgresStorage.GetQuestionCorrectOption cq w0).2.statsReplies =
      w0.statsReplies := by
    intro w0
    unfold PostgresStorage.GetQuestionCorrectOption
    simp only [World.stmt, World.log]
    split
    · rfl
    · split <;> rfl
  have s3 : ∀ w0 : World, (PostgresStorage.GetQuestionByID cq w0).2.statsReplies =
      w0.statsReplies := by
    intro w0
    unfold PostgresStorage.GetQuestionByID
    simp only [World.stmt, World.log]
    split
    · rfl
    · split
      · rfl
      · split
        · rfl
        · split
          · rfl
          · split <;> rfl
  rw [s3, s2]
  exact s1

theorem SaveResponse_result (id : Int) (a : QuestionAnswer) (w : World) :
    (StatsClient.SaveResponse id a w).1 =
      if w.statsReplies.head? = some StatsReply.transportError then some GoError.transport
      else none := by
  unfold StatsClient.SaveResponse
  simp only [World.statsDo, World.log]
  cases h : w.statsReplies with
  | nil => rfl
  | cons r rest =>
    cases r with
    | transportError => rfl
    | status code =>
      simp only [List.headD_cons, List.head?_cons]
      split <;> simp

/-- How `SubmitAnswer` ends: without success and without any write, or with the one
update of the session `SetNextQuestionID` handed back with nil, which either fails
(500) or succeeds (200). -/
theorem submit_outcome (sid : String) (u : Int) (body : Option QuestionAnswer) (w : World) :
    (Frame w (SubmitAnswerHandler.Handle sid u body w).2 ∧
      ∀ resp, (SubmitAnswerHandler.Handle sid u body w).1 = some resp → resp.status ≠ 200) ∨
    ∃ (id : Int) (r : QuizSession) (w1 : World),
      Atoi sid = some id ∧ r ∈ w.quiz_sessions ∧ r.ID = id ∧
      w.quiz_sessions.find? (fun r => r.ID = id) = some r ∧ r.UserID = u ∧ Frame w w1 ∧
      (SubmitAnswerHandler.SetNextQuestionID
        { r with ScreenSize := "", Status := QuizStatusInProgress } w1).1.1 = Outcome.ok ∧
      (SubmitAnswerHandler.Handle sid u body w).2 =
        (PostgresStorage.UpdateQuizSession
          (SubmitAnswerHandler.SetNextQuestionID
            { r with ScreenSize := "", Status := QuizStatusInProgress } w1).1.2
          (SubmitAnswerHandler.SetNextQuestionID
            { r with ScreenSize := "", Status := QuizStatusInProgress } w1).2).2 ∧
      (((PostgresStorage.UpdateQuizSession
          (SubmitAnswerHandler.SetNextQuestionID
            { r with ScreenSize := "", Status := QuizStatusInProgress } w1).1.2
          (SubmitAnswerHandler.SetNextQuestionID
            { r with ScreenSize := "", Status := QuizStatusInProgress } w1).2).1 ≠ none ∧
        (SubmitAnswerHandler.Handle sid u body w).1 =
          some (httpError "internal server error" 500)) ∨
       ((PostgresStorage.UpdateQuizSession
          (SubmitAnswerHandler.SetNextQuestionID
            { r with ScreenSize := "", Status := QuizStatusInProgress } w1).1.2
          (SubmitAnswerHandler.SetNextQuestionID
            { r with ScreenSize := "", Status := QuizStatusInProgress } w1).2).1 = none ∧
        ∃ c, (SubmitAnswerHandler.Handle sid u body w).1 = some (submitResponse c))) := by
  have bad : ∀ (msg : String) (code : Nat), code ≠ 200 →
      ∀ resp, some (httpError msg code) = some resp → resp.status ≠ 200 := by
    intro msg code hcode resp h
    cases h
    exact hcode
  unfold SubmitAnswerHandler.Handle
  split
  · exact Or.inl ⟨Frame.refl _, bad _ _ (by decide)⟩
  · split
    · exact Or.inl ⟨Frame.refl _, bad _ _ (by decide)⟩
    · rename_i id hid
      have f1 := frame_GetQuizSessionByID id w
      dsimp only
      split
      · exact Or.inl ⟨f1, bad _ _ (by decide)⟩
      · rename_i s hs
        obtain ⟨r, hr, hrid, rfl, hfind⟩ := GetQuizSessionByID_ok id w s hs
        have f2 := f1.trans (frame_now (PostgresStorage.GetQuizSessionByID id w).2)
        have f3 := f2.trans (frame_GetQuestionCorrectOption r.CurrentQuestionID
          (PostgresStorage.GetQuizSessionByID id w).2.now.2)
        have f4 := f3.trans (frame_GetQuestionByID r.CurrentQuestionID
          (PostgresStorage.GetQuestionCorrectOption r.CurrentQuestionID
            (PostgresStorage.GetQuizSessionByID id w).2.now.2).2)
        split
        · exact Or.inl ⟨f2, bad _ _ (by decide)⟩
        · rename_i hown
          have hown2 : r.UserID = u := by
            have : ¬ u ≠ r.UserID := hown
            exact (not_not.mp this).symm
          split
          · exact Or.inl ⟨f3, bad _ _ (by decide)⟩
          · cases body with
            | none => exact Or.inl ⟨f3, bad _ _ (by decide)⟩
            | some answer =>
              dsimp only
              split
              · exact Or.inl ⟨f4, bad _ _ (by decide)⟩
              · rename_i question hq
                by_cases hE : r.Mode = QuizModeEducational ∧ TrimSpace answer.Answer = ""
                · rw [if_pos hE]
                  dsimp only
                  split
                  · exact Or.inl ⟨f4.trans (frame_setNext _ _), fun resp h => by cases h⟩
                  · exact Or.inl ⟨f4.trans (frame_setNext _ _), bad _ _ (by decide)⟩
                  · rename_i hok
                    split
                    · rename_i e he
                      exact Or.inr ⟨id, r, _, hid, hr, hrid, hfind, hown2, f4, hok, rfl,
                        Or.inl ⟨by rw [he]; exact Option.some_ne_none _, rfl⟩⟩
                    · rename_i he
                      exact Or.inr ⟨id, r, _, hid, hr, hrid, hfind, hown2, f4, hok, rfl,
                        Or.inr ⟨he, _, rfl⟩⟩
                · rw [if_neg hE]
                  split
                  · exact Or.inl ⟨f4.trans (frame_SaveResponse _ _ _), bad _ _ (by decide)⟩
                  · split
                    · exact Or.inl ⟨(f4.trans (frame_SaveResponse _ _ _)).trans (frame_setNext _ _),
                        fun resp h => by cases h⟩
                    · exact Or.inl ⟨(f4.trans (frame_SaveResponse _ _ _)).trans (frame_setNext _ _),
                        bad _ _ (by decide)⟩
                    · rename_i hok
                      split
                      · rename_i e he
                        exact Or.inr ⟨id, r, _, hid, hr, hrid, hfind, hown2,
                          f4.trans (frame_SaveResponse _ _ _), hok, rfl,
                          Or.inl ⟨by rw [he]; exact Option.some_ne_none _, rfl⟩⟩
                      · rename_i he
                        exact Or.inr ⟨id, r, _, hid, hr, hrid, hfind, hown2,
                          f4.trans (frame_SaveResponse _ _ _), hok, rfl,
                          Or.inr ⟨he, _, rfl⟩⟩

/-! ## The access gate of `StartQuiz` -/

theorem GetSecuritySettings_noFaults (w : World) (hf : NoFaults w) :
    (PostgresStorage.GetSecuritySettings w).1 =
      ((PostgresStorage.settingValue "quiz_security_mode" w).getD "cooldown",
       (Atoi ((PostgresStorage.settingValue "quiz_cooldown_hours" w).getD "24")).getD 24) := by
  have h1 := log_stmt_noFaults Call.GetSecuritySettings w hf
  have f1 := frame_log_stmt Call.GetSecuritySettings w rfl
  have h2 := stmt_noFaults _ (f1.noFaults hf)
  unfold PostgresStorage.GetSecuritySettings
  simp only [h1, h2]
  rfl

theorem IsUserApproved_noFaults (u : Int) (w : World) (hf : NoFaults w) :
    (PostgresStorage.IsUserApproved u w).1 =
      Except.ok (decide ((w.quiz_user_access.find? (fun p => p.1 = u)).map (fun p => p.2) =
        some true)) := by
  have h1 := log_stmt_noFaults (Call.IsUserApproved u) w hf
  unfold PostgresStorage.IsUserApproved
  simp only [h1]
  have e : (w.log (Call.IsUserApproved u)).stmt.2.quiz_user_access = w.quiz_user_access := rfl
  rw [e]
  cases h : w.quiz_user_access.find? (fun p => p.1 = u) with
  | none => simp
  | some p =>
    cases hp : p.2 <;> simp [hp]

/-- A start the gate rejects ends with the response of the gate. -/
theorem start_rejected (u : Int) (body : Option StartQuizPayload) (w : World) (resp : Response)
    (h : (StartQuizHandler.accessGate u w).1 = some resp) :
    (StartQuizHandler.Handle u body w).1 = some resp ∧
    Frame w (StartQuizHandler.Handle u body w).2 := by
  have f := frame_accessGate u w
  unfold StartQuizHandler.Handle
  simp only [h]
  exact ⟨trivial, f⟩

theorem access_unchanged (w : World) :
    (PostgresStorage.GetSecuritySettings w).2.quiz_user_access = w.quiz_user_access :=
  (frame_GetSecuritySettings w).access

/-! ## The seconds of a duration: when the `float64` is exact enough -/

theorem roundHalfEven_bounds (a b : Nat) (hb : 0 < b) :
    a / b ≤ roundHalfEven a b ∧ 2 * (b * roundHalfEven a b) ≤ 2 * a + b := by
  have hdm : b * (a / b) + a % b = a := Nat.div_add_mod a b
  have hlt : a % b < b := Nat.mod_lt a hb
  generalize hq : a / b = q at hdm
  generalize hr : a % b = r at hdm hlt
  unfold roundHalfEven
  rw [hq, hr]
  have e1 : b * (q + 1) = b * q + b := Nat.mul_succ b q
  generalize hX : b * q = X at hdm e1
  split
  · exact ⟨Nat.le_refl _, by rw [hX]; omega⟩
  · split
    · exact ⟨Nat.le_succ _, by rw [e1]; omega⟩
    · split
      · exact ⟨Nat.le_refl _, by rw [hX]; omega⟩
      · exact ⟨Nat.le_succ _, by rw [e1]; omega⟩

/-- The search for the binary places does not stop while the test holds. -/
theorem binaryPlaces_ge (fuel p q k m : Nat) (hm : m ≤ fuel)
    (h : ∀ j, k ≤ j → j < k + m → p * 2 ^ j < 2 ^ 52 * q) :
    k + m ≤ binaryPlaces fuel p q k := by
  induction fuel generalizing k m with
  | zero =>
    have : m = 0 := Nat.le_zero.mp hm
    subst this
    unfold binaryPlaces
    exact Nat.le_refl _
  | succ fuel ih =>
    unfold binaryPlaces
    cases m with
    | zero =>
      split
      · have := ih (k + 1) 0 (Nat.zero_le _) (fun j h1 h2 => by omega)
        omega
      · exact Nat.le_refl _
    | succ m =>
      rw [if_pos (h k (Nat.le_refl _) (by omega))]
      have := ih (k + 1) m (by omega) (fun j h1 h2 => h j (by omega) (by omega))
      omega

/-- The `float64` of a fraction of a second stays below one by more than `17 / 2 ^ 34`. -/
theorem float64_nsec (nsec : Nat) (h : nsec < 1000000000) :
    (float64 nsec 1000000000).1 * 2 ^ 34 ≤ 2 ^ (float64 nsec 1000000000).2 * (2 ^ 34 - 17) := by
  unfold float64
  split
  · simp
  · dsimp only
    have hK : 0 + 36 ≤ binaryPlaces 128 nsec 1000000000 0 := by
      apply binaryPlaces_ge _ _ _ _ _ (by decide)
      intro j _ hj
      have h1 : (2 : Nat) ^ j ≤ 2 ^ 35 := Nat.pow_le_pow_right (by decide) (by omega)
      calc nsec * 2 ^ j ≤ 1000000000 * 2 ^ 35 := Nat.mul_le_mul (Nat.le_of_lt h) h1
        _ < 2 ^ 52 * 1000000000 := by decide
    generalize binaryPlaces 128 nsec 1000000000 0 = K at hK
    have hX : (2 : Nat) ^ 36 ≤ 2 ^ K := Nat.pow_le_pow_right (by decide) (by omega)
    obtain ⟨_, hup⟩ := roundHalfEven_bounds (nsec * 2 ^ K) 1000000000 (by decide)
    have h2 : nsec * 2 ^ K ≤ 999999999 * 2 ^ K := Nat.mul_le_mul_right _ (by omega)
    generalize roundHalfEven (nsec * 2 ^ K) 1000000000 = m at hup
    generalize nsec * 2 ^ K = Z at hup h2
    generalize (2 : Nat) ^ K = X at hX h2
    have e34 : (2 : Nat) ^ 34 = 17179869184 := by decide
    have e36 : (2 : Nat) ^ 36 = 68719476736 := by decide
    rw [e34]
    rw [e36] at hX
    have e3 : X * (17179869184 - 17) = 17179869167 * X := by
      rw [Nat.mul_comm]
    rw [e3]
    omega

/-- The `float64` of a sum `s + m1 / X`, with `s` below `2 ^ 24` and the fraction below
one by more than `17 / 2 ^ 34`, truncates to `s`. -/
theorem float64_sum (s m1 X : Nat) (hs : s < 2 ^ 24) (hX : 0 < X)
    (hf : m1 * 2 ^ 34 ≤ X * (2 ^ 34 - 17)) :
    (float64 (s * X + m1) X).1 / 2 ^ (float64 (s * X + m1) X).2 = s := by
  have e34 : (2 : Nat) ^ 34 = 17179869184 := by decide
  rw [e34] at hf
  have hm1 : m1 < X := by
    have e3 : X * (17179869184 - 17) = 17179869167 * X := by rw [Nat.mul_comm]
    rw [e3] at hf
    omega
  unfold float64
  split
  · rename_i h0
    have hsx : s * X = 0 := by omega
    rcases Nat.mul_eq_zero.mp hsx with h | h
    · rw [h]
      rfl
    · omega
  · dsimp only
    have hK : 0 + 29 ≤ binaryPlaces 128 (s * X + m1) X 0 := by
      apply binaryPlaces_ge _ _ _ _ _ (by decide)
      intro j _ hj
      have h1 : (2 : Nat) ^ j ≤ 2 ^ 28 := Nat.pow_le_pow_right (by decide) (by omega)
      have h2 : s * X + m1 < 2 ^ 24 * X := by
        have : (s + 1) * X ≤ 2 ^ 24 * X := Nat.mul_le_mul_right _ hs
        rw [Nat.add_mul, Nat.one_mul] at this
        omega
      calc (s * X + m1) * 2 ^ j ≤ (s * X + m1) * 2 ^ 28 := Nat.mul_le_mul_left _ h1
        _ < 2 ^ 24 * X * 2 ^ 28 := Nat.mul_lt_mul_of_pos_right h2 (by decide)
        _ = 2 ^ 52 * X := by ring
    generalize binaryPlaces 128 (s * X + m1) X 0 = K at hK
    have hY : (2 : Nat) ^ 29 ≤ 2 ^ K := Nat.pow_le_pow_right (by decide) (by omega)
    have hYpos : 0 < 2 ^ K := Nat.pow_pos (by decide)
    obtain ⟨hlo, hup⟩ := roundHalfEven_bounds ((s * X + m1) * 2 ^ K) X hX
    generalize roundHalfEven ((s * X + m1) * 2 ^ K) X = m2 at hlo hup
    generalize (2 : Nat) ^ K = Y at hY hYpos hlo hup
    have e29 : (2 : Nat) ^ 29 = 536870912 := by decide
    rw [e29] at hY
    apply Nat.le_antisymm
    · -- upper bound
      apply Nat.le_of_lt_succ
      rw [Nat.div_lt_iff_lt_mul hYpos]
      by_contra hcon
      have hge : (s + 1) * Y ≤ m2 := Nat.le_of_not_lt hcon
      have h1 : X * ((s + 1) * Y) ≤ X * m2 := Nat.mul_le_mul_left _ hge
      have h2 : m1 * Y * 17179869184 ≤ X * Y * 17179869167 := by
        have := Nat.mul_le_mul_right Y hf
        calc m1 * Y * 17179869184 = m1 * 17179869184 * Y := by ring
          _ ≤ X * (17179869184 - 17) * Y := this
          _ = X * Y * 17179869167 := by ring
      have h3 : 536870912 * X ≤ X * Y := by
        calc 536870912 * X = X * 536870912 := Nat.mul_comm _ _
          _ ≤ X * Y := Nat.mul_le_mul_left _ hY
      have e1 : X * ((s + 1) * Y) = s * (X * Y) + X * Y := by ring
      have e2 : (s * X + m1) * Y = s * (X * Y) + m1 * Y := by ring
      rw [e1] at h1
      rw [e2] at hup
      generalize X * Y = A at h1 h2 h3 hup
      generalize m1 * Y = B at h2 hup
      generalize s * A = D at h1 hup
      generalize X * m2 = C at h1 hup
      omega
    · -- lower bound
      rw [Nat.le_div_iff_mul_le hYpos]
      refine Nat.le_trans ?_ hlo
      rw [Nat.le_div_iff_mul_le hX]
      calc s * Y * X = s * X * Y := by ring
        _ ≤ (s * X + m1) * Y := Nat.mul_le_mul_right _ (Nat.le_add_right _ _)


/-- Below `2 ^ 24` seconds, `int(d.Seconds())` is the whole seconds of the duration. -/
theorem secondsNat_exact (n : Nat) (h : n < 2 ^ 24 * 1000000000) :
    secondsNat n = n / 1000000000 := by
  unfold secondsNat
  dsimp only
  have hs : n / 1000000000 < 2 ^ 24 := (Nat.div_lt_iff_lt_mul (by decide)).mpr h
  have hn : n % 1000000000 < 1000000000 := Nat.mod_lt _ (by decide)
  exact float64_sum _ _ _ hs (Nat.pow_pos (by decide)) (float64_nsec _ hn)

theorem durationSeconds_exact (d : Int) (h0 : 0 ≤ d) (h : d < 2 ^ 24 * 1000000000) :
    durationSeconds d = d / 1000000000 := by
  unfold durationSeconds
  rw [if_pos h0]
  obtain ⟨n, rfl⟩ := Int.eq_ofNat_of_zero_le h0
  rw [Int.toNat_ofNat, secondsNat_exact n (by exact_mod_cast h)]
  rfl

theorem durationSeconds_neg (d : Int) (h : d < 0) : durationSeconds d ≤ 0 := by
  unfold durationSeconds
  rw [if_neg (by omega)]
  have : (0 : Int) ≤ (secondsNat (-d).toNat : Int) := Int.ofNat_nonneg _
  omega

/-! ## The cooldown policy -/

theorem wrap64_of_fits (x : Int) (h1 : -(2 ^ 63) ≤ x) (h2 : x < 2 ^ 63) : wrap64 x = x := by
  unfold wrap64
  rw [Int.emod_eq_of_lt (by omega) (by omega)]
  omega

theorem hours_fit (h : Int) (h1 : -2562047 ≤ h) (h2 : h ≤ 2562047) : wrap64 (h * Hour) = h * Hour := by
  unfold Hour
  apply wrap64_of_fits <;> omega

theorem timeSub_cases (t u : Int) :
    (9223372036854775807 < t - u ∧ timeSub t u = 9223372036854775807) ∨
    (t - u < -9223372036854775808 ∧ timeSub t u = -9223372036854775808) ∨
    (-9223372036854775808 ≤ t - u ∧ t - u ≤ 9223372036854775807 ∧ timeSub t u = t - u) := by
  have hmax : maxDuration = 9223372036854775807 := by unfold maxDuration; norm_num
  have hmin : minDuration = -9223372036854775808 := by unfold minDuration; norm_num
  unfold timeSub
  rw [hmax, hmin]
  split
  · rename_i c1
    have c1i : t - u > (9223372036854775807 : Int) := c1
    exact Or.inl ⟨c1i, rfl⟩
  · rename_i c1
    have c1i : ¬ (t - u > (9223372036854775807 : Int)) := c1
    split
    · rename_i c2
      have c2i : t - u < (-9223372036854775808 : Int) := c2
      exact Or.inr (Or.inl ⟨c2i, rfl⟩)
    · rename_i c2
      have c2i : ¬ (t - u < (-9223372036854775808 : Int)) := c2
      exact Or.inr (Or.inr ⟨by omega, by omega, rfl⟩)

/-- The seconds the gate reports for a wait: none when the wait is over, the whole
seconds when it is below `2 ^ 24` seconds. -/
theorem waitSeconds_exact (readyAt now2 : Int)
    (h : readyAt - now2 < 2 ^ 24 * 1000000000) :
    (if durationSeconds (timeSub readyAt now2) < 0 then 0
      else durationSeconds (timeSub readyAt now2)) = max 0 ((readyAt - now2) / 1000000000) := by
  have e24 : (2 : Int) ^ 24 * 1000000000 = 16777216000000000 := by norm_num
  rw [e24] at h
  by_cases hneg : readyAt - now2 < 0
  · have hts : timeSub readyAt now2 < 0 := by
      rcases timeSub_cases readyAt now2 with ⟨c, _⟩ | ⟨_, e⟩ | ⟨_, _, e⟩
      · omega
      · rw [e]
        decide
      · rw [e]
        exact hneg
    have hd := durationSeconds_neg _ hts
    have hq : (readyAt - now2) / 1000000000 < 0 := Int.ediv_neg' hneg (by decide)
    rw [max_eq_left (by omega)]
    split
    · rfl
    · omega
  · have hts : timeSub readyAt now2 = readyAt - now2 := by
      rcases timeSub_cases readyAt now2 with ⟨c, _⟩ | ⟨c, _⟩ | ⟨_, _, e⟩
      · omega
      · omega
      · exact e
    rw [hts, durationSeconds_exact _ (by omega) (by rw [e24]; exact h)]
    have hq : 0 ≤ (readyAt - now2) / 1000000000 := Int.ediv_nonneg (by omega) (by decide)
    rw [max_eq_right hq, if_neg (by omega)]

/-- The access gate in cooldown mode, once the registration time is read. -/
theorem gate_cooldown (u : Int) (w : World) (h : Int) (r : Time)
    (hsec : (PostgresStorage.GetSecuritySettings w).1 = ("cooldown", h))
    (hreg : (PostgresStorage.UpsertAndGetRegisteredAt u
      (PostgresStorage.GetSecuritySettings w).2).1 = Except.ok r) :
    (StartQuizHandler.accessGate u w).1 =
      if (PostgresStorage.UpsertAndGetRegisteredAt u
          (PostgresStorage.GetSecuritySettings w).2).2.now.1 < r + wrap64 (h * Hour) then
        some (cooldownActive h
          (if durationSeconds (timeSub (r + wrap64 (h * Hour))
              (PostgresStorage.UpsertAndGetRegisteredAt u
                (PostgresStorage.GetSecuritySettings w).2).2.now.2.now.1) < 0 then 0
            else durationSeconds (timeSub (r + wrap64 (h * Hour))
              (PostgresStorage.UpsertAndGetRegisteredAt u
                (PostgresStorage.GetSecuritySettings w).2).2.now.2.now.1))
          (r + wrap64 (h * Hour)))
      else none := by
  have h1 : (PostgresStorage.GetSecuritySettings w).1.1 = "cooldown" := by rw [hsec]
  have h2 : (PostgresStorage.GetSecuritySettings w).1.2 = h := by rw [hsec]
  unfold StartQuizHandler.accessGate StartQuizHandler.policy
  dsimp only
  rw [h1, h2, if_neg (by decide), if_pos rfl]
  simp only [hreg]
  split <;> rfl

theorem not_startable_iff (s : QuizSession) :
    ¬ Startable s ↔ (s.CurrentQuestionID ≤ 0 ∨ s.GroupOrder.length = 0) := by
  unfold Startable
  constructor
  · intro h
    by_cases h1 : 0 < s.CurrentQuestionID
    · right
      by_contra h2
      exact h ⟨h1, fun h3 => h2 (by rw [h3]; rfl)⟩
    · left
      omega
  · rintro (h | h) ⟨h1, h2⟩
    · omega
    · exact h2 (List.length_eq_zero.mp h)

/-- The last-resort regeneration, when the repository answers with a group and a
non-empty ordering of it. -/
theorem regenerate_ok (s : QuizSession) (w : World) (gid q : Int) (rest : List Int)
    (hs : ¬ Startable s)
    (hg : (PostgresStorage.GetNextQuestionGroupID 0 w).1 = Except.ok gid)
    (ho : (PostgresStorage.GetGroupQuestionsIDsRandomOrder gid
      (PostgresStorage.GetNextQuestionGroupID 0 w).2).1 = Except.ok (q :: rest)) :
    StartQuizHandler.regenerate s w =
      ({ s with CurrentGroup := gid, GroupOrder := q :: rest, CurrentQuestionID := q },
       (PostgresStorage.GetGroupQuestionsIDsRandomOrder gid
         (PostgresStorage.GetNextQuestionGroupID 0 w).2).2) := by
  unfold StartQuizHandler.regenerate
  rw [if_pos ((not_startable_iff s).1 hs)]
  simp only [hg, ho]

/-- The last-resort regeneration, when the repository fails or has no question for the
group: the session stays as it is. -/
theorem regenerate_fail (s : QuizSession) (w : World)
    (h : (∃ e, (PostgresStorage.GetNextQuestionGroupID 0 w).1 = Except.error e) ∨
      ∃ gid, (PostgresStorage.GetNextQuestionGroupID 0 w).1 = Except.ok gid ∧
        ((∃ e, (PostgresStorage.GetGroupQuestionsIDsRandomOrder gid
            (PostgresStorage.GetNextQuestionGroupID 0 w).2).1 = Except.error e) ∨
          (PostgresStorage.GetGroupQuestionsIDsRandomOrder gid
            (PostgresStorage.GetNextQuestionGroupID 0 w).2).1 = Except.ok [])) :
    (StartQuizHandler.regenerate s w).1 = s := by
  unfold StartQuizHandler.regenerate
  split
  · rcases h with ⟨e, he⟩ | ⟨gid, hg, ⟨e, he⟩ | he⟩
    · simp only [he]
    · simp only [hg, he]
    · simp only [hg, he]
  · rfl

theorem GetGroupQuestionsIDsRandomOrder_group (g : Int) (w : World) (l : List Int)
    (h : (PostgresStorage.GetGroupQuestionsIDsRandomOrder g w).1 = Except.ok l) :
    ∀ x ∈ l, ∃ q ∈ w.questions, q.id = x ∧ q.group_number = g := by
  unfold PostgresStorage.GetGroupQuestionsIDsRandomOrder at h
  dsimp only at h
  split at h
  · simp at h
  · simp only [Except.ok.injEq] at h
    subst h
    intro x hx
    have hx2 := shuffle_mem _ _ _ hx
    rw [List.mem_map] at hx2
    obtain ⟨q, hq, rfl⟩ := hx2
    have := List.mem_filter.mp hq
    exact ⟨q, this.1, rfl, by simpa using this.2⟩

/-- The tail of `StartQuiz` answers 200 with the session created whenever the insert and
the reading of the time limit succeed, whatever the regeneration did. -/
theorem persist_ok (c : String) (u : Int) (n : QuizSession) (w : World)
    (created : QuizSession) (tl : Int)
    (hc : (PostgresStorage.CreateQuizSession
      (StartQuizHandler.regenerate (StartQuizHandler.supersede c u n w).1
        (StartQuizHandler.supersede c u n w).2).1
      (StartQuizHandler.regenerate (StartQuizHandler.supersede c u n w).1
        (StartQuizHandler.supersede c u n w).2).2).1 = Except.ok created)
    (ht : (PostgresStorage.GetTimeLimit (StatsClient.SaveSession created
      (PostgresStorage.CreateQuizSession
        (StartQuizHandler.regenerate (StartQuizHandler.supersede c u n w).1
          (StartQuizHandler.supersede c u n w).2).1
        (StartQuizHandler.regenerate (StartQuizHandler.supersede c u n w).1
          (StartQuizHandler.supersede c u n w).2).2).2).2).1 = Except.ok tl) :
    (StartQuizHandler.persist c u n w).1 =
      some { status := 200, headers := [("Content-Type", "application/json")],
             body := Body.session created tl } ∧
    created.CurrentQuestionID =
      (StartQuizHandler.regenerate (StartQuizHandler.supersede c u n w).1
        (StartQuizHandler.supersede c u n w).2).1.CurrentQuestionID ∧
    created.GroupOrder =
      (StartQuizHandler.regenerate (StartQuizHandler.supersede c u n w).1
        (StartQuizHandler.supersede c u n w).2).1.GroupOrder ∧
    ∃ row, (StartQuizHandler.persist c u n w).2.quiz_sessions =
        (StartQuizHandler.supersede c u n w).2.quiz_sessions ++ [row] ∧
      row.ID = created.ID ∧
      row.CurrentQuestionID = created.CurrentQuestionID ∧ row.GroupOrder = created.GroupOrder := by
  have fp := persist_frame c u n w
  have fr := frame_regenerate (StartQuizHandler.supersede c u n w).1
    (StartQuizHandler.supersede c u n w).2
  generalize hr : StartQuizHandler.regenerate (StartQuizHandler.supersede c u n w).1
    (StartQuizHandler.supersede c u n w).2 = r at hc ht fp fr
  refine ⟨?_, ?_⟩
  · unfold StartQuizHandler.persist
    simp only [hr, hc, ht]
  · rcases create_cases r.1 r.2 with h | ⟨row, t, h1, h2, h3, h4, h5, h6, h7, h8, h9, h10, _⟩
    · rw [h.1] at hc
      cases hc
    · rw [h1] at hc
      simp only [Except.ok.injEq] at hc
      subst hc
      refine ⟨rfl, rfl, row, ?_, ?_, h8, h10⟩
      · rw [fp.sessions, h2, fr.sessions]
      · rw [h4]

/-! ## The claims -/

/-- C1: for every session, test-bound or free-roam, whose `current_question_id` occurs
in `group_order` at a position `k` that is not the last, `SetNextQuestionID` returns nil,
sets `current_question_id` to the element right after the first occurrence of the old
one, leaves every other field (`group_order`, `current_group`, ...) as it was, and
leaves the world untouched: no repository call is made. -/
theorem C1_advance_within_order (qs : QuizSession) (w : World) (k : Nat)
    (hk : k + 1 < qs.GroupOrder.length)
    (hocc : qs.GroupOrder.get? k = some qs.CurrentQuestionID) :
    ∃ next, qs.GroupOrder.get? (qs.GroupOrder.indexOf qs.CurrentQuestionID + 1) = some next ∧
      SubmitAnswerHandler.SetNextQuestionID qs w =
        ((Outcome.ok, { qs with CurrentQuestionID := next }), w) := by
  have hmem : qs.CurrentQuestionID ∈ qs.GroupOrder := List.get?_mem hocc
  have hle := indexOf_le_of_get _ _ _ hocc
  have hlt : qs.GroupOrder.indexOf qs.CurrentQuestionID + 1 < qs.GroupOrder.length := by omega
  refine ⟨qs.GroupOrder.getD (qs.GroupOrder.indexOf qs.CurrentQuestionID + 1) 0, ?_, ?_⟩
  · rw [List.getD_eq_getElem?_getD, List.get?_eq_getElem?, List.getElem?_eq_getElem hlt]
    simp
  · unfold SubmitAnswerHandler.SetNextQuestionID
    rw [rangeFind_of_mem _ _ hmem]
    simp only [hlt, if_true]
    split <;> rfl

/-- C1 at the scenario of the specification: order 12, 11, 13 and current question 12
give 11, not 13. -/
theorem C1_witness :
    demoFree12.GroupOrder = [12, 11, 13] ∧ demoFree12.CurrentQuestionID = 12 ∧
    SubmitAnswerHandler.SetNextQuestionID demoFree12 demoWorld =
      ((Outcome.ok, { demoFree12 with CurrentQuestionID := 11 }), demoWorld) := by
  obtain ⟨next, h1, h2⟩ :=
    C1_advance_within_order demoFree12 demoWorld 0 (by decide) (by decide)
  have h3 : demoFree12.GroupOrder.get?
      (demoFree12.GroupOrder.indexOf demoFree12.CurrentQuestionID + 1) = some 11 := by decide
  rw [h3] at h1
  exact ⟨rfl, rfl, by rw [h2, ← Option.some.inj h1]⟩

/-- C2 as stated fails when the order repeats an id: the test-bound session with order
7, 5, 7 on question 7 has its current question as final element, yet
`SetNextQuestionID` moves it to 5 instead of the sentinel. -/
theorem C2_counterexample :
    demoDup7.TestID = some 3 ∧ demoDup7.GroupOrder = [7, 5, 7] ∧
    demoDup7.GroupOrder.getLast? = some demoDup7.CurrentQuestionID ∧
    SubmitAnswerHandler.SetNextQuestionID demoDup7 demoWorld =
      ((Outcome.ok, { demoDup7 with CurrentQuestionID := 5 }), demoWorld) := by
  refine ⟨rfl, rfl, by decide, ?_⟩
  rfl

/-- C2 (amended): for every test-bound session whose `current_question_id` is the final
element of `group_order` and occurs nowhere before it, `SetNextQuestionID` returns nil,
sets `current_question_id` to `-1`, leaves every other field as it was and makes no
repository call (no new group is picked).  And `GetNextQuestion`, for any stored
session that the caller owns, that is not finished and whose `current_question_id` is
`<= 0`, answers 204 with no body, leaves the stored sessions as they were, and its
only call is the read of the session: no question is fetched, nothing is written. -/
theorem C2_test_end_sentinel (qs : QuizSession) (w : World) (tid : Int)
    (htest : qs.TestID = some tid)
    (hlast : qs.GroupOrder.getLast? = some qs.CurrentQuestionID)
    (hfirst : qs.CurrentQuestionID ∉ qs.GroupOrder.dropLast) :
    SubmitAnswerHandler.SetNextQuestionID qs w =
        ((Outcome.ok, { qs with CurrentQuestionID := -1 }), w) ∧
    ∀ (sid : String) (id userID : Int) (w0 : World) (s : QuizSession),
      Atoi sid = some id →
      (PostgresStorage.GetQuizSessionByID id w0).1 = Except.ok s →
      s.UserID = userID → s.Status ≠ QuizStatusFinished → s.CurrentQuestionID ≤ 0 →
        (GetNextQuestionHandler.Handle sid userID w0).1 =
            some { status := 204, headers := [], body := Body.empty } ∧
        (GetNextQuestionHandler.Handle sid userID w0).2.quiz_sessions = w0.quiz_sessions ∧
        (GetNextQuestionHandler.Handle sid userID w0).2.trace =
            w0.trace ++ [Call.GetQuizSessionByID id] := by
  constructor
  · obtain ⟨hmem, hidx⟩ := indexOf_of_last _ _ hlast hfirst
    unfold SubmitAnswerHandler.SetNextQuestionID
    rw [rangeFind_of_mem _ _ hmem]
    have hn : ¬ (qs.GroupOrder.indexOf qs.CurrentQuestionID + 1 < qs.GroupOrder.length) := by
      omega
    simp [htest, hn]
  · intro sid id userID w0 s hid hs hown hst hcq
    rw [getNext_noContent sid id userID w0 s hid hs hown hst hcq]
    exact ⟨rfl, GetQuizSessionByID_sessions id w0, GetQuizSessionByID_trace id w0⟩

/-- C2 (amended) at the scenario of the specification: test `"ABCD"` with order 5, 6, 7
on question 7 moves to `-1`, and the next `GetNextQuestion` on the stored session
answers 204. -/
theorem C2_witness :
    demoTest7.GroupOrder = [5, 6, 7] ∧ demoTest7.CurrentQuestionID = 7 ∧
    SubmitAnswerHandler.SetNextQuestionID demoTest7 demoWorld =
        ((Outcome.ok, { demoTest7 with CurrentQuestionID := -1 }), demoWorld) ∧
    (GetNextQuestionHandler.Handle "2" 42
        { demoWorld with quiz_sessions := [{ demoTest7 with CurrentQuestionID := -1 }] }).1 =
      some { status := 204, headers := [], body := Body.empty } := by
  have h := C2_test_end_sentinel demoTest7 demoWorld 3 rfl (by decide) (by decide)
  exact ⟨rfl, rfl, h.1,
    (h.2 "2" 2 42 { demoWorld with quiz_sessions := [{ demoTest7 with CurrentQuestionID := -1 }] }
      { demoTest7 with CurrentQuestionID := -1, ScreenSize := "" }
      (by decide) rfl rfl (by decide) (by decide)).1⟩

/-- C3 as stated fails when the order repeats an id: the free-roam session with order
13, 11, 13 on question 13 has its current question as final element and the
repository would answer group 8 with questions 21, 22, yet `SetNextQuestionID` moves
to 11 inside the old group and asks the repository nothing. -/
theorem C3_counterexample :
    demoFreeDup.TestID = none ∧ demoFreeDup.GroupOrder = [13, 11, 13] ∧
    demoFreeDup.GroupOrder.getLast? = some demoFreeDup.CurrentQuestionID ∧
    (PostgresStorage.GetNextQuestionGroupID demoFreeDup.CurrentGroup demoWorld).1 = Except.ok 8 ∧
    (PostgresStorage.GetGroupQuestionsIDsRandomOrder 8
      (PostgresStorage.GetNextQuestionGroupID demoFreeDup.CurrentGroup demoWorld).2).1 =
        Except.ok [21, 22] ∧
    SubmitAnswerHandler.SetNextQuestionID demoFreeDup demoWorld =
      ((Outcome.ok, { demoFreeDup with CurrentQuestionID := 11 }), demoWorld) := by
  refine ⟨rfl, rfl, by decide, rfl, rfl, rfl⟩

/-- C3 (amended): for every free-roam session whose `current_question_id` is the final
element of `group_order` and occurs nowhere before it, when the repository answers
`GetNextQuestionGroupID(old current_group)` with `g` and then
`GetGroupQuestionsIDsRandomOrder(g)` with a non-empty list `o`, `SetNextQuestionID`
returns nil and leaves the session with `current_group = g`, `group_order = o`,
`current_question_id = o[0]` and every other field as it was; its calls are exactly
these two, the first with the old `current_group` as argument, and when that group is
not `0` the group drawn differs from it. -/
theorem C3_free_roam_next_group (qs : QuizSession) (w : World) (g : Int) (o : List Int)
    (hfree : qs.TestID = none)
    (hlast : qs.GroupOrder.getLast? = some qs.CurrentQuestionID)
    (hfirst : qs.CurrentQuestionID ∉ qs.GroupOrder.dropLast)
    (hg : (PostgresStorage.GetNextQuestionGroupID qs.CurrentGroup w).1 = Except.ok g)
    (ho : (PostgresStorage.GetGroupQuestionsIDsRandomOrder g
            (PostgresStorage.GetNextQuestionGroupID qs.CurrentGroup w).2).1 = Except.ok o)
    (hne : o ≠ []) :
    ∃ first, o.head? = some first ∧
      (SubmitAnswerHandler.SetNextQuestionID qs w).1 =
        (Outcome.ok, { qs with CurrentGroup := g, GroupOrder := o, CurrentQuestionID := first }) ∧
      (SubmitAnswerHandler.SetNextQuestionID qs w).2.trace =
        w.trace ++ [Call.GetNextQuestionGroupID qs.CurrentGroup,
                    Call.GetGroupQuestionsIDsRandomOrder g] ∧
      (qs.CurrentGroup ≠ 0 → g ≠ qs.CurrentGroup) := by
  obtain ⟨hmem, hidx⟩ := indexOf_of_last _ _ hlast hfirst
  have hn : ¬ (qs.GroupOrder.indexOf qs.CurrentQuestionID + 1 < qs.GroupOrder.length) := by omega
  cases o with
  | nil => exact absurd rfl hne
  | cons q rest =>
    refine ⟨q, rfl, ?_, ?_, fun hcg => GetNextQuestionGroupID_ne _ _ _ hcg hg⟩
    · unfold SubmitAnswerHandler.SetNextQuestionID
      rw [rangeFind_of_mem _ _ hmem]
      simp [hfree, hn, hg, ho]
    · have h2 : (SubmitAnswerHandler.SetNextQuestionID qs w).2 =
          (PostgresStorage.GetGroupQuestionsIDsRandomOrder g
            (PostgresStorage.GetNextQuestionGroupID qs.CurrentGroup w).2).2 := by
        unfold SubmitAnswerHandler.SetNextQuestionID
        rw [rangeFind_of_mem _ _ hmem]
        simp [hfree, hn, hg, ho]
      rw [h2, GetGroupQuestionsIDsRandomOrder_trace, GetNextQuestionGroupID_trace]
      simp

/-- C3 (amended) at a concrete input: group 7 exhausted on question 13, the repository
answers group 8 with questions 21, 22. -/
theorem C3_witness :
    demoFree13.GroupOrder = [12, 11, 13] ∧ demoFree13.CurrentQuestionID = 13 ∧
    (SubmitAnswerHandler.SetNextQuestionID demoFree13 demoWorld).1 =
      (Outcome.ok, { demoFree13 with CurrentGroup := 8, GroupOrder := [21, 22],
                                     CurrentQuestionID := 21 }) := by
  obtain ⟨first, h1, h2, _, _⟩ := C3_free_roam_next_group demoFree13 demoWorld 8 [21, 22]
    rfl (by decide) (by decide) rfl rfl (by decide)
  exact ⟨rfl, rfl, by rw [h2, ← Option.some.inj h1]⟩

/-- C4: whenever `current_question_id` does not occur in `group_order` (an empty order
and the sentinel `-1` included), for test-bound and free-roam sessions alike,
`SetNextQuestionID` returns the error "question not found in group order", leaves the
session as it was and calls nothing; and `SubmitAnswer` on a stored session in that
state leaves the stored sessions unchanged, traces no write of the session store, and
answers every decodable request with 500 "internal server error". -/
theorem C4_not_found_is_error (qs : QuizSession) (w : World)
    (h : qs.CurrentQuestionID ∉ qs.GroupOrder) :
    SubmitAnswerHandler.SetNextQuestionID qs w =
      ((Outcome.error (GoError.errorf "question not found in group order"), qs), w) ∧
    ∀ (sid : String) (id userID : Int) (body : Option QuestionAnswer) (w0 : World)
      (s : QuizSession),
      Atoi sid = some id →
      (PostgresStorage.GetQuizSessionByID id w0).1 = Except.ok s →
      s.CurrentQuestionID ∉ s.GroupOrder →
        (SubmitAnswerHandler.Handle sid userID body w0).2.quiz_sessions = w0.quiz_sessions ∧
        (SubmitAnswerHandler.Handle sid userID body w0).2.trace.filter Call.isWrite =
          w0.trace.filter Call.isWrite ∧
        (body ≠ none → (SubmitAnswerHandler.Handle sid userID body w0).1 =
          some (httpError "internal server error" 500)) := by
  refine ⟨setNext_not_found qs w h, ?_⟩
  intro sid id userID body w0 s hid hs hnot
  obtain ⟨hf, hr⟩ := submit_not_found sid id userID body w0 s hid hs hnot
  exact ⟨hf.sessions, hf.writes, hr⟩

/-- C4 at concrete inputs: the sentinel `-1` is not in the order 5, 6, 7, and a
submission by the owner on the stored session with question 11 outside its order
12, 13 is answered 500 and stores nothing. -/
theorem C4_witness :
    SubmitAnswerHandler.SetNextQuestionID { demoTest7 with CurrentQuestionID := -1 } demoWorld =
      ((Outcome.error (GoError.errorf "question not found in group order"),
        { demoTest7 with CurrentQuestionID := -1 }), demoWorld) ∧
    (SubmitAnswerHandler.Handle "4" 42 (some demoAnswer)
        { demoWorld with quiz_sessions := [demoCorrupt] }).1 =
      some (httpError "internal server error" 500) ∧
    (SubmitAnswerHandler.Handle "4" 42 (some demoAnswer)
        { demoWorld with quiz_sessions := [demoCorrupt] }).2.quiz_sessions = [demoCorrupt] := by
  have h := C4_not_found_is_error { demoTest7 with CurrentQuestionID := -1 } demoWorld (by decide)
  have h2 := h.2 "4" 4 42 (some demoAnswer) { demoWorld with quiz_sessions := [demoCorrupt] }
    { demoCorrupt with ScreenSize := "" } (by decide) rfl (by decide)
  exact ⟨h.1, h2.2.2 (by simp), h2.1⟩

/-- C5: the predicate "a positive `current_question_id` is an element of `group_order`"
is an invariant of the session engine.  If it holds for every stored session, it
holds for every stored session after `StartQuiz` (the session it creates and the
prior one it supersedes included), after `GetNextQuestion`, after `FinishQuiz` and
after `SubmitAnswer`, whatever the request and whatever the driver, the clock and
the repository do; and every session `SetNextQuestionID` returns with nil satisfies it. -/
theorem C5_position_invariant (w : World) (h : AllRows PositionValid w) :
    (∀ u body, AllRows PositionValid (StartQuizHandler.Handle u body w).2) ∧
    (∀ sid u, AllRows PositionValid (GetNextQuestionHandler.Handle sid u w).2) ∧
    (∀ sid, AllRows PositionValid (FinishQuizHandler.Handle sid w).2) ∧
    (∀ sid u body, AllRows PositionValid (SubmitAnswerHandler.Handle sid u body w).2) ∧
    (∀ qs w0, (SubmitAnswerHandler.SetNextQuestionID qs w0).1.1 = Outcome.ok →
      PositionValid (SubmitAnswerHandler.SetNextQuestionID qs w0).1.2) :=
  ⟨fun u body => start_valid u body w h, fun sid u => getNext_valid sid u w h,
   fun sid => finish_valid sid w h, fun sid u body => submit_valid sid u body w h,
   fun qs w0 hok => setNext_valid qs w0 hok⟩

/-- C5 at a concrete store: the invariant holds for the stored session of the scenario
and still holds after a `StartQuiz` that adopts its position and after a submission. -/
theorem C5_witness :
    AllRows PositionValid demoStore ∧
    AllRows PositionValid (StartQuizHandler.Handle 42 (some demoStart) demoStore).2 ∧
    AllRows PositionValid (SubmitAnswerHandler.Handle "1" 42 (some demoAnswer) demoStore).2 :=
  ⟨demoStore_valid, (C5_position_invariant demoStore demoStore_valid).1 42 (some demoStart),
   (C5_position_invariant demoStore demoStore_valid).2.2.2.1 "1" 42 (some demoAnswer)⟩

/-- C6 (code evaluated at the failing input): the stored session 5 of user 42 is
finished; `GetNextQuestion` refuses it with "quiz is finished", but `SubmitAnswer` by
its owner is answered 200 and the stored session comes back to `in_progress` with
its pointer advanced from 12 to 11. -/
theorem C6_submit_revives_finished :
    demoFinishedStore.quiz_sessions = [demoFinished] ∧
    demoFinished.Status = QuizStatusFinished ∧
    (GetNextQuestionHandler.Handle "5" 42 demoFinishedStore).1 =
      some (httpError "quiz is finished" 404) ∧
    (GetNextQuestionHandler.Handle "5" 42 demoFinishedStore).2.quiz_sessions = [demoFinished] ∧
    (SubmitAnswerHandler.Handle "5" 42 (some demoAnswer) demoFinishedStore).1 =
      some { status := 200, headers := [("Content-Type", "application/json")],
             body := Body.correct "Predominantly horizontal" } ∧
    (SubmitAnswerHandler.Handle "5" 42 (some demoAnswer) demoFinishedStore).2.quiz_sessions =
      [{ demoFinished with Status := QuizStatusInProgress, CurrentQuestionID := 11,
                           UpdatedAt := some 1002 }] := by
  refine ⟨rfl, rfl, ?_, ?_, ?_, ?_⟩
  · rfl
  · rfl
  · rfl
  · rfl

/-- C8: when `StartQuiz` is called without a test code (the access gate letting the
request through, a fresh ordering having been built, the store working) and the
user's most recent session is non-test with `current_question_id > 0` and a non-empty
`group_order`, the store afterwards is the old rows followed by one new session of the
user whose `current_question_id`, `current_group` and `group_order` are the prior
session's (whatever the fresh ones were), and the prior session's row has been
rewritten with status `finished` and `finished_at` equal to its stored `updated_at`. -/
theorem C8_resume_prior_position (w : World) (u : Int) (payload : StartQuizPayload)
    (fresh prior : QuizSession)
    (hf : NoFaults w)
    (hgate : (StartQuizHandler.accessGate u w).1 = none)
    (hcode : TrimSpace payload.TestCode = "")
    (hbuild : (StartQuizHandler.buildFree payload u (StartQuizHandler.accessGate u w).2).1 =
      Except.ok fresh)
    (hlast : lastSessionOf u w = some prior)
    (hnt : prior.TestID = none) (hcq : 0 < prior.CurrentQuestionID)
    (hne : prior.GroupOrder ≠ []) :
    ∃ (new : QuizSession) (t : Time),
      (StartQuizHandler.Handle u (some payload) w).2.quiz_sessions =
        w.quiz_sessions.map (fun r =>
          if r.ID = prior.ID then PostgresStorage.updateRow (superseded prior) t r else r)
        ++ [new] ∧
      prior ∈ w.quiz_sessions ∧
      new.UserID = u ∧
      new.CurrentQuestionID = prior.CurrentQuestionID ∧
      new.CurrentGroup = prior.CurrentGroup ∧
      new.GroupOrder = prior.GroupOrder ∧
      (PostgresStorage.updateRow (superseded prior) t prior).Status = QuizStatusFinished ∧
      (PostgresStorage.updateRow (superseded prior) t prior).FinishedAt = prior.UpdatedAt := by
  have hb : (StartQuizHandler.build payload u (TrimSpace payload.TestCode)
      (StartQuizHandler.accessGate u w).2) =
      StartQuizHandler.buildFree payload u (StartQuizHandler.accessGate u w).2 := by
    unfold StartQuizHandler.build
    simp [hcode]
  have hbuild2 : (StartQuizHandler.build payload u (TrimSpace payload.TestCode)
      (StartQuizHandler.accessGate u w).2).1 = Except.ok fresh := by rw [hb]; exact hbuild
  have fr : Frame w (StartQuizHandler.buildFree payload u (StartQuizHandler.accessGate u w).2).2 :=
    (frame_accessGate u w).trans (frame_buildFree _ _ _)
  have hfb := fr.noFaults hf
  have hlast2 := (lastSessionOf_frame fr u).trans hlast
  have hadopt : Adopts "" prior := ⟨rfl, hnt, hcq, hne⟩
  obtain ⟨s1, _, s3⟩ := supersede_some "" u fresh prior _ hfb hlast2
  have e1 := s1 hadopt
  obtain ⟨new, a1, _, a3, _, _, _, a7, a8, a9⟩ := persist_position "" u fresh _ hfb
    (by rw [e1]; exact hcq) (by rw [e1]; exact hne)
  rw [e1] at a7 a8 a9
  have hmem : prior ∈ w.quiz_sessions := by
    have := lastCreated_mem _ _ hlast
    exact (List.mem_filter.mp this).1
  refine ⟨new, (StartQuizHandler.supersede "" u fresh
      (StartQuizHandler.buildFree payload u (StartQuizHandler.accessGate u w).2).2).2.clock,
    ?_, hmem, a3.trans (buildFree_shape _ _ _ _ hbuild).1, a7, a8, a9, rfl, rfl⟩
  rw [start_eq_persist u payload w fresh hgate hbuild2, hb, hcode, a1, s3, fr.sessions]

/-- C9 (amended): `StartQuiz` (the access gate letting the request through, a fresh
ordering with a positive first id having been built, the store working) adopts the
position of the user's most recent session if and only if that session is non-test,
has `current_question_id > 0` and a non-empty `group_order`, and the request carries
no test code, whatever the status of that session, finished included; in every other
case the new session has the group, the ordering and the first question of the fresh
ordering.  In both cases exactly one row is added to the store. -/
theorem C9_adoption_rule (w : World) (u : Int) (payload : StartQuizPayload)
    (fresh : QuizSession)
    (hf : NoFaults w)
    (hgate : (StartQuizHandler.accessGate u w).1 = none)
    (hbuild : (StartQuizHandler.build payload u (TrimSpace payload.TestCode)
      (StartQuizHandler.accessGate u w).2).1 = Except.ok fresh)
    (hpos : 0 < fresh.CurrentQuestionID) :
    ∃ (olds : List QuizSession) (new : QuizSession),
      (StartQuizHandler.Handle u (some payload) w).2.quiz_sessions = olds ++ [new] ∧
      olds.length = w.quiz_sessions.length ∧
      ((∃ prior, lastSessionOf u w = some prior ∧ Adopts (TrimSpace payload.TestCode) prior ∧
          new.CurrentQuestionID = prior.CurrentQuestionID ∧
          new.CurrentGroup = prior.CurrentGroup ∧ new.GroupOrder = prior.GroupOrder) ∨
       ((∀ prior, lastSessionOf u w = some prior → ¬ Adopts (TrimSpace payload.TestCode) prior) ∧
          new.CurrentQuestionID = fresh.CurrentQuestionID ∧
          new.CurrentGroup = fresh.CurrentGroup ∧ new.GroupOrder = fresh.GroupOrder)) := by
  have fr : Frame w (StartQuizHandler.build payload u (TrimSpace payload.TestCode)
      (StartQuizHandler.accessGate u w).2).2 :=
    (frame_accessGate u w).trans (frame_build _ _ _ _)
  have hfb := fr.noFaults hf
  have hne : fresh.GroupOrder ≠ [] := List.ne_nil_of_mem (build_valid _ _ _ _ _ hbuild)
  rw [start_eq_persist u payload w fresh hgate hbuild]
  cases hl : lastSessionOf u w with
  | none =>
    obtain ⟨s1, s2⟩ := supersede_none (TrimSpace payload.TestCode) u fresh _ hfb
      ((lastSessionOf_frame fr u).trans hl)
    obtain ⟨new, a1, _, _, _, _, _, a7, a8, a9⟩ :=
      persist_position (TrimSpace payload.TestCode) u fresh _ hfb
        (by rw [s1]; exact hpos) (by rw [s1]; exact hne)
    rw [s1] at a7 a8 a9
    refine ⟨_, new, a1, by rw [s2, fr.sessions], Or.inr ⟨fun p hp => ?_, a7, a8, a9⟩⟩
    exact absurd hp (by simp)
  | some prior =>
    obtain ⟨s1, s2, s3⟩ := supersede_some (TrimSpace payload.TestCode) u fresh prior _ hfb
      ((lastSessionOf_frame fr u).trans hl)
    by_cases ha : Adopts (TrimSpace payload.TestCode) prior
    · have e1 := s1 ha
      obtain ⟨new, a1, _, _, _, _, _, a7, a8, a9⟩ :=
        persist_position (TrimSpace payload.TestCode) u fresh _ hfb
          (by rw [e1]; exact ha.2.2.1) (by rw [e1]; exact ha.2.2.2)
      rw [e1] at a7 a8 a9
      exact ⟨_, new, a1, by rw [s3, List.length_map, fr.sessions],
        Or.inl ⟨prior, rfl, ha, a7, a8, a9⟩⟩
    · have e1 := s2 ha
      obtain ⟨new, a1, _, _, _, _, _, a7, a8, a9⟩ :=
        persist_position (TrimSpace payload.TestCode) u fresh _ hfb
          (by rw [e1]; exact hpos) (by rw [e1]; exact hne)
      rw [e1] at a7 a8 a9
      refine ⟨_, new, a1, by rw [s3, List.length_map, fr.sessions],
        Or.inr ⟨fun p hp => ?_, a7, a8, a9⟩⟩
      rw [Option.some.inj hp] at ha
      exact ha

/-- C9 as stated fails: the most recent session of user 42 is finished, yet a start
without test code gives the new session its position (question 12 in the order
12, 11, 13) and not the fresh ordering (11, 12, 13 starting at 11). -/
theorem C9_counterexample :
    lastSessionOf 42 demoFinishedStore = some demoFinished ∧
    demoFinished.Status = QuizStatusFinished ∧
    (StartQuizHandler.build demoStart 42 (TrimSpace demoStart.TestCode)
      (StartQuizHandler.accessGate 42 demoFinishedStore).2).1 = Except.ok demoFresh ∧
    demoFresh.GroupOrder = [11, 12, 13] ∧
    ((StartQuizHandler.Handle 42 (some demoStart) demoFinishedStore).2.quiz_sessions.map
      (fun r => (r.ID, r.Status, r.CurrentQuestionID, r.CurrentGroup, r.GroupOrder))) =
      [(5, QuizStatusFinished, 12, 7, [12, 11, 13]),
       (6, QuizStatusNotStarted, 12, 7, [12, 11, 13])] := by
  refine ⟨rfl, rfl, rfl, rfl, rfl⟩

/-- C9 (amended) at a concrete input: a start with the test code `"ABCD"` while the
user's last session is the free-roam session of the scenario. -/
theorem C9_witness :
    ∃ (olds : List QuizSession) (new : QuizSession),
      (StartQuizHandler.Handle 42 (some demoStartTest) demoStore).2.quiz_sessions = olds ++ [new] ∧
      olds.length = demoStore.quiz_sessions.length ∧
      ((∃ prior, lastSessionOf 42 demoStore = some prior ∧
          Adopts (TrimSpace demoStartTest.TestCode) prior ∧
          new.CurrentQuestionID = prior.CurrentQuestionID ∧
          new.CurrentGroup = prior.CurrentGroup ∧ new.GroupOrder = prior.GroupOrder) ∨
       ((∀ prior, lastSessionOf 42 demoStore = some prior →
            ¬ Adopts (TrimSpace demoStartTest.TestCode) prior) ∧
          new.CurrentQuestionID = 5 ∧ new.CurrentGroup = 0 ∧ new.GroupOrder = [5, 6, 7])) :=
  C9_adoption_rule demoStore 42 demoStartTest
    { QuizSession.zero with
      Mode := QuizModeClassic, UserID := 42, Status := QuizStatusNotStarted,
      ScreenSize := "800x600", CurrentQuestionID := 5, CurrentGroup := 0, GroupOrder := [5, 6, 7],
      TestID := some 3, TestCode := some "ABCD" }
    (noFaults_of_nil _ rfl) rfl rfl (by decide)

/-- C8 at the scenario of the specification: user 42 starts without test code while
the free-roam session on question 12 of the order 12, 11, 13 is the most recent one. -/
theorem C8_witness :
    ∃ (new : QuizSession) (t : Time),
      (StartQuizHandler.Handle 42 (some demoStart) demoStore).2.quiz_sessions =
        demoStore.quiz_sessions.map (fun r =>
          if r.ID = demoFree12.ID then PostgresStorage.updateRow (superseded demoFree12) t r else r)
        ++ [new] ∧
      demoFree12 ∈ demoStore.quiz_sessions ∧
      new.UserID = 42 ∧
      new.CurrentQuestionID = demoFree12.CurrentQuestionID ∧
      new.CurrentGroup = demoFree12.CurrentGroup ∧
      new.GroupOrder = demoFree12.GroupOrder ∧
      (PostgresStorage.updateRow (superseded demoFree12) t demoFree12).Status = QuizStatusFinished ∧
      (PostgresStorage.updateRow (superseded demoFree12) t demoFree12).FinishedAt =
        demoFree12.UpdatedAt :=
  C8_resume_prior_position demoStore 42 demoStart demoFresh demoFree12
    (noFaults_of_nil _ rfl) rfl rfl rfl rfl rfl (by decide) (by decide)

/-- C10: when `StartQuiz` is called with a test code that is not empty after trimming
(the access gate letting the request through, the store working): if the code
resolves to a test `t` whose ordered question ids `o` are non-empty and positive,
exactly one row is added to the store, with `group_order = o`, `current_question_id =
o[0]`, `current_group = 0`, `test_id = t.ID`, `test_code = t.Code`, status
`not_started` and the caller as owner, whatever the user's prior sessions are; if the
code does not resolve the answer is 400 `invalid_test_code`, if `o` is empty it is 503
"test has no questions", and in both failure cases the stored sessions and the serial
are as before and no write of the session store is traced. -/
theorem C10_test_bound_start (w : World) (u : Int) (payload : StartQuizPayload)
    (hf : NoFaults w)
    (hgate : (StartQuizHandler.accessGate u w).1 = none)
    (hcode : TrimSpace payload.TestCode ≠ "") :
    (∀ t, w.tests.find? (fun t => t.Code = TrimSpace payload.TestCode) = some t →
      (PostgresStorage.orderedQuestionIDs w.test_questions t.ID ≠ [] →
        (∀ q ∈ PostgresStorage.orderedQuestionIDs w.test_questions t.ID, 0 < q) →
        ∃ (olds : List QuizSession) (new : QuizSession),
          (StartQuizHandler.Handle u (some payload) w).2.quiz_sessions = olds ++ [new] ∧
          olds.length = w.quiz_sessions.length ∧
          new.GroupOrder = PostgresStorage.orderedQuestionIDs w.test_questions t.ID ∧
          new.GroupOrder.head? = some new.CurrentQuestionID ∧
          new.CurrentGroup = 0 ∧ new.TestID = some t.ID ∧ new.TestCode = some t.Code ∧
          new.Status = QuizStatusNotStarted ∧ new.UserID = u) ∧
      (PostgresStorage.orderedQuestionIDs w.test_questions t.ID = [] →
        (StartQuizHandler.Handle u (some payload) w).1 =
          some (httpError "test has no questions" 503) ∧
        (StartQuizHandler.Handle u (some payload) w).2.quiz_sessions = w.quiz_sessions ∧
        (StartQuizHandler.Handle u (some payload) w).2.nextSessionID = w.nextSessionID ∧
        (StartQuizHandler.Handle u (some payload) w).2.trace.filter Call.isWrite =
          w.trace.filter Call.isWrite)) ∧
    (w.tests.find? (fun t => t.Code = TrimSpace payload.TestCode) = none →
      (StartQuizHandler.Handle u (some payload) w).1 = some (writeJSONError 400
        [("error", JVal.str "invalid_test_code"), ("message", JVal.str "Unknown test code.")]) ∧
      (StartQuizHandler.Handle u (some payload) w).2.quiz_sessions = w.quiz_sessions ∧
      (StartQuizHandler.Handle u (some payload) w).2.nextSessionID = w.nextSessionID ∧
      (StartQuizHandler.Handle u (some payload) w).2.trace.filter Call.isWrite =
        w.trace.filter Call.isWrite) := by
  have fg := frame_accessGate u w
  have hfg := fg.noFaults hf
  have hb : StartQuizHandler.build payload u (TrimSpace payload.TestCode)
      (StartQuizHandler.accessGate u w).2 =
      StartQuizHandler.buildTest payload u (TrimSpace payload.TestCode)
        (StartQuizHandler.accessGate u w).2 := by
    unfold StartQuizHandler.build
    rw [if_pos hcode]
  obtain ⟨b1, b2⟩ := buildTest_ok payload u (TrimSpace payload.TestCode) _ hfg
  rw [fg.tests, fg.test_questions] at b2
  rw [fg.tests] at b1
  refine ⟨fun t ht => ⟨fun hne hposAll => ?_, fun hem => ?_⟩, fun hn => ?_⟩
  · cases ho : PostgresStorage.orderedQuestionIDs w.test_questions t.ID with
    | nil => exact absurd ho hne
    | cons q rest =>
      have hok := (b2 t ht).2 q rest ho
      rw [← hb] at hok
      have fr : Frame w (StartQuizHandler.build payload u (TrimSpace payload.TestCode)
          (StartQuizHandler.accessGate u w).2).2 := fg.trans (frame_build _ _ _ _)
      have hq : 0 < q := hposAll q (by rw [ho]; exact List.mem_cons_self _ _)
      have e1 := supersede_test (TrimSpace payload.TestCode) u
        { QuizSession.zero with
          Mode := payload.Mode, UserID := u, Status := QuizStatusNotStarted,
          ScreenSize := toString payload.ScreenWidth ++ "x" ++ toString payload.ScreenHeight,
          CurrentQuestionID := q, CurrentGroup := 0, GroupOrder := q :: rest,
          TestID := some t.ID, TestCode := some t.Code }
        (StartQuizHandler.build payload u (TrimSpace payload.TestCode)
          (StartQuizHandler.accessGate u w).2).2 hcode
      obtain ⟨new, a1, _, a3, a4, a5, a6, a7, a8, a9⟩ :=
        persist_position (TrimSpace payload.TestCode) u _ _ (fr.noFaults hf)
          (by rw [e1]; exact hq) (by rw [e1]; simp)
      rw [e1] at a7 a8 a9
      rw [start_eq_persist u payload w _ hgate hok]
      refine ⟨_, new, a1, ?_, a9, ?_, a8, a5, a6, a4, a3⟩
      · rw [supersede_length, fr.sessions]
      · rw [a9, a7]
        rfl
  · have herr := (b2 t ht).1 hem
    rw [← hb] at herr
    obtain ⟨r1, r2⟩ := start_build_error u payload w _ hgate herr
    exact ⟨r1, r2.sessions, r2.nextID, r2.writes⟩
  · have herr := b1 hn
    rw [← hb] at herr
    obtain ⟨r1, r2⟩ := start_build_error u payload w _ hgate herr
    exact ⟨r1, r2.sessions, r2.nextID, r2.writes⟩

/-- C10 at the scenario of the specification: the code `" ABCD "` resolves to the test
with ordered questions 5, 6, 7, and the code `"ZZZZ"` resolves to nothing. -/
theorem C10_witness :
    PostgresStorage.orderedQuestionIDs demoStore.test_questions demoTestRow.ID = [5, 6, 7] ∧
    (∃ (olds : List QuizSession) (new : QuizSession),
      (StartQuizHandler.Handle 42 (some demoStartTest) demoStore).2.quiz_sessions = olds ++ [new] ∧
      olds.length = demoStore.quiz_sessions.length ∧
      new.GroupOrder = PostgresStorage.orderedQuestionIDs demoStore.test_questions demoTestRow.ID ∧
      new.GroupOrder.head? = some new.CurrentQuestionID ∧
      new.CurrentGroup = 0 ∧ new.TestID = some demoTestRow.ID ∧
      new.TestCode = some demoTestRow.Code ∧
      new.Status = QuizStatusNotStarted ∧ new.UserID = 42) ∧
    ((StartQuizHandler.Handle 42 (some demoStartUnknown) demoStore).1 = some (writeJSONError 400
        [("error", JVal.str "invalid_test_code"), ("message", JVal.str "Unknown test code.")]) ∧
      (StartQuizHandler.Handle 42 (some demoStartUnknown) demoStore).2.quiz_sessions =
        demoStore.quiz_sessions ∧
      (StartQuizHandler.Handle 42 (some demoStartUnknown) demoStore).2.nextSessionID =
        demoStore.nextSessionID ∧
      (StartQuizHandler.Handle 42 (some demoStartUnknown) demoStore).2.trace.filter Call.isWrite =
        demoStore.trace.filter Call.isWrite) :=
  ⟨by decide,
   ((C10_test_bound_start demoStore 42 demoStartTest (noFaults_of_nil _ rfl) rfl (by decide)).1
      demoTestRow rfl).1 (by decide) (by decide),
   (C10_test_bound_start demoStore 42 demoStartUnknown (noFaults_of_nil _ rfl) rfl (by decide)).2
      rfl⟩

/-- C7 (amended): from a store in which the driver does not fail, the clock advances,
session ids are unique and below the serial, every session has a creation time not
in the future and every session that is not finished is strictly the most recently
created session of its user, every store state reached by any sequence of
`StartQuiz`, `GetNextQuestion` and `FinishQuiz` calls, and of `SubmitAnswer` calls on
sessions that are not finished, has at most one session that is not finished per
user. -/
theorem C7_one_live_session (w0 w : World) (h0 : StoreOK w0) (h : Reach w0 w) (u : Int) :
    liveCount u w ≤ 1 :=
  storeOK_liveCount w (reach_storeOK w0 w h0 h) u

/-- C7 as stated fails: in this store user 42 has a single live session (and nobody
else has any), the driver does not fail, yet after one `StartQuiz` by user 42, which
supersedes only the most recent session, the user has two live sessions. -/
theorem C7_counterexample :
    (∀ u, liveCount u demoOlderLive ≤ 1) ∧ NoFaults demoOlderLive ∧
    liveCount 42 (StartQuizHandler.Handle 42 (some demoStart) demoOlderLive).2 = 2 := by
  refine ⟨fun u => ?_, noFaults_of_nil _ rfl, rfl⟩
  unfold liveCount
  have hrows : demoOlderLive.quiz_sessions = [demoFree12, demoFinishedLater] := rfl
  rw [hrows]
  have h2 : decide (demoFinishedLater.UserID = u ∧ demoFinishedLater.Status ≠ QuizStatusFinished)
      = false := by
    simp [demoFinishedLater, demoSession]
  simp only [List.filter, h2]
  split <;> simp

/-- C7 (amended) on a run from the demo store: start (adopting the stored session),
next question, an answer on the new session, finish. -/
theorem C7_witness :
    liveCount 42
      (FinishQuizHandler.Handle "2"
        (SubmitAnswerHandler.Handle "2" 42 (some demoAnswer)
          (GetNextQuestionHandler.Handle "2" 42
            (StartQuizHandler.Handle 42 (some demoStart) demoStore).2).2).2).2 ≤ 1 :=
  C7_one_live_session demoStore _ demoStore_ok
    (Reach.finish _ "2"
      (Reach.submit _ "2" 42 (some demoAnswer)
        (Reach.next _ "2" 42 (Reach.start _ 42 (some demoStart) Reach.init))
        (by decide))) 42

/-! ### C12: the third parameter value never leaves through `GetNextQuestion` -/

/-- C12: whenever `GetNextQuestion` returns content, the question of the payload is the
question the repository returned for the session's current question (built from a stored
question row and its case) with `value3` absent on every element of
`case.parameters_values`, whatever the stored case holds there; the elements are as
many and in the same order, each with its `parameter_id`, `value1` and `value2`
unchanged, and nothing else of the question differs. -/
theorem C12_value3_redacted (sid : String) (u : Int) (w : World) (resp : Response)
    (h : (GetNextQuestionHandler.Handle sid u w).1 = some resp)
    (hc : resp.isContent = true) :
    ∃ (row : QuestionRow) (c : Case) (q : Question) (b : Bool),
      row ∈ w.questions ∧ row.case_row = some c ∧
      resp.body = Body.question q b ∧
      (∀ pv ∈ q.Case.ParameterValues, pv.Value3 = none) ∧
      q.Case.ParameterValues.length = c.ParameterValues.length ∧
      q.Case.ParameterValues.map (fun pv => (pv.ParameterID, pv.Value1, pv.Value2)) =
        c.ParameterValues.map (fun pv => (pv.ParameterID, pv.Value1, pv.Value2)) ∧
      q = { questionOfRow row c with
            Case := { c with ParameterValues := q.Case.ParameterValues } } := by
  rcases getNext_cases sid u w with ⟨_, resp0, h0, hn⟩ | ⟨id, r, stored, _, _, _, _, _, _, _, _, hq, hH⟩
  · rw [h0] at h
    cases h
    rw [hn] at hc
    cases hc
  · obtain ⟨row, c, hrow, hcase, rfl⟩ := GetQuestionByID_ok _ _ _ hq
    rw [hH] at h
    cases h
    have hmem : row ∈ w.questions := by
      have := List.mem_of_find?_eq_some hrow
      rwa [(frame_GetQuizSessionByID id w).questions] at this
    refine ⟨row, c, _, _, hmem, hcase, rfl, ?_, ?_, ?_, rfl⟩
    · intro pv hpv
      simp only [GetNextQuestionHandler.redact, questionOfRow, List.mem_map] at hpv
      obtain ⟨p, _, rfl⟩ := hpv
      rfl
    · simp [GetNextQuestionHandler.redact, questionOfRow]
    · simp [GetNextQuestionHandler.redact, questionOfRow, List.map_map, Function.comp_def]

/-- C12, witness: the stored case of question 12 holds 82 as third value of its
parameter; the payload holds none. -/
theorem C12_witness :
    demoCase.ParameterValues.map (fun pv => pv.Value3) = [some 82] ∧
    (GetNextQuestionHandler.Handle "1" 42 demoStore).1 =
      some (contentResponse
        (questionOfRow (demoQuestion 12 7)
          { demoCase with ParameterValues :=
              [{ ParameterID := 1, Value1 := 80, Value2 := 81, Value3 := none }] }) false) ∧
    ∃ (row : QuestionRow) (c : Case) (q : Question) (b : Bool),
      row ∈ demoStore.questions ∧ row.case_row = some c ∧
      (contentResponse
        (questionOfRow (demoQuestion 12 7)
          { demoCase with ParameterValues :=
              [{ ParameterID := 1, Value1 := 80, Value2 := 81, Value3 := none }] }) false).body =
        Body.question q b ∧
      (∀ pv ∈ q.Case.ParameterValues, pv.Value3 = none) ∧
      q.Case.ParameterValues.length = c.ParameterValues.length ∧
      q.Case.ParameterValues.map (fun pv => (pv.ParameterID, pv.Value1, pv.Value2)) =
        c.ParameterValues.map (fun pv => (pv.ParameterID, pv.Value1, pv.Value2)) ∧
      q = { questionOfRow row c with
            Case := { c with ParameterValues := q.Case.ParameterValues } } :=
  ⟨rfl, rfl, C12_value3_redacted "1" 42 demoStore _ rfl rfl⟩

/-! ### C13: a session of someone else looks like no session -/

/-- C13: when no stored session with the addressed id belongs to the caller, whether
because there is none or because it is someone else's, `GetNextQuestion`
answers with a response that depends on the path value alone (for a numeric id: 404
`failed to get session`), so two stores that both hold no session of the caller under
that id get equal responses whatever the foreign session contains; no question is
fetched and the call only reads: the session table is as before and no write is traced. -/
theorem C13_foreign_session_hidden (sid : String) (u : Int) (w1 w2 : World)
    (h1 : ∀ r ∈ w1.quiz_sessions, Atoi sid = some r.ID → r.UserID ≠ u)
    (h2 : ∀ r ∈ w2.quiz_sessions, Atoi sid = some r.ID → r.UserID ≠ u) :
    (GetNextQuestionHandler.Handle sid u w1).1 = (GetNextQuestionHandler.Handle sid u w2).1 ∧
    (∀ id, Atoi sid = some id →
      (GetNextQuestionHandler.Handle sid u w1).1 = some (httpError "failed to get session" 404)) ∧
    (GetNextQuestionHandler.Handle sid u w1).2.trace.filter Call.isQuestionFetch =
      w1.trace.filter Call.isQuestionFetch ∧
    (GetNextQuestionHandler.Handle sid u w1).2.quiz_sessions = w1.quiz_sessions ∧
    (GetNextQuestionHandler.Handle sid u w1).2.trace.filter Call.isWrite =
      w1.trace.filter Call.isWrite := by
  have key : ∀ w : World, (∀ r ∈ w.quiz_sessions, Atoi sid = some r.ID → r.UserID ≠ u) →
      (GetNextQuestionHandler.Handle sid u w).1 =
        some (if sid = "" then httpError "missing session id" 400
              else match Atoi sid with
                | none => httpError "invalid session id" 400
                | some _ => httpError "failed to get session" 404) ∧
      (GetNextQuestionHandler.Handle sid u w).2.trace.filter Call.isQuestionFetch =
        w.trace.filter Call.isQuestionFetch ∧
      Frame w (GetNextQuestionHandler.Handle sid u w).2 := by
    intro w hw
    unfold GetNextQuestionHandler.Handle
    by_cases he : sid = ""
    · rw [if_pos he, if_pos he]
      exact ⟨rfl, rfl, Frame.refl w⟩
    · rw [if_neg he, if_neg he]
      cases hid : Atoi sid with
      | none => exact ⟨rfl, rfl, Frame.refl w⟩
      | some id =>
        have f1 := frame_GetQuizSessionByID id w
        have t1 := GetQuizSessionByID_trace id w
        have ht : (PostgresStorage.GetQuizSessionByID id w).2.trace.filter Call.isQuestionFetch =
            w.trace.filter Call.isQuestionFetch := by
          rw [t1, List.filter_append]
          simp [Call.isQuestionFetch]
        dsimp only
        split
        · exact ⟨rfl, ht, f1⟩
        · rename_i s hs
          obtain ⟨r, hr, hrid, rfl, _⟩ := GetQuizSessionByID_ok id w s hs
          have hne : r.UserID ≠ u := hw r hr (by rw [hrid, hid])
          rw [if_pos hne]
          exact ⟨rfl, ht, f1⟩
  obtain ⟨a1, b1, c1⟩ := key w1 h1
  obtain ⟨a2, _, _⟩ := key w2 h2
  refine ⟨by rw [a1, a2], ?_, b1, c1.sessions, c1.writes⟩
  intro id hid
  rw [a1, if_neg (Atoi_ne_empty sid id hid)]
  simp only [hid]

/-- C13, witness: user 7 asks for session 1, which belongs to user 42 in one store and
does not exist in the other. -/
theorem C13_witness :
    (GetNextQuestionHandler.Handle "1" 7 demoStore).1 =
      (GetNextQuestionHandler.Handle "1" 7 demoWorld).1 ∧
    (∀ id, Atoi "1" = some id →
      (GetNextQuestionHandler.Handle "1" 7 demoStore).1 =
        some (httpError "failed to get session" 404)) ∧
    (GetNextQuestionHandler.Handle "1" 7 demoStore).2.trace.filter Call.isQuestionFetch =
      demoStore.trace.filter Call.isQuestionFetch ∧
    (GetNextQuestionHandler.Handle "1" 7 demoStore).2.quiz_sessions = demoStore.quiz_sessions ∧
    (GetNextQuestionHandler.Handle "1" 7 demoStore).2.trace.filter Call.isWrite =
      demoStore.trace.filter Call.isWrite :=
  C13_foreign_session_hidden "1" 7 demoStore demoWorld
    (by intro r hr _; simp [demoStore] at hr; subst hr; decide)
    (by intro r hr; simp [demoWorld] at hr)

/-! ### C16: the `is_last` flag -/

/-- C16: whenever `GetNextQuestion` returns content, the `is_last` of the body (and of the
`X-Quiz-Is-Last` header) is true exactly when the stored session addressed has a test
id and its current question is the last element of its order; for a session without
test id it is false, wherever in its group the session stands. -/
theorem C16_is_last_flag (sid : String) (u : Int) (w : World) (resp : Response)
    (h : (GetNextQuestionHandler.Handle sid u w).1 = some resp)
    (hc : resp.isContent = true) :
    ∃ (id : Int) (r : QuizSession) (q : Question) (b : Bool),
      Atoi sid = some id ∧ w.quiz_sessions.find? (fun r => r.ID = id) = some r ∧
      resp = contentResponse q b ∧
      (b = true ↔ r.TestID ≠ none ∧ r.GroupOrder.getLast? = some r.CurrentQuestionID) ∧
      (r.TestID = none → b = false) := by
  rcases getNext_cases sid u w with ⟨_, resp0, h0, hn⟩ | ⟨id, r, stored, hid, _, _, hfind, _, _, _, _, _, hH⟩
  · rw [h0] at h
    cases h
    rw [hn] at hc
    cases hc
  · rw [hH] at h
    cases h
    refine ⟨id, r, _, _, hid, hfind, rfl, isLastFlag_iff r, ?_⟩
    intro hT
    cases hb : isLastFlag r
    · rfl
    · exact absurd hT ((isLastFlag_iff r).mp hb).1

/-- C16, witness: the test session on the last question of its order gets `is_last`
true, and the free-roam session on the last question of its group gets it false. -/
theorem C16_witness :
    (GetNextQuestionHandler.Handle "1" 42 demoLastFreeStore).1 =
      some (contentResponse (GetNextQuestionHandler.redact (questionOfRow (demoQuestion 13 7) demoCase))
        false) ∧
    (GetNextQuestionHandler.Handle "2" 42 demoTestStore).1 =
      some (contentResponse (GetNextQuestionHandler.redact (questionOfRow (demoQuestion 7 9) demoCase))
        true) ∧
    ∃ (id : Int) (r : QuizSession) (q : Question) (b : Bool),
      Atoi "2" = some id ∧ demoTestStore.quiz_sessions.find? (fun r => r.ID = id) = some r ∧
      contentResponse (GetNextQuestionHandler.redact (questionOfRow (demoQuestion 7 9) demoCase))
        true = contentResponse q b ∧
      (b = true ↔ r.TestID ≠ none ∧ r.GroupOrder.getLast? = some r.CurrentQuestionID) ∧
      (r.TestID = none → b = false) :=
  ⟨rfl, rfl, C16_is_last_flag "2" 42 demoTestStore _ rfl rfl⟩

/-! ### C17: `GetNextQuestion` keeps the position -/

/-- C17: when `GetNextQuestion` returns content, the one write it sends is the session it
read with only `question_requested_time` changed; the stored session with that id
afterwards agrees with the one before in every field except
`question_requested_time` and `updated_at` (which the store refreshes), in particular
in `current_question_id`; and a second call right after it, if the driver fails none of
its statements, returns the very same response: the same question and `is_last`; in
any case, if the second call returns content, it is that same response. -/
theorem C17_get_next_idempotent (sid : String) (u : Int) (w : World) (resp : Response)
    (h : (GetNextQuestionHandler.Handle sid u w).1 = some resp)
    (hc : resp.isContent = true) :
    ∃ (id : Int) (s : QuizSession) (t : Time) (r r' : QuizSession),
      Atoi sid = some id ∧
      (PostgresStorage.GetQuizSessionByID id w).1 = Except.ok s ∧
      (GetNextQuestionHandler.Handle sid u w).2.trace.filter Call.isWrite =
        w.trace.filter Call.isWrite ++
          [Call.UpdateQuizSession { s with QuestionRequestedTime := t }] ∧
      w.quiz_sessions.find? (fun r => r.ID = id) = some r ∧
      (GetNextQuestionHandler.Handle sid u w).2.quiz_sessions.find? (fun r => r.ID = id) = some r' ∧
      { r' with QuestionRequestedTime := r.QuestionRequestedTime, UpdatedAt := r.UpdatedAt } = r ∧
      r'.CurrentQuestionID = r.CurrentQuestionID ∧
      (NoFaults (GetNextQuestionHandler.Handle sid u w).2 →
        (GetNextQuestionHandler.Handle sid u (GetNextQuestionHandler.Handle sid u w).2).1 =
          some resp) ∧
      (∀ resp2 : Response,
        (GetNextQuestionHandler.Handle sid u (GetNextQuestionHandler.Handle sid u w).2).1 =
          some resp2 → resp2.isContent = true → resp2 = resp) := by
  obtain ⟨id, r, row, c, t, hid, hfind, hrid, hu, hst, hcq, hrow, hcase, rfl, _, _, htr, env,
    hrows, _⟩ := getNext_effect sid u w resp h hc
  have hs : (PostgresStorage.GetQuizSessionByID id w).1 = Except.ok { r with ScreenSize := "" } := by
    rcases getNext_cases sid u w with ⟨_, resp0, h0, hn⟩ | ⟨id2, r2, _, hid2, _, _, hfind2, hs2, _⟩
    · rw [h0] at h
      cases h
      rw [hn] at hc
      cases hc
    · rw [hid] at hid2
      cases hid2
      rw [hfind] at hfind2
      cases hfind2
      exact hs2
  have hfind' : ∃ r', (GetNextQuestionHandler.Handle sid u w).2.quiz_sessions.find?
        (fun r => r.ID = id) = some r' ∧
      { r' with QuestionRequestedTime := r.QuestionRequestedTime, UpdatedAt := r.UpdatedAt } = r := by
    rcases hrows with hx | ⟨t2, hx⟩
    · rw [hx]
      exact ⟨r, hfind, rfl⟩
    · rw [hx, find_map_keep, hfind]
      · refine ⟨PostgresStorage.updateRow
          { r with ScreenSize := "", QuestionRequestedTime := t } t2 r, ?_, rfl⟩
        rw [Option.map_some', if_pos hrid]
      · intro x
        by_cases hxid : x.ID = id
        · rw [if_pos hxid]
          rfl
        · rw [if_neg hxid]
  obtain ⟨r', hf', hE⟩ := hfind'
  have eU : r'.UserID = r.UserID := by
    have e := congrArg QuizSession.UserID hE
    exact e
  have eS : r'.Status = r.Status := by
    have e := congrArg QuizSession.Status hE
    exact e
  have eC : r'.CurrentQuestionID = r.CurrentQuestionID := by
    have e := congrArg QuizSession.CurrentQuestionID hE
    exact e
  have eO : r'.GroupOrder = r.GroupOrder := by
    have e := congrArg QuizSession.GroupOrder hE
    exact e
  have eT : r'.TestID = r.TestID := by
    have e := congrArg QuizSession.TestID hE
    exact e
  have e4 : isLastFlag r' = isLastFlag r := by
    unfold isLastFlag
    rw [eT, eC, eO]
  refine ⟨id, _, t, r, r', hid, hs, htr, hfind, hf', hE, eC, ?_, ?_⟩
  rotate_left
  · intro resp2 h2 hc2
    obtain ⟨id2, r2, row2, c2, t2, hid2, hfind2, _, _, _, _, hrow2, hcase2, rfl, _⟩ :=
      getNext_effect sid u _ resp2 h2 hc2
    rw [hid] at hid2
    cases hid2
    rw [hf'] at hfind2
    cases hfind2
    rw [env.questions, eC, hrow] at hrow2
    cases hrow2
    rw [hcase] at hcase2
    cases hcase2
    rw [e4]
  intro hnf
  have g1 := GetQuizSessionByID_noFaults id _ r' hnf hf'
  have fr := frame_GetQuizSessionByID id (GetNextQuestionHandler.Handle sid u w).2
  have hrow' : (PostgresStorage.GetQuizSessionByID id
      (GetNextQuestionHandler.Handle sid u w).2).2.questions.find?
      (fun q => q.id = r'.CurrentQuestionID ∧ q.case_row.isSome) = some row := by
    rw [fr.questions, env.questions, eC]
    exact hrow
  have g2 := GetQuestionByID_noFaults r'.CurrentQuestionID _ row c (fr.noFaults hnf) hrow' hcase
  have g3 := getNext_content sid u id (GetNextQuestionHandler.Handle sid u w).2
    { r' with ScreenSize := "" } (questionOfRow row c) hid g1 (eU.trans hu)
    (by rw [← eS] at hst; exact hst) (by rw [← eC] at hcq; exact hcq) g2
  rw [g3]
  have e5 : isLastFlag { r' with ScreenSize := "" } = isLastFlag r' := rfl
  rw [e5, e4]

/-- C17, witness: two calls in a row on the free-roam session of the scenario return
question 12 both times. -/
theorem C17_witness :
    (GetNextQuestionHandler.Handle "1" 42 (GetNextQuestionHandler.Handle "1" 42 demoStore).2).1 =
      (GetNextQuestionHandler.Handle "1" 42 demoStore).1 ∧
    ∃ (id : Int) (s : QuizSession) (t : Time) (r r' : QuizSession),
      Atoi "1" = some id ∧
      (PostgresStorage.GetQuizSessionByID id demoStore).1 = Except.ok s ∧
      (GetNextQuestionHandler.Handle "1" 42 demoStore).2.trace.filter Call.isWrite =
        demoStore.trace.filter Call.isWrite ++
          [Call.UpdateQuizSession { s with QuestionRequestedTime := t }] ∧
      demoStore.quiz_sessions.find? (fun r => r.ID = id) = some r ∧
      (GetNextQuestionHandler.Handle "1" 42 demoStore).2.quiz_sessions.find?
        (fun r => r.ID = id) = some r' ∧
      { r' with QuestionRequestedTime := r.QuestionRequestedTime, UpdatedAt := r.UpdatedAt } = r ∧
      r'.CurrentQuestionID = r.CurrentQuestionID ∧
      (NoFaults (GetNextQuestionHandler.Handle "1" 42 demoStore).2 →
        (GetNextQuestionHandler.Handle "1" 42 (GetNextQuestionHandler.Handle "1" 42 demoStore).2).1 =
          some (contentResponse
            (GetNextQuestionHandler.redact (questionOfRow (demoQuestion 12 7) demoCase)) false)) ∧
      (∀ resp2 : Response,
        (GetNextQuestionHandler.Handle "1" 42 (GetNextQuestionHandler.Handle "1" 42 demoStore).2).1 =
          some resp2 → resp2.isContent = true →
        resp2 = contentResponse
          (GetNextQuestionHandler.redact (questionOfRow (demoQuestion 12 7) demoCase)) false) :=
  ⟨rfl, C17_get_next_idempotent "1" 42 demoStore _ rfl rfl⟩

/-! ### C18: the request time stamp -/

/-- C18, as stated, fails: when the driver fails the `UPDATE`, `GetNextQuestion` only
logs it and still returns the question; the stored session keeps its old
`question_requested_time`, here 1000 for a call made at 2000. -/
theorem C18_counterexample :
    demoUpdateFails.clock = 2000 ∧
    (GetNextQuestionHandler.Handle "1" 42 demoUpdateFails).1 =
      some (contentResponse
        (GetNextQuestionHandler.redact (questionOfRow (demoQuestion 12 7) demoCase)) false) ∧
    (GetNextQuestionHandler.Handle "1" 42 demoUpdateFails).2.quiz_sessions.map
      (fun r => (r.ID, r.QuestionRequestedTime)) = [(1, 1000), (7, 1100)] := by
  refine ⟨rfl, rfl, rfl⟩

/-- C18, amended: whenever `GetNextQuestion` returns content and the driver fails no
statement, every stored session with the addressed id (there is one) afterwards has a
`question_requested_time` that is not earlier than the clock before the call and not
later than the clock after it; in general either that holds or the session table is
exactly as it was before the call. -/
theorem C18_request_time_stamped (sid : String) (u : Int) (w : World) (resp : Response)
    (h : (GetNextQuestionHandler.Handle sid u w).1 = some resp)
    (hc : resp.isContent = true) :
    ∃ id : Int, Atoi sid = some id ∧
      (∃ r ∈ w.quiz_sessions, r.ID = id) ∧
      (NoFaults w →
        (∃ r' ∈ (GetNextQuestionHandler.Handle sid u w).2.quiz_sessions, r'.ID = id) ∧
        ∀ r' ∈ (GetNextQuestionHandler.Handle sid u w).2.quiz_sessions, r'.ID = id →
          w.clock ≤ r'.QuestionRequestedTime ∧
          r'.QuestionRequestedTime ≤ (GetNextQuestionHandler.Handle sid u w).2.clock) ∧
      ((GetNextQuestionHandler.Handle sid u w).2.quiz_sessions = w.quiz_sessions ∨
        ∀ r' ∈ (GetNextQuestionHandler.Handle sid u w).2.quiz_sessions, r'.ID = id →
          w.clock ≤ r'.QuestionRequestedTime ∧
          r'.QuestionRequestedTime ≤ (GetNextQuestionHandler.Handle sid u w).2.clock) := by
  obtain ⟨id, r, row, c, t, hid, hfind, hrid, hu, hst, hcq, hrow, hcase, rfl, ht1, ht2, htr, env,
    hrows, hok⟩ := getNext_effect sid u w resp h hc
  have hmem : r ∈ w.quiz_sessions := List.mem_of_find?_eq_some hfind
  have stamped : ∀ t2, (GetNextQuestionHandler.Handle sid u w).2.quiz_sessions =
        w.quiz_sessions.map (fun x => if x.ID = id then
          PostgresStorage.updateRow { r with ScreenSize := "", QuestionRequestedTime := t } t2 x
          else x) →
      ∀ r' ∈ (GetNextQuestionHandler.Handle sid u w).2.quiz_sessions, r'.ID = id →
        w.clock ≤ r'.QuestionRequestedTime ∧
        r'.QuestionRequestedTime ≤ (GetNextQuestionHandler.Handle sid u w).2.clock := by
    intro t2 hx r' hr' hid'
    rw [hx, List.mem_map] at hr'
    obtain ⟨x, _, rfl⟩ := hr'
    by_cases hxid : x.ID = id
    · rw [if_pos hxid]
      exact ⟨ht1, ht2⟩
    · rw [if_neg hxid] at hid'
      exact absurd hid' hxid
  refine ⟨id, hid, ⟨r, hmem, hrid⟩, ?_, ?_⟩
  · intro hnf
    obtain ⟨t2, hx⟩ := hok hnf
    refine ⟨⟨PostgresStorage.updateRow { r with ScreenSize := "", QuestionRequestedTime := t } t2 r,
      ?_, hrid⟩, stamped t2 hx⟩
    rw [hx, List.mem_map]
    exact ⟨r, hmem, by rw [if_pos hrid]⟩
  · rcases hrows with hx | ⟨t2, hx⟩
    · exact Or.inl hx
    · exact Or.inr (stamped t2 hx)

/-- C18, witness: the call on the demo store at clock 1000 stamps session 1 with 1001. -/
theorem C18_witness :
    (GetNextQuestionHandler.Handle "1" 42 demoStore).2.quiz_sessions.map
      (fun r => (r.ID, r.QuestionRequestedTime)) = [(1, 1001)] ∧
    ∃ id : Int, Atoi "1" = some id ∧
      (∃ r ∈ demoStore.quiz_sessions, r.ID = id) ∧
      (NoFaults demoStore →
        (∃ r' ∈ (GetNextQuestionHandler.Handle "1" 42 demoStore).2.quiz_sessions, r'.ID = id) ∧
        ∀ r' ∈ (GetNextQuestionHandler.Handle "1" 42 demoStore).2.quiz_sessions, r'.ID = id →
          demoStore.clock ≤ r'.QuestionRequestedTime ∧
          r'.QuestionRequestedTime ≤ (GetNextQuestionHandler.Handle "1" 42 demoStore).2.clock) ∧
      ((GetNextQuestionHandler.Handle "1" 42 demoStore).2.quiz_sessions = demoStore.quiz_sessions ∨
        ∀ r' ∈ (GetNextQuestionHandler.Handle "1" 42 demoStore).2.quiz_sessions, r'.ID = id →
          demoStore.clock ≤ r'.QuestionRequestedTime ∧
          r'.QuestionRequestedTime ≤ (GetNextQuestionHandler.Handle "1" 42 demoStore).2.clock) :=
  ⟨rfl, C18_request_time_stamped "1" 42 demoStore _ rfl rfl⟩

/-! ### C14: `SubmitAnswer` by someone who does not own the session -/

/-- C14, as stated, fails: user 7 submits to session 1 of user 42 and gets 500 `internal
server error`, the very response given for session 9, which does not exist; the status
is not 403. -/
theorem C14_counterexample :
    (SubmitAnswerHandler.Handle "1" 7 (some demoAnswer) demoStore).1 =
      some (httpError "internal server error" 500) ∧
    (SubmitAnswerHandler.Handle "9" 7 (some demoAnswer) demoStore).1 =
      some (httpError "internal server error" 500) ∧
    (httpError "internal server error" 500).status ≠ 403 := by
  refine ⟨rfl, rfl, by decide⟩

/-- C14, amended: `SubmitAnswer` by a caller whose user id differs from the owner of the
session read fails with 500 `internal server error`, the response it also gives when the
session cannot be read; the only call traced is the reading of the session, so
nothing is reported to the stats service, and the session table is as before. -/
theorem C14_non_owner_rejected (sid : String) (u : Int) (body : Option QuestionAnswer)
    (w : World) (id : Int) (s : QuizSession) (hid : Atoi sid = some id)
    (hs : (PostgresStorage.GetQuizSessionByID id w).1 = Except.ok s)
    (hne : u ≠ s.UserID) :
    (SubmitAnswerHandler.Handle sid u body w).1 = some (httpError "internal server error" 500) ∧
    (SubmitAnswerHandler.Handle sid u body w).2.trace = w.trace ++ [Call.GetQuizSessionByID id] ∧
    (SubmitAnswerHandler.Handle sid u body w).2.quiz_sessions = w.quiz_sessions ∧
    (∀ (w2 : World) (e : GoError), (PostgresStorage.GetQuizSessionByID id w2).1 = Except.error e →
      (SubmitAnswerHandler.Handle sid u body w2).1 =
        (SubmitAnswerHandler.Handle sid u body w).1) := by
  have hne0 : sid ≠ "" := Atoi_ne_empty sid id hid
  have f1 := frame_GetQuizSessionByID id w
  have key : SubmitAnswerHandler.Handle sid u body w =
      (some (httpError "internal server error" 500),
        (PostgresStorage.GetQuizSessionByID id w).2.now.2) := by
    unfold SubmitAnswerHandler.Handle
    rw [if_neg hne0]
    simp only [hid, hs]
    rw [if_pos hne]
  refine ⟨by rw [key], ?_, ?_, ?_⟩
  · rw [key]
    exact GetQuizSessionByID_trace id w
  · rw [key]
    exact f1.sessions
  · intro w2 e he
    rw [key]
    unfold SubmitAnswerHandler.Handle
    rw [if_neg hne0]
    simp only [hid, he]

/-- C14, witness: user 7 submits to session 1 of user 42. -/
theorem C14_witness :
    (SubmitAnswerHandler.Handle "1" 7 (some demoAnswer) demoStore).1 =
      some (httpError "internal server error" 500) ∧
    (SubmitAnswerHandler.Handle "1" 7 (some demoAnswer) demoStore).2.trace =
      demoStore.trace ++ [Call.GetQuizSessionByID 1] ∧
    (SubmitAnswerHandler.Handle "1" 7 (some demoAnswer) demoStore).2.quiz_sessions =
      demoStore.quiz_sessions ∧
    (∀ (w2 : World) (e : GoError), (PostgresStorage.GetQuizSessionByID 1 w2).1 = Except.error e →
      (SubmitAnswerHandler.Handle "1" 7 (some demoAnswer) w2).1 =
        (SubmitAnswerHandler.Handle "1" 7 (some demoAnswer) demoStore).1) :=
  C14_non_owner_rejected "1" 7 (some demoAnswer) demoStore 1 { demoFree12 with ScreenSize := "" }
    rfl rfl (by decide)

/-! ### C15: `FinishQuiz` does not look at the caller -/

/-- C15: `FinishQuizHandler.Handle` never reads the `user_id` of the request, so its
result is a function of the path value and the store alone.  A request for session 1
of user 42, by whoever sends it, answers 200 and stores the session as finished
(`finished_at` 1001, `updated_at` refreshed to 1002, all else unchanged), and the
stats service is notified; only a session id that is not stored yields the failure 500. -/
theorem C15_finish_ignores_owner :
    demoStore.quiz_sessions = [demoFree12] ∧ demoFree12.UserID = 42 ∧
    (FinishQuizHandler.Handle "1" demoStore).1 =
      some { status := 200, headers := [], body := Body.empty } ∧
    (FinishQuizHandler.Handle "1" demoStore).2.quiz_sessions =
      [{ demoFree12 with Status := QuizStatusFinished, FinishedAt := some 1001,
                         QuestionRequestedTime := 1000, UpdatedAt := some 1002 }] ∧
    (FinishQuizHandler.Handle "1" demoStore).2.trace =
      [Call.GetQuizSessionByID 1,
       Call.UpdateQuizSession
         { demoFree12 with ScreenSize := "", Status := QuizStatusFinished, FinishedAt := some 1001 },
       Call.HttpPost "http://stats:8080/stats/sessions1/finish" StatsBody.none] ∧
    (FinishQuizHandler.Handle "9" demoStore).1 = some (httpError "internal server error" 500) ∧
    (FinishQuizHandler.Handle "9" demoStore).2.quiz_sessions = demoStore.quiz_sessions := by
  refine ⟨rfl, rfl, rfl, rfl, ?_, rfl, rfl⟩
  decide

/-! ### C20: what the success response of `SubmitAnswer` carries -/

/-- C20, as stated, fails: the `"correct"` field of the success response is not a boolean
but the text of the correct option; a wrong answer and a right one to question 12
both get `"Predominantly horizontal"` back. -/
theorem C20_counterexample :
    EqualFold demoStore.caseOrbits (TrimSpace demoWrongAnswer.Answer)
      (TrimSpace "Predominantly horizontal") = false ∧
    (SubmitAnswerHandler.Handle "1" 42 (some demoWrongAnswer) demoStore).1 =
      some { status := 200, headers := [("Content-Type", "application/json")],
             body := Body.correct "Predominantly horizontal" } ∧
    (SubmitAnswerHandler.Handle "1" 42 (some demoAnswer) demoStore).1 =
      (SubmitAnswerHandler.Handle "1" 42 (some demoWrongAnswer) demoStore).1 := by
  refine ⟨by decide, rfl, rfl⟩

/-- C20, amended: a `SubmitAnswer` that answers 200 was made by the owner of the stored
session addressed, and its body is the one field `"correct"` holding the text of the
first correct option stored for the current question of that session; it holds no
question, and it does not depend on the answer submitted: every other submission
that succeeds on the same store gets the same response. -/
theorem C20_response_is_correct_option (sid : String) (u : Int) (body : Option QuestionAnswer)
    (w : World) (resp : Response)
    (h : (SubmitAnswerHandler.Handle sid u body w).1 = some resp) (hs : resp.status = 200) :
    ∃ (id : Int) (r : QuizSession) (c : String),
      Atoi sid = some id ∧ w.quiz_sessions.find? (fun r => r.ID = id) = some r ∧ r.UserID = u ∧
      ((w.questions.filter (fun q => q.id = r.CurrentQuestionID)).flatMap
        (fun q => q.correct_options)).head? = some c ∧
      (∃ row ∈ w.questions, row.id = r.CurrentQuestionID ∧ c ∈ row.correct_options) ∧
      resp = { status := 200, headers := [("Content-Type", "application/json")],
               body := Body.correct c } ∧
      resp.isContent = false ∧
      ∀ (body2 : Option QuestionAnswer) (resp2 : Response),
        (SubmitAnswerHandler.Handle sid u body2 w).1 = some resp2 → resp2.status = 200 →
        resp2 = resp := by
  obtain ⟨id, r, c, hid, hfind, hu, hc, rfl⟩ := submit_success sid u body w resp h hs
  have f := (frame_GetQuizSessionByID id w).trans (frame_now _)
  obtain ⟨hhead, hrow⟩ := GetQuestionCorrectOption_ok _ _ _ hc
  rw [f.questions] at hhead hrow
  refine ⟨id, r, c, hid, hfind, hu, hhead, hrow, rfl, rfl, ?_⟩
  intro body2 resp2 h2 hs2
  obtain ⟨id2, r2, c2, hid2, hfind2, _, hc2, rfl⟩ := submit_success sid u body2 w resp2 h2 hs2
  rw [hid] at hid2
  cases hid2
  rw [hfind] at hfind2
  cases hfind2
  rw [hc] at hc2
  cases hc2
  rfl

/-- C20, witness: the owner answers question 12 of the demo store. -/
theorem C20_witness :
    ∃ (id : Int) (r : QuizSession) (c : String),
      Atoi "1" = some id ∧ demoStore.quiz_sessions.find? (fun r => r.ID = id) = some r ∧
      r.UserID = 42 ∧
      ((demoStore.questions.filter (fun q => q.id = r.CurrentQuestionID)).flatMap
        (fun q => q.correct_options)).head? = some c ∧
      (∃ row ∈ demoStore.questions, row.id = r.CurrentQuestionID ∧ c ∈ row.correct_options) ∧
      submitResponse "Predominantly horizontal" =
        { status := 200, headers := [("Content-Type", "application/json")],
          body := Body.correct c } ∧
      (submitResponse "Predominantly horizontal").isContent = false ∧
      ∀ (body2 : Option QuestionAnswer) (resp2 : Response),
        (SubmitAnswerHandler.Handle "1" 42 body2 demoStore).1 = some resp2 → resp2.status = 200 →
        resp2 = submitResponse "Predominantly horizontal" :=
  C20_response_is_correct_option "1" 42 (some demoAnswer) demoStore
    (submitResponse "Predominantly horizontal") rfl rfl

/-! ### C19: the correctness reported to the stats service -/

/-- C19: whenever `SubmitAnswer` sends something to the stats service, it is one answer
record for the current question of the stored session addressed, carrying the
submitted answer, and its `is_correct` is true exactly when the submitted answer and
the first correct option stored for that question are equal after trimming leading and
trailing white space from both and ignoring letter case (`SameAnswer`, the relation in
the words of the specification).  Letter case is that of Unicode simple case folding,
which `strings.EqualFold` follows through `unicode.SimpleFold`: two runes are the same
letter up to case when they lie in one case orbit of package `unicode`; the statement
holds for every table of orbits that is the partition Unicode makes it
(`FoldTable`).  Hence every record reported on the same store for the answer with
white space put around it or with letters replaced by case variants carries the same
`is_correct`. -/
theorem C19_reported_correctness (sid : String) (u : Int) (body : Option QuestionAnswer)
    (w : World) (F : FoldTable w.caseOrbits)
    (hp : posts (SubmitAnswerHandler.Handle sid u body w).2 ≠ posts w) :
    ∃ (id : Int) (r : QuizSession) (c : String) (answer qa : QuestionAnswer) (url : String),
      Atoi sid = some id ∧ w.quiz_sessions.find? (fun r => r.ID = id) = some r ∧
      ((w.questions.filter (fun q => q.id = r.CurrentQuestionID)).flatMap
        (fun q => q.correct_options)).head? = some c ∧
      body = some answer ∧
      posts (SubmitAnswerHandler.Handle sid u body w).2 = posts w ++ [(url, StatsBody.answer qa)] ∧
      qa.QuestionID = r.CurrentQuestionID ∧ qa.Answer = answer.Answer ∧
      (qa.IsCorrect = true ↔ SameAnswer w.caseOrbits answer.Answer c) ∧
      ∀ (answer2 qa2 : QuestionAnswer) (url2 : String),
        PaddedRecased w.caseOrbits answer2.Answer answer.Answer →
        posts (SubmitAnswerHandler.Handle sid u (some answer2) w).2 =
          posts w ++ [(url2, StatsBody.answer qa2)] →
        qa2.IsCorrect = qa.IsCorrect := by
  rcases submit_posts sid u body w with h0 | ⟨id, r, c, answer, cc, secs, hid, hfind, hu, hc, hb, hE, hposts⟩
  · exact absurd h0 hp
  · have f := (frame_GetQuizSessionByID id w).trans (frame_now _)
    obtain ⟨hhead, _⟩ := GetQuestionCorrectOption_ok _ _ _ hc
    rw [f.questions] at hhead
    refine ⟨id, r, c, answer, _, _, hid, hfind, hhead, hb, hposts, rfl, rfl,
      equalFold_trim_iff w.caseOrbits F answer.Answer c, ?_⟩
    intro answer2 qa2 url2 hv h2
    rcases submit_posts sid u (some answer2) w with h0 |
      ⟨id2, r2, c2, a2, cc2, secs2, hid2, hfind2, _, hc2, hb2, _, hposts2⟩
    · rw [h0] at h2
      have := congrArg List.length h2
      simp at this
    · rw [hid] at hid2
      cases hid2
      rw [hfind] at hfind2
      cases hfind2
      rw [hc] at hc2
      cases hc2
      cases hb2
      rw [hposts2] at h2
      have h3 := List.append_cancel_left h2
      simp only [List.cons.injEq, Prod.mk.injEq, StatsBody.answer.injEq, and_true] at h3
      rw [← h3.2]
      dsimp only
      exact equalFold_recased w.caseOrbits F _ _ c hv

/-- C19, witness: the owner submits `" PRZÓD"` and a line feed for a question whose correct
option is `"przód"`: the record reported says correct; so does, on the demo store, the
one reported for `"Predominantly horizontal"` in capitals between a tab and a line
feed; and `"STRASSE"` is not `"straße"` in another case, the capital sharp s is. -/
theorem C19_witness :
    posts (SubmitAnswerHandler.Handle "1" 42 (some demoPolishAnswer) demoPolishStore).2 =
      [("http://stats:8080/stats/sessions/1/respond",
        StatsBody.answer { QuestionID := 12, Answer := " PRZÓD\n",
                           IsCorrect := true, ScreenSize := "800x600", TimeSpent := 0,
                           CaseCode := "C-001" })] ∧
    posts (SubmitAnswerHandler.Handle "1" 42 (some demoShoutedAnswer) demoStore).2 =
      [("http://stats:8080/stats/sessions/1/respond",
        StatsBody.answer { QuestionID := 12, Answer := "\t PREDOMINANTLY HORIZONTAL\n",
                           IsCorrect := true, ScreenSize := "800x600", TimeSpent := 0,
                           CaseCode := "C-001" })] ∧
    EqualFold demoOrbits "STRASSE" "straße" = false ∧
    EqualFold demoOrbits "STRA\u1E9EE" "straße" = true ∧
    FoldTable demoPolishStore.caseOrbits ∧
    ∃ (id : Int) (r : QuizSession) (c : String) (answer qa : QuestionAnswer) (url : String),
      Atoi "1" = some id ∧ demoPolishStore.quiz_sessions.find? (fun r => r.ID = id) = some r ∧
      ((demoPolishStore.questions.filter (fun q => q.id = r.CurrentQuestionID)).flatMap
        (fun q => q.correct_options)).head? = some c ∧
      some demoPolishAnswer = some answer ∧
      posts (SubmitAnswerHandler.Handle "1" 42 (some demoPolishAnswer) demoPolishStore).2 =
        posts demoPolishStore ++ [(url, StatsBody.answer qa)] ∧
      qa.QuestionID = r.CurrentQuestionID ∧ qa.Answer = answer.Answer ∧
      (qa.IsCorrect = true ↔ SameAnswer demoPolishStore.caseOrbits answer.Answer c) ∧
      ∀ (answer2 qa2 : QuestionAnswer) (url2 : String),
        PaddedRecased demoPolishStore.caseOrbits answer2.Answer answer.Answer →
        posts (SubmitAnswerHandler.Handle "1" 42 (some answer2) demoPolishStore).2 =
          posts demoPolishStore ++ [(url2, StatsBody.answer qa2)] →
        qa2.IsCorrect = qa.IsCorrect :=
  ⟨by decide, by decide, by decide, by decide, demoOrbits_foldTable,
   C19_reported_correctness "1" 42 (some demoPolishAnswer) demoPolishStore
     demoOrbits_foldTable (by decide)⟩

/-! ### C11: the starting state `StartQuiz` persists -/

/-- C11, as stated, fails.  The test `"ABCD"` has the ordered questions 0 and 5 (the ids of
a test are stored as the request that creates it gives them), so the session built
for a start with that code has `current_question_id` 0; the driver fails the first
query of the last-resort regeneration, the failure is ignored, and the session is
created with `current_question_id` 0 and answered with 200.  The same happens on a
repository whose only question has the id 0, with the driver failure and, since the
regeneration then yields question 0 again, without it. -/
theorem C11_counterexample :
    (StartQuizHandler.Handle 42 (some demoStartTest) demoTestZeroFaulty).2.trace.map
        (fun c => decide (c = Call.GetNextQuestionGroupID 0 ∨
                          c = Call.GetGroupQuestionsIDsRandomOrder 7)) =
      [false, false, false, false, true, false, false, false] ∧
    (StartQuizHandler.Handle 42 (some demoStartTest) demoTestZeroFaulty).1.map
        (fun r => r.status) = some 200 ∧
    creates (StartQuizHandler.Handle 42 (some demoStartTest) demoTestZeroFaulty).2 =
      [{ QuizSession.zero with
          Mode := QuizModeClassic, UserID := 42, Status := QuizStatusNotStarted,
          ScreenSize := "800x600", CurrentQuestionID := 0, CurrentGroup := 0,
          GroupOrder := [0, 5], TestID := some 3, TestCode := some "ABCD" }] ∧
    (StartQuizHandler.Handle 42 (some demoStartTest) demoTestZeroFaulty).2.quiz_sessions.map
        (fun r => (r.ID, r.CurrentQuestionID, r.GroupOrder)) = [(1, 0, [0, 5])] ∧
    (StartQuizHandler.Handle 42 (some demoStart) demoZeroFaulty).2.trace.map
        (fun c => decide (c = Call.GetNextQuestionGroupID 0 ∨
                          c = Call.GetGroupQuestionsIDsRandomOrder 7)) =
      [false, true, true, false, true, false, false, false] ∧
    (StartQuizHandler.Handle 42 (some demoStart) demoZeroFaulty).1.map (fun r => r.status) =
      some 200 ∧
    (StartQuizHandler.Handle 42 (some demoStart) demoZeroFaulty).2.quiz_sessions.map
        (fun r => (r.ID, r.CurrentQuestionID, r.GroupOrder)) = [(1, 0, [0])] ∧
    (StartQuizHandler.Handle 42 (some demoStart) demoZeroWorld).1.map (fun r => r.status) =
      some 200 ∧
    (StartQuizHandler.Handle 42 (some demoStart) demoZeroWorld).2.quiz_sessions.map
        (fun r => (r.ID, r.CurrentQuestionID, r.GroupOrder)) = [(1, 0, [0])] := by
  refine ⟨by decide, rfl, rfl, rfl, by decide, rfl, rfl, rfl, rfl⟩

/-- C11, amended.  When every question id in the repository is positive, every session
`StartQuiz` hands to `CreateQuizSession`, and every row it adds to the session table,
has a positive `current_question_id` and a non-empty `group_order`.  In any repository:
the last-resort regeneration leaves a session with a valid starting state alone,
without a call to the repository; for a session without one, when
`GetNextQuestionGroupID(0)` returns a group and `GetGroupQuestionsIDsRandomOrder` a
non-empty ordering of it, the session gets that group, that ordering (ids of questions
of that group) and its first question; when either call fails or the ordering is
empty, the session stays as it is.  The tail of `StartQuiz` hands whatever the
regeneration left to `CreateQuizSession`.  So a start whose session has no valid
starting state after the adoption step, and whose regeneration fails, still answers
200 whenever the insert and the reading of the time limit succeed: the session is
created as it was, without a valid starting state, and a row with that state is
added to the session table. -/
theorem C11_start_persists_startable (u : Int) (body : Option StartQuizPayload) (w : World) :
    ((∀ q ∈ w.questions, 0 < q.id) → (∀ r ∈ w.test_questions, 0 < r.question_id) →
      (∃ l : List QuizSession,
        creates (StartQuizHandler.Handle u body w).2 = creates w ++ l ∧ l.length ≤ 1 ∧
        ∀ s ∈ l, Startable s) ∧
      (∀ row ∈ (StartQuizHandler.Handle u body w).2.quiz_sessions.drop w.quiz_sessions.length,
        Startable row)) ∧
    (∀ (s : QuizSession) (w0 : World), Startable s → StartQuizHandler.regenerate s w0 = (s, w0)) ∧
    (∀ (s : QuizSession) (w0 : World) (gid q : Int) (rest : List Int), ¬ Startable s →
      (PostgresStorage.GetNextQuestionGroupID 0 w0).1 = Except.ok gid →
      (PostgresStorage.GetGroupQuestionsIDsRandomOrder gid
        (PostgresStorage.GetNextQuestionGroupID 0 w0).2).1 = Except.ok (q :: rest) →
      StartQuizHandler.regenerate s w0 =
        ({ s with CurrentGroup := gid, GroupOrder := q :: rest, CurrentQuestionID := q },
         (PostgresStorage.GetGroupQuestionsIDsRandomOrder gid
           (PostgresStorage.GetNextQuestionGroupID 0 w0).2).2) ∧
      ∀ x ∈ q :: rest, ∃ row ∈ w0.questions, row.id = x ∧ row.group_number = gid) ∧
    (∀ (s : QuizSession) (w0 : World),
      ((∃ e, (PostgresStorage.GetNextQuestionGroupID 0 w0).1 = Except.error e) ∨
        ∃ gid, (PostgresStorage.GetNextQuestionGroupID 0 w0).1 = Except.ok gid ∧
          ((∃ e, (PostgresStorage.GetGroupQuestionsIDsRandomOrder gid
              (PostgresStorage.GetNextQuestionGroupID 0 w0).2).1 = Except.error e) ∨
            (PostgresStorage.GetGroupQuestionsIDsRandomOrder gid
              (PostgresStorage.GetNextQuestionGroupID 0 w0).2).1 = Except.ok [])) →
      (StartQuizHandler.regenerate s w0).1 = s) ∧
    (∀ (c : String) (n : QuizSession) (w0 : World),
      creates (StartQuizHandler.persist c u n w0).2 = creates w0 ++
        [(StartQuizHandler.regenerate (StartQuizHandler.supersede c u n w0).1
          (StartQuizHandler.supersede c u n w0).2).1]) ∧
    (∀ (payload : StartQuizPayload) (n : QuizSession) (a : QuizSession × World)
        (created : QuizSession) (tl : Int),
      body = some payload →
      (StartQuizHandler.accessGate u w).1 = none →
      (StartQuizHandler.build payload u (TrimSpace payload.TestCode)
        (StartQuizHandler.accessGate u w).2).1 = Except.ok n →
      StartQuizHandler.supersede (TrimSpace payload.TestCode) u n
        (StartQuizHandler.build payload u (TrimSpace payload.TestCode)
          (StartQuizHandler.accessGate u w).2).2 = a →
      ¬ Startable a.1 →
      ((∃ e, (PostgresStorage.GetNextQuestionGroupID 0 a.2).1 = Except.error e) ∨
        ∃ gid, (PostgresStorage.GetNextQuestionGroupID 0 a.2).1 = Except.ok gid ∧
          ((∃ e, (PostgresStorage.GetGroupQuestionsIDsRandomOrder gid
              (PostgresStorage.GetNextQuestionGroupID 0 a.2).2).1 = Except.error e) ∨
            (PostgresStorage.GetGroupQuestionsIDsRandomOrder gid
              (PostgresStorage.GetNextQuestionGroupID 0 a.2).2).1 = Except.ok [])) →
      (PostgresStorage.CreateQuizSession a.1 (StartQuizHandler.regenerate a.1 a.2).2).1 =
        Except.ok created →
      (PostgresStorage.GetTimeLimit (StatsClient.SaveSession created
        (PostgresStorage.CreateQuizSession a.1
          (StartQuizHandler.regenerate a.1 a.2).2).2).2).1 = Except.ok tl →
      (StartQuizHandler.Handle u body w).1 =
        some { status := 200, headers := [("Content-Type", "application/json")],
               body := Body.session created tl } ∧
      creates (StartQuizHandler.Handle u body w).2 = creates w ++ [a.1] ∧
      ¬ Startable created ∧
      ∃ row, (StartQuizHandler.Handle u body w).2.quiz_sessions = a.2.quiz_sessions ++ [row] ∧
        row.ID = created.ID ∧ ¬ Startable row) := by
  refine ⟨fun hq htq => ⟨?_, ?_⟩, fun s w0 hs => regenerate_noop s w0 hs.1 hs.2,
    fun s w0 gid q rest hs hg ho => ⟨regenerate_ok s w0 gid q rest hs hg ho, ?_⟩,
    fun s w0 h => regenerate_fail s w0 h,
    fun c n w0 => (persist_creates c u n w0).1, ?_⟩
  · have fa := frame_accessGate u w
    unfold StartQuizHandler.Handle
    dsimp only
    split
    · exact ⟨[], by rw [creates_frame fa, List.append_nil], Nat.zero_le _, by simp⟩
    · cases body with
      | none => exact ⟨[], by rw [creates_frame fa, List.append_nil], Nat.zero_le _, by simp⟩
      | some payload =>
        dsimp only
        have fb := fa.trans (frame_build payload u (TrimSpace payload.TestCode)
          (StartQuizHandler.accessGate u w).2)
        split
        · exact ⟨[], by rw [creates_frame fb, List.append_nil], Nat.zero_le _, by simp⟩
        · rename_i n hn
          have hs : Startable n := build_startable _ _ _ _ _
            (by rw [fa.questions]; exact hq) (by rw [fa.test_questions]; exact htq) hn
          have hs2 := supersede_startable (TrimSpace payload.TestCode) u n
            (StartQuizHandler.build payload u (TrimSpace payload.TestCode)
              (StartQuizHandler.accessGate u w).2).2 hs
          refine ⟨[(StartQuizHandler.supersede (TrimSpace payload.TestCode) u n
            (StartQuizHandler.build payload u (TrimSpace payload.TestCode)
              (StartQuizHandler.accessGate u w).2).2).1], ?_, Nat.le_refl _, ?_⟩
          · rw [(persist_creates _ _ _ _).1, regenerate_noop _ _ hs2.1 hs2.2, creates_frame fb]
          · intro s hs3
            rw [List.mem_singleton] at hs3
            rw [hs3]
            exact hs2
  · have fa := frame_accessGate u w
    unfold StartQuizHandler.Handle
    dsimp only
    split
    · rw [fa.sessions, List.drop_length]
      simp
    · cases body with
      | none =>
        dsimp only
        rw [fa.sessions, List.drop_length]
        simp
      | some payload =>
        dsimp only
        have fb := fa.trans (frame_build payload u (TrimSpace payload.TestCode)
          (StartQuizHandler.accessGate u w).2)
        split
        · rw [fb.sessions, List.drop_length]
          simp
        · rename_i n hn
          have hs : Startable n := build_startable _ _ _ _ _
            (by rw [fa.questions]; exact hq) (by rw [fa.test_questions]; exact htq) hn
          have hs2 := supersede_startable (TrimSpace payload.TestCode) u n
            (StartQuizHandler.build payload u (TrimSpace payload.TestCode)
              (StartQuizHandler.accessGate u w).2).2 hs
          have hp := (persist_creates (TrimSpace payload.TestCode) u n
            (StartQuizHandler.build payload u (TrimSpace payload.TestCode)
              (StartQuizHandler.accessGate u w).2).2).2
          rw [fb.sessions] at hp
          rcases hp with hp | ⟨row, hp, hcq, hgo⟩
          · rw [hp]
            simp
          · rw [hp]
            intro r hr
            rw [List.mem_singleton] at hr
            subst hr
            rw [regenerate_noop _ _ hs2.1 hs2.2] at hcq hgo
            exact ⟨by rw [hcq]; exact hs2.1, by rw [hgo]; exact hs2.2⟩
  · intro x hx
    obtain ⟨row, hrow, h1, h2⟩ := GetGroupQuestionsIDsRandomOrder_group gid _ _ ho x hx
    rw [(frame_GetNextQuestionGroupID 0 w0).questions] at hrow
    exact ⟨row, hrow, h1, h2⟩
  · intro payload n a created tl hb hgate hbuild ha hns hfail hc ht
    subst hb
    have fa := frame_accessGate u w
    have fb := fa.trans (frame_build payload u (TrimSpace payload.TestCode)
      (StartQuizHandler.accessGate u w).2)
    have hreg : (StartQuizHandler.regenerate a.1 a.2).1 = a.1 := regenerate_fail a.1 a.2 hfail
    rw [start_eq_persist u payload w n hgate hbuild]
    have hpc := (persist_creates (TrimSpace payload.TestCode) u n
      (StartQuizHandler.build payload u (TrimSpace payload.TestCode)
        (StartQuizHandler.accessGate u w).2).2).1
    have hpo := persist_ok (TrimSpace payload.TestCode) u n
      (StartQuizHandler.build payload u (TrimSpace payload.TestCode)
        (StartQuizHandler.accessGate u w).2).2 created tl
    rw [ha, hreg] at hpo hpc
    obtain ⟨h1, h2, h3, row, h4, h5, h6, h7⟩ := hpo hc ht
    have hnc : ¬ Startable created := by
      intro hs
      apply hns
      unfold Startable at hs ⊢
      rw [← h2, ← h3]
      exact hs
    refine ⟨h1, by rw [hpc, creates_frame fb], hnc, row, h4, h5, ?_⟩
    intro hs
    apply hnc
    unfold Startable at hs ⊢
    rw [← h6, ← h7]
    exact hs

/-- C11, witness: a start on the demo database, whose question ids are all positive,
creates the session on question 11 with the ordering 11, 12, 13; a start with the code
of the test whose questions are 0 and 5, with the driver failing the first query of
the regeneration, answers 200 with the session created on question 0. -/
theorem C11_witness :
    (StartQuizHandler.Handle 42 (some demoStart) demoWorld).2.quiz_sessions.map
        (fun r => (r.ID, r.CurrentQuestionID, r.GroupOrder)) = [(1, 11, [11, 12, 13])] ∧
    ((∃ l : List QuizSession,
      creates (StartQuizHandler.Handle 42 (some demoStart) demoWorld).2 = creates demoWorld ++ l ∧
      l.length ≤ 1 ∧ ∀ s ∈ l, Startable s) ∧
    (∀ row ∈ (StartQuizHandler.Handle 42 (some demoStart) demoWorld).2.quiz_sessions.drop
        demoWorld.quiz_sessions.length, Startable row)) ∧
    ((StartQuizHandler.Handle 42 (some demoStartTest) demoTestZeroFaulty).1 =
        some { status := 200, headers := [("Content-Type", "application/json")],
               body := Body.session
                 { QuizSession.zero with
                    ID := 1, Mode := QuizModeClassic, UserID := 42,
                    Status := QuizStatusNotStarted, ScreenSize := "800x600",
                    CurrentQuestionID := 0, CurrentGroup := 0, GroupOrder := [0, 5],
                    CreatedAt := some 1001, UpdatedAt := some 1001,
                    TestID := some 3, TestCode := some "ABCD" } 30 } ∧
      creates (StartQuizHandler.Handle 42 (some demoStartTest) demoTestZeroFaulty).2 =
        creates demoTestZeroFaulty ++
        [{ QuizSession.zero with
            Mode := QuizModeClassic, UserID := 42, Status := QuizStatusNotStarted,
            ScreenSize := "800x600", CurrentQuestionID := 0, CurrentGroup := 0,
            GroupOrder := [0, 5], TestID := some 3, TestCode := some "ABCD" }]) :=
  ⟨rfl,
   (C11_start_persists_startable 42 (some demoStart) demoWorld).1 (by decide) (by decide),
   have h := (C11_start_persists_startable 42 (some demoStartTest) demoTestZeroFaulty).2.2.2.2.2
     demoStartTest
     { QuizSession.zero with
        Mode := QuizModeClassic, UserID := 42, Status := QuizStatusNotStarted,
        ScreenSize := "800x600", CurrentQuestionID := 0, CurrentGroup := 0,
        GroupOrder := [0, 5], TestID := some 3, TestCode := some "ABCD" }
     _
     { QuizSession.zero with
        ID := 1, Mode := QuizModeClassic, UserID := 42,
        Status := QuizStatusNotStarted, ScreenSize := "800x600",
        CurrentQuestionID := 0, CurrentGroup := 0, GroupOrder := [0, 5],
        CreatedAt := some 1001, UpdatedAt := some 1001,
        TestID := some 3, TestCode := some "ABCD" }
     30 rfl rfl rfl rfl (by decide) (Or.inl ⟨GoError.driver, rfl⟩) rfl rfl
   ⟨h.1, h.2.1⟩⟩

/-! ### C30: the address `FinishSession` posts to -/

/-- C30: `StatsClient.FinishSession` posts to `addr + "/sessions" + id + "/finish"`, without
the `/` between `sessions` and the id that `SaveResponse` puts there and that the route
`/stats/sessions/{quizSessionId}/finish` needs: for every session id the address is not
`addr + "/sessions/" + id + "/finish"`; for session 1 it is `.../stats/sessions1/finish`. -/
theorem C30_finish_route_missing_slash :
    (∀ (id : Int) (w : World),
      posts (StatsClient.FinishSession id w).2 =
        posts w ++ [(w.statsAddr ++ "/sessions" ++ Itoa id ++ "/finish", StatsBody.none)] ∧
      w.statsAddr ++ "/sessions" ++ Itoa id ++ "/finish" ≠
        w.statsAddr ++ "/sessions/" ++ Itoa id ++ "/finish") ∧
    (∀ (id : Int) (a : QuestionAnswer) (w : World),
      posts (StatsClient.SaveResponse id a w).2 =
        posts w ++ [(w.statsAddr ++ "/sessions/" ++ Itoa id ++ "/respond", StatsBody.answer a)]) ∧
    posts (StatsClient.FinishSession 1 demoStore).2 =
      [("http://stats:8080/stats/sessions1/finish", StatsBody.none)] ∧
    posts (FinishQuizHandler.Handle "1" demoStore).2 =
      [("http://stats:8080/stats/sessions1/finish", StatsBody.none)] := by
  refine ⟨fun id w => ⟨?_, ?_⟩, fun id a w => posts_SaveResponse id a w w rfl rfl, by decide,
    by decide⟩
  · unfold posts StatsClient.FinishSession
    simp only [World.statsDo, World.log]
    split
    · rw [List.filterMap_append]
      rfl
    · split <;> (rw [List.filterMap_append]; rfl)
  · intro h
    have h2 := congrArg String.length h
    simp only [String.length_append] at h2
    have e1 : "/sessions".length = 9 := by decide
    have e2 : "/sessions/".length = 10 := by decide
    rw [e1, e2] at h2
    omega

/-! ### C28: a status other than 200 from the stats service -/

/-- C28: when the stats service answers with a status, whatever it is, `SaveResponse`,
`SaveSession` and `FinishSession` return nil: on a status other than 200 they log and
execute `return err` with `err` still nil.  So `SubmitAnswer` by the owner of session 1,
with the recording rejected with 500, answers 200 and moves the session from question
12 on to question 11. -/
theorem C28_rejected_recording_is_nil :
    (∀ (id : Int) (a : QuestionAnswer) (w : World) (code : Nat),
      (StatsClient.SaveResponse id a
        { w with statsReplies := StatsReply.status code :: w.statsReplies }).1 = none) ∧
    (∀ (s : QuizSession) (w : World) (code : Nat),
      (StatsClient.SaveSession s
        { w with statsReplies := StatsReply.status code :: w.statsReplies }).1 = none) ∧
    (∀ (id : Int) (w : World) (code : Nat),
      (StatsClient.FinishSession id
        { w with statsReplies := StatsReply.status code :: w.statsReplies }).1 = none) ∧
    demoRejectingStats.statsReplies = [StatsReply.status 500] ∧
    (SubmitAnswerHandler.Handle "1" 42 (some demoAnswer) demoRejectingStats).1 =
      some (submitResponse "Predominantly horizontal") ∧
    (SubmitAnswerHandler.Handle "1" 42 (some demoAnswer) demoRejectingStats).2.quiz_sessions.map
      (fun r => (r.ID, r.Status, r.CurrentQuestionID)) = [(1, QuizStatusInProgress, 11)] ∧
    (SubmitAnswerHandler.Handle "1" 42 (some demoAnswer) demoRejectingStats).2.statsReplies = [] := by
  refine ⟨fun id a w code => ?_, fun s w code => ?_, fun id w code => ?_, rfl, rfl, rfl, rfl⟩
  · unfold StatsClient.SaveResponse
    simp only [World.statsDo, World.log, List.headD_cons]
    split <;> rfl
  · unfold StatsClient.SaveSession
    simp only [World.statsDo, World.log, List.headD_cons]
    split <;> rfl
  · unfold StatsClient.FinishSession
    simp only [World.statsDo, World.log, List.headD_cons]
    split <;> rfl

/-! ### C25: the registration time `UpsertAndGetRegisteredAt` returns -/

/-- C25: `UpsertAndGetRegisteredAt` never changes a registry row that exists (the
registry afterwards is the one before, or the one before with a row for a user who had
none), but it does not always return the row's `registered_at`: when the first
`SELECT` fails and the insert finds the row present, the last `SELECT` is sent without
its parameter, its error is dropped, and the zero time is returned without error.
User 42, registered at hour 90, is then handed the zero time, and at hour 100 of a 24
hour cooldown `StartQuiz` lets the user in, where without the failure it answers 403. -/
theorem C25_registered_at_lost :
    (∀ (u : Int) (w : World),
      (PostgresStorage.UpsertAndGetRegisteredAt u w).2.quiz_user_registry = w.quiz_user_registry ∨
      ∃ t, w.quiz_user_registry.find? (fun p => p.1 = u) = none ∧
        (PostgresStorage.UpsertAndGetRegisteredAt u w).2.quiz_user_registry =
          w.quiz_user_registry ++ [(u, t)]) ∧
    demoCooldown.quiz_user_registry = [(42, 90 * Hour)] ∧
    (PostgresStorage.UpsertAndGetRegisteredAt 42 demoCooldown).1 = Except.ok (90 * Hour) ∧
    (PostgresStorage.UpsertAndGetRegisteredAt 42 { demoCooldown with faults := [true] }).1 =
      Except.ok 0 ∧
    (PostgresStorage.UpsertAndGetRegisteredAt 42
      { demoCooldown with faults := [true] }).2.quiz_user_registry = [(42, 90 * Hour)] ∧
    (StartQuizHandler.Handle 42 (some demoStart) demoCooldown).1.map (fun r => r.status) =
      some 403 ∧
    (StartQuizHandler.Handle 42 (some demoStart) demoCooldownFaulty).1.map (fun r => r.status) =
      some 200 ∧
    (StartQuizHandler.Handle 42 (some demoStart) demoCooldownFaulty).2.quiz_sessions.length = 1 := by
  refine ⟨fun u w => ?_, rfl, rfl, rfl, rfl, rfl, rfl, rfl⟩
  unfold PostgresStorage.UpsertAndGetRegisteredAt
  dsimp only
  split
  · exact Or.inl rfl
  · split
    · exact Or.inl rfl
    · split
      · exact Or.inl rfl
      · rename_i hnone
        exact Or.inr ⟨_, hnone, rfl⟩

/-! ### C29: what supersession writes to the prior session -/

/-- C29: `GetUserLastQuizSession` does not select `question_requested_time`, and
`UpdateQuizSession` writes it: superseding session 1 of user 42 stores the zero time
over its `question_requested_time` 1000, besides setting `status` and `finished_at` (and
refreshing `updated_at`); position, group, ordering and mode stay.  And `finished_at` is
always overwritten with the previous `updated_at`: the same session finished by
`FinishQuiz` at 1001 (`updated_at` 1002) has `finished_at` 1002 after the next start. -/
theorem C29_supersede_overwrites :
    demoStore.quiz_sessions.map
        (fun r => (r.ID, r.Status, r.CurrentQuestionID, r.CurrentGroup, r.GroupOrder, r.Mode,
          r.QuestionRequestedTime, r.FinishedAt, r.UpdatedAt)) =
      [(1, QuizStatusNotStarted, 12, 7, [12, 11, 13], QuizModeClassic, 1000, none, some 1000)] ∧
    ((StartQuizHandler.Handle 42 (some demoStart) demoStore).2.quiz_sessions.filter
        (fun r => r.ID = 1)).map
        (fun r => (r.ID, r.Status, r.CurrentQuestionID, r.CurrentGroup, r.GroupOrder, r.Mode,
          r.QuestionRequestedTime, r.FinishedAt, r.UpdatedAt)) =
      [(1, QuizStatusFinished, 12, 7, [12, 11, 13], QuizModeClassic, 0, some 1000, some 1001)] ∧
    (FinishQuizHandler.Handle "1" demoStore).2.quiz_sessions.map
        (fun r => (r.ID, r.Status, r.QuestionRequestedTime, r.FinishedAt, r.UpdatedAt)) =
      [(1, QuizStatusFinished, 1000, some 1001, some 1002)] ∧
    ((StartQuizHandler.Handle 42 (some demoStart)
        (FinishQuizHandler.Handle "1" demoStore).2).2.quiz_sessions.filter (fun r => r.ID = 1)).map
        (fun r => (r.ID, r.Status, r.QuestionRequestedTime, r.FinishedAt, r.UpdatedAt)) =
      [(1, QuizStatusFinished, 0, some 1002, some 1003)] := by
  refine ⟨rfl, rfl, rfl, rfl⟩

/-! ### C27: an empty ordering for the next group -/

/-- C27: `SetNextQuestionID` reads `qs.GroupOrder[0]` without looking at the length of
the ordering just fetched.  With a store that answers the choice of the next group with
8 and then returns an empty list and no error, the free-roam session standing on the
last question of its group panics (index out of range); the session at that moment has
group 8 and an empty ordering.  The method as wired with `PostgresStorage` is this
same function. -/
theorem C27_empty_group_panics :
    demoFree13.TestID = none ∧ demoFree13.GroupOrder = [12, 11, 13] ∧
    demoFree13.CurrentQuestionID = 13 ∧
    demoEmptyGroupStore.GetNextQuestionGroupID 7 () = (Except.ok 8, ()) ∧
    demoEmptyGroupStore.GetGroupQuestionsIDsRandomOrder 8 () = (Except.ok [], ()) ∧
    (SubmitAnswerHandler.SetNextQuestionIDOn demoEmptyGroupStore demoFree13 ()).1 =
      (Outcome.panic, { demoFree13 with CurrentGroup := 8, GroupOrder := [] }) ∧
    (∀ (qs : QuizSession) (w : World),
      SubmitAnswerHandler.SetNextQuestionID qs w =
        SubmitAnswerHandler.SetNextQuestionIDOn SubmitAnswerHandler.postgresStore qs w) := by
  refine ⟨rfl, rfl, rfl, rfl, rfl, rfl, fun qs w => rfl⟩

/-! ### C26: walking through a test -/

/-- C26, as stated, fails: the test session with the order 5, -1 (two distinct elements),
standing on 5, is moved to -1, which is then found in the order as its last element, so
the third application also succeeds instead of failing. -/
theorem C26_counterexample :
    demoMinusOne.GroupOrder = [5, -1] ∧ demoMinusOne.GroupOrder.Nodup ∧
    demoMinusOne.TestID = some 3 ∧ demoMinusOne.CurrentQuestionID = 5 ∧
    setNextTimes 1 demoMinusOne demoWorld =
      ((Outcome.ok, { demoMinusOne with CurrentQuestionID := -1 }), demoWorld) ∧
    setNextTimes 2 demoMinusOne demoWorld =
      ((Outcome.ok, { demoMinusOne with CurrentQuestionID := -1 }), demoWorld) ∧
    setNextTimes 3 demoMinusOne demoWorld =
      ((Outcome.ok, { demoMinusOne with CurrentQuestionID := -1 }), demoWorld) := by
  refine ⟨rfl, by decide, rfl, rfl, rfl, rfl, rfl⟩

/-- C26, amended: for a test-bound session whose `group_order` has `n ≥ 1` pairwise
distinct elements, none of them -1, and whose `current_question_id` is its first
element, the first `n` applications of `SetNextQuestionID` return nil: after `k < n` of
them the session stands on `group_order[k]`, after the `n`-th on -1, and the
application after that returns the error `question not found in group order`; nothing
but `current_question_id` ever changes, and the store is not touched. -/
theorem C26_test_walk (qs : QuizSession) (w : World) (ht : qs.TestID ≠ none)
    (hd : qs.GroupOrder.Nodup) (hne : qs.GroupOrder ≠ [])
    (hcq : qs.GroupOrder.head? = some qs.CurrentQuestionID)
    (hm : (-1 : Int) ∉ qs.GroupOrder) :
    (∀ k, k < qs.GroupOrder.length →
      setNextTimes k qs w =
        ((Outcome.ok, { qs with CurrentQuestionID := qs.GroupOrder.getD k 0 }), w)) ∧
    setNextTimes qs.GroupOrder.length qs w =
      ((Outcome.ok, { qs with CurrentQuestionID := -1 }), w) ∧
    setNextTimes (qs.GroupOrder.length + 1) qs w =
      ((Outcome.error (GoError.errorf "question not found in group order"),
        { qs with CurrentQuestionID := -1 }), w) := by
  have ht2 : qs.TestID.isSome = true := by
    cases h : qs.TestID with
    | none => exact absurd h ht
    | some _ => rfl
  have hcq2 : qs.CurrentQuestionID = qs.GroupOrder.getD 0 0 := by
    cases hl : qs.GroupOrder with
    | nil => exact absurd hl hne
    | cons a t =>
      rw [hl] at hcq
      simp only [List.head?_cons, Option.some.injEq] at hcq
      rw [← hcq]
      rfl
  have hpos : 0 < qs.GroupOrder.length := List.length_pos.mpr hne
  have hwalk := setNextTimes_test qs w ht2 hd hcq2
  have hlast : setNextTimes qs.GroupOrder.length qs w =
      ((Outcome.ok, { qs with CurrentQuestionID := -1 }), w) := by
    obtain ⟨n, hn⟩ : ∃ n, qs.GroupOrder.length = n + 1 := ⟨qs.GroupOrder.length - 1, by omega⟩
    rw [hn]
    unfold setNextTimes
    rw [hwalk n (by omega)]
    dsimp only
    have hn2 : n < qs.GroupOrder.length := by omega
    have hn3 : ¬ n + 1 < qs.GroupOrder.length := by omega
    rw [setNext_test_step { qs with CurrentQuestionID := qs.GroupOrder.getD n 0 } w n ht2 hd
      hn2 rfl]
    dsimp only
    rw [if_neg hn3]
  refine ⟨hwalk, hlast, ?_⟩
  unfold setNextTimes
  rw [hlast]
  dsimp only
  unfold SubmitAnswerHandler.SetNextQuestionID
  dsimp only
  rw [if_pos ht2, rangeFind_of_not_mem _ _ hm]

/-- C26, witness: the test session of the scenario, order 5, 6, 7, from its first
question: 6, 7, -1, then the error. -/
theorem C26_witness :
    (∀ k, k < demoTest5.GroupOrder.length →
      setNextTimes k demoTest5 demoWorld =
        ((Outcome.ok, { demoTest5 with CurrentQuestionID := demoTest5.GroupOrder.getD k 0 }),
          demoWorld)) ∧
    setNextTimes demoTest5.GroupOrder.length demoTest5 demoWorld =
      ((Outcome.ok, { demoTest5 with CurrentQuestionID := -1 }), demoWorld) ∧
    setNextTimes (demoTest5.GroupOrder.length + 1) demoTest5 demoWorld =
      ((Outcome.error (GoError.errorf "question not found in group order"),
        { demoTest5 with CurrentQuestionID := -1 }), demoWorld) :=
  C26_test_walk demoTest5 demoWorld (by decide) (by decide) (by decide) rfl (by decide)

/-! ### C21: the educational skip -/

/-- C21: let `SubmitAnswer` get as far as the recording step (the session is read and
belongs to the caller, its correct option and its question are read, the body
decodes).  Then it posts to the stats service if and only if it is not the case that
the session mode is educational and the answer is empty after trimming, and what it
posts is the one answer record.  And for an educational session, a submission that
is skipped and one that is recorded without error get the same response and leave
the same store (the worlds after them differ only in the trace and in the replies of
the stats service consumed): the pointer is advanced and the session persisted the
same way. -/
theorem C21_educational_skip (sid : String) (u id : Int) (w : World)
    (s : QuizSession) (c : String) (question : Question)
    (hid : Atoi sid = some id)
    (hs : (PostgresStorage.GetQuizSessionByID id w).1 = Except.ok s)
    (hown : u = s.UserID)
    (hc : (PostgresStorage.GetQuestionCorrectOption s.CurrentQuestionID
      (PostgresStorage.GetQuizSessionByID id w).2.now.2).1 = Except.ok c)
    (hq : (PostgresStorage.GetQuestionByID s.CurrentQuestionID
      (PostgresStorage.GetQuestionCorrectOption s.CurrentQuestionID
        (PostgresStorage.GetQuizSessionByID id w).2.now.2).2).1 = Except.ok question) :
    (∀ answer : QuestionAnswer,
      posts (SubmitAnswerHandler.Handle sid u (some answer) w).2 ≠ posts w ↔
        ¬ (s.Mode = QuizModeEducational ∧ TrimSpace answer.Answer = "")) ∧
    (∀ answer : QuestionAnswer,
      ¬ (s.Mode = QuizModeEducational ∧ TrimSpace answer.Answer = "") →
      posts (SubmitAnswerHandler.Handle sid u (some answer) w).2 = posts w ++
        [(w.statsAddr ++ "/sessions/" ++ Itoa s.ID ++ "/respond",
          StatsBody.answer (answerRecord w.caseOrbits s answer c question
            (timeSub (PostgresStorage.GetQuizSessionByID id w).2.now.1
              s.QuestionRequestedTime)))]) ∧
    (∀ a1 a2 : QuestionAnswer,
      s.Mode = QuizModeEducational → TrimSpace a1.Answer = "" → TrimSpace a2.Answer ≠ "" →
      w.statsReplies.head? ≠ some StatsReply.transportError →
      (SubmitAnswerHandler.Handle sid u (some a1) w).1 =
        (SubmitAnswerHandler.Handle sid u (some a2) w).1 ∧
      (SubmitAnswerHandler.Handle sid u (some a1) w).2.quiz_sessions =
        (SubmitAnswerHandler.Handle sid u (some a2) w).2.quiz_sessions ∧
      (SubmitAnswerHandler.Handle sid u (some a1) w).2.mute =
        (SubmitAnswerHandler.Handle sid u (some a2) w).2.mute) := by
  obtain ⟨p4, f4, s4⟩ := submit_reads id s.CurrentQuestionID w
  have hrec : ∀ answer : QuestionAnswer,
      ¬ (s.Mode = QuizModeEducational ∧ TrimSpace answer.Answer = "") →
      posts (SubmitAnswerHandler.Handle sid u (some answer) w).2 = posts w ++
        [(w.statsAddr ++ "/sessions/" ++ Itoa s.ID ++ "/respond",
          StatsBody.answer (answerRecord w.caseOrbits s answer c question
            (timeSub (PostgresStorage.GetQuizSessionByID id w).2.now.1
              s.QuestionRequestedTime)))] := by
    intro answer hE
    rw [submit_decompose sid u id answer w s c question hid hs hown hc hq, if_neg hE,
      posts_submitTail]
    exact posts_SaveResponse _ _ _ w p4 f4.statsAddr
  refine ⟨fun answer => ⟨fun hne hE => ?_, fun hE => ?_⟩, hrec, ?_⟩
  · apply hne
    rw [submit_decompose sid u id answer w s c question hid hs hown hc hq, if_pos hE,
      posts_submitTail]
    exact p4
  · rw [hrec answer hE]
    intro h
    have := congrArg List.length h
    simp at this
  · intro a1 a2 hm h1 h2 hst
    have hE1 : s.Mode = QuizModeEducational ∧ TrimSpace a1.Answer = "" := ⟨hm, h1⟩
    have hE2 : ¬ (s.Mode = QuizModeEducational ∧ TrimSpace a2.Answer = "") := fun h => h2 h.2
    rw [submit_decompose sid u id a1 w s c question hid hs hown hc hq, if_pos hE1,
      submit_decompose sid u id a2 w s c question hid hs hown hc hq, if_neg hE2]
    generalize hrv : StatsClient.SaveResponse s.ID (answerRecord w.caseOrbits s a2 c question
      (timeSub (PostgresStorage.GetQuizSessionByID id w).2.now.1 s.QuestionRequestedTime))
      (PostgresStorage.GetQuestionByID s.CurrentQuestionID
        (PostgresStorage.GetQuestionCorrectOption s.CurrentQuestionID
          (PostgresStorage.GetQuizSessionByID id w).2.now.2).2).2 = rv
    have hr1 : rv.1 = none := by
      rw [← hrv, SaveResponse_result, s4, if_neg hst]
    have hr2 : rv.2.mute = (PostgresStorage.GetQuestionByID s.CurrentQuestionID
        (PostgresStorage.GetQuestionCorrectOption s.CurrentQuestionID
          (PostgresStorage.GetQuizSessionByID id w).2.now.2).2).2.mute := by
      rw [← hrv]
      exact mute_SaveResponse _ _ _
    have hrv2 : rv = (none, rv.2) := by
      rw [← hr1]
    rw [hrv2]
    obtain ⟨m1, m2⟩ := mute_submitTail { s with Status := QuizStatusInProgress } c _ _ hr2.symm
    have m3 : (submitTail { s with Status := QuizStatusInProgress } c
        (none, (PostgresStorage.GetQuestionByID s.CurrentQuestionID
          (PostgresStorage.GetQuestionCorrectOption s.CurrentQuestionID
            (PostgresStorage.GetQuizSessionByID id w).2.now.2).2).2)).2.quiz_sessions =
        (submitTail { s with Status := QuizStatusInProgress } c (none, rv.2)).2.quiz_sessions := by
      have e := congrArg World.quiz_sessions m2
      exact e
    exact ⟨m1, m3, m2⟩

/-- C21, witness: the educational session of the demo store; an answer of white space is
not recorded, and moves the session from question 12 to 11 as the recorded answer does. -/
theorem C21_witness :
    posts (SubmitAnswerHandler.Handle "1" 42 (some demoBlankAnswer) demoEducationalStore).2 = [] ∧
    (SubmitAnswerHandler.Handle "1" 42 (some demoBlankAnswer) demoEducationalStore).2.quiz_sessions.map
      (fun r => (r.ID, r.Status, r.CurrentQuestionID)) = [(1, QuizStatusInProgress, 11)] ∧
    (∀ answer : QuestionAnswer,
      posts (SubmitAnswerHandler.Handle "1" 42 (some answer) demoEducationalStore).2 ≠
          posts demoEducationalStore ↔
        ¬ (QuizModeEducational = QuizModeEducational ∧ TrimSpace answer.Answer = "")) ∧
    (∀ answer : QuestionAnswer,
      ¬ (QuizModeEducational = QuizModeEducational ∧ TrimSpace answer.Answer = "") →
      posts (SubmitAnswerHandler.Handle "1" 42 (some answer) demoEducationalStore).2 =
        posts demoEducationalStore ++
        [(demoEducationalStore.statsAddr ++ "/sessions/" ++ Itoa 1 ++ "/respond",
          StatsBody.answer (answerRecord demoEducationalStore.caseOrbits
            { demoEducational with ScreenSize := "" } answer
            "Predominantly horizontal" (questionOfRow (demoQuestion 12 7) demoCase)
            (timeSub (PostgresStorage.GetQuizSessionByID 1 demoEducationalStore).2.now.1
              1000)))]) ∧
    (∀ a1 a2 : QuestionAnswer,
      QuizModeEducational = QuizModeEducational → TrimSpace a1.Answer = "" →
      TrimSpace a2.Answer ≠ "" →
      demoEducationalStore.statsReplies.head? ≠ some StatsReply.transportError →
      (SubmitAnswerHandler.Handle "1" 42 (some a1) demoEducationalStore).1 =
        (SubmitAnswerHandler.Handle "1" 42 (some a2) demoEducationalStore).1 ∧
      (SubmitAnswerHandler.Handle "1" 42 (some a1) demoEducationalStore).2.quiz_sessions =
        (SubmitAnswerHandler.Handle "1" 42 (some a2) demoEducationalStore).2.quiz_sessions ∧
      (SubmitAnswerHandler.Handle "1" 42 (some a1) demoEducationalStore).2.mute =
        (SubmitAnswerHandler.Handle "1" 42 (some a2) demoEducationalStore).2.mute) :=
  ⟨by decide, rfl,
   C21_educational_skip "1" 42 1 demoEducationalStore { demoEducational with ScreenSize := "" }
     "Predominantly horizontal" (questionOfRow (demoQuestion 12 7) demoCase) rfl rfl rfl rfl rfl⟩

/-! ### C22: the writes of `SubmitAnswer` -/

/-- What holds of the writes of `SubmitAnswer`: a call that answers 200 has written the
session store exactly once:
the one write traced is the update of the session `SetNextQuestionID` handed back
with nil (status `in_progress`, pointer and ordering advanced), and the table
afterwards is the table before with that update applied to the addressed row.  A
`SubmitAnswer` that does not answer 200 leaves the session table as it was; it has
traced no write, or the one update that the driver failed.  In particular, once the
recording step is reached, a transport failure of the recording, and an error from
`SetNextQuestionID`, both give 500 `internal server error` with nothing written. -/
theorem submit_one_write_or_none (sid : String) (u : Int) (body : Option QuestionAnswer)
    (w : World) :
    (∀ resp, (SubmitAnswerHandler.Handle sid u body w).1 = some resp → resp.status = 200 →
      ∃ (id : Int) (row written : QuizSession) (w1 : World) (t : Time),
        Atoi sid = some id ∧ w.quiz_sessions.find? (fun r => r.ID = id) = some row ∧
        Frame w w1 ∧
        (SubmitAnswerHandler.SetNextQuestionID
          { row with ScreenSize := "", Status := QuizStatusInProgress } w1).1 =
          (Outcome.ok, written) ∧
        written.ID = id ∧ written.Status = QuizStatusInProgress ∧
        (SubmitAnswerHandler.Handle sid u body w).2.trace.filter Call.isWrite =
          w.trace.filter Call.isWrite ++ [Call.UpdateQuizSession written] ∧
        (SubmitAnswerHandler.Handle sid u body w).2.quiz_sessions =
          w.quiz_sessions.map (fun x =>
            if x.ID = id then PostgresStorage.updateRow written t x else x)) ∧
    ((∀ resp, (SubmitAnswerHandler.Handle sid u body w).1 = some resp → resp.status ≠ 200) →
      (SubmitAnswerHandler.Handle sid u body w).2.quiz_sessions = w.quiz_sessions ∧
      ((SubmitAnswerHandler.Handle sid u body w).2.trace.filter Call.isWrite =
          w.trace.filter Call.isWrite ∨
        ∃ written, (SubmitAnswerHandler.Handle sid u body w).2.trace.filter Call.isWrite =
          w.trace.filter Call.isWrite ++ [Call.UpdateQuizSession written] ∧
          (SubmitAnswerHandler.Handle sid u body w).1 =
            some (httpError "internal server error" 500))) ∧
    (∀ (id : Int) (s : QuizSession) (c : String) (question : Question) (answer : QuestionAnswer),
      Atoi sid = some id →
      (PostgresStorage.GetQuizSessionByID id w).1 = Except.ok s →
      u = s.UserID →
      (PostgresStorage.GetQuestionCorrectOption s.CurrentQuestionID
        (PostgresStorage.GetQuizSessionByID id w).2.now.2).1 = Except.ok c →
      (PostgresStorage.GetQuestionByID s.CurrentQuestionID
        (PostgresStorage.GetQuestionCorrectOption s.CurrentQuestionID
          (PostgresStorage.GetQuizSessionByID id w).2.now.2).2).1 = Except.ok question →
      body = some answer →
      ((¬ (s.Mode = QuizModeEducational ∧ TrimSpace answer.Answer = "") ∧
          w.statsReplies.head? = some StatsReply.transportError) ∨
        ((s.Mode = QuizModeEducational ∧ TrimSpace answer.Answer = "" ∨
            w.statsReplies.head? ≠ some StatsReply.transportError) ∧
          ∃ e, (SubmitAnswerHandler.SetNextQuestionID { s with Status := QuizStatusInProgress }
            (PostgresStorage.GetQuestionByID s.CurrentQuestionID
              (PostgresStorage.GetQuestionCorrectOption s.CurrentQuestionID
                (PostgresStorage.GetQuizSessionByID id w).2.now.2).2).2).1.1 = Outcome.error e)) →
      (SubmitAnswerHandler.Handle sid u body w).1 = some (httpError "internal server error" 500) ∧
      Frame w (SubmitAnswerHandler.Handle sid u body w).2) := by
  refine ⟨?_, ?_, ?_⟩
  · intro resp h hst
    rcases submit_outcome sid u body w with ⟨_, hbad⟩ |
      ⟨id, r, w1, hid, _, hrid, hfind, _, f, hok, hW, hU⟩
    · exact absurd hst (hbad resp h)
    · rcases hU with ⟨_, h500⟩ | ⟨hnone, c, _⟩
      · rw [h500] at h
        cases h
        exact absurd hst (by decide)
      · obtain ⟨kid, _, kst, _, _⟩ := setNext_keeps
          { r with ScreenSize := "", Status := QuizStatusInProgress } w1
        have fn := frame_setNext { r with ScreenSize := "", Status := QuizStatusInProgress } w1
        generalize hn : SubmitAnswerHandler.SetNextQuestionID
          { r with ScreenSize := "", Status := QuizStatusInProgress } w1 = n at hok hW hnone kid kst fn
        refine ⟨id, r, n.1.2, w1, (PostgresStorage.UpdateQuizSession n.1.2 n.2).2.clock, hid, hfind, f,
          by rw [hn]; exact Prod.ext hok rfl, kid.trans hrid, kst, ?_, ?_⟩
        · rw [hW, update_trace, List.filter_append, fn.writes, f.writes]
          rfl
        · rw [hW]
          rcases update_cases n.1.2 n.2 with hx | hx
          · rw [hx.1] at hnone
            cases hnone
          · rw [hx.2, fn.sessions, f.sessions, kid, hrid]
  · intro hbad
    rcases submit_outcome sid u body w with ⟨f, _⟩ |
      ⟨id, r, w1, hid, _, hrid, hfind, _, f, hok, hW, hU⟩
    · exact ⟨f.sessions, Or.inl f.writes⟩
    · rcases hU with ⟨hsome, h500⟩ | ⟨_, c, hc⟩
      · have fn := frame_setNext { r with ScreenSize := "", Status := QuizStatusInProgress } w1
        generalize hn : SubmitAnswerHandler.SetNextQuestionID
          { r with ScreenSize := "", Status := QuizStatusInProgress } w1 = n at hok hW hsome fn
        refine ⟨?_, Or.inr ⟨n.1.2, ?_, h500⟩⟩
        · rw [hW]
          rcases update_cases n.1.2 n.2 with hx | hx
          · rw [hx.2, fn.sessions, f.sessions]
          · exact absurd hx.1 hsome
        · rw [hW, update_trace, List.filter_append, fn.writes, f.writes]
          rfl
      · exact absurd rfl (hbad _ hc)
  · intro id s c question answer hid hs hown hc hq hb hcause
    subst hb
    obtain ⟨p4, f4, s4⟩ := submit_reads id s.CurrentQuestionID w
    rw [submit_decompose sid u id answer w s c question hid hs hown hc hq]
    rcases hcause with ⟨hE, htr⟩ | ⟨hrec, e, herr⟩
    · rw [if_neg hE]
      have h1 := SaveResponse_result s.ID (answerRecord w.caseOrbits s answer c question
        (timeSub (PostgresStorage.GetQuizSessionByID id w).2.now.1 s.QuestionRequestedTime))
        (PostgresStorage.GetQuestionByID s.CurrentQuestionID
          (PostgresStorage.GetQuestionCorrectOption s.CurrentQuestionID
            (PostgresStorage.GetQuizSessionByID id w).2.now.2).2).2
      rw [s4, if_pos htr] at h1
      unfold submitTail
      simp only [h1]
      exact ⟨trivial, f4.trans (frame_SaveResponse _ _ _)⟩
    · have key : ∀ wr : World, wr.mute = (PostgresStorage.GetQuestionByID s.CurrentQuestionID
            (PostgresStorage.GetQuestionCorrectOption s.CurrentQuestionID
              (PostgresStorage.GetQuizSessionByID id w).2.now.2).2).2.mute →
          Frame w wr →
          (submitTail { s with Status := QuizStatusInProgress } c (none, wr)).1 =
            some (httpError "internal server error" 500) ∧
          Frame w (submitTail { s with Status := QuizStatusInProgress } c (none, wr)).2 := by
        intro wr hm fr
        obtain ⟨n1, _⟩ := mute_setNext { s with Status := QuizStatusInProgress } _ _ hm
        have herr2 : (SubmitAnswerHandler.SetNextQuestionID
            { s with Status := QuizStatusInProgress } wr).1.1 = Outcome.error e := by
          rw [n1]
          exact herr
        unfold submitTail
        simp only [herr2]
        exact ⟨trivial, fr.trans (frame_setNext _ _)⟩
      by_cases hE : s.Mode = QuizModeEducational ∧ TrimSpace answer.Answer = ""
      · rw [if_pos hE]
        exact key _ rfl f4
      · rw [if_neg hE]
        have hst : w.statsReplies.head? ≠ some StatsReply.transportError := by
          rcases hrec with h | h
          · exact absurd h hE
          · exact h
        generalize hrv : StatsClient.SaveResponse s.ID (answerRecord w.caseOrbits s answer c question
          (timeSub (PostgresStorage.GetQuizSessionByID id w).2.now.1 s.QuestionRequestedTime))
          (PostgresStorage.GetQuestionByID s.CurrentQuestionID
            (PostgresStorage.GetQuestionCorrectOption s.CurrentQuestionID
              (PostgresStorage.GetQuizSessionByID id w).2.now.2).2).2 = rv
        have hr1 : rv.1 = none := by
          rw [← hrv, SaveResponse_result, s4, if_neg hst]
        have hr2 : rv.2.mute = (PostgresStorage.GetQuestionByID s.CurrentQuestionID
            (PostgresStorage.GetQuestionCorrectOption s.CurrentQuestionID
              (PostgresStorage.GetQuizSessionByID id w).2.now.2).2).2.mute := by
          rw [← hrv]
          exact mute_SaveResponse _ _ _
        have hr3 : Frame w rv.2 := by
          rw [← hrv]
          exact f4.trans (frame_SaveResponse _ _ _)
        have hrv2 : rv = (none, rv.2) := by
          rw [← hr1]
        rw [hrv2]
        exact key _ hr2 hr3

/-- On the demo store: the owner's answer to question 12 is recorded and the session is written
once, moved on to question 11; with the stats service out of reach the same request
gets 500 and the session table stays as it was. -/
theorem submit_one_write_or_none_demo :
    (SubmitAnswerHandler.Handle "1" 42 (some demoAnswer) demoUnreachableStats).1 =
      some (httpError "internal server error" 500) ∧
    (SubmitAnswerHandler.Handle "1" 42 (some demoAnswer) demoUnreachableStats).2.quiz_sessions =
      demoUnreachableStats.quiz_sessions ∧
    (SubmitAnswerHandler.Handle "1" 42 (some demoAnswer) demoStore).2.quiz_sessions.map
      (fun r => (r.ID, r.Status, r.CurrentQuestionID)) = [(1, QuizStatusInProgress, 11)] ∧
    ∃ (id : Int) (row written : QuizSession) (w1 : World) (t : Time),
      Atoi "1" = some id ∧ demoStore.quiz_sessions.find? (fun r => r.ID = id) = some row ∧
      Frame demoStore w1 ∧
      (SubmitAnswerHandler.SetNextQuestionID
        { row with ScreenSize := "", Status := QuizStatusInProgress } w1).1 =
        (Outcome.ok, written) ∧
      written.ID = id ∧ written.Status = QuizStatusInProgress ∧
      (SubmitAnswerHandler.Handle "1" 42 (some demoAnswer) demoStore).2.trace.filter Call.isWrite =
        demoStore.trace.filter Call.isWrite ++ [Call.UpdateQuizSession written] ∧
      (SubmitAnswerHandler.Handle "1" 42 (some demoAnswer) demoStore).2.quiz_sessions =
        demoStore.quiz_sessions.map (fun x =>
          if x.ID = id then PostgresStorage.updateRow written t x else x) :=
  ⟨rfl, rfl, rfl,
   (submit_one_write_or_none "1" 42 (some demoAnswer) demoStore).1
     (submitResponse "Predominantly horizontal") rfl rfl⟩

/-- C22: a recording that fails is not always surfaced.  Session 1 is on question 12 of the
order 12, 11, 13 with status `not_started`; its owner submits an answer and the stats
service rejects the recording with status 500.  `SaveResponse` returns nil for that
(`return err` with `err` still nil), so `SubmitAnswer` goes on: it writes the session
store once, the stored session moves on to question 11 with status `in_progress`, and
the caller gets 200 with the correct option, not an internal error.  The same happens
with the rejection 503. -/
theorem C22_rejected_recording_is_written :
    demoRejectingStats.statsReplies = [StatsReply.status 500] ∧
    demoRejectingStats.quiz_sessions.map
      (fun r => (r.ID, r.Status, r.CurrentQuestionID, r.CurrentGroup, r.GroupOrder)) =
      [(1, QuizStatusNotStarted, 12, 7, [12, 11, 13])] ∧
    (posts (SubmitAnswerHandler.Handle "1" 42 (some demoAnswer) demoRejectingStats).2).map
      (fun p => p.1) = ["http://stats:8080/stats/sessions/1/respond"] ∧
    (SubmitAnswerHandler.Handle "1" 42 (some demoAnswer) demoRejectingStats).1 =
      some { status := 200, headers := [("Content-Type", "application/json")],
             body := Body.correct "Predominantly horizontal" } ∧
    (SubmitAnswerHandler.Handle "1" 42 (some demoAnswer) demoRejectingStats).2.trace.filter
      Call.isWrite =
      [Call.UpdateQuizSession
        { demoFree12 with ScreenSize := "", Status := QuizStatusInProgress,
                          CurrentQuestionID := 11 }] ∧
    (SubmitAnswerHandler.Handle "1" 42 (some demoAnswer) demoRejectingStats).2.quiz_sessions.map
      (fun r => (r.ID, r.Status, r.CurrentQuestionID, r.CurrentGroup, r.GroupOrder)) =
      [(1, QuizStatusInProgress, 11, 7, [12, 11, 13])] ∧
    (SubmitAnswerHandler.Handle "1" 42 (some demoAnswer)
      { demoStore with statsReplies := [StatsReply.status 503] }).1 =
      some { status := 200, headers := [("Content-Type", "application/json")],
             body := Body.correct "Predominantly horizontal" } ∧
    (SubmitAnswerHandler.Handle "1" 42 (some demoAnswer)
      { demoStore with statsReplies := [StatsReply.status 503] }).2.quiz_sessions.map
      (fun r => (r.ID, r.Status, r.CurrentQuestionID, r.CurrentGroup, r.GroupOrder)) =
      [(1, QuizStatusInProgress, 11, 7, [12, 11, 13])] := by
  refine ⟨rfl, rfl, ?_, rfl, ?_, rfl, rfl, rfl⟩
  · decide
  · decide

/-! ### C23: the manual and the open policy -/

/-- C23: with a driver that fails no statement and the setting `quiz_security_mode` at
`manual`, `StartQuiz` passes the access gate if and only if the user has an approval
record with `approved = true`; otherwise it answers 403 `approval_required` with mode
`manual` and only reads (no session is created or modified).  With the setting at
`open` the gate is passed whatever the approval and registration tables hold; more
generally whenever the mode `GetSecuritySettings` returns is `open`, for any driver. -/
theorem C23_manual_and_open (u : Int) (body : Option StartQuizPayload) (w : World)
    (hf : NoFaults w) :
    (PostgresStorage.settingValue "quiz_security_mode" w = some "manual" →
      ((StartQuizHandler.accessGate u w).1 = none ↔ Approved u w) ∧
      (¬ Approved u w →
        (StartQuizHandler.Handle u body w).1 = some approvalRequired ∧
        Frame w (StartQuizHandler.Handle u body w).2 ∧
        (StartQuizHandler.Handle u body w).2.quiz_sessions = w.quiz_sessions)) ∧
    (PostgresStorage.settingValue "quiz_security_mode" w = some "open" →
      (StartQuizHandler.accessGate u w).1 = none) ∧
    (∀ w0 : World, (PostgresStorage.GetSecuritySettings w0).1.1 = "open" →
      (StartQuizHandler.accessGate u w0).1 = none) := by
  have hsec := GetSecuritySettings_noFaults w hf
  have fs := frame_GetSecuritySettings w
  refine ⟨fun hmode => ?_, fun hmode => ?_, fun w0 h0 => ?_⟩
  · have hm : (PostgresStorage.GetSecuritySettings w).1.1 = "manual" := by
      rw [hsec, hmode]
      rfl
    have happ := IsUserApproved_noFaults u _ (fs.noFaults hf)
    rw [fs.access] at happ
    have hgate : (StartQuizHandler.accessGate u w).1 =
        if Approved u w then none else some approvalRequired := by
      unfold StartQuizHandler.accessGate StartQuizHandler.policy
      dsimp only
      rw [if_pos hm]
      simp only [happ]
      by_cases ha : Approved u w
      · have hd : decide ((w.quiz_user_access.find? (fun p => p.1 = u)).map (fun p => p.2) =
            some true) = true := decide_eq_true ha
        rw [if_pos ha, hd]
        rfl
      · have hd : decide ((w.quiz_user_access.find? (fun p => p.1 = u)).map (fun p => p.2) =
            some true) = false := decide_eq_false ha
        rw [if_neg ha, hd]
        rfl
    refine ⟨⟨fun h => ?_, fun h => ?_⟩, fun hna => ?_⟩
    · by_contra hna
      rw [hgate, if_neg hna] at h
      cases h
    · rw [hgate, if_pos h]
    · have hrej : (StartQuizHandler.accessGate u w).1 = some approvalRequired := by
        rw [hgate, if_neg hna]
      obtain ⟨r1, r2⟩ := start_rejected u body w _ hrej
      exact ⟨r1, r2, r2.sessions⟩
  · have hm : (PostgresStorage.GetSecuritySettings w).1.1 = "open" := by
      rw [hsec, hmode]
      rfl
    unfold StartQuizHandler.accessGate StartQuizHandler.policy
    dsimp only
    rw [hm, if_neg (by decide), if_neg (by decide)]
  · unfold StartQuizHandler.accessGate StartQuizHandler.policy
    dsimp only
    rw [h0, if_neg (by decide), if_neg (by decide)]

/-- C23, witness: in the manual demo database user 42 (approved) passes the gate; user 7
(on record, not approved) and user 8 (no record) get 403 `approval_required`. -/
theorem C23_witness :
    (StartQuizHandler.Handle 42 (some demoStart) demoManual).1.map (fun r => r.status) = some 200 ∧
    (StartQuizHandler.Handle 8 (some demoStart) demoManual).1 = some approvalRequired ∧
    (PostgresStorage.settingValue "quiz_security_mode" demoManual = some "manual" →
      ((StartQuizHandler.accessGate 7 demoManual).1 = none ↔ Approved 7 demoManual) ∧
      (¬ Approved 7 demoManual →
        (StartQuizHandler.Handle 7 (some demoStart) demoManual).1 = some approvalRequired ∧
        Frame demoManual (StartQuizHandler.Handle 7 (some demoStart) demoManual).2 ∧
        (StartQuizHandler.Handle 7 (some demoStart) demoManual).2.quiz_sessions =
          demoManual.quiz_sessions)) ∧
    (PostgresStorage.settingValue "quiz_security_mode" demoManual = some "open" →
      (StartQuizHandler.accessGate 7 demoManual).1 = none) ∧
    (∀ w0 : World, (PostgresStorage.GetSecuritySettings w0).1.1 = "open" →
      (StartQuizHandler.accessGate 7 w0).1 = none) :=
  ⟨rfl, rfl, C23_manual_and_open 7 (some demoStart) demoManual (noFaults_of_nil _ rfl)⟩

/-! ### C24: the cooldown policy -/

/-- C24, as stated, fails in its numbers.  (1) With `cooldown_hours` 2562048 the product
`time.Duration(hours) * time.Hour` overflows the 64-bit duration and wraps to a
negative one: the user registered ten hours ago is let in although `now` is far before
`registered_at + h` hours.  (2) `waitSeconds` is `int(left.Seconds())`, computed in
`float64`: with 16777216.999999999 seconds left it is 16777217, one more than the
whole number of seconds remaining.  (3) `readyAt` is written in RFC 3339 to the whole
second, so the instant carried is not `registered_at + h` hours when that has a
fraction of a second. -/
theorem C24_counterexample :
    (PostgresStorage.GetSecuritySettings demoCooldownOverflow).1 = ("cooldown", 2562048) ∧
    (PostgresStorage.UpsertAndGetRegisteredAt 42
      (PostgresStorage.GetSecuritySettings demoCooldownOverflow).2).1 = Except.ok (90 * Hour) ∧
    demoCooldownOverflow.clock = 100 * Hour ∧
    (100 * Hour + 1 : Int) < 90 * Hour + 2562048 * Hour ∧
    (StartQuizHandler.accessGate 42 demoCooldownOverflow).1 = none ∧
    (StartQuizHandler.Handle 42 (some demoStart) demoCooldownOverflow).1.map (fun r => r.status) =
      some 200 ∧
    (PostgresStorage.GetSecuritySettings demoCooldownLong).1 = ("cooldown", 5000) ∧
    (StartQuizHandler.Handle 42 (some demoStart) demoCooldownLong).1 =
      some (cooldownActive 5000 16777217 (2377217000000001 + 5000 * Hour)) ∧
    (2377217000000001 + 5000 * Hour - (1000 * Hour + 2) : Int) = 16777216999999999 ∧
    (16777216999999999 : Int) / 1000000000 = 16777216 ∧
    formatRFC3339 (2377217000000001 + 5000 * Hour) = 20377217000000000 ∧
    (2377217000000001 + 5000 * Hour : Int) = 20377217000000001 := by
  refine ⟨rfl, rfl, rfl, by decide, rfl, rfl, rfl, rfl, by decide, by decide, by decide, by decide⟩

/-- C24, amended: let `GetSecuritySettings` return mode `cooldown` with `h` hours,
`-2562047 ≤ h ≤ 2562047` (so that `h` hours fit a `time.Duration`), and let
`UpsertAndGetRegisteredAt` return `r` (the stored `registered_at` when the registry has
a row for the user and the driver fails nothing).  With `now1` and `now2` the two
readings of the clock the gate makes, `StartQuiz` passes the gate if and only if
`now1 ≥ r + h` hours; otherwise it answers 403 `cooldown_active` with mode `cooldown`,
`cooldownHours = h`, `readyAt = r + h` hours written to the whole second, and a
`waitSeconds` that is never negative and, whenever less than `2 ^ 24` seconds remain
at `now2`, is the whole number of seconds from `now2` to `readyAt` (zero if `readyAt`
has passed); it only reads the session store. -/
theorem C24_cooldown_gate (u : Int) (body : Option StartQuizPayload) (w : World) (h : Int)
    (r : Time)
    (hsec : (PostgresStorage.GetSecuritySettings w).1 = ("cooldown", h))
    (hreg : (PostgresStorage.UpsertAndGetRegisteredAt u
      (PostgresStorage.GetSecuritySettings w).2).1 = Except.ok r)
    (h1 : -2562047 ≤ h) (h2 : h ≤ 2562047) :
    ((StartQuizHandler.accessGate u w).1 = none ↔
      r + h * Hour ≤ (PostgresStorage.UpsertAndGetRegisteredAt u
        (PostgresStorage.GetSecuritySettings w).2).2.now.1) ∧
    ((PostgresStorage.UpsertAndGetRegisteredAt u
        (PostgresStorage.GetSecuritySettings w).2).2.now.1 < r + h * Hour →
      ∃ ws : Int,
        (StartQuizHandler.Handle u body w).1 = some (cooldownActive h ws (r + h * Hour)) ∧
        0 ≤ ws ∧
        (r + h * Hour - (PostgresStorage.UpsertAndGetRegisteredAt u
            (PostgresStorage.GetSecuritySettings w).2).2.now.2.now.1 < 2 ^ 24 * 1000000000 →
          ws = max 0 ((r + h * Hour - (PostgresStorage.UpsertAndGetRegisteredAt u
            (PostgresStorage.GetSecuritySettings w).2).2.now.2.now.1) / 1000000000)) ∧
        Frame w (StartQuizHandler.Handle u body w).2 ∧
        (StartQuizHandler.Handle u body w).2.quiz_sessions = w.quiz_sessions) ∧
    w.clock ≤ (PostgresStorage.UpsertAndGetRegisteredAt u
        (PostgresStorage.GetSecuritySettings w).2).2.now.1 ∧
    (PostgresStorage.UpsertAndGetRegisteredAt u
        (PostgresStorage.GetSecuritySettings w).2).2.now.1 ≤
      (PostgresStorage.UpsertAndGetRegisteredAt u
        (PostgresStorage.GetSecuritySettings w).2).2.now.2.now.1 ∧
    (∀ p, NoFaults w → w.quiz_user_registry.find? (fun p => p.1 = u) = some p → r = p.2) := by
  have hg := gate_cooldown u w h r hsec hreg
  rw [hours_fit h h1 h2] at hg
  have fs := frame_GetSecuritySettings w
  have fu := frame_Upsert u (PostgresStorage.GetSecuritySettings w).2
  generalize hw1 : (PostgresStorage.UpsertAndGetRegisteredAt u
    (PostgresStorage.GetSecuritySettings w).2).2 = w1 at hg fu
  have fn1 := frame_now w1
  have fn2 := frame_now w1.now.2
  have c1 : w1.now.2.clock = w1.now.1 := rfl
  have c2 : w1.now.2.now.2.clock = w1.now.2.now.1 := rfl
  refine ⟨⟨fun hnone => ?_, fun hle => ?_⟩, fun hlt => ?_, ?_, ?_, ?_⟩
  · by_contra hcon
    rw [if_pos (not_le.mp hcon)] at hg
    rw [hg] at hnone
    cases hnone
  · rw [hg, if_neg (not_lt.mpr hle)]
  · rw [if_pos hlt] at hg
    obtain ⟨r1, r2⟩ := start_rejected u body w _ hg
    refine ⟨_, r1, ?_, fun hsmall => waitSeconds_exact _ _ hsmall, r2, r2.sessions⟩
    split
    · exact le_refl _
    · rename_i hn
      exact not_lt.mp hn
  · rw [← c1]
    exact ((fs.trans fu).trans fn1).clock
  · rw [← c1, ← c2]
    exact fn2.clock
  · intro p hf hp
    have hf1 := fs.noFaults hf
    have h0 := log_stmt_noFaults (Call.UpsertAndGetRegisteredAt u)
      (PostgresStorage.GetSecuritySettings w).2 hf1
    have hreg2 : (PostgresStorage.GetSecuritySettings w).2.quiz_user_registry =
        w.quiz_user_registry := by
      unfold PostgresStorage.GetSecuritySettings
      rfl
    unfold PostgresStorage.UpsertAndGetRegisteredAt at hreg
    simp only [h0] at hreg
    have e : ((PostgresStorage.GetSecuritySettings w).2.log
        (Call.UpsertAndGetRegisteredAt u)).stmt.2.quiz_user_registry =
        w.quiz_user_registry := hreg2
    rw [e, hp] at hreg
    simp only [Bool.false_eq_true, if_false, Except.ok.injEq] at hreg
    exact hreg.symm

/-- C24, witness: 24 hours of cooldown, user 42 registered ten hours before the call:
403 `cooldown_active` with `waitSeconds` 50399 (two nanoseconds short of 14 hours) and
`readyAt` at hour 114. -/
theorem C24_witness :
    (StartQuizHandler.Handle 42 (some demoStart) demoCooldown).1 =
      some (cooldownActive 24 50399 (114 * Hour)) ∧
    ((StartQuizHandler.accessGate 42 demoCooldown).1 = none ↔
      90 * Hour + 24 * Hour ≤ (PostgresStorage.UpsertAndGetRegisteredAt 42
        (PostgresStorage.GetSecuritySettings demoCooldown).2).2.now.1) ∧
    ((PostgresStorage.UpsertAndGetRegisteredAt 42
        (PostgresStorage.GetSecuritySettings demoCooldown).2).2.now.1 < 90 * Hour + 24 * Hour →
      ∃ ws : Int,
        (StartQuizHandler.Handle 42 (some demoStart) demoCooldown).1 =
          some (cooldownActive 24 ws (90 * Hour + 24 * Hour)) ∧
        0 ≤ ws ∧
        (90 * Hour + 24 * Hour - (PostgresStorage.UpsertAndGetRegisteredAt 42
            (PostgresStorage.GetSecuritySettings demoCooldown).2).2.now.2.now.1 <
            2 ^ 24 * 1000000000 →
          ws = max 0 ((90 * Hour + 24 * Hour - (PostgresStorage.UpsertAndGetRegisteredAt 42
            (PostgresStorage.GetSecuritySettings demoCooldown).2).2.now.2.now.1) / 1000000000)) ∧
        Frame demoCooldown (StartQuizHandler.Handle 42 (some demoStart) demoCooldown).2 ∧
        (StartQuizHandler.Handle 42 (some demoStart) demoCooldown).2.quiz_sessions =
          demoCooldown.quiz_sessions) ∧
    demoCooldown.clock ≤ (PostgresStorage.UpsertAndGetRegisteredAt 42
        (PostgresStorage.GetSecuritySettings demoCooldown).2).2.now.1 ∧
    (PostgresStorage.UpsertAndGetRegisteredAt 42
        (PostgresStorage.GetSecuritySettings demoCooldown).2).2.now.1 ≤
      (PostgresStorage.UpsertAndGetRegisteredAt 42
        (PostgresStorage.GetSecuritySettings demoCooldown).2).2.now.2.now.1 ∧
    (∀ p, NoFaults demoCooldown →
      demoCooldown.quiz_user_registry.find? (fun p => p.1 = 42) = some p → 90 * Hour = p.2) :=
  ⟨rfl, C24_cooldown_gate 42 (some demoStart) demoCooldown 24 (90 * Hour) rfl rfl
    (by decide) (by decide)⟩

end Quiz
